import Mathlib

/-!
# HepEmShow: transport kernel (`Box`, `Geometry`, `TrackStack`, `SteppingLoop`)

A shallow embedding of `Simulation/src/Box.cc`, `Simulation/src/Geometry.cc`,
`Simulation/src/TrackStack.cc`, `Simulation/src/Hist.cc`,
`Simulation/src/SteppingLoop.cc`, `Simulation/src/PrimaryGenerator.cc` and
`Simulation/src/EventLoop.cc`.

Conventions of the embedding:

* a C++ `double` is an exact rational number (`ℚ`): rounding, infinities and
  NaN are outside the model, every decimal literal has its decimal value;
* a `double*` pointing to three coordinates is a `Vec3`;
* a C++ `int` is an `Int`; the conversion `int(double)` is truncation toward
  zero (`truncToInt`), which is its value whenever the integer part is in the
  32-bit range; where the range matters, `intOfDouble` and
  `Geometry.layerIndexInt` give the conversion with its domain (undefined
  outside the range and for a quotient by a zero layer thickness);
* a `Box*` into the five boxes owned by a `Geometry` is a `VolumeId`;
* a `std::vector` is a `List`, read and written at indices inside its length;
* an object modified through a reference is passed in and returned;
* the external G4HepEm engine is a parameter (`G4HepEmState`): its track and
  thread-local records are reduced to the members the sources use, and its
  `HowFar` and `Perform` are arbitrary functions on the thread-local data;
* the stepper iterations keep a record of events (`StepEvent`), which the
  sources do not have, to state which operations were invoked.
-/

namespace HepEmShow

/-- Three coordinates behind a `double*` (index 0, 1, 2). -/
structure Vec3 where
  x : ℚ
  y : ℚ
  z : ℚ
deriving DecidableEq

/-- The member `kCarTolerance = 1.0E-9` of `Box`. -/
def kCarTolerance : ℚ := 1 / 1000000000

/-- The class `Box`: material index and the three half-lengths. The name is
immutable and used for diagnostics only. -/
structure Box where
  fName : String
  fMaterialIndx : Int
  fDx : ℚ
  fDy : ℚ
  fDz : ℚ
deriving DecidableEq

namespace Box

/-- The member `fDelta`, set once by the constructor to `0.5*kCarTolerance`. -/
def fDelta (_b : Box) : ℚ := (1 / 2) * kCarTolerance

/-- The constructor `Box::Box(name, indxMat, pX, pY, pZ)`. -/
def new (name : String) (indxMat : Int) (pX pY pZ : ℚ) : Box :=
  { fName := name, fMaterialIndx := indxMat, fDx := pX, fDy := pY, fDz := pZ }

/-- The method `Box::SetMaterialIndx`. -/
def SetMaterialIndx (b : Box) (indx : Int) : Box := { b with fMaterialIndx := indx }

/-- The method `Box::GetMaterialIndx`. -/
def GetMaterialIndx (b : Box) : Int := b.fMaterialIndx

/-- The method `Box::SetHalfLength(val, idx)`: the value is stored only above twice the
tolerance, and only for `idx` 0, 1 or 2. -/
def SetHalfLength (b : Box) (val : ℚ) (idx : Int) : Box :=
  if val > 2 * kCarTolerance then
    if idx = 0 then { b with fDx := val }
    else if idx = 1 then { b with fDy := val }
    else if idx = 2 then { b with fDz := val }
    else b
  else b

/-- The method `Box::GetHalfLength(idx)`. -/
def GetHalfLength (b : Box) (idx : Int) : ℚ :=
  if idx = 0 then b.fDx
  else if idx = 1 then b.fDy
  else if idx = 2 then b.fDz
  else 0

end Box

/-- The function `std::copysign(m, s)` on exact numbers: the magnitude of `m` with the sign
of `s` (a zero `s` counts as positive). -/
def copysign (m s : ℚ) : ℚ := if s < 0 then -|m| else |m|

namespace Box

/-- The method `Box::DistanceToOut(double* p, double* v)`. -/
def DistanceToOut (b : Box) (p v : Vec3) : ℚ :=
  if (|p.x| - b.fDx) ≥ -b.fDelta ∧ p.x * v.x > 0 then 0
  else if (|p.y| - b.fDy) ≥ -b.fDelta ∧ p.y * v.y > 0 then 0
  else if (|p.z| - b.fDz) ≥ -b.fDelta ∧ p.z * v.z > 0 then 0
  else
    let vx := v.x
    let tx := if vx = 0 then 100000000000000000000 else (copysign b.fDx vx - p.x) / vx
    let vy := v.y
    let ty := if vy = 0 then tx else (copysign b.fDy vy - p.y) / vy
    let txy := min tx ty
    let vz := v.z
    let tz := if vz = 0 then txy else (copysign b.fDz vz - p.z) / vz
    let tmax := min txy tz
    tmax

/-- The method `Box::DistanceToOut(double* p)`, the safety. -/
def safety (b : Box) (p : Vec3) : ℚ :=
  let dist := min (min (b.fDx - |p.x|) (b.fDy - |p.y|)) (b.fDz - |p.z|)
  if dist > 0 then dist else 0

end Box


/-! ## Geometry -/

/-- The integer part of a double `d`: the fractional part is discarded
(truncation toward zero). It is the value of `int(d)` whenever it is in the
range of `int`. -/
def truncToInt (d : ℚ) : Int := if 0 ≤ d then ⌊d⌋ else ⌈d⌉

/-- Identity of a `Box*` into the five boxes owned by a `Geometry`. -/
inductive VolumeId where
  | world
  | calo
  | layer
  | abs
  | gap
deriving DecidableEq

/-- The class `Geometry`: the configuration, the derived scalars and the five
owned boxes. -/
structure Geometry where
  fNumLayers : Int
  fAbsThick : ℚ
  fGapThick : ℚ
  fLayerThick : ℚ
  fCaloThick : ℚ
  fCaloSizeYZ : ℚ
  fCaloStartX : ℚ
  fPrimaryXPosition : ℚ
  fBoxWorld : Box
  fBoxCalo : Box
  fBoxLayer : Box
  fBoxAbs : Box
  fBoxGap : Box
deriving DecidableEq

namespace Geometry

/-- The box a `VolumeId` points to. -/
def box (g : Geometry) : VolumeId → Box
  | .world => g.fBoxWorld
  | .calo => g.fBoxCalo
  | .layer => g.fBoxLayer
  | .abs => g.fBoxAbs
  | .gap => g.fBoxGap

/-- The method `Geometry::UpdateParameters()`. -/
def UpdateParameters (g : Geometry) : Geometry :=
  let fLayerThick := g.fAbsThick + g.fGapThick
  let fCaloThick := (g.fNumLayers : ℚ) * fLayerThick
  let fCaloStartX := -(1 / 2) * fCaloThick
  let worldThick := (11 / 10) * fCaloThick
  let fPrimaryXPosition := -(1 / 4) * (worldThick + fCaloThick)
  let halfCaloYZ := (1 / 2) * g.fCaloSizeYZ
  let bWorld := ((g.fBoxWorld.SetHalfLength ((1 / 2) * worldThick) 0).SetHalfLength
    ((11 / 10) * halfCaloYZ) 1).SetHalfLength ((11 / 10) * halfCaloYZ) 2
  let iMatCalo : Int := 0
  let bCalo := (((g.fBoxCalo.SetMaterialIndx iMatCalo).SetHalfLength
    ((1 / 2) * fCaloThick) 0).SetHalfLength halfCaloYZ 1).SetHalfLength halfCaloYZ 2
  let bLayer := ((g.fBoxLayer.SetHalfLength ((1 / 2) * fLayerThick) 0).SetHalfLength
    halfCaloYZ 1).SetHalfLength halfCaloYZ 2
  let bAbs := ((g.fBoxAbs.SetHalfLength ((1 / 2) * g.fAbsThick) 0).SetHalfLength
    halfCaloYZ 1).SetHalfLength halfCaloYZ 2
  let bGap := ((g.fBoxGap.SetHalfLength ((1 / 2) * g.fGapThick) 0).SetHalfLength
    halfCaloYZ 1).SetHalfLength halfCaloYZ 2
  { g with
    fLayerThick := fLayerThick
    fCaloThick := fCaloThick
    fCaloStartX := fCaloStartX
    fPrimaryXPosition := fPrimaryXPosition
    fBoxWorld := bWorld
    fBoxCalo := bCalo
    fBoxLayer := bLayer
    fBoxAbs := bAbs
    fBoxGap := bGap }

/-- The constructor `Geometry::Geometry()`. The layer and calorimeter
thickness have no value before `UpdateParameters` assigns them. -/
def new : Geometry :=
  UpdateParameters
    { fNumLayers := 50
      fAbsThick := 23 / 10
      fGapThick := 57 / 10
      fLayerThick := 0
      fCaloThick := 0
      fCaloSizeYZ := 400
      fCaloStartX := 0
      fPrimaryXPosition := 0
      fBoxWorld := Box.new "World" 0 1 1 1
      fBoxCalo := Box.new "Calo" 0 1 1 1
      fBoxLayer := Box.new "Layer" 0 1 1 1
      fBoxAbs := Box.new "Abs" 1 1 1 1
      fBoxGap := Box.new "Gap" 2 1 1 1 }

/-- The method `Geometry::SetNumLayers(nlayers)`. -/
def SetNumLayers (g : Geometry) (nlayers : Int) : Geometry :=
  if nlayers > 0 then UpdateParameters { g with fNumLayers := nlayers } else g

/-- The method `Geometry::SetAbsThick(thickness)`. -/
def SetAbsThick (g : Geometry) (thickness : ℚ) : Geometry :=
  UpdateParameters { g with fAbsThick := thickness }

/-- The method `Geometry::SetGapThick(thickness)`. -/
def SetGapThick (g : Geometry) (thickness : ℚ) : Geometry :=
  UpdateParameters { g with fGapThick := thickness }

/-- The method `Geometry::SetCaloSizeYZ(val)`. -/
def SetCaloSizeYZ (g : Geometry) (val : ℚ) : Geometry :=
  UpdateParameters { g with fCaloSizeYZ := val }

/-- The method `Geometry::GetCaloThick()`. -/
def GetCaloThick (g : Geometry) : ℚ := g.fCaloThick

/-- The method `Geometry::GetPrimaryXposition()`. -/
def GetPrimaryXposition (g : Geometry) : ℚ := g.fPrimaryXPosition

/-- The method `Geometry::GetCaloStartXposition()`. -/
def GetCaloStartXposition (g : Geometry) : ℚ := g.fCaloStartX

end Geometry

/-- One call of a public mutator of `Geometry`. -/
inductive GeometryCall where
  | SetNumLayers (nlayers : Int)
  | SetAbsThick (thickness : ℚ)
  | SetGapThick (thickness : ℚ)
  | SetCaloSizeYZ (val : ℚ)
deriving DecidableEq

namespace Geometry

/-- The state after one mutator call. -/
def call (g : Geometry) : GeometryCall → Geometry
  | .SetNumLayers n => g.SetNumLayers n
  | .SetAbsThick t => g.SetAbsThick t
  | .SetGapThick t => g.SetGapThick t
  | .SetCaloSizeYZ val => g.SetCaloSizeYZ val

/-- The state after a sequence of mutator calls on a freshly constructed
geometry. -/
def run (calls : List GeometryCall) : Geometry := calls.foldl call new

end Geometry

/-- What `Geometry::CalculateDistanceToOut` leaves behind: the returned
distance, the coordinates left in `r`, and the three output parameters. -/
structure Located where
  dist : ℚ
  r : Vec3
  currentVolume : VolumeId
  indxLayer : Int
  indxAbs : Int
deriving DecidableEq

namespace Geometry

/-- The method `Geometry::CalculateDistanceToOut(r, v, currentVolume, indxLayer, indxAbs)`. -/
def CalculateDistanceToOut (g : Geometry) (r v : Vec3) : Located :=
  let rx_Calo := r.x
  let dToCalo := g.fBoxCalo.DistanceToOut r v
  if dToCalo = 0 then
    { dist := 100000000000000000000, r := r, currentVolume := .world,
      indxLayer := -1, indxAbs := -1 }
  else
    let iLayer := truncToInt ((rx_Calo + (1 / 2) * g.fCaloThick) / g.fLayerThick)
    let trLayeri := -(1 / 2) * g.fCaloThick + ((iLayer : ℚ) + 1 / 2) * g.fLayerThick
    let rx_Layer := rx_Calo - trLayeri
    let r1 : Vec3 := { r with x := rx_Layer }
    if g.fBoxLayer.DistanceToOut r1 v = 0 then
      { dist := 0, r := r1, currentVolume := .world, indxLayer := iLayer, indxAbs := -1 }
    else if rx_Layer + (1 / 2) * g.fLayerThick < g.fAbsThick ∨ g.fGapThick = 0 then
      let trAbs := -(1 / 2) * (g.fLayerThick - g.fAbsThick)
      let r2 : Vec3 := { r1 with x := rx_Layer - trAbs }
      { dist := g.fBoxAbs.DistanceToOut r2 v, r := r2, currentVolume := .abs,
        indxLayer := iLayer, indxAbs := 0 }
    else
      let trGap := -(1 / 2) * (g.fLayerThick - g.fGapThick) + g.fAbsThick
      let r2 : Vec3 := { r1 with x := rx_Layer - trGap }
      { dist := g.fBoxGap.DistanceToOut r2 v, r := r2, currentVolume := .gap,
        indxLayer := iLayer, indxAbs := 1 }

end Geometry

/-! ## Tracks and the track stack -/

/-- Modelled from the spec: the track record `G4HepEmTrack` of the external
G4HepEm library, reduced to the fields that the sources read or write through
its accessors. Every getter returns the stored value; the lazy evaluation of
the logarithm of the kinetic energy is outside the model. -/
structure G4HepEmTrack where
  fPosition : Vec3
  fDirection : Vec3
  fEKin : ℚ
  fLogEKin : ℚ
  fCharge : ℚ
  fEDeposit : ℚ
  fGStepLength : ℚ
  fSafety : ℚ
  fID : Int
  fParentID : Int
  fMCIndex : Int
  fOnBoundary : Bool
deriving DecidableEq

namespace G4HepEmTrack

/-- Modelled from the spec: the default (inert) state of a track, that of a
freshly constructed record; a track without parent has the parent id -1. -/
def new : G4HepEmTrack :=
  { fPosition := ⟨0, 0, 0⟩, fDirection := ⟨0, 0, 0⟩, fEKin := 0, fLogEKin := 100,
    fCharge := 0, fEDeposit := 0, fGStepLength := 0, fSafety := 0, fID := -1,
    fParentID := -1, fMCIndex := -1, fOnBoundary := false }

/-- Modelled from the spec: `G4HepEmTrack::ReSet()` puts every field back to
the default state. -/
def ReSet (_t : G4HepEmTrack) : G4HepEmTrack := G4HepEmTrack.new

/-- The accessor `GetPosition()`. -/
def GetPosition (t : G4HepEmTrack) : Vec3 := t.fPosition

/-- The accessor `SetPosition(pos)`. -/
def SetPosition (t : G4HepEmTrack) (pos : Vec3) : G4HepEmTrack := { t with fPosition := pos }

/-- The accessor `GetDirection()`. -/
def GetDirection (t : G4HepEmTrack) : Vec3 := t.fDirection

/-- The accessor `SetDirection(dir)`. -/
def SetDirection (t : G4HepEmTrack) (dir : Vec3) : G4HepEmTrack := { t with fDirection := dir }

/-- The accessor `GetEKin()`. -/
def GetEKin (t : G4HepEmTrack) : ℚ := t.fEKin

/-- The accessor `GetLogEKin()`. -/
def GetLogEKin (t : G4HepEmTrack) : ℚ := t.fLogEKin

/-- The accessor `SetEKin(ekin, lekin)`. -/
def SetEKin (t : G4HepEmTrack) (ekin lekin : ℚ) : G4HepEmTrack :=
  { t with fEKin := ekin, fLogEKin := lekin }

/-- The accessor `GetCharge()`. -/
def GetCharge (t : G4HepEmTrack) : ℚ := t.fCharge

/-- The accessor `SetCharge(ch)`. -/
def SetCharge (t : G4HepEmTrack) (ch : ℚ) : G4HepEmTrack := { t with fCharge := ch }

/-- The accessor `GetEnergyDeposit()`. -/
def GetEnergyDeposit (t : G4HepEmTrack) : ℚ := t.fEDeposit

/-- The accessor `GetGStepLength()`. -/
def GetGStepLength (t : G4HepEmTrack) : ℚ := t.fGStepLength

/-- The accessor `SetGStepLength(gsl)`. -/
def SetGStepLength (t : G4HepEmTrack) (gsl : ℚ) : G4HepEmTrack := { t with fGStepLength := gsl }

/-- The accessor `GetSafety()`. -/
def GetSafety (t : G4HepEmTrack) : ℚ := t.fSafety

/-- The accessor `SetSafety(s)`. -/
def SetSafety (t : G4HepEmTrack) (s : ℚ) : G4HepEmTrack := { t with fSafety := s }

/-- The accessor `GetID()`. -/
def GetID (t : G4HepEmTrack) : Int := t.fID

/-- The accessor `SetID(id)`. -/
def SetID (t : G4HepEmTrack) (id : Int) : G4HepEmTrack := { t with fID := id }

/-- The accessor `GetParentID()`. -/
def GetParentID (t : G4HepEmTrack) : Int := t.fParentID

/-- The accessor `SetParentID(id)`. -/
def SetParentID (t : G4HepEmTrack) (id : Int) : G4HepEmTrack := { t with fParentID := id }

/-- The accessor `GetMCIndex()`. -/
def GetMCIndex (t : G4HepEmTrack) : Int := t.fMCIndex

/-- The accessor `SetMCIndex(imc)`. -/
def SetMCIndex (t : G4HepEmTrack) (imc : Int) : G4HepEmTrack := { t with fMCIndex := imc }

/-- The accessor `GetOnBoundary()`. -/
def GetOnBoundary (t : G4HepEmTrack) : Bool := t.fOnBoundary

/-- The accessor `SetOnBoundary(val)`. -/
def SetOnBoundary (t : G4HepEmTrack) (val : Bool) : G4HepEmTrack :=
  { t with fOnBoundary := val }

end G4HepEmTrack

/-- Modelled from the spec: the data members of the class `TrackStack`, whose
declaration (`TrackStack.hh`) is not part of the sources, as `TrackStack.cc`
uses them: capacity, stack pointer, track id counter and the backing vector. -/
structure TrackStack where
  fSize : Int
  fCurIndx : Int
  fCurrentTrackID : Int
  fTrackVect : List G4HepEmTrack
deriving DecidableEq

/-- The call `std::vector<G4HepEmTrack>::resize(n)`: the first `n` elements are
kept and missing ones are default-constructed. -/
def vectorResize (l : List G4HepEmTrack) (n : Int) : List G4HepEmTrack :=
  l.take n.toNat ++ List.replicate (n.toNat - l.length) G4HepEmTrack.new

namespace TrackStack

/-- The element `fTrackVect[i]`. -/
def slot (s : TrackStack) (i : Int) : G4HepEmTrack :=
  s.fTrackVect.getD i.toNat G4HepEmTrack.new

/-- A write to the element `fTrackVect[i]` through a reference to it. -/
def setSlot (s : TrackStack) (i : Int) (t : G4HepEmTrack) : TrackStack :=
  if 0 ≤ i then { s with fTrackVect := s.fTrackVect.set i.toNat t } else s

/-- The constructor `TrackStack::TrackStack()`. -/
def new : TrackStack :=
  { fSize := 16, fCurIndx := -1, fCurrentTrackID := 0, fTrackVect := vectorResize [] 16 }

/-- The method `TrackStack::Copy(from, to)`; the result is the new state of
the destination `to`. -/
def Copy (frm dest : G4HepEmTrack) : G4HepEmTrack :=
  (((((((((dest.ReSet).SetPosition frm.GetPosition).SetDirection frm.GetDirection).SetEKin
    frm.GetEKin frm.GetLogEKin).SetCharge frm.GetCharge).SetSafety frm.GetSafety).SetID
    frm.GetID).SetParentID frm.GetParentID).SetMCIndex frm.GetMCIndex).SetOnBoundary
    frm.GetOnBoundary

/-- The method `TrackStack::PopInto(track)`: the returned value, the stack and
the destination track afterwards. -/
def PopInto (s : TrackStack) (track : G4HepEmTrack) : Int × TrackStack × G4HepEmTrack :=
  if s.fCurIndx < 0 then (-1, s, track)
  else (s.fCurIndx, { s with fCurIndx := s.fCurIndx - 1 }, Copy (s.slot s.fCurIndx) track)

/-- The method `TrackStack::GetTypeOfNextTrack()`: the returned value (the
charge converted to `int`) and the stack afterwards. -/
def GetTypeOfNextTrack (s : TrackStack) : Int × TrackStack :=
  if s.fCurIndx < 0 then (-999, s)
  else (truncToInt (s.slot s.fCurIndx).GetCharge, s)

/-- The method `TrackStack::Insert()`: the stack afterwards and the index of
the element the returned reference points to. -/
def Insert (s : TrackStack) : TrackStack × Int :=
  let fCurIndx := s.fCurIndx + 1
  let s1 : TrackStack :=
    if fCurIndx = s.fSize then
      { s with fCurIndx := fCurIndx, fSize := s.fSize * 2,
               fTrackVect := vectorResize s.fTrackVect (s.fSize * 2) }
    else { s with fCurIndx := fCurIndx }
  (s1.setSlot fCurIndx (s1.slot fCurIndx).ReSet, fCurIndx)

/-- Modelled from the spec: `TrackStack::GetNextTrackID()` (declared in
`TrackStack.hh`) hands out the current value of the id counter, starting at
0, and advances the counter. -/
def GetNextTrackID (s : TrackStack) : Int × TrackStack :=
  (s.fCurrentTrackID, { s with fCurrentTrackID := s.fCurrentTrackID + 1 })

/-- Modelled from the spec: `TrackStack::ReSetTrackID()` (declared in
`TrackStack.hh`) resets the id counter to 0. -/
def ReSetTrackID (s : TrackStack) : TrackStack := { s with fCurrentTrackID := 0 }

end TrackStack

/-- One use of a `TrackStack` by its clients; `write` is an assignment through
the reference returned by the last `Insert`. -/
inductive TrackStackCall where
  | Insert
  | write (t : G4HepEmTrack)
  | PopInto (track : G4HepEmTrack)
  | GetTypeOfNextTrack
  | GetNextTrackID
  | ReSetTrackID
deriving DecidableEq

namespace TrackStack

/-- The stack after one call. -/
def call (s : TrackStack) : TrackStackCall → TrackStack
  | .Insert => s.Insert.1
  | .write t => s.setSlot s.fCurIndx t
  | .PopInto track => (s.PopInto track).2.1
  | .GetTypeOfNextTrack => s.GetTypeOfNextTrack.2
  | .GetNextTrackID => s.GetNextTrackID.2
  | .ReSetTrackID => s.ReSetTrackID

/-- The stack after a sequence of calls on a freshly constructed stack. -/
def run (calls : List TrackStackCall) : TrackStack := calls.foldl call new

/-- A push: `Insert()` followed by `Copy` of the track into the returned
slot. -/
def push (s : TrackStack) (t : G4HepEmTrack) : TrackStack :=
  s.Insert.1.setSlot s.Insert.2 (Copy t (s.Insert.1.slot s.Insert.2))

/-- The pushes of a sequence of tracks, in order. -/
def pushAll (s : TrackStack) (ts : List G4HepEmTrack) : TrackStack := ts.foldl push s

/-- The `n` successive `PopInto` calls into the same destination: the
delivered tracks in order of delivery, the returned values, and the stack
afterwards. -/
def popN : Nat → TrackStack → G4HepEmTrack → List G4HepEmTrack × List Int × TrackStack
  | 0, s, _ => ([], [], s)
  | n + 1, s, track =>
    let r := s.PopInto track
    let rest := popN n r.2.1 r.2.2
    (r.2.2 :: rest.1, r.1 :: rest.2.1, rest.2.2)

end TrackStack

/-! ## Results -/

/-- The call `std::vector<double>::resize(n, value)`. -/
def vectorResizeWith (l : List ℚ) (n : Int) (value : ℚ) : List ℚ :=
  l.take n.toNat ++ List.replicate (n.toNat - l.length) value

/-- The class `Hist`. -/
structure Hist where
  fFileName : String
  fMin : ℚ
  fMax : ℚ
  fDelta : ℚ
  fInvDelta : ℚ
  fSum : ℚ
  fNumBins : Int
  fx : List ℚ
  fy : List ℚ
deriving DecidableEq

namespace Hist

/-- The method `Hist::Initialize()`. -/
def Initialize (h : Hist) : Hist :=
  let fx := vectorResizeWith h.fx h.fNumBins 0
  let fy := vectorResizeWith h.fy h.fNumBins 0
  { h with
    fx := (List.range h.fNumBins.toNat).foldl
      (fun acc i => acc.set i (h.fMin + (i : ℚ) * h.fDelta)) fx
    fy := fy
    fSum := 0 }

/-- The constructor `Hist::Hist(fname, min, max, numbin)`. -/
def new (fname : String) (min max : ℚ) (numbin : Int) : Hist :=
  let fDelta := (max - min) / (numbin : ℚ)
  Initialize
    { fFileName := fname, fMin := min, fMax := max, fDelta := fDelta,
      fInvDelta := 1 / fDelta, fSum := 0, fNumBins := numbin, fx := [], fy := [] }

/-- The method `Hist::Fill(x, w)`. -/
def Fill (h : Hist) (x w : ℚ) : Hist :=
  if x < h.fMin then h
  else
    let indx : Int :=
      if x = h.fMax then h.fNumBins - 1 else truncToInt ((x - h.fMin) * h.fInvDelta)
    if indx > -1 ∧ indx < h.fNumBins then
      { h with
        fy := h.fy.set indx.toNat (h.fy.getD indx.toNat 0 + w)
        fSum := h.fSum + w }
    else h

end Hist

/-- The struct `ResultsPerEvent`. -/
structure ResultsPerEvent where
  fEdepAbs : ℚ
  fEdepGap : ℚ
  fNumSecGamma : ℚ
  fNumSecElectron : ℚ
  fNumSecPositron : ℚ
  fNumStepsGamma : ℚ
  fNumStepsElPos : ℚ
deriving DecidableEq

/-- The struct `Results`. -/
structure Results where
  fEdepPerLayer : Hist
  fGammaTrackLenghtPerLayer : Hist
  fElPosTrackLenghtPerLayer : Hist
  fEdepAbs : ℚ
  fEdepAbs2 : ℚ
  fEdepGap : ℚ
  fEdepGap2 : ℚ
  fNumSecGamma : ℚ
  fNumSecGamma2 : ℚ
  fNumSecElectron : ℚ
  fNumSecElectron2 : ℚ
  fNumSecPositron : ℚ
  fNumSecPositron2 : ℚ
  fNumStepsGamma : ℚ
  fNumStepsGamma2 : ℚ
  fNumStepsElPos : ℚ
  fNumStepsElPos2 : ℚ
  fPerEventRes : ResultsPerEvent
deriving DecidableEq

/-! ## The physics engine (external) -/

/-- Modelled from the spec: the multiple-scattering data of the primary
electron track (external `G4HepEmMSCTrackData`): the true step length and the
lateral displacement. -/
structure G4HepEmMSCTrackData where
  fTrueStepLength : ℚ
  fDisplacement : Vec3
deriving DecidableEq

/-- The accessor `G4HepEmMSCTrackData::GetDisplacement()`. -/
def G4HepEmMSCTrackData.GetDisplacement (m : G4HepEmMSCTrackData) : Vec3 := m.fDisplacement

/-- Modelled from the spec: the thread-local data `G4HepEmTLData` of the
external engine: the primary gamma and electron tracks, the multiple-scattering
data of the latter, the slots and counters of the secondary tracks, and the
state of the random-number engine. -/
structure G4HepEmTLData where
  fPrimaryGammaTrack : G4HepEmTrack
  fPrimaryElectronTrack : G4HepEmTrack
  fMSCTrackData : G4HepEmMSCTrackData
  fSecondaryElectronTracks : List G4HepEmTrack
  fNumSecondaryElectronTracks : Int
  fSecondaryGammaTracks : List G4HepEmTrack
  fNumSecondaryGammaTracks : Int
  fRNGEngine : Nat
deriving DecidableEq

namespace G4HepEmTLData

/-- The accessor `GetNumSecondaryElectronTrack()`. -/
def GetNumSecondaryElectronTrack (tl : G4HepEmTLData) : Int := tl.fNumSecondaryElectronTracks

/-- The accessor `GetNumSecondaryGammaTrack()`. -/
def GetNumSecondaryGammaTrack (tl : G4HepEmTLData) : Int := tl.fNumSecondaryGammaTracks

/-- The accessor `GetSecondaryElectronTrack(indx)->GetTrack()`. -/
def GetSecondaryElectronTrack (tl : G4HepEmTLData) (indx : Int) : G4HepEmTrack :=
  tl.fSecondaryElectronTracks.getD indx.toNat G4HepEmTrack.new

/-- The accessor `GetSecondaryGammaTrack(indx)->GetTrack()`. -/
def GetSecondaryGammaTrack (tl : G4HepEmTLData) (indx : Int) : G4HepEmTrack :=
  tl.fSecondaryGammaTracks.getD indx.toNat G4HepEmTrack.new

/-- The method `ResetNumSecondaryElectronTrack()`. -/
def ResetNumSecondaryElectronTrack (tl : G4HepEmTLData) : G4HepEmTLData :=
  { tl with fNumSecondaryElectronTracks := 0 }

/-- The method `ResetNumSecondaryGammaTrack()`. -/
def ResetNumSecondaryGammaTrack (tl : G4HepEmTLData) : G4HepEmTLData :=
  { tl with fNumSecondaryGammaTracks := 0 }

end G4HepEmTLData

/-- Modelled from the spec: what the stepping loops take from the external
engine and its state `G4HepEmState`: the table `fG4MCIndexToHepEmMCIndex` and
the top-level operations `HowFar` and `Perform` of the gamma and of the
electron manager, each acting on the thread-local data. -/
structure G4HepEmState where
  fG4MCIndexToHepEmMCIndex : Int → Int
  GammaManagerHowFar : G4HepEmTLData → G4HepEmTLData
  GammaManagerPerform : G4HepEmTLData → G4HepEmTLData
  ElectronManagerHowFar : G4HepEmTLData → G4HepEmTLData
  ElectronManagerPerform : G4HepEmTLData → G4HepEmTLData

/-! ## SteppingLoop -/

/-- What happened during a stepper iteration, in order (instrumentation of the
model): the calls of the engine with the data handed to them, the step length
and boundary flag chosen from the two limits, the push, the stacking of
secondaries and the call of the stepping action with its step length, layer
index, absorber index and step id. -/
inductive StepEvent where
  | HowFar (tl : G4HepEmTLData)
  | StepSelected (stepLength : ℚ) (onBoundary : Bool)
  | Push
  | Perform (tl : G4HepEmTLData)
  | StackSecondaries
  | SteppingAction (stepLength : ℚ) (indxLayer indxAbs stepID : Int)
deriving DecidableEq

/-- How a stepper iteration ends: by `return`, by `continue`, or at the end of
the loop body. -/
inductive Control where
  | returned
  | continued
  | completed
deriving DecidableEq

/-- The objects a stepper works on, its local `numStep` and (electron stepper
only) `wasOnBoundary`, and the record of events. -/
structure StepperState where
  theTLData : G4HepEmTLData
  theTrackStack : TrackStack
  theResult : Results
  numStep : Int
  wasOnBoundary : Bool
  trace : List StepEvent
deriving DecidableEq

namespace SteppingLoop

/-- The utility `SteppingLoop::AddTo3Vect(v, u, scale)`. -/
def AddTo3Vect (v u : Vec3) (scale : ℚ) : Vec3 :=
  { x := v.x + scale * u.x, y := v.y + scale * u.y, z := v.z + scale * u.z }

/-- One round of the loops of `SteppingLoop::StackSecondaries`: the secondary
track is stamped and copied into a new slot of the stack. -/
def stackOne (thePrimary secTrack : G4HepEmTrack) (theTrackStack : TrackStack) :
    G4HepEmTrack × TrackStack :=
  let id := theTrackStack.GetNextTrackID
  let secTrack := (((secTrack.SetID id.1).SetParentID thePrimary.GetID).SetPosition
    thePrimary.GetPosition).SetMCIndex thePrimary.GetMCIndex
  let ins := id.2.Insert
  (secTrack, ins.1.setSlot ins.2 (TrackStack.Copy secTrack (ins.1.slot ins.2)))

/-- The method `SteppingLoop::StackSecondaries(theTLData, theTrackStack,
thePrimary)`. -/
def StackSecondaries (theTLData : G4HepEmTLData) (theTrackStack : TrackStack)
    (thePrimary : G4HepEmTrack) : G4HepEmTLData × TrackStack :=
  let numSecElectron := theTLData.GetNumSecondaryElectronTrack
  let numSecGamma := theTLData.GetNumSecondaryGammaTrack
  let numSecondaries := numSecElectron + numSecGamma
  if numSecondaries > 0 then
    let el := (List.range numSecElectron.toNat).foldl
      (fun (acc : G4HepEmTLData × TrackStack) (iSec : Nat) =>
        let r := stackOne thePrimary (acc.1.GetSecondaryElectronTrack iSec) acc.2
        ({ acc.1 with fSecondaryElectronTracks :=
            acc.1.fSecondaryElectronTracks.set iSec r.1 }, r.2))
      (theTLData, theTrackStack)
    let el1 := (el.1.ResetNumSecondaryElectronTrack, el.2)
    let ga := (List.range numSecGamma.toNat).foldl
      (fun (acc : G4HepEmTLData × TrackStack) (iSec : Nat) =>
        let r := stackOne thePrimary (acc.1.GetSecondaryGammaTrack iSec) acc.2
        ({ acc.1 with fSecondaryGammaTracks :=
            acc.1.fSecondaryGammaTracks.set iSec r.1 }, r.2))
      el1
    (ga.1.ResetNumSecondaryGammaTrack, ga.2)
  else (theTLData, theTrackStack)

/-- The method `SteppingLoop::SteppingAction(theResult, theTrack,
currentVolume, currentPhysStepLength, indxLayer, indxAbsorber, eventID,
stepID)`. -/
def SteppingAction (theResult : Results) (theTrack : G4HepEmTrack) (_currentVolume : VolumeId)
    (currentPhysStepLength : ℚ) (indxLayer indxAbsorber _eventID _stepID : Int) : Results :=
  if indxLayer < 0 then theResult
  else
    let edep := theTrack.GetEnergyDeposit
    let res1 : Results :=
      if edep > 0 then
        let r := { theResult with
          fEdepPerLayer := theResult.fEdepPerLayer.Fill (indxLayer : ℚ) edep }
        if indxAbsorber = 0 then
          { r with fPerEventRes := { r.fPerEventRes with
              fEdepAbs := r.fPerEventRes.fEdepAbs + edep } }
        else if indxAbsorber = 1 then
          { r with fPerEventRes := { r.fPerEventRes with
              fEdepGap := r.fPerEventRes.fEdepGap + edep } }
        else r
      else theResult
    if currentPhysStepLength ≤ 0 then res1
    else if theTrack.GetCharge = 0 then
      { res1 with
        fGammaTrackLenghtPerLayer :=
          res1.fGammaTrackLenghtPerLayer.Fill (indxLayer : ℚ) currentPhysStepLength
        fPerEventRes := { res1.fPerEventRes with
          fNumStepsGamma := res1.fPerEventRes.fNumStepsGamma + 1 } }
    else
      { res1 with
        fElPosTrackLenghtPerLayer :=
          res1.fElPosTrackLenghtPerLayer.Fill (indxLayer : ℚ) currentPhysStepLength
        fPerEventRes := { res1.fPerEventRes with
          fNumStepsElPos := res1.fPerEventRes.fNumStepsElPos + 1 } }

end SteppingLoop

namespace SteppingLoop

/-- The second part of the body of the `while` loop of
`SteppingLoop::GammaStepper`, after the test for a zero step length: the track
is moved, `Perform` is invoked, the secondaries are stacked and the step is
recorded. `loc` is the location found at the start of the iteration, `tl2` the
data after `HowFar`, `stepLength` and `onBoundary` the chosen step length and
post-step boundary flag. -/
def GammaStepperFinish (theState : G4HepEmState) (eventID : Int) (s : StepperState)
    (loc : Located) (tl2 : G4HepEmTLData) (stepLength : ℚ) (onBoundary : Bool)
    (trace : List StepEvent) : Control × StepperState :=
  let tl3 : G4HepEmTLData := { tl2 with
    fPrimaryGammaTrack := ((tl2.fPrimaryGammaTrack.SetPosition
      (AddTo3Vect tl2.fPrimaryGammaTrack.GetPosition tl2.fPrimaryGammaTrack.GetDirection
        stepLength)).SetGStepLength stepLength).SetOnBoundary onBoundary }
  let tl4 := theState.GammaManagerPerform tl3
  let stacked :=
    if tl4.GetNumSecondaryElectronTrack + tl4.GetNumSecondaryGammaTrack > 0 then
      (StackSecondaries tl4 s.theTrackStack tl4.fPrimaryGammaTrack, [StepEvent.StackSecondaries])
    else ((tl4, s.theTrackStack), [])
  let theResult := SteppingAction s.theResult stacked.1.1.fPrimaryGammaTrack loc.currentVolume
    stepLength loc.indxLayer loc.indxAbs eventID s.numStep
  (.completed,
    { s with
      theTLData := stacked.1.1
      theTrackStack := stacked.1.2
      theResult := theResult
      numStep := s.numStep + 1
      trace := trace ++ [.Perform tl3] ++ stacked.2 ++
        [.SteppingAction stepLength loc.indxLayer loc.indxAbs s.numStep] })

/-- One pass through the body of the `while` loop of
`SteppingLoop::GammaStepper`, entered with positive kinetic energy; its second
part is `GammaStepperFinish`. -/
def GammaStepperBody (theState : G4HepEmState) (theGeometry : Geometry) (eventID : Int)
    (s : StepperState) : Control × StepperState :=
  let theTrack := s.theTLData.fPrimaryGammaTrack
  let globalPosition := theTrack.GetPosition
  let curDirection := theTrack.GetDirection
  let loc := theGeometry.CalculateDistanceToOut globalPosition curDirection
  let localPosition := loc.r
  let currentVolume := loc.currentVolume
  let distToBoundary := loc.dist
  if distToBoundary > 10000000000 then (.returned, s)
  else
    let preStepSafety := (theGeometry.box currentVolume).safety localPosition
    let onBoundary := decide (preStepSafety = 0)
    let indxMaterial := (theGeometry.box currentVolume).GetMaterialIndx
    let hepEmIMC := theState.fG4MCIndexToHepEmMCIndex indxMaterial
    let tl1 : G4HepEmTLData := { s.theTLData with
      fPrimaryGammaTrack := (theTrack.SetMCIndex hepEmIMC).SetOnBoundary onBoundary }
    let tl2 := theState.GammaManagerHowFar tl1
    let distToPhysics := tl2.fPrimaryGammaTrack.GetGStepLength
    let stepLength := if distToPhysics < distToBoundary then distToPhysics else distToBoundary
    let onBoundary := if distToPhysics < distToBoundary then false else true
    let trace := s.trace ++ [.HowFar tl1, .StepSelected stepLength onBoundary]
    if stepLength = 0 then
      let stepLength : ℚ := 1 / 1000000
      let tl3 : G4HepEmTLData := { tl2 with
        fPrimaryGammaTrack := tl2.fPrimaryGammaTrack.SetPosition
          (AddTo3Vect tl2.fPrimaryGammaTrack.GetPosition tl2.fPrimaryGammaTrack.GetDirection
            stepLength) }
      (.continued, { s with theTLData := tl3, trace := trace ++ [.Push] })
    else GammaStepperFinish theState eventID s loc tl2 stepLength onBoundary trace

/-- The method `SteppingLoop::GammaStepper`: the loop runs while the kinetic
energy is positive; `none` when the iterations allowed by `fuel` do not
suffice. -/
def GammaStepper (theState : G4HepEmState) (theGeometry : Geometry) (eventID : Int) :
    Nat → StepperState → Option StepperState
  | 0, _ => none
  | fuel + 1, s =>
    if s.theTLData.fPrimaryGammaTrack.GetEKin > 0 then
      match GammaStepperBody theState theGeometry eventID s with
      | (.returned, s1) => some s1
      | (_, s1) => GammaStepper theState theGeometry eventID fuel s1
    else some s

/-- The second part of the body of the `while` loop of
`SteppingLoop::ElectronStepper`, after the test for a zero step length: the
track is moved, `Perform` is invoked, the lateral displacement is applied, the
secondaries are stacked and the step is recorded. `loc` is the location found
at the start of the iteration, `tl2` the data after `HowFar`, `stepLength` and
`onBoundary` the chosen step length and post-step boundary flag; `sqrt` stands
for `std::sqrt`. -/
def ElectronStepperFinish (theState : G4HepEmState) (sqrt : ℚ → ℚ) (theGeometry : Geometry)
    (eventID : Int) (s : StepperState) (loc : Located) (tl2 : G4HepEmTLData) (stepLength : ℚ)
    (onBoundary : Bool) (trace : List StepEvent) : Control × StepperState :=
  let localPosition := loc.r
  let currentVolume := loc.currentVolume
  let tl3 : G4HepEmTLData := { tl2 with
    fPrimaryElectronTrack := ((tl2.fPrimaryElectronTrack.SetPosition
      (AddTo3Vect tl2.fPrimaryElectronTrack.GetPosition
        tl2.fPrimaryElectronTrack.GetDirection stepLength)).SetGStepLength
          stepLength).SetOnBoundary onBoundary }
  let wasOnBoundary := onBoundary
  let orgDirection := tl3.fPrimaryElectronTrack.GetDirection
  let tl4 := theState.ElectronManagerPerform tl3
  let pStepLength :=
    if tl4.fMSCTrackData.fTrueStepLength > 0 then tl4.fMSCTrackData.fTrueStepLength
    else stepLength
  let displacement := tl4.fMSCTrackData.GetDisplacement
  let dLength2 := displacement.x * displacement.x + displacement.y * displacement.y +
    displacement.z * displacement.z
  let kGeomMinLength : ℚ := 5 / 100000000
  let kGeomMinLength2 := kGeomMinLength * kGeomMinLength
  let dispR := sqrt dLength2
  let postSafety := (99 / 100) *
    (theGeometry.box currentVolume).safety (AddTo3Vect localPosition orgDirection stepLength)
  let globalPosition := tl4.fPrimaryElectronTrack.GetPosition
  let displaced : Vec3 :=
    if onBoundary = false then
      if dLength2 > kGeomMinLength2 then
        if postSafety > 0 ∧ dispR < postSafety then
          AddTo3Vect globalPosition displacement 1
        else if dispR < postSafety then
          AddTo3Vect globalPosition displacement 1
        else if postSafety > kGeomMinLength then
          AddTo3Vect globalPosition displacement (postSafety / dispR)
        else globalPosition
      else globalPosition
    else globalPosition
  let tl5 : G4HepEmTLData := { tl4 with
    fPrimaryElectronTrack := tl4.fPrimaryElectronTrack.SetPosition displaced }
  let stacked :=
    if tl5.GetNumSecondaryElectronTrack + tl5.GetNumSecondaryGammaTrack > 0 then
      (StackSecondaries tl5 s.theTrackStack tl5.fPrimaryElectronTrack,
        [StepEvent.StackSecondaries])
    else ((tl5, s.theTrackStack), [])
  let theResult := SteppingAction s.theResult stacked.1.1.fPrimaryElectronTrack currentVolume
    pStepLength loc.indxLayer loc.indxAbs eventID s.numStep
  (.completed,
    { theTLData := stacked.1.1
      theTrackStack := stacked.1.2
      theResult := theResult
      numStep := s.numStep + 1
      wasOnBoundary := wasOnBoundary
      trace := trace ++ [.Perform tl3] ++ stacked.2 ++
        [.SteppingAction pStepLength loc.indxLayer loc.indxAbs s.numStep] })

/-- One pass through the body of the `while` loop of
`SteppingLoop::ElectronStepper`, entered with positive kinetic energy; its
second part is `ElectronStepperFinish`. -/
def ElectronStepperBody (theState : G4HepEmState) (sqrt : ℚ → ℚ) (theGeometry : Geometry)
    (eventID : Int) (s : StepperState) : Control × StepperState :=
  let theTrack := s.theTLData.fPrimaryElectronTrack
  let globalPosition := theTrack.GetPosition
  let curDirection := theTrack.GetDirection
  let loc := theGeometry.CalculateDistanceToOut globalPosition curDirection
  let localPosition := loc.r
  let currentVolume := loc.currentVolume
  let distToBoundary := loc.dist
  if distToBoundary > 10000000000 then (.returned, s)
  else
    let safety := (theGeometry.box currentVolume).safety localPosition
    let onBoundary := if s.numStep = 0 then decide (safety < 5 / 10000000000) else s.wasOnBoundary
    let preStepSafety := if onBoundary then 0 else safety
    let indxMaterial := (theGeometry.box currentVolume).GetMaterialIndx
    let hepEmIMC := theState.fG4MCIndexToHepEmMCIndex indxMaterial
    let tl1 : G4HepEmTLData := { s.theTLData with
      fPrimaryElectronTrack :=
        ((theTrack.SetMCIndex hepEmIMC).SetOnBoundary onBoundary).SetSafety preStepSafety }
    let tl2 := theState.ElectronManagerHowFar tl1
    let distToPhysics := tl2.fPrimaryElectronTrack.GetGStepLength
    let stepLength := if distToPhysics < distToBoundary then distToPhysics else distToBoundary
    let onBoundary := if distToPhysics < distToBoundary then false else true
    let trace := s.trace ++ [.HowFar tl1, .StepSelected stepLength onBoundary]
    if stepLength = 0 then
      let stepLength : ℚ := 1 / 1000000
      let tl3 : G4HepEmTLData := { tl2 with
        fPrimaryElectronTrack := tl2.fPrimaryElectronTrack.SetPosition
          (AddTo3Vect tl2.fPrimaryElectronTrack.GetPosition
            tl2.fPrimaryElectronTrack.GetDirection stepLength) }
      (.continued, { s with theTLData := tl3, trace := trace ++ [.Push] })
    else ElectronStepperFinish theState sqrt theGeometry eventID s loc tl2 stepLength onBoundary
      trace

/-- The method `SteppingLoop::ElectronStepper`: the loop runs while the kinetic
energy is positive; `none` when the iterations allowed by `fuel` do not
suffice. -/
def ElectronStepper (theState : G4HepEmState) (sqrt : ℚ → ℚ) (theGeometry : Geometry)
    (eventID : Int) : Nat → StepperState → Option StepperState
  | 0, _ => none
  | fuel + 1, s =>
    if s.theTLData.fPrimaryElectronTrack.GetEKin > 0 then
      match ElectronStepperBody theState sqrt theGeometry eventID s with
      | (.returned, s1) => some s1
      | (_, s1) => ElectronStepper theState sqrt theGeometry eventID fuel s1
    else some s

end SteppingLoop

/-! ## PrimaryGenerator and EventLoop -/

/-- The class `PrimaryGenerator`. -/
structure PrimaryGenerator where
  fKinEnergy : ℚ
  fPosition : Vec3
  fDirection : Vec3
  fCharge : ℚ
deriving DecidableEq

namespace PrimaryGenerator

/-- The constructor `PrimaryGenerator::PrimaryGenerator()`: a 10 GeV electron
at the origin pointing along `(1, 0, 0)`. -/
def new : PrimaryGenerator :=
  { fKinEnergy := 10000, fPosition := ⟨0, 0, 0⟩, fDirection := ⟨1, 0, 0⟩, fCharge := -1 }

/-- The method `PrimaryGenerator::GenerateOne(primTrack)`; the one-argument
`SetEKin` of the external track record leaves the logarithm at its default
marker 100. -/
def GenerateOne (pg : PrimaryGenerator) (primTrack : G4HepEmTrack) : G4HepEmTrack :=
  (((primTrack.SetEKin pg.fKinEnergy 100).SetPosition pg.fPosition).SetDirection
    pg.fDirection).SetCharge pg.fCharge

end PrimaryGenerator

/-- The objects the event loop works on: the data of the engine, the track
stack and the results. -/
structure EventState where
  theTLData : G4HepEmTLData
  theTrackStack : TrackStack
  theResult : Results
deriving DecidableEq

namespace EventLoop

/-- The method `EventLoop::BeginOfEventAction(theResult, eventID,
thePrimaryTrack)`. -/
def BeginOfEventAction (theResult : Results) (_eventID : Int)
    (_thePrimaryTrack : G4HepEmTrack) : Results :=
  { theResult with
    fPerEventRes :=
      { fEdepAbs := 0, fEdepGap := 0, fNumSecGamma := 0, fNumSecElectron := 0,
        fNumSecPositron := 0, fNumStepsGamma := 0, fNumStepsElPos := 0 } }

/-- The method `EventLoop::EndOfEventAction(theResult, eventID)`. -/
def EndOfEventAction (theResult : Results) (_eventID : Int) : Results :=
  { theResult with
    fEdepAbs := theResult.fEdepAbs + theResult.fPerEventRes.fEdepAbs
    fEdepAbs2 := theResult.fEdepAbs2 +
      theResult.fPerEventRes.fEdepAbs * theResult.fPerEventRes.fEdepAbs
    fEdepGap := theResult.fEdepGap + theResult.fPerEventRes.fEdepGap
    fEdepGap2 := theResult.fEdepGap2 +
      theResult.fPerEventRes.fEdepGap * theResult.fPerEventRes.fEdepGap
    fNumSecGamma := theResult.fNumSecGamma + theResult.fPerEventRes.fNumSecGamma
    fNumSecGamma2 := theResult.fNumSecGamma2 +
      theResult.fPerEventRes.fNumSecGamma * theResult.fPerEventRes.fNumSecGamma
    fNumSecElectron := theResult.fNumSecElectron + theResult.fPerEventRes.fNumSecElectron
    fNumSecElectron2 := theResult.fNumSecElectron2 +
      theResult.fPerEventRes.fNumSecElectron * theResult.fPerEventRes.fNumSecElectron
    fNumSecPositron := theResult.fNumSecPositron + theResult.fPerEventRes.fNumSecPositron
    fNumSecPositron2 := theResult.fNumSecPositron2 +
      theResult.fPerEventRes.fNumSecPositron * theResult.fPerEventRes.fNumSecPositron
    fNumStepsGamma := theResult.fNumStepsGamma + theResult.fPerEventRes.fNumStepsGamma
    fNumStepsGamma2 := theResult.fNumStepsGamma2 +
      theResult.fPerEventRes.fNumStepsGamma * theResult.fPerEventRes.fNumStepsGamma
    fNumStepsElPos := theResult.fNumStepsElPos + theResult.fPerEventRes.fNumStepsElPos
    fNumStepsElPos2 := theResult.fNumStepsElPos2 +
      theResult.fPerEventRes.fNumStepsElPos * theResult.fPerEventRes.fNumStepsElPos }

/-- The method `EventLoop::BeginOfTrackingAction(theResult, theTrack)`. -/
def BeginOfTrackingAction (theResult : Results) (theTrack : G4HepEmTrack) : Results :=
  if theTrack.GetParentID > -1 then
    let ich := truncToInt theTrack.GetCharge
    if ich = 0 then
      { theResult with fPerEventRes := { theResult.fPerEventRes with
          fNumSecGamma := theResult.fPerEventRes.fNumSecGamma + 1 } }
    else if ich = -1 then
      { theResult with fPerEventRes := { theResult.fPerEventRes with
          fNumSecElectron := theResult.fPerEventRes.fNumSecElectron + 1 } }
    else
      { theResult with fPerEventRes := { theResult.fPerEventRes with
          fNumSecPositron := theResult.fPerEventRes.fNumSecPositron + 1 } }
  else theResult

/-- The method `EventLoop::EndOfTrackingAction(theResult, theTrack)`: it does
nothing. -/
def EndOfTrackingAction (theResult : Results) (_theTrack : G4HepEmTrack) : Results :=
  theResult

/-- The move of a popped track in `EventLoop::ProcessEvents`: a track without
parent gets the x coordinate `GetCaloStartXposition()`. -/
def relocate (theGeometry : Geometry) (nextTrack : G4HepEmTrack) : G4HepEmTrack :=
  if nextTrack.GetParentID < 0 then
    nextTrack.SetPosition { nextTrack.GetPosition with x := theGeometry.GetCaloStartXposition }
  else nextTrack

/-- The first part of the body of the track loop of
`EventLoop::ProcessEvents`: the primary gamma track (type 0) or the primary
electron track of the data of the engine is reset, the cached random number is
thrown away, the top of the stack is popped into that track and the track is
moved when it has no parent. Modelled from the spec: `ReSet()` of the external
gamma track resets its track record, that of the electron track also its
multiple-scattering data; `DiscardGauss` stands for the method of the random
engine. -/
def popNext (DiscardGauss : ℕ → ℕ) (theGeometry : Geometry) (trackType : Int)
    (theTLData : G4HepEmTLData) (theTrackStack : TrackStack) : G4HepEmTLData × TrackStack :=
  if trackType = 0 then
    let tl1 : G4HepEmTLData := { theTLData with
      fPrimaryGammaTrack := theTLData.fPrimaryGammaTrack.ReSet
      fRNGEngine := DiscardGauss theTLData.fRNGEngine }
    let r := theTrackStack.PopInto tl1.fPrimaryGammaTrack
    ({ tl1 with fPrimaryGammaTrack := relocate theGeometry r.2.2 }, r.2.1)
  else
    let tl1 : G4HepEmTLData := { theTLData with
      fPrimaryElectronTrack := theTLData.fPrimaryElectronTrack.ReSet
      fMSCTrackData := { fTrueStepLength := 0, fDisplacement := ⟨0, 0, 0⟩ }
      fRNGEngine := DiscardGauss theTLData.fRNGEngine }
    let r := theTrackStack.PopInto tl1.fPrimaryElectronTrack
    ({ tl1 with fPrimaryElectronTrack := relocate theGeometry r.2.2 }, r.2.1)

/-- The track `nextTrack` points to after `popNext`. -/
def nextTrack (trackType : Int) (theTLData : G4HepEmTLData) : G4HepEmTrack :=
  if trackType = 0 then theTLData.fPrimaryGammaTrack else theTLData.fPrimaryElectronTrack

/-- The stepper state at the start of a history: no step yet, not on a
boundary. -/
def startTracking (theTLData : G4HepEmTLData) (theTrackStack : TrackStack)
    (theResult : Results) : StepperState :=
  { theTLData := theTLData, theTrackStack := theTrackStack, theResult := theResult,
    numStep := 0, wasOnBoundary := false, trace := [] }

/-- The body of the track loop of `EventLoop::ProcessEvents` for the track
type found at the top of the stack; `none` when the stepper does not return
within `fuel` iterations. -/
def TrackLoopBody (theState : G4HepEmState) (sqrt : ℚ → ℚ) (DiscardGauss : ℕ → ℕ)
    (theGeometry : Geometry) (eventID : Int) (fuel : ℕ) (trackType : Int) (st : EventState) :
    Option EventState :=
  let p := popNext DiscardGauss theGeometry trackType st.theTLData st.theTrackStack
  let theResult := BeginOfTrackingAction st.theResult (nextTrack trackType p.1)
  let s0 := startTracking p.1 p.2 theResult
  let out :=
    if trackType = 0 then SteppingLoop.GammaStepper theState theGeometry eventID fuel s0
    else SteppingLoop.ElectronStepper theState sqrt theGeometry eventID fuel s0
  out.map fun s1 =>
    { theTLData := s1.theTLData
      theTrackStack := s1.theTrackStack
      theResult := EndOfTrackingAction s1.theResult (nextTrack trackType s1.theTLData) }

/-- The track loop of `EventLoop::ProcessEvents`: it runs while
`GetTypeOfNextTrack()` is greater than -2; `none` when `fuel` iterations of
this loop or of a stepper do not suffice. -/
def TrackLoop (theState : G4HepEmState) (sqrt : ℚ → ℚ) (DiscardGauss : ℕ → ℕ)
    (theGeometry : Geometry) (eventID : Int) (fuel : ℕ) : ℕ → EventState → Option EventState
  | 0, _ => none
  | n + 1, st =>
    let t := st.theTrackStack.GetTypeOfNextTrack
    let st1 : EventState := { st with theTrackStack := t.2 }
    if t.1 > -2 then
      (TrackLoopBody theState sqrt DiscardGauss theGeometry eventID fuel t.1 st1).bind
        (TrackLoop theState sqrt DiscardGauss theGeometry eventID fuel n)
    else some st1

/-- The body of the event loop of `EventLoop::ProcessEvents` up to the track
loop: the id counter is reset, one primary is generated into a new slot of the
stack and gets its id, and the per-event tallies are reset. -/
def BeginEvent (thePrimaryGenerator : PrimaryGenerator) (eventID : Int) (st : EventState) :
    EventState :=
  let stack0 := st.theTrackStack.ReSetTrackID
  let ins := stack0.Insert
  let primaryTrack := thePrimaryGenerator.GenerateOne (ins.1.slot ins.2)
  let id := ins.1.GetNextTrackID
  let primaryTrack := primaryTrack.SetID id.1
  { st with
    theTrackStack := id.2.setSlot ins.2 primaryTrack
    theResult := BeginOfEventAction st.theResult eventID primaryTrack }

/-- The body of the event loop of `EventLoop::ProcessEvents`: one event. -/
def ProcessEvent (theState : G4HepEmState) (sqrt : ℚ → ℚ) (DiscardGauss : ℕ → ℕ)
    (thePrimaryGenerator : PrimaryGenerator) (theGeometry : Geometry) (fuel : ℕ)
    (eventID : Int) (st : EventState) : Option EventState :=
  (TrackLoop theState sqrt DiscardGauss theGeometry eventID fuel fuel
    (BeginEvent thePrimaryGenerator eventID st)).map fun st1 =>
      { st1 with theResult := EndOfEventAction st1.theResult eventID }

/-- The event loop of `EventLoop::ProcessEvents` with `n` events to go. -/
def EventsFrom (theState : G4HepEmState) (sqrt : ℚ → ℚ) (DiscardGauss : ℕ → ℕ)
    (thePrimaryGenerator : PrimaryGenerator) (theGeometry : Geometry) (fuel : ℕ) :
    ℕ → Int → EventState → Option EventState
  | 0, _, st => some st
  | n + 1, eventID, st =>
    (ProcessEvent theState sqrt DiscardGauss thePrimaryGenerator theGeometry fuel eventID
      st).bind
      (EventsFrom theState sqrt DiscardGauss thePrimaryGenerator theGeometry fuel n
        (eventID + 1))

/-- The method `EventLoop::ProcessEvents(theTLData, theState,
thePrimaryGenerator, theGeometry, theResult, numEventToSimulate, verbosity)`
without its reports: the stack is created and the events 0 to
`numEventToSimulate - 1` are processed. -/
def ProcessEvents (theState : G4HepEmState) (sqrt : ℚ → ℚ) (DiscardGauss : ℕ → ℕ)
    (thePrimaryGenerator : PrimaryGenerator) (theGeometry : Geometry) (fuel : ℕ)
    (theTLData : G4HepEmTLData) (theResult : Results) (numEventToSimulate : Int) :
    Option EventState :=
  EventsFrom theState sqrt DiscardGauss thePrimaryGenerator theGeometry fuel
    numEventToSimulate.toNat 0
    { theTLData := theTLData, theTrackStack := TrackStack.new, theResult := theResult }

end EventLoop

/-! ## Vocabulary of the specification -/

/-- The outward-exit condition of `Box::DistanceToOut(p, v)` on one axis with
half-length `h`: within half the tolerance of the face or beyond it
(`|p| - h ≥ -0.5e-9`), and moving outward (`p * v > 0`). -/
def exitsOn (h p v : ℚ) : Prop := |p| - h ≥ -(1 / 2000000000) ∧ p * v > 0

instance (h p v : ℚ) : Decidable (exitsOn h p v) := by
  unfold exitsOn; infer_instance

/-- A point exactly on one of the two faces of an axis with half-length `h`,
with the direction pointing out of that face. -/
def onFaceOutward (h p v : ℚ) : Prop := (p = h ∧ 0 < v) ∨ (p = -h ∧ v < 0)

instance (h p v : ℚ) : Decidable (onFaceOutward h p v) := by
  unfold onFaceOutward; infer_instance

/-- The sign of a direction component: 1, -1 or 0. -/
def signum (v : ℚ) : ℚ := if 0 < v then 1 else if v < 0 then -1 else 0

/-- The distance along one axis to the face the direction points toward:
`(sign(v) * h - p) / v`. -/
def faceDistance (h p v : ℚ) : ℚ := (signum v * h - p) / v

/-- The per-axis face distances of the axes whose direction component is
non-zero. -/
def faceDistances (b : Box) (p v : Vec3) : List ℚ :=
  ([(b.fDx, p.x, v.x), (b.fDy, p.y, v.y), (b.fDz, p.z, v.z)].filter
    (fun a => decide (a.2.2 ≠ 0))).map (fun a => faceDistance a.1 a.2.1 a.2.2)

/-- The point reached from `p` after the distance `d` along `v`. -/
def advance (p v : Vec3) (d : ℚ) : Vec3 :=
  { x := p.x + d * v.x, y := p.y + d * v.y, z := p.z + d * v.z }

/-- A point strictly inside the box: `|p_i| < h_i` on all three axes. -/
def strictlyInside (b : Box) (p : Vec3) : Prop :=
  |p.x| < b.fDx ∧ |p.y| < b.fDy ∧ |p.z| < b.fDz

instance (b : Box) (p : Vec3) : Decidable (strictlyInside b p) := by
  unfold strictlyInside; infer_instance

/-- A point of the closed box: `|q_i| ≤ h_i` on all three axes. -/
def insideClosed (b : Box) (q : Vec3) : Prop :=
  |q.x| ≤ b.fDx ∧ |q.y| ≤ b.fDy ∧ |q.z| ≤ b.fDz

instance (b : Box) (q : Vec3) : Decidable (insideClosed b q) := by
  unfold insideClosed; infer_instance

/-- A point within the tolerance 1e-9 of at least one face:
`h_i - |q_i| ≤ 1e-9` for some axis. -/
def nearFace (b : Box) (q : Vec3) : Prop :=
  b.fDx - |q.x| ≤ 1 / 1000000000 ∨ b.fDy - |q.y| ≤ 1 / 1000000000 ∨
    b.fDz - |q.z| ≤ 1 / 1000000000

instance (b : Box) (q : Vec3) : Decidable (nearFace b q) := by
  unfold nearFace; infer_instance

/-- A normalised direction. -/
def isUnit (v : Vec3) : Prop := v.x * v.x + v.y * v.y + v.z * v.z = 1

instance (v : Vec3) : Decidable (isUnit v) := by
  unfold isUnit; infer_instance

/-- The exit property of the directional distance: it is non-negative and the
point advanced by it lies in the closed box, within tolerance of a face. -/
def exitsAtFace (b : Box) (p v : Vec3) : Prop :=
  0 ≤ b.DistanceToOut p v ∧ insideClosed b (advance p v (b.DistanceToOut p v)) ∧
    nearFace b (advance p v (b.DistanceToOut p v))

instance (b : Box) (p v : Vec3) : Decidable (exitsAtFace b p v) := by
  unfold exitsAtFace; infer_instance

/-- The derived scalars agree with the inputs: layer thickness, calorimeter
thickness, calorimeter start and primary x position (the mid-point between
the left world boundary `-0.55 * calorimeter thickness` and the calorimeter
start, that is `-0.525 * calorimeter thickness`). -/
def Geometry.consistent (g : Geometry) : Prop :=
  g.fLayerThick = g.fAbsThick + g.fGapThick ∧
  g.GetCaloThick = (g.fNumLayers : ℚ) * g.fLayerThick ∧
  g.GetCaloStartXposition = -(1 / 2) * g.GetCaloThick ∧
  g.GetPrimaryXposition = (-(11 / 20) * g.GetCaloThick + g.GetCaloStartXposition) / 2 ∧
  g.GetPrimaryXposition = -(21 / 40) * g.GetCaloThick

instance (g : Geometry) : Decidable g.consistent := by
  unfold Geometry.consistent; infer_instance

/-- The documented domain of a configuration: at least one layer, absorber
and gap thickness non-negative and not both zero, positive transverse size. -/
def Geometry.inDomain (g : Geometry) : Prop :=
  1 ≤ g.fNumLayers ∧ 0 ≤ g.fAbsThick ∧ 0 ≤ g.fGapThick ∧
    ¬ (g.fAbsThick = 0 ∧ g.fGapThick = 0) ∧ 0 < g.fCaloSizeYZ

instance (g : Geometry) : Decidable g.inDomain := by
  unfold Geometry.inDomain; infer_instance

/-- The three half-lengths of a box are exactly the given values. -/
def Box.hasHalfLengths (b : Box) (tx ty tz : ℚ) : Prop :=
  b.GetHalfLength 0 = tx ∧ b.GetHalfLength 1 = ty ∧ b.GetHalfLength 2 = tz

instance (b : Box) (tx ty tz : ℚ) : Decidable (b.hasHalfLengths tx ty tz) := by
  unfold Box.hasHalfLengths; infer_instance

/-- All five boxes carry the half-lengths of the current configuration. -/
def Geometry.propagated (g : Geometry) : Prop :=
  g.fBoxWorld.hasHalfLengths ((11 / 20) * g.fCaloThick)
    ((11 / 10) * ((1 / 2) * g.fCaloSizeYZ)) ((11 / 10) * ((1 / 2) * g.fCaloSizeYZ)) ∧
  g.fBoxCalo.hasHalfLengths ((1 / 2) * g.fCaloThick)
    ((1 / 2) * g.fCaloSizeYZ) ((1 / 2) * g.fCaloSizeYZ) ∧
  g.fBoxLayer.hasHalfLengths ((1 / 2) * g.fLayerThick)
    ((1 / 2) * g.fCaloSizeYZ) ((1 / 2) * g.fCaloSizeYZ) ∧
  g.fBoxAbs.hasHalfLengths ((1 / 2) * g.fAbsThick)
    ((1 / 2) * g.fCaloSizeYZ) ((1 / 2) * g.fCaloSizeYZ) ∧
  g.fBoxGap.hasHalfLengths ((1 / 2) * g.fGapThick)
    ((1 / 2) * g.fCaloSizeYZ) ((1 / 2) * g.fCaloSizeYZ)

instance (g : Geometry) : Decidable g.propagated := by
  unfold Geometry.propagated; infer_instance

/-- One half-length after an update toward `target`: the target when it
exceeds 2e-9, the previous value otherwise. -/
def storedOrKept (old target new : ℚ) : Prop :=
  if target > 2 / 1000000000 then new = target else new = old

instance (old target new : ℚ) : Decidable (storedOrKept old target new) := by
  unfold storedOrKept; infer_instance

/-- The three half-lengths of `new` after an update of `old` toward the given
values. -/
def Box.updatedFrom (old new : Box) (tx ty tz : ℚ) : Prop :=
  storedOrKept (old.GetHalfLength 0) tx (new.GetHalfLength 0) ∧
  storedOrKept (old.GetHalfLength 1) ty (new.GetHalfLength 1) ∧
  storedOrKept (old.GetHalfLength 2) tz (new.GetHalfLength 2)

instance (old new : Box) (tx ty tz : ℚ) : Decidable (Box.updatedFrom old new tx ty tz) := by
  unfold Box.updatedFrom; infer_instance

/-- All five boxes of `g` after an update of the boxes of `g0` toward the
half-lengths of the configuration of `g`. -/
def Geometry.propagatedFrom (g0 g : Geometry) : Prop :=
  Box.updatedFrom g0.fBoxWorld g.fBoxWorld ((11 / 20) * g.fCaloThick)
    ((11 / 10) * ((1 / 2) * g.fCaloSizeYZ)) ((11 / 10) * ((1 / 2) * g.fCaloSizeYZ)) ∧
  Box.updatedFrom g0.fBoxCalo g.fBoxCalo ((1 / 2) * g.fCaloThick)
    ((1 / 2) * g.fCaloSizeYZ) ((1 / 2) * g.fCaloSizeYZ) ∧
  Box.updatedFrom g0.fBoxLayer g.fBoxLayer ((1 / 2) * g.fLayerThick)
    ((1 / 2) * g.fCaloSizeYZ) ((1 / 2) * g.fCaloSizeYZ) ∧
  Box.updatedFrom g0.fBoxAbs g.fBoxAbs ((1 / 2) * g.fAbsThick)
    ((1 / 2) * g.fCaloSizeYZ) ((1 / 2) * g.fCaloSizeYZ) ∧
  Box.updatedFrom g0.fBoxGap g.fBoxGap ((1 / 2) * g.fGapThick)
    ((1 / 2) * g.fCaloSizeYZ) ((1 / 2) * g.fCaloSizeYZ)

instance (g0 g : Geometry) : Decidable (Geometry.propagatedFrom g0 g) := by
  unfold Geometry.propagatedFrom; infer_instance

/-- The layer index of a global point: the integer part of
`(x + 0.5 * calorimeter thickness) / layer thickness`. -/
def Geometry.layerIndex (g : Geometry) (r : Vec3) : Int :=
  truncToInt ((r.x + (1 / 2) * g.fCaloThick) / g.fLayerThick)

/-- The point in the local frame of its layer: `x` minus the centre
`-0.5 * calorimeter thickness + (i + 0.5) * layer thickness` of layer `i`. -/
def Geometry.toLayerFrame (g : Geometry) (r : Vec3) : Vec3 :=
  { x := r.x - (-(1 / 2) * g.fCaloThick + ((g.layerIndex r : ℚ) + 1 / 2) * g.fLayerThick),
    y := r.y, z := r.z }

/-- The conversion `int(d)` of a double to the 32-bit `int` of C++: the
truncation toward zero when that integer is a value of `int`, and undefined
(`none`) otherwise. -/
def intOfDouble (d : ℚ) : Option Int :=
  if -2147483648 ≤ truncToInt d ∧ truncToInt d ≤ 2147483647 then some (truncToInt d) else none

/-- The value of the expression `int((rx_Calo + 0.5 * fCaloThick) / fLayerThick)`
of `Geometry::CalculateDistanceToOut` where C++ defines it: undefined for a
zero layer thickness, where the quotient is not a finite number, and for a
quotient whose integer part is not a value of `int`. -/
def Geometry.layerIndexInt (g : Geometry) (r : Vec3) : Option Int :=
  if g.fLayerThick = 0 then none
  else intOfDouble ((r.x + (1 / 2) * g.fCaloThick) / g.fLayerThick)

/-- The centre of the absorber in the frame of its layer:
`-0.5 * (layer thickness - absorber thickness)`. -/
def Geometry.absCentre (g : Geometry) : ℚ := -(1 / 2) * (g.fLayerThick - g.fAbsThick)

/-- The centre of the gap in the frame of its layer:
`-0.5 * (layer thickness - gap thickness) + absorber thickness`. -/
def Geometry.gapCentre (g : Geometry) : ℚ :=
  -(1 / 2) * (g.fLayerThick - g.fGapThick) + g.fAbsThick

/-- The absorber is selected: the layer-local x plus half the layer thickness
is less than the absorber thickness, or the gap thickness is 0. -/
def Geometry.inAbsorber (g : Geometry) (r : Vec3) : Prop :=
  (g.toLayerFrame r).x + (1 / 2) * g.fLayerThick < g.fAbsThick ∨ g.fGapThick = 0

instance (g : Geometry) (r : Vec3) : Decidable (g.inAbsorber r) := by
  unfold Geometry.inAbsorber; infer_instance

/-- The layer-local point translated by the centre `c` of a slab. -/
def Geometry.toSlabFrame (g : Geometry) (r : Vec3) (c : ℚ) : Vec3 :=
  { x := (g.toLayerFrame r).x - c, y := r.y, z := r.z }

/-- The centre x of layer `i` in the global frame. -/
def Geometry.layerCentre (g : Geometry) (i : Int) : ℚ :=
  -(1 / 2) * g.fCaloThick + ((i : ℚ) + 1 / 2) * g.fLayerThick

/-- The centre x, in the global frame, of the volume reported by
`CalculateDistanceToOut`: the absorber or gap of the reported layer; for the
world box the centre of the reported layer on a layer-level zero return, and 0
on the leaving return. -/
def Geometry.centreOf (g : Geometry) (out : Located) : ℚ :=
  match out.currentVolume with
  | .abs => g.layerCentre out.indxLayer + g.absCentre
  | .gap => g.layerCentre out.indxLayer + g.gapCentre
  | _ => if out.dist = 0 then g.layerCentre out.indxLayer else 0

/-- The class invariant of `TrackStack`: the stack pointer is at least -1 and
below the capacity, and the capacity is positive and is the length of the
backing vector. -/
def TrackStack.wf (s : TrackStack) : Prop :=
  -1 ≤ s.fCurIndx ∧ s.fCurIndx < s.fSize ∧ (s.fTrackVect.length : Int) = s.fSize ∧
    0 < s.fSize

instance (s : TrackStack) : Decidable s.wf := by
  unfold TrackStack.wf; infer_instance

/-- The stored tracks, bottom first: the elements 0 to the stack pointer. -/
def TrackStack.contents (s : TrackStack) : List G4HepEmTrack :=
  s.fTrackVect.take (s.fCurIndx + 1).toNat

/-- Two tracks agree in position, direction, kinetic energy and its logarithm,
charge, safety, id, parent id, material-cuts index and on-boundary flag. -/
def sameState (a b : G4HepEmTrack) : Prop :=
  a.GetPosition = b.GetPosition ∧ a.GetDirection = b.GetDirection ∧
  a.GetEKin = b.GetEKin ∧ a.GetLogEKin = b.GetLogEKin ∧ a.GetCharge = b.GetCharge ∧
  a.GetSafety = b.GetSafety ∧ a.GetID = b.GetID ∧ a.GetParentID = b.GetParentID ∧
  a.GetMCIndex = b.GetMCIndex ∧ a.GetOnBoundary = b.GetOnBoundary

instance (a b : G4HepEmTrack) : Decidable (sameState a b) := by
  unfold sameState; infer_instance

/-- The capacity is 16 times a power of two. -/
def TrackStack.capacityOK (s : TrackStack) : Prop := ∃ k : ℕ, s.fSize = 16 * 2 ^ k

namespace SteppingLoop

/-- The location of the primary gamma track at the start of an iteration. -/
def gammaLocate (theGeometry : Geometry) (s : StepperState) : Located :=
  theGeometry.CalculateDistanceToOut s.theTLData.fPrimaryGammaTrack.GetPosition
    s.theTLData.fPrimaryGammaTrack.GetDirection

/-- The data handed to `HowFar` by the gamma stepper: the material-cuts index
and the pre-step boundary flag are set on the primary track. -/
def gammaPreStep (theState : G4HepEmState) (theGeometry : Geometry) (s : StepperState) :
    G4HepEmTLData :=
  { s.theTLData with
    fPrimaryGammaTrack := (s.theTLData.fPrimaryGammaTrack.SetMCIndex
      (theState.fG4MCIndexToHepEmMCIndex
        (theGeometry.box (gammaLocate theGeometry s).currentVolume).GetMaterialIndx)).SetOnBoundary
      (decide ((theGeometry.box (gammaLocate theGeometry s).currentVolume).safety
        (gammaLocate theGeometry s).r = 0)) }

/-- The data after `HowFar` in the gamma stepper. -/
def gammaLimit (theState : G4HepEmState) (theGeometry : Geometry) (s : StepperState) :
    G4HepEmTLData :=
  theState.GammaManagerHowFar (gammaPreStep theState theGeometry s)

/-- The physics limit written by `HowFar` in the gamma stepper. -/
def gammaDistToPhysics (theState : G4HepEmState) (theGeometry : Geometry) (s : StepperState) :
    ℚ :=
  (gammaLimit theState theGeometry s).fPrimaryGammaTrack.GetGStepLength

/-- The primary gamma track moved by `d` along its direction. -/
def gammaMoved (tl : G4HepEmTLData) (d : ℚ) : G4HepEmTLData :=
  { tl with
    fPrimaryGammaTrack := tl.fPrimaryGammaTrack.SetPosition
      (AddTo3Vect tl.fPrimaryGammaTrack.GetPosition tl.fPrimaryGammaTrack.GetDirection d) }

/-- The data handed to `Perform` by the gamma stepper for the step length `d`
and the post-step boundary flag `f`. -/
def gammaPostStep (tl : G4HepEmTLData) (d : ℚ) (f : Bool) : G4HepEmTLData :=
  { tl with
    fPrimaryGammaTrack := ((gammaMoved tl d).fPrimaryGammaTrack.SetGStepLength d).SetOnBoundary f }

/-- The location of the primary electron track at the start of an iteration. -/
def electronLocate (theGeometry : Geometry) (s : StepperState) : Located :=
  theGeometry.CalculateDistanceToOut s.theTLData.fPrimaryElectronTrack.GetPosition
    s.theTLData.fPrimaryElectronTrack.GetDirection

/-- The pre-step boundary flag of the electron stepper. -/
def electronPreStepFlag (theGeometry : Geometry) (s : StepperState) : Bool :=
  if s.numStep = 0 then
    decide ((theGeometry.box (electronLocate theGeometry s).currentVolume).safety
      (electronLocate theGeometry s).r < 5 / 10000000000)
  else s.wasOnBoundary

/-- The data handed to `HowFar` by the electron stepper: the material-cuts
index, the pre-step boundary flag and the pre-step safety are set. -/
def electronPreStep (theState : G4HepEmState) (theGeometry : Geometry) (s : StepperState) :
    G4HepEmTLData :=
  { s.theTLData with
    fPrimaryElectronTrack := ((s.theTLData.fPrimaryElectronTrack.SetMCIndex
      (theState.fG4MCIndexToHepEmMCIndex
        (theGeometry.box (electronLocate theGeometry s).currentVolume).GetMaterialIndx)).SetOnBoundary
      (electronPreStepFlag theGeometry s)).SetSafety
        (if electronPreStepFlag theGeometry s then 0
         else (theGeometry.box (electronLocate theGeometry s).currentVolume).safety
          (electronLocate theGeometry s).r) }

/-- The data after `HowFar` in the electron stepper. -/
def electronLimit (theState : G4HepEmState) (theGeometry : Geometry) (s : StepperState) :
    G4HepEmTLData :=
  theState.ElectronManagerHowFar (electronPreStep theState theGeometry s)

/-- The physics limit written by `HowFar` in the electron stepper. -/
def electronDistToPhysics (theState : G4HepEmState) (theGeometry : Geometry)
    (s : StepperState) : ℚ :=
  (electronLimit theState theGeometry s).fPrimaryElectronTrack.GetGStepLength

/-- The primary electron track moved by `d` along its direction. -/
def electronMoved (tl : G4HepEmTLData) (d : ℚ) : G4HepEmTLData :=
  { tl with
    fPrimaryElectronTrack := tl.fPrimaryElectronTrack.SetPosition
      (AddTo3Vect tl.fPrimaryElectronTrack.GetPosition tl.fPrimaryElectronTrack.GetDirection d) }

/-- The data handed to `Perform` by the electron stepper for the step length
`d` and the post-step boundary flag `f`. -/
def electronPostStep (tl : G4HepEmTLData) (d : ℚ) (f : Bool) : G4HepEmTLData :=
  { tl with
    fPrimaryElectronTrack :=
      ((electronMoved tl d).fPrimaryElectronTrack.SetGStepLength d).SetOnBoundary f }

end SteppingLoop

/-- The stacking event of an iteration: present when `Perform` left at least
one secondary. -/
def SteppingLoop.stackEvents (tl : G4HepEmTLData) : List StepEvent :=
  if tl.GetNumSecondaryElectronTrack + tl.GetNumSecondaryGammaTrack > 0 then
    [.StackSecondaries]
  else []

/-- The step length the electron stepper hands to the stepping action: the
true step length reported by the engine when it is positive, the chosen
geometric step length `d` otherwise. -/
def SteppingLoop.electronRecordedLength (tl : G4HepEmTLData) (d : ℚ) : ℚ :=
  if tl.fMSCTrackData.fTrueStepLength > 0 then tl.fMSCTrackData.fTrueStepLength else d

/-- A stub of the physics engine: `HowFar` writes the constant step limit
`limit` on the primary track, `Perform` changes nothing, and the material
index is its own material-cuts index. -/
def stubState (limit : ℚ) : G4HepEmState :=
  { fG4MCIndexToHepEmMCIndex := fun i => i
    GammaManagerHowFar := fun tl =>
      { tl with fPrimaryGammaTrack := tl.fPrimaryGammaTrack.SetGStepLength limit }
    GammaManagerPerform := fun tl => tl
    ElectronManagerHowFar := fun tl =>
      { tl with fPrimaryElectronTrack := tl.fPrimaryElectronTrack.SetGStepLength limit }
    ElectronManagerPerform := fun tl => tl }

/-- A track of kinetic energy 1 at the global point `(-199, 0, 0)`, one
millimetre inside the first absorber of the default geometry, moving along
`(1, 0, 0)`. -/
def exampleTrack : G4HepEmTrack :=
  { G4HepEmTrack.new with fPosition := ⟨-199, 0, 0⟩, fDirection := ⟨1, 0, 0⟩, fEKin := 1 }

/-- The results before the first event: empty histograms over 50 layers and
zero tallies. -/
def exampleResults : Results :=
  { fEdepPerLayer := Hist.new "edep" 0 50 50
    fGammaTrackLenghtPerLayer := Hist.new "gamma" 0 50 50
    fElPosTrackLenghtPerLayer := Hist.new "elpos" 0 50 50
    fEdepAbs := 0, fEdepAbs2 := 0, fEdepGap := 0, fEdepGap2 := 0
    fNumSecGamma := 0, fNumSecGamma2 := 0, fNumSecElectron := 0, fNumSecElectron2 := 0
    fNumSecPositron := 0, fNumSecPositron2 := 0
    fNumStepsGamma := 0, fNumStepsGamma2 := 0, fNumStepsElPos := 0, fNumStepsElPos2 := 0
    fPerEventRes :=
      { fEdepAbs := 0, fEdepGap := 0, fNumSecGamma := 0, fNumSecElectron := 0,
        fNumSecPositron := 0, fNumStepsGamma := 0, fNumStepsElPos := 0 } }

/-- A stepper state at the start of the history of `exampleTrack`, taken as
the primary gamma and as the primary electron track. -/
def exampleStepperState : StepperState :=
  { theTLData :=
      { fPrimaryGammaTrack := exampleTrack
        fPrimaryElectronTrack := exampleTrack
        fMSCTrackData := { fTrueStepLength := 0, fDisplacement := ⟨0, 0, 0⟩ }
        fSecondaryElectronTracks := []
        fNumSecondaryElectronTracks := 0
        fSecondaryGammaTracks := []
        fNumSecondaryGammaTracks := 0
        fRNGEngine := 0 }
    theTrackStack := TrackStack.new
    theResult := exampleResults
    numStep := 0
    wasOnBoundary := false
    trace := [] }

/-- A stepper state whose track is at the global point `(-192, 0, 0)`, on the
boundary of layers 0 and 1 of the default geometry, moving along
`(-1, 0, 0)`. -/
def boundaryStepperState : StepperState :=
  { exampleStepperState with
    theTLData :=
      { exampleStepperState.theTLData with
        fPrimaryGammaTrack :=
          { exampleTrack with fPosition := ⟨-192, 0, 0⟩, fDirection := ⟨-1, 0, 0⟩ }
        fPrimaryElectronTrack :=
          { exampleTrack with fPosition := ⟨-192, 0, 0⟩, fDirection := ⟨-1, 0, 0⟩ } } }

/-- A stepper state whose track is at the global point `(200, 0, 0)`, on the
right face of the calorimeter of the default geometry, moving along
`(1, 0, 0)`: it is leaving the detector. -/
def leavingStepperState : StepperState :=
  { exampleStepperState with
    theTLData :=
      { exampleStepperState.theTLData with
        fPrimaryGammaTrack := { exampleTrack with fPosition := ⟨200, 0, 0⟩ }
        fPrimaryElectronTrack := { exampleTrack with fPosition := ⟨200, 0, 0⟩ } } }

/-- The results after a sequence of events, given the per-event tallies `es`
that the results hold when each event ends: every event ends with
`EndOfEventAction` (which does not use the event id). -/
def EventLoop.afterEvents (theResult : Results) (es : List ResultsPerEvent) : Results :=
  es.foldl (fun r e => EventLoop.EndOfEventAction { r with fPerEventRes := e } 0) theResult

/-- A secondary as it is handed to the stack: the track `secTrack` left by the
engine with the id `id` and the id, position and material-cuts index of the
primary. -/
def SteppingLoop.stamped (thePrimary secTrack : G4HepEmTrack) (id : Int) : G4HepEmTrack :=
  (((secTrack.SetID id).SetParentID thePrimary.GetID).SetPosition
    thePrimary.GetPosition).SetMCIndex thePrimary.GetMCIndex

/-- The tracks pushed for one step in the order of the claim: the electron
slots `0 .. nE - 1`, then the gamma slots `0 .. nG - 1`, with consecutive ids
from `id` on, as the stack stores them. -/
def SteppingLoop.stackedSecondaries (theTLData : G4HepEmTLData) (thePrimary : G4HepEmTrack)
    (id : Int) : List G4HepEmTrack :=
  (List.range theTLData.GetNumSecondaryElectronTrack.toNat).map (fun k : ℕ =>
    TrackStack.Copy (SteppingLoop.stamped thePrimary (theTLData.GetSecondaryElectronTrack k)
      (id + k)) G4HepEmTrack.new) ++
  (List.range theTLData.GetNumSecondaryGammaTrack.toNat).map (fun k : ℕ =>
    TrackStack.Copy (SteppingLoop.stamped thePrimary (theTLData.GetSecondaryGammaTrack k)
      (id + theTLData.GetNumSecondaryElectronTrack.toNat + k)) G4HepEmTrack.new)

/-- A stacked track `t` for the secondary `secTrack` of the primary
`thePrimary`: it has the id `id`, the id of the primary as parent id, the
position and material-cuts index of the primary, and the direction, kinetic
energy and charge of `secTrack`. -/
def SteppingLoop.isStacked (thePrimary secTrack : G4HepEmTrack) (id : Int)
    (t : G4HepEmTrack) : Prop :=
  t.GetID = id ∧ t.GetParentID = thePrimary.GetID ∧ t.GetPosition = thePrimary.GetPosition ∧
  t.GetMCIndex = thePrimary.GetMCIndex ∧ t.GetDirection = secTrack.GetDirection ∧
  t.GetEKin = secTrack.GetEKin ∧ t.GetCharge = secTrack.GetCharge

instance (thePrimary secTrack : G4HepEmTrack) (id : Int) (t : G4HepEmTrack) :
    Decidable (SteppingLoop.isStacked thePrimary secTrack id t) := by
  unfold SteppingLoop.isStacked; infer_instance

/-- One round of the first loop of `StackSecondaries`. -/
def SteppingLoop.electronRound (thePrimary : G4HepEmTrack) (acc : G4HepEmTLData × TrackStack)
    (iSec : ℕ) : G4HepEmTLData × TrackStack :=
  ({ acc.1 with
      fSecondaryElectronTracks := acc.1.fSecondaryElectronTracks.set iSec
        (SteppingLoop.stackOne thePrimary (acc.1.GetSecondaryElectronTrack iSec) acc.2).1 },
    (SteppingLoop.stackOne thePrimary (acc.1.GetSecondaryElectronTrack iSec) acc.2).2)

/-- One round of the second loop of `StackSecondaries`. -/
def SteppingLoop.gammaRound (thePrimary : G4HepEmTrack) (acc : G4HepEmTLData × TrackStack)
    (iSec : ℕ) : G4HepEmTLData × TrackStack :=
  ({ acc.1 with
      fSecondaryGammaTracks := acc.1.fSecondaryGammaTracks.set iSec
        (SteppingLoop.stackOne thePrimary (acc.1.GetSecondaryGammaTrack iSec) acc.2).1 },
    (SteppingLoop.stackOne thePrimary (acc.1.GetSecondaryGammaTrack iSec) acc.2).2)

/-- The stack after a sequence of steps, given for every step the data left
by `Perform` and the primary track. -/
def SteppingLoop.stackAfterSteps (theTrackStack : TrackStack)
    (steps : List (G4HepEmTLData × G4HepEmTrack)) : TrackStack :=
  steps.foldl (fun st x => (SteppingLoop.StackSecondaries x.1 st x.2).2) theTrackStack

/-- The data of the engine after a step that left one secondary electron, a
copy of `exampleTrack` with charge -1 and direction `(0, 1, 0)`. -/
def exampleSecondaryData : G4HepEmTLData :=
  { exampleStepperState.theTLData with
    fSecondaryElectronTracks :=
      [{ exampleTrack with fCharge := -1, fDirection := ⟨0, 1, 0⟩ }]
    fNumSecondaryElectronTracks := 1 }

/-- The squared length `d.x * d.x + d.y * d.y + d.z * d.z` of a vector. -/
def normSq (d : Vec3) : ℚ := d.x * d.x + d.y * d.y + d.z * d.z

/-- The rule for the lateral displacement `d` of an electron step, with
`sqrt (normSq d)` for its length `|d|` and `postSafety` for 99% of the safety
at the longitudinal post-step point: nothing is added when the step ended on
a boundary or `|d|² ≤ (5e-8)²`; otherwise `d` is added in full when
`|d| < postSafety`, scaled by `postSafety / |d|` when `|d| ≥ postSafety` and
`postSafety > 5e-8`, and not at all when `postSafety ≤ 5e-8`. -/
def SteppingLoop.displace (sqrt : ℚ → ℚ) (globalPosition d : Vec3) (postSafety : ℚ)
    (onBoundary : Bool) : Vec3 :=
  if onBoundary = false then
    if normSq d > 5 / 100000000 * (5 / 100000000) then
      if sqrt (normSq d) < postSafety then SteppingLoop.AddTo3Vect globalPosition d 1
      else if postSafety > 5 / 100000000 then
        SteppingLoop.AddTo3Vect globalPosition d (postSafety / sqrt (normSq d))
      else globalPosition
    else globalPosition
  else globalPosition

/-- The data after `Perform` in the electron stepper, for the data `tl2` left
by `HowFar`, the step length `d` and the post-step boundary flag `f`. -/
def SteppingLoop.electronAfterPerform (theState : G4HepEmState) (tl2 : G4HepEmTLData) (d : ℚ)
    (f : Bool) : G4HepEmTLData :=
  theState.ElectronManagerPerform (SteppingLoop.electronPostStep tl2 d f)

/-- The data after `Perform` in the gamma stepper. -/
def SteppingLoop.gammaAfterPerform (theState : G4HepEmState) (tl2 : G4HepEmTLData) (d : ℚ)
    (f : Bool) : G4HepEmTLData :=
  theState.GammaManagerPerform (SteppingLoop.gammaPostStep tl2 d f)

/-- The reduced post-step safety of the electron stepper: 99% of the safety
of the located volume at the local point moved by the step length `d` along
the direction the track had before `Perform`. -/
def SteppingLoop.electronPostSafety (theGeometry : Geometry) (loc : Located)
    (tl2 : G4HepEmTLData) (d : ℚ) : ℚ :=
  (99 / 100) * (theGeometry.box loc.currentVolume).safety
    (SteppingLoop.AddTo3Vect loc.r tl2.fPrimaryElectronTrack.GetDirection d)

/-- The data of the electron stepper after the lateral displacement. -/
def SteppingLoop.electronDisplaced (theState : G4HepEmState) (sqrt : ℚ → ℚ)
    (theGeometry : Geometry) (loc : Located) (tl2 : G4HepEmTLData) (d : ℚ) (f : Bool) :
    G4HepEmTLData :=
  { SteppingLoop.electronAfterPerform theState tl2 d f with
    fPrimaryElectronTrack :=
      (SteppingLoop.electronAfterPerform theState tl2 d f).fPrimaryElectronTrack.SetPosition
        (SteppingLoop.displace sqrt
          (SteppingLoop.electronAfterPerform theState tl2 d f).fPrimaryElectronTrack.GetPosition
          (SteppingLoop.electronAfterPerform theState tl2 d f).fMSCTrackData.GetDisplacement
          (SteppingLoop.electronPostSafety theGeometry loc tl2 d) f) }

/-- A stub of the physics engine with multiple scattering: `HowFar` writes the
constant step limit `limit` on the primary track and `Perform` reports the
true step length `trueLength` and the lateral displacement `d`. -/
def mscState (limit trueLength : ℚ) (d : Vec3) : G4HepEmState :=
  { stubState limit with
    ElectronManagerPerform := fun tl =>
      { tl with fMSCTrackData := { fTrueStepLength := trueLength, fDisplacement := d } } }

/-- A stand-in for `std::sqrt` in the examples: exact at the squared lengths
used there, the identity elsewhere. -/
def sqrtStub (x : ℚ) : ℚ :=
  if x = 1 / 100 then 1 / 10
  else if x = 1 / 10000000000000000 then 1 / 100000000
  else x

namespace SteppingLoop

/-- The chosen step length `min(dB, dP)` of an iteration of the electron
stepper. -/
def electronStepLength (theState : G4HepEmState) (theGeometry : Geometry) (s : StepperState) :
    ℚ :=
  min (electronLocate theGeometry s).dist (electronDistToPhysics theState theGeometry s)

/-- The post-step boundary flag of an iteration of the electron stepper:
true exactly when `dB ≤ dP`. -/
def electronEndsOnBoundary (theState : G4HepEmState) (theGeometry : Geometry)
    (s : StepperState) : Bool :=
  decide ((electronLocate theGeometry s).dist ≤ electronDistToPhysics theState theGeometry s)

/-- The data left by `Perform` in an iteration of the electron stepper that
takes a step. -/
def electronPerformed (theState : G4HepEmState) (theGeometry : Geometry) (s : StepperState) :
    G4HepEmTLData :=
  electronAfterPerform theState (electronLimit theState theGeometry s)
    (electronStepLength theState theGeometry s) (electronEndsOnBoundary theState theGeometry s)

/-- The reduced post-step safety of an iteration of the electron stepper: 99%
of the safety of the located volume at the longitudinal post-step point. -/
def electronSafetyAfter (theState : G4HepEmState) (theGeometry : Geometry)
    (s : StepperState) : ℚ :=
  electronPostSafety theGeometry (electronLocate theGeometry s)
    (electronLimit theState theGeometry s) (electronStepLength theState theGeometry s)

end SteppingLoop

/-- The geometry of one layer with an absorber of thickness 10 and a gap of
thickness 0, set up through the mutators. -/
def oneLayerGeometry : Geometry :=
  Geometry.run [.SetNumLayers 1, .SetAbsThick 10, .SetGapThick 0]

/-- A stepper state at the start of the history of a gamma of kinetic energy
1 on the entry face `(-5, 0, 0)` of the one-layer geometry, moving along
`(1, 0, 0)`. -/
def entryStepperState : StepperState :=
  { exampleStepperState with
    theTLData :=
      { exampleStepperState.theTLData with
        fPrimaryGammaTrack := { exampleTrack with fPosition := ⟨-5, 0, 0⟩ } } }

/-- The three half-lengths of a box exceed twice the tolerance. -/
def Box.sized (b : Box) : Prop :=
  2 * kCarTolerance < b.fDx ∧ 2 * kCarTolerance < b.fDy ∧ 2 * kCarTolerance < b.fDz

instance (b : Box) : Decidable b.sized := by
  unfold Box.sized; infer_instance

/-- All five boxes of a geometry have half-lengths above twice the
tolerance. -/
def Geometry.sized (g : Geometry) : Prop :=
  g.fBoxWorld.sized ∧ g.fBoxCalo.sized ∧ g.fBoxLayer.sized ∧ g.fBoxAbs.sized ∧ g.fBoxGap.sized

instance (g : Geometry) : Decidable g.sized := by
  unfold Geometry.sized; infer_instance

/-- The outward-exit condition of the calorimeter box holds on some axis. -/
def Geometry.caloExit (g : Geometry) (p v : Vec3) : Prop :=
  exitsOn g.fBoxCalo.fDx p.x v.x ∨ exitsOn g.fBoxCalo.fDy p.y v.y ∨
    exitsOn g.fBoxCalo.fDz p.z v.z

instance (g : Geometry) (p v : Vec3) : Decidable (g.caloExit p v) := by
  unfold Geometry.caloExit; infer_instance

/-- The state after an iteration of the gamma stepper that pushes: the track
left by `HowFar` is moved by 1e-6 along its direction, and the events are
`HowFar`, the selection of the step length 0 and the push. -/
def SteppingLoop.gammaPushed (theState : G4HepEmState) (theGeometry : Geometry)
    (s : StepperState) : StepperState :=
  { s with
    theTLData := SteppingLoop.gammaMoved (SteppingLoop.gammaLimit theState theGeometry s)
      (1 / 1000000)
    trace := s.trace ++
      [.HowFar (SteppingLoop.gammaPreStep theState theGeometry s),
       .StepSelected 0 (decide ((SteppingLoop.gammaLocate theGeometry s).dist ≤
         SteppingLoop.gammaDistToPhysics theState theGeometry s)),
       .Push] }

/-- An event of an iteration that pushes: a call of `HowFar`, the selection
of the step length 0, or the push; not `Perform`, the stacking of secondaries
or the stepping action. -/
def StepEvent.isPushEvent : StepEvent → Prop
  | .HowFar _ => True
  | .StepSelected stepLength _ => stepLength = 0
  | .Push => True
  | .Perform _ => False
  | .StackSecondaries => False
  | .SteppingAction _ _ _ _ => False

/-- The charge of a track is -1, 0 or +1. -/
def validCharge (t : G4HepEmTrack) : Prop :=
  t.GetCharge = -1 ∨ t.GetCharge = 0 ∨ t.GetCharge = 1

instance (t : G4HepEmTrack) : Decidable (validCharge t) := by
  unfold validCharge; infer_instance

/-- A well-formed stack all of whose stored tracks have the charge -1, 0 or
+1. -/
def TrackStack.chargesOK (s : TrackStack) : Prop :=
  s.wf ∧ ∀ t ∈ s.contents, validCharge t

/-- The secondaries left in the data of the engine: the two counters are not
negative and the tracks in the slots below the counters have the charge -1, 0
or +1. -/
def validSecondaries (tl : G4HepEmTLData) : Prop :=
  0 ≤ tl.GetNumSecondaryElectronTrack ∧ 0 ≤ tl.GetNumSecondaryGammaTrack ∧
  (∀ k : ℕ, (k : Int) < tl.GetNumSecondaryElectronTrack →
    validCharge (tl.GetSecondaryElectronTrack k)) ∧
  (∀ k : ℕ, (k : Int) < tl.GetNumSecondaryGammaTrack →
    validCharge (tl.GetSecondaryGammaTrack k))

/-- A stub of the physics engine without secondaries: `HowFar` writes the
constant step limit `limit` on the primary track and `Perform` only clears
the two counters of the secondaries. -/
def quietState (limit : ℚ) : G4HepEmState :=
  { stubState limit with
    GammaManagerPerform := fun tl =>
      { tl with fNumSecondaryElectronTracks := 0, fNumSecondaryGammaTracks := 0 }
    ElectronManagerPerform := fun tl =>
      { tl with fNumSecondaryElectronTracks := 0, fNumSecondaryGammaTracks := 0 } }

namespace EventLoop

/-- The type of the track on top of the stack: its charge converted to
`int`. -/
def topType (st : EventState) : Int :=
  truncToInt (st.theTrackStack.slot st.theTrackStack.fCurIndx).GetCharge

/-- The stepper state handed to the stepper in an iteration of the track
loop for the track type `trackType`: the data and the stack after the pop,
and the results after the begin-of-tracking action. -/
def trackingStart (DiscardGauss : ℕ → ℕ) (theGeometry : Geometry) (trackType : Int)
    (st : EventState) : StepperState :=
  startTracking
    (popNext DiscardGauss theGeometry trackType st.theTLData st.theTrackStack).1
    (popNext DiscardGauss theGeometry trackType st.theTLData st.theTrackStack).2
    (BeginOfTrackingAction st.theResult
      (nextTrack trackType
        (popNext DiscardGauss theGeometry trackType st.theTLData st.theTrackStack).1))

/-- The state of the event loop after the stepper returned `s1`. -/
def trackingEnd (trackType : Int) (s1 : StepperState) : EventState :=
  { theTLData := s1.theTLData
    theTrackStack := s1.theTrackStack
    theResult := EndOfTrackingAction s1.theResult (nextTrack trackType s1.theTLData) }

end EventLoop

/-- The state of the event loop before the first event of the examples: the
data of `exampleStepperState`, an empty stack and fresh results. -/
def exampleEventState : EventState :=
  { theTLData := exampleStepperState.theTLData
    theTrackStack := TrackStack.new
    theResult := exampleResults }

/-- The difference `a - b` of two points. -/
def Vec3.sub (a b : Vec3) : Vec3 := { x := a.x - b.x, y := a.y - b.y, z := a.z - b.z }

/-- The displacement added to the global position in an iteration of the
electron stepper: the position after the iteration minus the position left by
`Perform`. -/
def SteppingLoop.electronAdded (theState : G4HepEmState) (sqrt : ℚ → ℚ)
    (theGeometry : Geometry) (eventID : Int) (s : StepperState) : Vec3 :=
  Vec3.sub
    (SteppingLoop.ElectronStepperBody theState sqrt theGeometry eventID
      s).2.theTLData.fPrimaryElectronTrack.GetPosition
    (SteppingLoop.electronPerformed theState theGeometry s).fPrimaryElectronTrack.GetPosition

/-- The longitudinal post-step point of an iteration of the electron stepper
in the frame of the located volume: the local point moved by the chosen step
length along the direction the track had before `Perform`. -/
def SteppingLoop.electronPostPoint (theState : G4HepEmState) (theGeometry : Geometry)
    (s : StepperState) : Vec3 :=
  SteppingLoop.AddTo3Vect (SteppingLoop.electronLocate theGeometry s).r
    (SteppingLoop.electronLimit theState theGeometry s).fPrimaryElectronTrack.GetDirection
    (SteppingLoop.electronStepLength theState theGeometry s)

/-- A histogram with the layout given by `(min, max, numbin)`: the bounds and
the number of bins are these, the bin width is `(max - min) / numbin`, its
inverse is stored, and there are `numbin` bin contents. -/
def Hist.builtWith (h : Hist) (min max : ℚ) (numbin : Int) : Prop :=
  h.fMin = min ∧ h.fMax = max ∧ h.fNumBins = numbin ∧
  h.fDelta = (max - min) / (numbin : ℚ) ∧ h.fInvDelta = 1 / h.fDelta ∧
  h.fy.length = numbin.toNat

/-- The histogram constructed with `(fname, min, max, numbin)` after a
sequence of `Fill(x, w)` calls. -/
def Hist.run (fname : String) (min max : ℚ) (numbin : Int) (fills : List (ℚ × ℚ)) : Hist :=
  fills.foldl (fun h f => h.Fill f.1 f.2) (Hist.new fname min max numbin)

/-- A stepper state at the start of the history of an electron at the global
point `(-191, 0, 0)`, in the absorber of layer 1 of the default geometry one
millimetre right of the boundary of layers 0 and 1, moving along
`(-1, 0, 0)`. -/
def innerStepperState : StepperState :=
  { exampleStepperState with
    theTLData :=
      { exampleStepperState.theTLData with
        fPrimaryElectronTrack :=
          { exampleTrack with fPosition := ⟨-191, 0, 0⟩, fDirection := ⟨-1, 0, 0⟩ } } }

/-- The stepper state after the first pass of the electron stepper through
its loop body from `innerStepperState`, in the default geometry with the stub
engine of step limit 2. -/
def afterFirstStep : StepperState :=
  (SteppingLoop.ElectronStepperBody (stubState 2) sqrtStub Geometry.new 0 innerStepperState).2

/-- The stepper state after the second pass, entered from `afterFirstStep`. -/
def afterPush : StepperState :=
  (SteppingLoop.ElectronStepperBody (stubState 2) sqrtStub Geometry.new 0 afterFirstStep).2

/-- The fourteen run-level sums of the results: for each of the seven tallies
the sum and the sum of squares. -/
def Results.runSums (r : Results) : List ℚ :=
  [r.fEdepAbs, r.fEdepAbs2, r.fEdepGap, r.fEdepGap2, r.fNumSecGamma, r.fNumSecGamma2,
   r.fNumSecElectron, r.fNumSecElectron2, r.fNumSecPositron, r.fNumSecPositron2,
   r.fNumStepsGamma, r.fNumStepsGamma2, r.fNumStepsElPos, r.fNumStepsElPos2]

/-- The per-event values of a run of `n` events that starts with the event id
`eventID` in the state `st`, in the order of the events: for each event the
seven per-event tallies that the results hold when the track loop of the
event has ended, that is when `EndOfEventAction` is called. The list stops at
an event whose track loop yields no result. -/
def EventLoop.eventTallies (theState : G4HepEmState) (sqrt : ℚ → ℚ) (DiscardGauss : ℕ → ℕ)
    (thePrimaryGenerator : PrimaryGenerator) (theGeometry : Geometry) (fuel : ℕ) :
    ℕ → Int → EventState → List ResultsPerEvent
  | 0, _, _ => []
  | n + 1, eventID, st =>
    match EventLoop.TrackLoop theState sqrt DiscardGauss theGeometry eventID fuel fuel
        (EventLoop.BeginEvent thePrimaryGenerator eventID st) with
    | none => []
    | some st1 =>
      st1.theResult.fPerEventRes ::
        EventLoop.eventTallies theState sqrt DiscardGauss thePrimaryGenerator theGeometry fuel
          n (eventID + 1)
          { st1 with theResult := EventLoop.EndOfEventAction st1.theResult eventID }

/-- Every run-level sum of `r` is its value in `r0` plus the sum of the
per-event values `es`, and every run-level sum of squares of `r` is its value
in `r0` plus the sum of the squares of the per-event values. -/
def Results.accumulated (r0 r : Results) (es : List ResultsPerEvent) : Prop :=
  r.fEdepAbs = r0.fEdepAbs + (es.map (·.fEdepAbs)).sum ∧
  r.fEdepAbs2 = r0.fEdepAbs2 + (es.map fun e => e.fEdepAbs * e.fEdepAbs).sum ∧
  r.fEdepGap = r0.fEdepGap + (es.map (·.fEdepGap)).sum ∧
  r.fEdepGap2 = r0.fEdepGap2 + (es.map fun e => e.fEdepGap * e.fEdepGap).sum ∧
  r.fNumSecGamma = r0.fNumSecGamma + (es.map (·.fNumSecGamma)).sum ∧
  r.fNumSecGamma2 = r0.fNumSecGamma2 + (es.map fun e => e.fNumSecGamma * e.fNumSecGamma).sum ∧
  r.fNumSecElectron = r0.fNumSecElectron + (es.map (·.fNumSecElectron)).sum ∧
  r.fNumSecElectron2 =
    r0.fNumSecElectron2 + (es.map fun e => e.fNumSecElectron * e.fNumSecElectron).sum ∧
  r.fNumSecPositron = r0.fNumSecPositron + (es.map (·.fNumSecPositron)).sum ∧
  r.fNumSecPositron2 =
    r0.fNumSecPositron2 + (es.map fun e => e.fNumSecPositron * e.fNumSecPositron).sum ∧
  r.fNumStepsGamma = r0.fNumStepsGamma + (es.map (·.fNumStepsGamma)).sum ∧
  r.fNumStepsGamma2 =
    r0.fNumStepsGamma2 + (es.map fun e => e.fNumStepsGamma * e.fNumStepsGamma).sum ∧
  r.fNumStepsElPos = r0.fNumStepsElPos + (es.map (·.fNumStepsElPos)).sum ∧
  r.fNumStepsElPos2 =
    r0.fNumStepsElPos2 + (es.map fun e => e.fNumStepsElPos * e.fNumStepsElPos).sum

instance (r0 r : Results) (es : List ResultsPerEvent) : Decidable (Results.accumulated r0 r es) := by
  unfold Results.accumulated; infer_instance

/-- A stub of the physics engine that stops every track in its first step:
`HowFar` writes the constant step limit `limit` on the primary track, and
`Perform` sets the kinetic energy of the primary track to 0 and leaves no
secondaries. -/
def absorbState (limit : ℚ) : G4HepEmState :=
  { stubState limit with
    GammaManagerPerform := fun tl =>
      { tl with
        fPrimaryGammaTrack := tl.fPrimaryGammaTrack.SetEKin 0 100
        fNumSecondaryElectronTracks := 0, fNumSecondaryGammaTracks := 0 }
    ElectronManagerPerform := fun tl =>
      { tl with
        fPrimaryElectronTrack := tl.fPrimaryElectronTrack.SetEKin 0 100
        fNumSecondaryElectronTracks := 0, fNumSecondaryGammaTracks := 0 } }

/-- The primary of the default generator as the track loop hands it to the
stepper in the default geometry: popped from the stack and moved to the start
of the calorimeter. -/
def relocatedPrimary : G4HepEmTrack :=
  EventLoop.relocate Geometry.new
    (TrackStack.Copy ((PrimaryGenerator.new.GenerateOne G4HepEmTrack.new).SetID 0)
      G4HepEmTrack.new)

/-- A box with a y half-length of 1e21, beyond the constant 1e20. -/
def wideBox : Box := Box.new "Wide" 0 1 1000000000000000000000 1

/-- The box used in the examples: half-lengths 1, 1, 1. -/
def unitBox : Box := Box.new "Unit" 0 1 1 1

/-! ## Box: theorems -/

theorem Box.fDelta_eq (b : Box) : b.fDelta = 1 / 2000000000 := by
  norm_num [Box.fDelta, kCarTolerance]

theorem exitsOn_of_onFaceOutward {h p v : ℚ} (hh : 0 < h) (ho : onFaceOutward h p v) :
    exitsOn h p v := by
  rcases ho with ⟨rfl, hv⟩ | ⟨rfl, hv⟩
  · refine ⟨?_, mul_pos hh hv⟩
    rw [abs_of_pos hh]; norm_num
  · refine ⟨?_, ?_⟩
    · rw [abs_neg, abs_of_pos hh]; norm_num
    · nlinarith

theorem Box.DistanceToOut_of_exit (b : Box) (p v : Vec3)
    (h : exitsOn b.fDx p.x v.x ∨ exitsOn b.fDy p.y v.y ∨ exitsOn b.fDz p.z v.z) :
    b.DistanceToOut p v = 0 := by
  unfold Box.DistanceToOut
  simp only [Box.fDelta_eq]
  unfold exitsOn at h
  rcases h with h | h | h
  · rw [if_pos h]
  · split_ifs <;> rfl
  · split_ifs <;> rfl

/-- The value of `Box::DistanceToOut(p, v)` past the three early returns. -/
theorem Box.DistanceToOut_of_no_exit (b : Box) (p v : Vec3)
    (hx : ¬ exitsOn b.fDx p.x v.x) (hy : ¬ exitsOn b.fDy p.y v.y)
    (hz : ¬ exitsOn b.fDz p.z v.z) :
    b.DistanceToOut p v =
      min (min (if v.x = 0 then 100000000000000000000 else (copysign b.fDx v.x - p.x) / v.x)
        (if v.y = 0 then
          (if v.x = 0 then 100000000000000000000 else (copysign b.fDx v.x - p.x) / v.x)
          else (copysign b.fDy v.y - p.y) / v.y))
        (if v.z = 0 then
          min (if v.x = 0 then 100000000000000000000 else (copysign b.fDx v.x - p.x) / v.x)
            (if v.y = 0 then
              (if v.x = 0 then 100000000000000000000 else (copysign b.fDx v.x - p.x) / v.x)
              else (copysign b.fDy v.y - p.y) / v.y)
          else (copysign b.fDz v.z - p.z) / v.z) := by
  unfold exitsOn at hx hy hz
  unfold Box.DistanceToOut
  simp only [Box.fDelta_eq]
  rw [if_neg hx, if_neg hy, if_neg hz]

theorem copysign_eq_signum_mul {h v : ℚ} (hh : 0 < h) (hv : v ≠ 0) :
    copysign h v = signum v * h := by
  unfold copysign signum
  rcases lt_or_gt_of_ne hv with hneg | hpos
  · rw [if_pos hneg, if_neg (not_lt.mpr hneg.le), if_pos hneg, abs_of_pos hh]; ring
  · rw [if_neg (not_lt.mpr hpos.le), if_pos hpos, abs_of_pos hh]; ring

/-- C1: for a box with positive half-lengths, if some axis satisfies the
outward-exit condition (`|p_i| - h_i ≥ -0.5e-9` and `p_i * v_i > 0`) then
`Box::DistanceToOut(p, v)` is exactly 0; in particular this is so for a point
exactly on a face with the direction pointing out of that face. -/
theorem Box.DistanceToOut_exit_zero (b : Box) (p v : Vec3)
    (hx : 0 < b.fDx) (hy : 0 < b.fDy) (hz : 0 < b.fDz) :
    (exitsOn b.fDx p.x v.x ∨ exitsOn b.fDy p.y v.y ∨ exitsOn b.fDz p.z v.z →
      b.DistanceToOut p v = 0) ∧
    (onFaceOutward b.fDx p.x v.x ∨ onFaceOutward b.fDy p.y v.y ∨
      onFaceOutward b.fDz p.z v.z → b.DistanceToOut p v = 0) := by
  refine ⟨Box.DistanceToOut_of_exit b p v, fun h => Box.DistanceToOut_of_exit b p v ?_⟩
  rcases h with h | h | h
  · exact Or.inl (exitsOn_of_onFaceOutward hx h)
  · exact Or.inr (Or.inl (exitsOn_of_onFaceOutward hy h))
  · exact Or.inr (Or.inr (exitsOn_of_onFaceOutward hz h))

/-- Witness of C1: the unit box, the point `(0, -1, 0)` on the face `y = -1`,
direction `(0, -1, 0)`. -/
theorem Box.DistanceToOut_exit_zero_witness :
    unitBox.DistanceToOut ⟨0, -1, 0⟩ ⟨0, -1, 0⟩ = 0 :=
  (Box.DistanceToOut_exit_zero unitBox ⟨0, -1, 0⟩ ⟨0, -1, 0⟩
    (by norm_num [unitBox, Box.new]) (by norm_num [unitBox, Box.new])
    (by norm_num [unitBox, Box.new])).2
    (Or.inr (Or.inl (Or.inr ⟨by norm_num [unitBox, Box.new], by norm_num⟩)))

/-- C2: for a box with positive half-lengths and a point and direction for
which no axis satisfies the outward-exit condition, `Box::DistanceToOut(p, v)`
is 1e20 when all three direction components are zero, and otherwise equals the
minimum of `(sign(v_i) * h_i - p_i) / v_i` over the axes with `v_i ≠ 0`
whenever that minimum is at most 1e20. -/
theorem Box.DistanceToOut_eq_min_faceDistances (b : Box) (p v : Vec3)
    (hx : 0 < b.fDx) (hy : 0 < b.fDy) (hz : 0 < b.fDz)
    (hno : ¬ exitsOn b.fDx p.x v.x ∧ ¬ exitsOn b.fDy p.y v.y ∧ ¬ exitsOn b.fDz p.z v.z) :
    (v.x = 0 ∧ v.y = 0 ∧ v.z = 0 → b.DistanceToOut p v = 100000000000000000000) ∧
    (∀ m, (faceDistances b p v).min? = some m → m ≤ 100000000000000000000 →
      b.DistanceToOut p v = m) := by
  rw [Box.DistanceToOut_of_no_exit b p v hno.1 hno.2.1 hno.2.2]
  refine ⟨fun h0 => by simp [h0.1, h0.2.1, h0.2.2], fun m hm hle => ?_⟩
  unfold faceDistances faceDistance at hm
  by_cases h1 : v.x = 0 <;> by_cases h2 : v.y = 0 <;> by_cases h3 : v.z = 0 <;>
    simp [h1, h2, h3, List.min?] at hm ⊢
  all_goals subst hm
  all_goals try rw [copysign_eq_signum_mul hx h1]
  all_goals try rw [copysign_eq_signum_mul hy h2]
  all_goals try rw [copysign_eq_signum_mul hz h3]
  all_goals first
    | rfl
    | exact min_eq_right hle
    | (rw [min_assoc]; exact min_eq_right hle)

theorem copysign_sub_div_pos {h p v : ℚ} (hp : |p| < h) (hv : v ≠ 0) :
    0 < (copysign h v - p) / v := by
  have hh : 0 < h := lt_of_le_of_lt (abs_nonneg p) hp
  obtain ⟨h1, h2⟩ := abs_lt.mp hp
  unfold copysign
  rcases lt_or_gt_of_ne hv with hneg | hpos
  · rw [if_pos hneg, abs_of_pos hh]
    exact div_pos_of_neg_of_neg (by linarith) hneg
  · rw [if_neg (not_lt.mpr hpos.le), abs_of_pos hh]
    exact div_pos (by linarith) hpos

theorem abs_advance_le {h p v d : ℚ} (hp : |p| < h) (hd : 0 ≤ d)
    (hle : v ≠ 0 → d ≤ (copysign h v - p) / v) : |p + d * v| ≤ h := by
  have hh : 0 < h := lt_of_le_of_lt (abs_nonneg p) hp
  obtain ⟨h1, h2⟩ := abs_lt.mp hp
  rcases lt_trichotomy v 0 with hneg | hzero | hpos
  · have hd2 := hle hneg.ne
    unfold copysign at hd2
    rw [if_pos hneg, abs_of_pos hh, le_div_iff_of_neg hneg] at hd2
    have : d * v ≤ 0 := mul_nonpos_of_nonneg_of_nonpos hd hneg.le
    exact abs_le.mpr ⟨by linarith, by linarith⟩
  · subst hzero
    simpa using hp.le
  · have hd2 := hle hpos.ne'
    unfold copysign at hd2
    rw [if_neg (not_lt.mpr hpos.le), abs_of_pos hh, le_div_iff₀ hpos] at hd2
    have : 0 ≤ d * v := mul_nonneg hd hpos.le
    exact abs_le.mpr ⟨by linarith, by linarith⟩

theorem abs_advance_hit {h p v : ℚ} (hh : 0 < h) (hv : v ≠ 0) :
    |p + (copysign h v - p) / v * v| = h := by
  rw [div_mul_cancel₀ _ hv]
  unfold copysign
  split_ifs
  · rw [show p + (-|h| - p) = -|h| by ring, abs_neg, abs_abs, abs_of_pos hh]
  · rw [show p + (|h| - p) = |h| by ring, abs_abs, abs_of_pos hh]

/-- Past the early returns and for a point strictly inside: the distance is
positive, bounded by the face distance of every moving axis, and equal to one
of them or to the constant 1e20 of a zero x component. -/
theorem Box.DistanceToOut_inside_facts (b : Box) (p v : Vec3)
    (hx : |p.x| < b.fDx) (hy : |p.y| < b.fDy) (hz : |p.z| < b.fDz)
    (hnx : ¬ exitsOn b.fDx p.x v.x) (hny : ¬ exitsOn b.fDy p.y v.y)
    (hnz : ¬ exitsOn b.fDz p.z v.z) :
    0 < b.DistanceToOut p v ∧
    (v.x ≠ 0 → b.DistanceToOut p v ≤ (copysign b.fDx v.x - p.x) / v.x) ∧
    (v.y ≠ 0 → b.DistanceToOut p v ≤ (copysign b.fDy v.y - p.y) / v.y) ∧
    (v.z ≠ 0 → b.DistanceToOut p v ≤ (copysign b.fDz v.z - p.z) / v.z) ∧
    ((v.x ≠ 0 ∧ b.DistanceToOut p v = (copysign b.fDx v.x - p.x) / v.x) ∨
      (v.y ≠ 0 ∧ b.DistanceToOut p v = (copysign b.fDy v.y - p.y) / v.y) ∨
      (v.z ≠ 0 ∧ b.DistanceToOut p v = (copysign b.fDz v.z - p.z) / v.z) ∨
      (v.x = 0 ∧ b.DistanceToOut p v = 100000000000000000000)) := by
  rw [Box.DistanceToOut_of_no_exit b p v hnx hny hnz]
  have px := fun hv => copysign_sub_div_pos (v := v.x) hx hv
  have py := fun hv => copysign_sub_div_pos (v := v.y) hy hv
  have pz := fun hv => copysign_sub_div_pos (v := v.z) hz hv
  generalize (copysign b.fDx v.x - p.x) / v.x = tx at px ⊢
  generalize (copysign b.fDy v.y - p.y) / v.y = ty at py ⊢
  generalize (copysign b.fDz v.z - p.z) / v.z = tz at pz ⊢
  by_cases h1 : v.x = 0 <;> by_cases h2 : v.y = 0 <;> by_cases h3 : v.z = 0 <;>
    simp only [h1, h2, h3, if_true, if_false, ne_eq, not_true_eq_false, not_false_eq_true,
      false_and, true_and, false_or, or_false, IsEmpty.forall_iff, forall_true_left, min_self]
  all_goals have qx := px
  all_goals have qy := py
  all_goals have qz := pz
  all_goals simp only [h1, h2, h3, ne_eq, not_true_eq_false, not_false_eq_true,
      IsEmpty.forall_iff, forall_true_left] at qx qy qz
  all_goals try simp only [min_def]
  all_goals try split_ifs
  all_goals try simp only [le_refl, true_and, and_true, or_true, true_or, and_self]
  all_goals try (refine ⟨?_, ?_⟩)
  all_goals try (refine ⟨?_, ?_⟩)
  all_goals try linarith

theorem nearFace_of_exitsOn {h p v : ℚ} (he : exitsOn h p v) : h - |p| ≤ 1 / 1000000000 := by
  have := he.1
  linarith

theorem nearFace_of_hit {h p v d : ℚ} (hh : 0 < h) (hv : v ≠ 0)
    (hd : d = (copysign h v - p) / v) : h - |p + d * v| ≤ 1 / 1000000000 := by
  rw [hd, abs_advance_hit hh hv]; norm_num

/-- C3 (amended): for a point strictly inside the box and a unit direction,
provided `v.x ≠ 0` or the smallest face distance over the moving axes is at
most 1e20, the distance is non-negative and the advanced point lies in the
closed box within the tolerance 1e-9 of at least one face. -/
theorem Box.DistanceToOut_exitsAtFace (b : Box) (p v : Vec3)
    (hin : strictlyInside b p) (hunit : isUnit v)
    (hcap : v.x = 0 → ∀ m, (faceDistances b p v).min? = some m →
      m ≤ 100000000000000000000) :
    exitsAtFace b p v := by
  obtain ⟨hx, hy, hz⟩ := hin
  have px : 0 < b.fDx := lt_of_le_of_lt (abs_nonneg _) hx
  have py : 0 < b.fDy := lt_of_le_of_lt (abs_nonneg _) hy
  have pz : 0 < b.fDz := lt_of_le_of_lt (abs_nonneg _) hz
  unfold exitsAtFace insideClosed nearFace advance
  by_cases hex : exitsOn b.fDx p.x v.x ∨ exitsOn b.fDy p.y v.y ∨ exitsOn b.fDz p.z v.z
  · rw [Box.DistanceToOut_of_exit b p v hex]
    simp only [zero_mul, add_zero, le_refl, true_and]
    refine ⟨⟨hx.le, hy.le, hz.le⟩, ?_⟩
    rcases hex with h | h | h
    · exact Or.inl (nearFace_of_exitsOn h)
    · exact Or.inr (Or.inl (nearFace_of_exitsOn h))
    · exact Or.inr (Or.inr (nearFace_of_exitsOn h))
  · push_neg at hex
    obtain ⟨hpos, lx, ly, lz, hsel⟩ :=
      Box.DistanceToOut_inside_facts b p v hx hy hz hex.1 hex.2.1 hex.2.2
    refine ⟨hpos.le, ⟨abs_advance_le hx hpos.le lx, abs_advance_le hy hpos.le ly,
      abs_advance_le hz hpos.le lz⟩, ?_⟩
    have key : (v.x ≠ 0 ∧ b.DistanceToOut p v = (copysign b.fDx v.x - p.x) / v.x) ∨
        (v.y ≠ 0 ∧ b.DistanceToOut p v = (copysign b.fDy v.y - p.y) / v.y) ∨
        (v.z ≠ 0 ∧ b.DistanceToOut p v = (copysign b.fDz v.z - p.z) / v.z) := by
      rcases hsel with h | h | h | ⟨h0, hd⟩
      · exact Or.inl h
      · exact Or.inr (Or.inl h)
      · exact Or.inr (Or.inr h)
      · right
        have hc := hcap h0
        unfold faceDistances faceDistance at hc
        by_cases h2 : v.y = 0 <;> by_cases h3 : v.z = 0
        · exfalso
          unfold isUnit at hunit
          rw [h0, h2, h3] at hunit
          norm_num at hunit
        · have hm := hc ((signum v.z * b.fDz - p.z) / v.z) (by simp [h0, h2, h3, List.min?])
          rw [← copysign_eq_signum_mul pz h3] at hm
          exact Or.inr ⟨h3, le_antisymm (lz h3) (by rw [hd]; exact hm)⟩
        · have hm := hc ((signum v.y * b.fDy - p.y) / v.y) (by simp [h0, h2, h3, List.min?])
          rw [← copysign_eq_signum_mul py h2] at hm
          exact Or.inl ⟨h2, le_antisymm (ly h2) (by rw [hd]; exact hm)⟩
        · have hm := hc (min ((signum v.y * b.fDy - p.y) / v.y)
            ((signum v.z * b.fDz - p.z) / v.z)) (by simp [h0, h2, h3, List.min?])
          rw [← copysign_eq_signum_mul py h2, ← copysign_eq_signum_mul pz h3] at hm
          rcases min_choice ((copysign b.fDy v.y - p.y) / v.y)
            ((copysign b.fDz v.z - p.z) / v.z) with hmin | hmin
          · rw [hmin] at hm
            exact Or.inl ⟨h2, le_antisymm (ly h2) (by rw [hd]; exact hm)⟩
          · rw [hmin] at hm
            exact Or.inr ⟨h3, le_antisymm (lz h3) (by rw [hd]; exact hm)⟩
    rcases key with ⟨hv, hd⟩ | ⟨hv, hd⟩ | ⟨hv, hd⟩
    · exact Or.inl (nearFace_of_hit px hv hd)
    · exact Or.inr (Or.inl (nearFace_of_hit py hv hd))
    · exact Or.inr (Or.inr (nearFace_of_hit pz hv hd))

/-- Witness of C2: the unit box, the centre, direction `(0, 1/2, -1)`: the
face distances are 2 and 1. -/
theorem Box.DistanceToOut_eq_min_faceDistances_witness :
    unitBox.DistanceToOut ⟨0, 0, 0⟩ ⟨0, 1 / 2, -1⟩ = 1 :=
  (Box.DistanceToOut_eq_min_faceDistances unitBox ⟨0, 0, 0⟩ ⟨0, 1 / 2, -1⟩
    (by norm_num [unitBox, Box.new]) (by norm_num [unitBox, Box.new])
    (by norm_num [unitBox, Box.new])
    (by norm_num [exitsOn, unitBox, Box.new])).2 1
    (by norm_num [faceDistances, faceDistance, signum, unitBox, Box.new, List.min?])
    (by norm_num)

/-- Counterexample of C3 as stated: in a box with half-lengths (1, 1e21, 1) the
centre with the unit direction `(0, 1, 0)` gets the distance 1e20, and the
advanced point `(0, 1e20, 0)` is not within 1e-9 of any face. -/
theorem Box.DistanceToOut_exitsAtFace_fails :
    strictlyInside wideBox ⟨0, 0, 0⟩ ∧ isUnit ⟨0, 1, 0⟩ ∧
      wideBox.DistanceToOut ⟨0, 0, 0⟩ ⟨0, 1, 0⟩ = 100000000000000000000 ∧
      ¬ exitsAtFace wideBox ⟨0, 0, 0⟩ ⟨0, 1, 0⟩ := by
  have hd : wideBox.DistanceToOut ⟨0, 0, 0⟩ ⟨0, 1, 0⟩ = 100000000000000000000 := by
    norm_num [Box.DistanceToOut, Box.fDelta, kCarTolerance, wideBox, Box.new, copysign]
  refine ⟨by norm_num [strictlyInside, wideBox, Box.new], by norm_num [isUnit], hd, ?_⟩
  unfold exitsAtFace nearFace advance
  rw [hd]
  norm_num [wideBox, Box.new]

/-- Witness of C3 (amended): the unit box, the centre, the unit direction
`(0, 3/5, 4/5)`. -/
theorem Box.DistanceToOut_exitsAtFace_witness :
    exitsAtFace unitBox ⟨0, 0, 0⟩ ⟨0, 3 / 5, 4 / 5⟩ :=
  Box.DistanceToOut_exitsAtFace unitBox ⟨0, 0, 0⟩ ⟨0, 3 / 5, 4 / 5⟩
    (by norm_num [strictlyInside, unitBox, Box.new]) (by norm_num [isUnit])
    (by
      intro _ m hm
      have hl : (faceDistances unitBox ⟨0, 0, 0⟩ ⟨0, 3 / 5, 4 / 5⟩).min? = some (5 / 4) := by
        norm_num [faceDistances, faceDistance, signum, unitBox, Box.new, List.min?]
      rw [hl] at hm
      rw [← Option.some.inj hm]
      norm_num)

/-- C4: the safety `Box::DistanceToOut(p)` equals
`max(0, min over the three axes of (h_i - |p_i|))`. -/
theorem Box.safety_eq_max (b : Box) (p : Vec3) :
    b.safety p = max 0 (min (min (b.fDx - |p.x|) (b.fDy - |p.y|)) (b.fDz - |p.z|)) := by
  unfold Box.safety
  simp only
  split_ifs with h
  · exact (max_eq_right h.le).symm
  · exact (max_eq_left (not_lt.mp h)).symm

/-- C5, the code at the failing input: in the unit box the point
`(1 - 1e-10, 0, 0)`, which is 1e-10 from the face `x = 1` and so within the
tolerance, has the safety 1e-10 and not 0. -/
theorem Box.safety_within_tolerance :
    nearFace unitBox ⟨9999999999 / 10000000000, 0, 0⟩ ∧
      unitBox.safety ⟨9999999999 / 10000000000, 0, 0⟩ = 1 / 10000000000 := by
  have ha : |(9999999999 : ℚ) / 10000000000| = 9999999999 / 10000000000 :=
    abs_of_pos (by norm_num)
  constructor
  · norm_num [nearFace, unitBox, Box.new, ha]
  · norm_num [Box.safety, unitBox, Box.new, ha]

/-- C6: `Box::SetHalfLength(val, idx)` leaves the box unchanged when
`val ≤ 2e-9`; when `val > 2e-9` and `idx` is 0, 1 or 2, `GetHalfLength(idx)`
returns `val` afterwards and the other two half-lengths and the material index
are unchanged. -/
theorem Box.SetHalfLength_spec (b : Box) (val : ℚ) (idx : Int) :
    (val ≤ 2 * (1 / 1000000000) → b.SetHalfLength val idx = b) ∧
    (val > 2 * (1 / 1000000000) → (idx = 0 ∨ idx = 1 ∨ idx = 2) →
      (b.SetHalfLength val idx).GetHalfLength idx = val ∧
      (∀ j : Int, (j = 0 ∨ j = 1 ∨ j = 2) → j ≠ idx →
        (b.SetHalfLength val idx).GetHalfLength j = b.GetHalfLength j) ∧
      (b.SetHalfLength val idx).GetMaterialIndx = b.GetMaterialIndx) := by
  constructor
  · intro h
    unfold Box.SetHalfLength kCarTolerance
    rw [if_neg (not_lt.mpr h)]
  · intro h hidx
    unfold Box.SetHalfLength kCarTolerance
    rw [if_pos h]
    rcases hidx with rfl | rfl | rfl
    · refine ⟨by simp [Box.GetHalfLength], ?_, by simp [Box.GetMaterialIndx]⟩
      rintro j (rfl | rfl | rfl) hj <;> simp [Box.GetHalfLength] at hj ⊢
    · refine ⟨by simp [Box.GetHalfLength], ?_, by simp [Box.GetMaterialIndx]⟩
      rintro j (rfl | rfl | rfl) hj <;> simp [Box.GetHalfLength] at hj ⊢
    · refine ⟨by simp [Box.GetHalfLength], ?_, by simp [Box.GetMaterialIndx]⟩
      rintro j (rfl | rfl | rfl) hj <;> simp [Box.GetHalfLength] at hj ⊢

/-- Witness of C6: on the unit box, `SetHalfLength(2e-9, 0)` changes nothing
and `SetHalfLength(5, 1)` makes `GetHalfLength(1)` return 5. -/
theorem Box.SetHalfLength_spec_witness :
    unitBox.SetHalfLength (2 / 1000000000) 0 = unitBox ∧
      (unitBox.SetHalfLength 5 1).GetHalfLength 1 = 5 :=
  ⟨(Box.SetHalfLength_spec unitBox (2 / 1000000000) 0).1 (by norm_num),
    ((Box.SetHalfLength_spec unitBox 5 1).2 (by norm_num) (Or.inr (Or.inl rfl))).1⟩

/-! ## Geometry: theorems -/

theorem Geometry.UpdateParameters_consistent (g : Geometry) :
    (Geometry.UpdateParameters g).consistent := by
  simp only [Geometry.consistent, Geometry.UpdateParameters, Geometry.GetCaloThick,
    Geometry.GetCaloStartXposition, Geometry.GetPrimaryXposition, true_and]
  constructor <;> ring

theorem Geometry.call_consistent (g : Geometry) (c : GeometryCall) (h : g.consistent) :
    (g.call c).consistent := by
  cases c with
  | SetNumLayers n =>
    simp only [Geometry.call, Geometry.SetNumLayers]
    split_ifs
    · exact Geometry.UpdateParameters_consistent _
    · exact h
  | SetAbsThick t => exact Geometry.UpdateParameters_consistent _
  | SetGapThick t => exact Geometry.UpdateParameters_consistent _
  | SetCaloSizeYZ val => exact Geometry.UpdateParameters_consistent _

theorem Geometry.foldl_call_consistent (calls : List GeometryCall) (g : Geometry)
    (h : g.consistent) : (calls.foldl Geometry.call g).consistent := by
  induction calls generalizing g with
  | nil => exact h
  | cons c cs ih => exact ih _ (Geometry.call_consistent g c h)

/-- C7: in every state reached from the constructor by a sequence of
`SetNumLayers`, `SetAbsThick`, `SetGapThick` and `SetCaloSizeYZ` calls, the
layer thickness is absorber + gap thickness, the calorimeter thickness is
number of layers times layer thickness, `GetCaloStartXposition()` is
`-0.5 * calorimeter thickness` and `GetPrimaryXposition()` is the mid-point of
`-0.55 * calorimeter thickness` and the calorimeter start, `-0.525 *
calorimeter thickness`. -/
theorem Geometry.run_consistent (calls : List GeometryCall) :
    (Geometry.run calls).consistent :=
  Geometry.foldl_call_consistent calls Geometry.new (Geometry.UpdateParameters_consistent _)

theorem Box.SetHalfLength_chain (b : Box) (tx ty tz : ℚ) :
    Box.updatedFrom b (((b.SetHalfLength tx 0).SetHalfLength ty 1).SetHalfLength tz 2)
      tx ty tz := by
  have e : (2 : ℚ) * kCarTolerance = 2 / 1000000000 := by norm_num [kCarTolerance]
  unfold Box.updatedFrom storedOrKept Box.SetHalfLength
  rw [e]
  by_cases h1 : tx > 2 / 1000000000 <;> by_cases h2 : ty > 2 / 1000000000 <;>
    by_cases h3 : tz > 2 / 1000000000 <;> simp [h1, h2, h3, Box.GetHalfLength]

theorem Geometry.UpdateParameters_propagatedFrom (g : Geometry) :
    Geometry.propagatedFrom g (Geometry.UpdateParameters g) := by
  have hw : ∀ c : ℚ, (1 / 2) * ((11 / 10) * c) = (11 / 20) * c := fun c => by ring
  refine ⟨?_, ?_, ?_, ?_, ?_⟩
  · rw [← hw (Geometry.UpdateParameters g).fCaloThick]
    exact Box.SetHalfLength_chain g.fBoxWorld _ _ _
  · exact Box.SetHalfLength_chain (g.fBoxCalo.SetMaterialIndx 0) _ _ _
  · exact Box.SetHalfLength_chain g.fBoxLayer _ _ _
  · exact Box.SetHalfLength_chain g.fBoxAbs _ _ _
  · exact Box.SetHalfLength_chain g.fBoxGap _ _ _

/-- Counterexample of C8 as stated: after `SetGapThick(0)` on the default
geometry the configuration is in the documented domain, but the gap box keeps
the x half-length 2.85 while half the gap thickness is 0. -/
theorem Geometry.SetGapThick_zero_not_propagated :
    (Geometry.new.call (.SetGapThick 0)).inDomain ∧
      (Geometry.new.call (.SetGapThick 0)).fGapThick = 0 ∧
      (Geometry.new.call (.SetGapThick 0)).fBoxGap.GetHalfLength 0 = 57 / 20 ∧
      ¬ (Geometry.new.call (.SetGapThick 0)).propagated := by
  have hg : (Geometry.new.call (.SetGapThick 0)).fBoxGap.GetHalfLength 0 = 57 / 20 := by
    norm_num [Geometry.call, Geometry.SetGapThick, Geometry.new, Geometry.UpdateParameters,
      Box.SetHalfLength, Box.GetHalfLength, Box.new, kCarTolerance]
  have h0 : (Geometry.new.call (.SetGapThick 0)).fGapThick = 0 := rfl
  refine ⟨?_, h0, hg, ?_⟩
  · norm_num [Geometry.inDomain, Geometry.call, Geometry.SetGapThick, Geometry.new,
      Geometry.UpdateParameters]
  · intro h
    have h5 := h.2.2.2.2.1
    rw [hg, h0] at h5
    norm_num at h5

/-- C8 (amended): after each of `SetNumLayers` (with at least one layer),
`SetAbsThick`, `SetGapThick` and `SetCaloSizeYZ` returns, each half-length of
the five boxes whose new value exceeds 2e-9 equals the new value (x: half the
calorimeter, layer, absorber and gap thickness, world `0.55 * calorimeter
thickness`; y and z: half the transverse size, world 1.1 times that), and each
half-length whose new value is at most 2e-9 keeps the value it had before the
call. -/
theorem Geometry.call_propagatedFrom (g : Geometry) (c : GeometryCall)
    (hn : ∀ n, c = .SetNumLayers n → 1 ≤ n) :
    Geometry.propagatedFrom g (g.call c) := by
  cases c with
  | SetNumLayers n =>
    have h1 : n > 0 := by
      have := hn n rfl
      omega
    simp only [Geometry.call, Geometry.SetNumLayers, if_pos h1]
    exact Geometry.UpdateParameters_propagatedFrom { g with fNumLayers := n }
  | SetAbsThick t => exact Geometry.UpdateParameters_propagatedFrom { g with fAbsThick := t }
  | SetGapThick t => exact Geometry.UpdateParameters_propagatedFrom { g with fGapThick := t }
  | SetCaloSizeYZ val =>
    exact Geometry.UpdateParameters_propagatedFrom { g with fCaloSizeYZ := val }

/-- Witness of C8 (amended): `SetNumLayers(3)` on the default geometry. -/
theorem Geometry.call_propagatedFrom_witness :
    Geometry.propagatedFrom Geometry.new (Geometry.new.call (.SetNumLayers 3)) :=
  Geometry.call_propagatedFrom Geometry.new (.SetNumLayers 3) (by
    intro n h
    injection h with h
    omega)

/-- C9: if the calorimeter box's `DistanceToOut(r, v)` is exactly 0,
`Geometry::CalculateDistanceToOut` returns 1e20 with volume = world box, layer
index -1, absorber/gap index -1, and the point unchanged. -/
theorem Geometry.CalculateDistanceToOut_leaving (g : Geometry) (r v : Vec3)
    (h : g.fBoxCalo.DistanceToOut r v = 0) :
    g.CalculateDistanceToOut r v =
      { dist := 100000000000000000000, r := r, currentVolume := .world,
        indxLayer := -1, indxAbs := -1 } := by
  unfold Geometry.CalculateDistanceToOut
  simp only [h, if_true]

/-- Counterexample to C10 as stated: in the default geometry the point
`(1e12, 0, 0)` moving along `(-1, 0, 0)` has the non-zero calorimeter distance
`1e12 + 200`, and the integer part of
`(x + 0.5 * calorimeter thickness) / layer thickness` is 125000000025, which
is above the largest `int` 2147483647: the conversion `int(...)` is undefined
there and the code cannot report that integer. -/
theorem Geometry.layer_index_out_of_range :
    Geometry.new.fBoxCalo.DistanceToOut ⟨1000000000000, 0, 0⟩ ⟨-1, 0, 0⟩ =
      1000000000200 ∧
    truncToInt ((1000000000000 + (1 / 2) * Geometry.new.fCaloThick) /
      Geometry.new.fLayerThick) = 125000000025 ∧
    ¬ (125000000025 : Int) ≤ 2147483647 ∧
    Geometry.new.layerIndexInt ⟨1000000000000, 0, 0⟩ = none := by
  have hcalo : Geometry.new.fBoxCalo = Box.new "Calo" 0 200 200 200 := by
    norm_num [Geometry.new, Geometry.UpdateParameters, Box.SetHalfLength, Box.SetMaterialIndx,
      Box.new, kCarTolerance]
  have ht : Geometry.new.fCaloThick = 400 ∧ Geometry.new.fLayerThick = 8 := by
    norm_num [Geometry.new, Geometry.UpdateParameters]
  have hq : truncToInt ((1000000000000 + (1 / 2) * Geometry.new.fCaloThick) /
      Geometry.new.fLayerThick) = 125000000025 := by
    rw [ht.1, ht.2]
    norm_num [truncToInt]
  refine ⟨?_, hq, by decide, ?_⟩
  · rw [hcalo]
    have ha : |(1000000000000 : ℚ)| = 1000000000000 := abs_of_pos (by norm_num)
    norm_num [Box.DistanceToOut, Box.new, Box.fDelta, kCarTolerance, copysign, ha]
  · unfold Geometry.layerIndexInt intOfDouble
    rw [if_neg (by rw [ht.2]; norm_num)]
    show (if _ ∧ _ then _ else _) = _
    rw [hq, if_neg (by decide)]

/-- C10 (amended): when the calorimeter distance is non-zero, the layer
thickness is non-zero and the integer part `i` of
`(x + 0.5 * calorimeter thickness) / layer thickness` is a value of `int`
(`-2147483648 ≤ i ≤ 2147483647`), `Geometry::CalculateDistanceToOut` reports
the layer index `i`, the point translated by the centre of layer `i` has the
x coordinate `x - (-0.5 * calorimeter thickness + (i + 0.5) * layer
thickness)`, and if the layer box's `DistanceToOut` at that translated point
is exactly 0 it returns distance 0, layer index `i`, absorber/gap index -1,
volume = world box, and leaves the translated point. -/
theorem Geometry.CalculateDistanceToOut_layer (g : Geometry) (r v : Vec3) (i : Int)
    (h : g.fBoxCalo.DistanceToOut r v ≠ 0)
    (hi : g.layerIndexInt r = some i) :
    g.fLayerThick ≠ 0 ∧ -2147483648 ≤ i ∧ i ≤ 2147483647 ∧
    i = truncToInt ((r.x + (1 / 2) * g.fCaloThick) / g.fLayerThick) ∧
    (g.CalculateDistanceToOut r v).indxLayer = i ∧
    g.toLayerFrame r =
      ⟨r.x - (-(1 / 2) * g.fCaloThick + ((i : ℚ) + 1 / 2) * g.fLayerThick), r.y, r.z⟩ ∧
    (g.fBoxLayer.DistanceToOut (g.toLayerFrame r) v = 0 →
      g.CalculateDistanceToOut r v =
        { dist := 0, r := g.toLayerFrame r, currentVolume := .world,
          indxLayer := i, indxAbs := -1 }) := by
  unfold Geometry.layerIndexInt intOfDouble at hi
  by_cases hL : g.fLayerThick = 0
  · rw [if_pos hL] at hi
    exact absurd hi (by simp)
  · rw [if_neg hL] at hi
    by_cases hr : -2147483648 ≤ truncToInt ((r.x + (1 / 2) * g.fCaloThick) / g.fLayerThick) ∧
        truncToInt ((r.x + (1 / 2) * g.fCaloThick) / g.fLayerThick) ≤ 2147483647
    · rw [if_pos hr] at hi
      have e : truncToInt ((r.x + (1 / 2) * g.fCaloThick) / g.fLayerThick) = i :=
        Option.some.inj hi
      have el : g.layerIndex r = i := e
      refine ⟨hL, e ▸ hr.1, e ▸ hr.2, e.symm, ?_, ?_, ?_⟩
      · rw [← el]
        unfold Geometry.CalculateDistanceToOut Geometry.layerIndex
        simp only [h, if_false]
        split_ifs <;> rfl
      · unfold Geometry.toLayerFrame
        rw [el]
      · intro h0
        rw [← el]
        unfold Geometry.CalculateDistanceToOut
        unfold Geometry.toLayerFrame Geometry.layerIndex at h0 ⊢
        simp only [h, if_false]
        rw [if_pos h0]
    · rw [if_neg hr] at hi
      exact absurd hi (by simp)

theorem Geometry.new_fBoxCalo : Geometry.new.fBoxCalo = Box.new "Calo" 0 200 200 200 := by
  norm_num [Geometry.new, Geometry.UpdateParameters, Box.SetHalfLength, Box.SetMaterialIndx,
    Box.new, kCarTolerance]

theorem Geometry.new_fBoxLayer : Geometry.new.fBoxLayer = Box.new "Layer" 0 4 200 200 := by
  norm_num [Geometry.new, Geometry.UpdateParameters, Box.SetHalfLength, Box.new, kCarTolerance]

theorem Geometry.new_thick : Geometry.new.fCaloThick = 400 ∧ Geometry.new.fLayerThick = 8 := by
  norm_num [Geometry.new, Geometry.UpdateParameters]

/-- Witness of C9: the default geometry, the point `(200, 0, 0)` on the right
face of the calorimeter, direction `(1, 0, 0)`. -/
theorem Geometry.CalculateDistanceToOut_leaving_witness :
    Geometry.new.CalculateDistanceToOut ⟨200, 0, 0⟩ ⟨1, 0, 0⟩ =
      { dist := 100000000000000000000, r := ⟨200, 0, 0⟩, currentVolume := .world,
        indxLayer := -1, indxAbs := -1 } :=
  Geometry.CalculateDistanceToOut_leaving Geometry.new ⟨200, 0, 0⟩ ⟨1, 0, 0⟩ (by
    rw [Geometry.new_fBoxCalo]
    norm_num [Box.DistanceToOut, Box.new, Box.fDelta, kCarTolerance])

/-- Witness of C10 (amended): the default geometry, the point `(-192, 0, 0)`
on the boundary of layers 0 and 1, direction `(-1, 0, 0)`: the integer part of
the quotient is 1, a value of `int`; the point is located in layer 1, on whose
left face `x = -4` it is moving out. -/
theorem Geometry.CalculateDistanceToOut_layer_witness :
    Geometry.new.layerIndexInt ⟨-192, 0, 0⟩ = some 1 ∧
      Geometry.new.toLayerFrame ⟨-192, 0, 0⟩ = ⟨-4, 0, 0⟩ ∧
      Geometry.new.CalculateDistanceToOut ⟨-192, 0, 0⟩ ⟨-1, 0, 0⟩ =
        { dist := 0, r := Geometry.new.toLayerFrame ⟨-192, 0, 0⟩, currentVolume := .world,
          indxLayer := 1, indxAbs := -1 } := by
  have hi : Geometry.new.layerIndex ⟨-192, 0, 0⟩ = 1 := by
    norm_num [Geometry.layerIndex, Geometry.new_thick.1, Geometry.new_thick.2, truncToInt]
  have hf : Geometry.new.toLayerFrame ⟨-192, 0, 0⟩ = ⟨-4, 0, 0⟩ := by
    unfold Geometry.toLayerFrame
    rw [hi, Geometry.new_thick.1, Geometry.new_thick.2]
    norm_num
  have hq : Geometry.new.layerIndexInt ⟨-192, 0, 0⟩ = some 1 := by
    unfold Geometry.layerIndexInt intOfDouble
    rw [if_neg (by rw [Geometry.new_thick.2]; norm_num)]
    have e : truncToInt ((-192 + (1 / 2) * Geometry.new.fCaloThick) /
        Geometry.new.fLayerThick) = 1 := hi
    show (if _ ∧ _ then _ else _) = _
    rw [e, if_pos (by decide)]
  refine ⟨hq, hf, (Geometry.CalculateDistanceToOut_layer Geometry.new ⟨-192, 0, 0⟩
    ⟨-1, 0, 0⟩ 1 ?_ hq).2.2.2.2.2.2 ?_⟩
  · rw [Geometry.new_fBoxCalo]
    norm_num [Box.DistanceToOut, Box.new, Box.fDelta, kCarTolerance, copysign]
  · rw [hf, Geometry.new_fBoxLayer]
    norm_num [Box.DistanceToOut, Box.new, Box.fDelta, kCarTolerance]

/-- The third stage of `CalculateDistanceToOut`, reached when neither the
calorimeter nor the layer distance is zero. -/
theorem Geometry.CalculateDistanceToOut_of_inside (g : Geometry) (r v : Vec3)
    (hcalo : g.fBoxCalo.DistanceToOut r v ≠ 0)
    (hlayer : g.fBoxLayer.DistanceToOut (g.toLayerFrame r) v ≠ 0) :
    g.CalculateDistanceToOut r v =
      if g.inAbsorber r then
        { dist := g.fBoxAbs.DistanceToOut (g.toSlabFrame r g.absCentre) v,
          r := g.toSlabFrame r g.absCentre, currentVolume := .abs,
          indxLayer := g.layerIndex r, indxAbs := 0 }
      else
        { dist := g.fBoxGap.DistanceToOut (g.toSlabFrame r g.gapCentre) v,
          r := g.toSlabFrame r g.gapCentre, currentVolume := .gap,
          indxLayer := g.layerIndex r, indxAbs := 1 } := by
  unfold Geometry.CalculateDistanceToOut Geometry.inAbsorber Geometry.toSlabFrame
    Geometry.absCentre Geometry.gapCentre
  unfold Geometry.toLayerFrame Geometry.layerIndex at hlayer ⊢
  simp only [hcalo, hlayer, if_false]

/-- C11: when both the calorimeter and the layer distance are non-zero,
`Geometry::CalculateDistanceToOut` selects the absorber (index 0, absorber
box) exactly when the layer-local x plus half the layer thickness is less than
the absorber thickness or the gap thickness is 0, and the gap (index 1, gap
box) otherwise; the point is translated by the centre of the selected slab and
the returned distance is the selected box's `DistanceToOut` there. -/
theorem Geometry.CalculateDistanceToOut_slab (g : Geometry) (r v : Vec3)
    (hcalo : g.fBoxCalo.DistanceToOut r v ≠ 0)
    (hlayer : g.fBoxLayer.DistanceToOut (g.toLayerFrame r) v ≠ 0) :
    g.CalculateDistanceToOut r v =
      if g.inAbsorber r then
        { dist := g.fBoxAbs.DistanceToOut (g.toSlabFrame r g.absCentre) v,
          r := g.toSlabFrame r g.absCentre, currentVolume := .abs,
          indxLayer := g.layerIndex r, indxAbs := 0 }
      else
        { dist := g.fBoxGap.DistanceToOut (g.toSlabFrame r g.gapCentre) v,
          r := g.toSlabFrame r g.gapCentre, currentVolume := .gap,
          indxLayer := g.layerIndex r, indxAbs := 1 } :=
  Geometry.CalculateDistanceToOut_of_inside g r v hcalo hlayer

theorem Geometry.new_absgap : Geometry.new.fAbsThick = 23 / 10 ∧
    Geometry.new.fGapThick = 57 / 10 := ⟨rfl, rfl⟩

theorem Geometry.new_toLayerFrame_inside :
    Geometry.new.toLayerFrame ⟨-199, 0, 0⟩ = ⟨-3, 0, 0⟩ := by
  have hi : Geometry.new.layerIndex ⟨-199, 0, 0⟩ = 0 := by
    norm_num [Geometry.layerIndex, Geometry.new_thick.1, Geometry.new_thick.2, truncToInt,
      Int.floor_eq_iff]
  unfold Geometry.toLayerFrame
  rw [hi, Geometry.new_thick.1, Geometry.new_thick.2]
  norm_num

/-- Witness of C11: the default geometry, the point `(-199, 0, 0)` one
millimetre inside the first absorber, direction `(1, 0, 0)`. -/
theorem Geometry.CalculateDistanceToOut_slab_witness :
    Geometry.new.inAbsorber ⟨-199, 0, 0⟩ ∧
    Geometry.new.CalculateDistanceToOut ⟨-199, 0, 0⟩ ⟨1, 0, 0⟩ =
      if Geometry.new.inAbsorber ⟨-199, 0, 0⟩ then
        { dist := Geometry.new.fBoxAbs.DistanceToOut
            (Geometry.new.toSlabFrame ⟨-199, 0, 0⟩ Geometry.new.absCentre) ⟨1, 0, 0⟩,
          r := Geometry.new.toSlabFrame ⟨-199, 0, 0⟩ Geometry.new.absCentre,
          currentVolume := .abs,
          indxLayer := Geometry.new.layerIndex ⟨-199, 0, 0⟩, indxAbs := 0 }
      else
        { dist := Geometry.new.fBoxGap.DistanceToOut
            (Geometry.new.toSlabFrame ⟨-199, 0, 0⟩ Geometry.new.gapCentre) ⟨1, 0, 0⟩,
          r := Geometry.new.toSlabFrame ⟨-199, 0, 0⟩ Geometry.new.gapCentre,
          currentVolume := .gap,
          indxLayer := Geometry.new.layerIndex ⟨-199, 0, 0⟩, indxAbs := 1 } := by
  refine ⟨?_, Geometry.CalculateDistanceToOut_slab Geometry.new ⟨-199, 0, 0⟩ ⟨1, 0, 0⟩ ?_ ?_⟩
  · unfold Geometry.inAbsorber
    rw [Geometry.new_toLayerFrame_inside, Geometry.new_thick.2, Geometry.new_absgap.1]
    norm_num
  · rw [Geometry.new_fBoxCalo]
    norm_num [Box.DistanceToOut, Box.new, Box.fDelta, kCarTolerance, copysign]
  · rw [Geometry.new_toLayerFrame_inside, Geometry.new_fBoxLayer]
    norm_num [Box.DistanceToOut, Box.new, Box.fDelta, kCarTolerance, copysign]

/-- C12: for a configuration with positive layer thickness, adding the centre
of the reported volume (0 on the leaving return, the centre of layer `i` on a
layer-level zero return, the centre of layer `i` plus the centre of the
absorber or gap otherwise) to the returned local x gives back the global x,
and y and z are returned unchanged. -/
theorem Geometry.CalculateDistanceToOut_roundtrip (g : Geometry) (r v : Vec3)
    (_hL : 0 < g.fLayerThick) :
    (g.CalculateDistanceToOut r v).r.x + g.centreOf (g.CalculateDistanceToOut r v) = r.x ∧
    (g.CalculateDistanceToOut r v).r.y = r.y ∧
    (g.CalculateDistanceToOut r v).r.z = r.z := by
  unfold Geometry.CalculateDistanceToOut
  simp only
  split_ifs <;>
    simp only [Geometry.centreOf, Geometry.layerCentre, Geometry.absCentre,
      Geometry.gapCentre, and_self, and_true, if_true] <;>
    first
      | ring1
      | norm_num

/-- Witness of C12: the default geometry (layer thickness 8), the point
`(-199, 1, 2)`, direction `(1, 0, 0)`. -/
theorem Geometry.CalculateDistanceToOut_roundtrip_witness :
    (Geometry.new.CalculateDistanceToOut ⟨-199, 1, 2⟩ ⟨1, 0, 0⟩).r.x +
        Geometry.new.centreOf (Geometry.new.CalculateDistanceToOut ⟨-199, 1, 2⟩ ⟨1, 0, 0⟩) =
      -199 ∧
    (Geometry.new.CalculateDistanceToOut ⟨-199, 1, 2⟩ ⟨1, 0, 0⟩).r.y = 1 ∧
    (Geometry.new.CalculateDistanceToOut ⟨-199, 1, 2⟩ ⟨1, 0, 0⟩).r.z = 2 :=
  Geometry.CalculateDistanceToOut_roundtrip Geometry.new ⟨-199, 1, 2⟩ ⟨1, 0, 0⟩ (by
    rw [Geometry.new_thick.2]
    norm_num)

/-! ## TrackStack: theorems -/

theorem take_set_of_le_index {α : Type} (l : List α) (n m : ℕ) (a : α) (h : m ≤ n) :
    (l.set n a).take m = l.take m := by
  apply List.ext_getElem?
  intro i
  by_cases hi : i < m
  · rw [List.getElem?_take_of_lt hi, List.getElem?_take_of_lt hi, List.getElem?_set]
    have : n ≠ i := by omega
    simp [this]
  · simp [List.getElem?_take_eq_none, Nat.le_of_not_lt hi]

theorem take_succ_set {α : Type} (l : List α) (n : ℕ) (a : α) (h : n < l.length) :
    (l.set n a).take (n + 1) = l.take n ++ [a] := by
  rw [List.take_succ, List.getElem?_set, take_set_of_le_index l n n a le_rfl]
  simp [h]

theorem take_succ_getD {α : Type} (l : List α) (n : ℕ) (d : α) (h : n < l.length) :
    l.take (n + 1) = l.take n ++ [l.getD n d] := by
  rw [List.take_succ]
  simp [List.getD_eq_getElem?_getD, List.getElem?_eq_getElem h]

theorem getD_set_ne {α : Type} (l : List α) (n i : ℕ) (a d : α) (h : i ≠ n) :
    (l.set n a).getD i d = l.getD i d := by
  simp [List.getD_eq_getElem?_getD, List.getElem?_set, h.symm]

theorem getD_set_self {α : Type} (l : List α) (n : ℕ) (a d : α) (h : n < l.length) :
    (l.set n a).getD n d = a := by
  simp [List.getD_eq_getElem?_getD, List.getElem?_set, h]

theorem vectorResize_of_le (l : List G4HepEmTrack) (n : Int) (h : (l.length : Int) ≤ n) :
    vectorResize l n = l ++ List.replicate (n.toNat - l.length) G4HepEmTrack.new := by
  unfold vectorResize
  rw [List.take_of_length_le (by omega)]

theorem TrackStack.Copy_eq (frm dest : G4HepEmTrack) :
    TrackStack.Copy frm dest = TrackStack.Copy frm G4HepEmTrack.new := rfl

theorem TrackStack.Copy_sameState (frm dest : G4HepEmTrack) :
    sameState (TrackStack.Copy frm dest) frm := by
  simp [sameState, TrackStack.Copy, G4HepEmTrack.ReSet, G4HepEmTrack.SetPosition,
    G4HepEmTrack.SetDirection, G4HepEmTrack.SetEKin, G4HepEmTrack.SetCharge,
    G4HepEmTrack.SetSafety, G4HepEmTrack.SetID, G4HepEmTrack.SetParentID,
    G4HepEmTrack.SetMCIndex, G4HepEmTrack.SetOnBoundary, G4HepEmTrack.GetPosition,
    G4HepEmTrack.GetDirection, G4HepEmTrack.GetEKin, G4HepEmTrack.GetLogEKin,
    G4HepEmTrack.GetCharge, G4HepEmTrack.GetSafety, G4HepEmTrack.GetID,
    G4HepEmTrack.GetParentID, G4HepEmTrack.GetMCIndex, G4HepEmTrack.GetOnBoundary]

/-- The vector of `Insert` before the new top is reset: the old vector,
extended when the capacity was exhausted. -/
theorem TrackStack.Insert_eq (s : TrackStack) (h : s.wf) :
    ∃ ex : List G4HepEmTrack,
      s.Insert.1 = { fSize := if s.fCurIndx + 1 = s.fSize then s.fSize * 2 else s.fSize,
                     fCurIndx := s.fCurIndx + 1,
                     fCurrentTrackID := s.fCurrentTrackID,
                     fTrackVect := (s.fTrackVect ++ ex).set (s.fCurIndx + 1).toNat
                       G4HepEmTrack.new } ∧
      s.Insert.2 = s.fCurIndx + 1 ∧
      (((s.fTrackVect ++ ex).length : Int) =
        if s.fCurIndx + 1 = s.fSize then s.fSize * 2 else s.fSize) ∧
      (s.fCurIndx + 1).toNat < (s.fTrackVect ++ ex).length := by
  obtain ⟨h1, h2, h3, h4⟩ := h
  by_cases hc : s.fCurIndx + 1 = s.fSize
  · refine ⟨List.replicate ((s.fSize * 2).toNat - s.fTrackVect.length) G4HepEmTrack.new,
      ?_, rfl, ?_, ?_⟩
    · have hp : (0 : Int) ≤ s.fCurIndx + 1 := by omega
      simp only [TrackStack.Insert, hc, if_true, TrackStack.setSlot, TrackStack.slot,
        G4HepEmTrack.ReSet]
      rw [← hc, if_pos hp, vectorResize_of_le _ _ (by omega)]
    · simp only [hc, if_true, List.length_append, List.length_replicate]
      omega
    · simp only [List.length_append, List.length_replicate]
      omega
  · refine ⟨[], ?_, rfl, ?_, ?_⟩
    · have hp : (0 : Int) ≤ s.fCurIndx + 1 := by omega
      simp only [TrackStack.Insert, hc, if_false, TrackStack.setSlot, TrackStack.slot,
        G4HepEmTrack.ReSet, if_pos hp, List.append_nil]
    · simp only [hc, if_false, List.append_nil]
      exact h3
    · simp only [List.append_nil]
      omega

theorem TrackStack.Insert_wf (s : TrackStack) (h : s.wf) : s.Insert.1.wf := by
  obtain ⟨ex, he, -, hl, -⟩ := TrackStack.Insert_eq s h
  obtain ⟨h1, h2, h3, h4⟩ := h
  rw [he]
  refine ⟨?_, ?_, ?_, ?_⟩
  · show -1 ≤ s.fCurIndx + 1
    omega
  · show s.fCurIndx + 1 < if s.fCurIndx + 1 = s.fSize then s.fSize * 2 else s.fSize
    split_ifs <;> omega
  · show ((((s.fTrackVect ++ ex).set (s.fCurIndx + 1).toNat G4HepEmTrack.new).length : ℕ) : Int)
      = if s.fCurIndx + 1 = s.fSize then s.fSize * 2 else s.fSize
    rw [List.length_set]
    exact hl
  · show 0 < if s.fCurIndx + 1 = s.fSize then s.fSize * 2 else s.fSize
    split_ifs <;> omega

theorem TrackStack.Insert_contents (s : TrackStack) (h : s.wf) :
    s.Insert.1.contents = s.contents ++ [G4HepEmTrack.new] := by
  obtain ⟨ex, he, -, -, hlt⟩ := TrackStack.Insert_eq s h
  obtain ⟨h1, h2, h3, h4⟩ := h
  rw [he]
  unfold TrackStack.contents
  simp only
  have e : (s.fCurIndx + 1 + 1).toNat = (s.fCurIndx + 1).toNat + 1 := by omega
  rw [e, take_succ_set _ _ _ hlt, List.take_append_of_le_length (by omega)]

theorem TrackStack.Insert_slot_top (s : TrackStack) (h : s.wf) :
    s.Insert.1.slot s.Insert.2 = G4HepEmTrack.new := by
  obtain ⟨ex, he, hi, -, hlt⟩ := TrackStack.Insert_eq s h
  rw [he, hi]
  exact getD_set_self _ _ _ _ hlt

theorem TrackStack.Insert_slot_below (s : TrackStack) (h : s.wf) (i : Int) (h0 : 0 ≤ i)
    (hi : i ≤ s.fCurIndx) : s.Insert.1.slot i = s.slot i := by
  obtain ⟨ex, he, -, -, hlt⟩ := TrackStack.Insert_eq s h
  obtain ⟨h1, h2, h3, h4⟩ := h
  rw [he]
  unfold TrackStack.slot
  simp only
  rw [getD_set_ne _ _ _ _ _ (by omega), List.getD_append _ _ _ _ (by omega)]

theorem TrackStack.push_facts (s : TrackStack) (h : s.wf) (t : G4HepEmTrack) :
    (s.push t).wf ∧ (s.push t).contents = s.contents ++ [TrackStack.Copy t G4HepEmTrack.new] ∧
      (s.push t).fCurIndx = s.fCurIndx + 1 := by
  obtain ⟨ex, he, hi, hl, hlt⟩ := TrackStack.Insert_eq s h
  have hw := TrackStack.Insert_wf s h
  obtain ⟨h1, h2, h3, h4⟩ := h
  have hp : (0 : Int) ≤ s.fCurIndx + 1 := by omega
  unfold TrackStack.push
  rw [hi, TrackStack.Copy_eq]
  unfold TrackStack.setSlot
  rw [if_pos hp]
  refine ⟨?_, ?_, ?_⟩
  · obtain ⟨w1, w2, w3, w4⟩ := hw
    refine ⟨w1, w2, ?_, w4⟩
    simp only [List.length_set]
    exact w3
  · rw [he]
    unfold TrackStack.contents
    simp only
    have e : (s.fCurIndx + 1 + 1).toNat = (s.fCurIndx + 1).toNat + 1 := by omega
    rw [e, List.set_set, take_succ_set _ _ _ hlt, List.take_append_of_le_length (by omega)]
  · rw [he]

theorem TrackStack.PopInto_nonempty (s : TrackStack) (h : s.wf) (hc : 0 ≤ s.fCurIndx)
    (track : G4HepEmTrack) :
    s.PopInto track = (s.fCurIndx, { s with fCurIndx := s.fCurIndx - 1 },
        TrackStack.Copy (s.slot s.fCurIndx) track) ∧
      TrackStack.wf { s with fCurIndx := s.fCurIndx - 1 } ∧
      s.contents =
        TrackStack.contents { s with fCurIndx := s.fCurIndx - 1 } ++ [s.slot s.fCurIndx] := by
  obtain ⟨h1, h2, h3, h4⟩ := h
  refine ⟨?_, ⟨?_, ?_, h3, h4⟩, ?_⟩
  · unfold TrackStack.PopInto
    rw [if_neg (by omega)]
  · show -1 ≤ s.fCurIndx - 1
    omega
  · show s.fCurIndx - 1 < s.fSize
    omega
  · unfold TrackStack.contents TrackStack.slot
    simp only
    have e1 : (s.fCurIndx + 1).toNat = s.fCurIndx.toNat + 1 := by omega
    have e2 : (s.fCurIndx - 1 + 1).toNat = s.fCurIndx.toNat := by omega
    rw [e1, e2]
    exact take_succ_getD _ _ _ (by omega)

theorem TrackStack.pushAll_facts (ts : List G4HepEmTrack) (s : TrackStack) (h : s.wf) :
    (s.pushAll ts).wf ∧
      (s.pushAll ts).contents =
        s.contents ++ ts.map (fun t => TrackStack.Copy t G4HepEmTrack.new) := by
  induction ts generalizing s with
  | nil => exact ⟨h, by simp [TrackStack.pushAll]⟩
  | cons t ts ih =>
    obtain ⟨hw, hcont, -⟩ := TrackStack.push_facts s h t
    obtain ⟨w, c⟩ := ih (s.push t) hw
    refine ⟨w, ?_⟩
    show ((s.push t).pushAll ts).contents = _
    rw [c, hcont]
    simp

theorem TrackStack.contents_length (s : TrackStack) (h : s.wf) :
    (s.contents.length : Int) = s.fCurIndx + 1 := by
  obtain ⟨h1, h2, h3, h4⟩ := h
  unfold TrackStack.contents
  rw [List.length_take]
  omega

theorem TrackStack.popN_facts (n : ℕ) (s : TrackStack) (h : s.wf) (track : G4HepEmTrack)
    (hn : n ≤ s.contents.length) :
    (TrackStack.popN n s track).1 =
        (s.contents.reverse.take n).map (fun t => TrackStack.Copy t G4HepEmTrack.new) ∧
      (TrackStack.popN n s track).2.2.fCurIndx = s.fCurIndx - n ∧
      (∀ r ∈ (TrackStack.popN n s track).2.1, 0 ≤ r) := by
  induction n generalizing s track with
  | zero => simp [TrackStack.popN]
  | succ n ih =>
    have hl := TrackStack.contents_length s h
    have hc : 0 ≤ s.fCurIndx := by
      have : ((n + 1 : ℕ) : Int) ≤ (s.contents.length : Int) := by exact_mod_cast hn
      omega
    obtain ⟨hp, hw, hcont⟩ := TrackStack.PopInto_nonempty s h hc track
    have hn2 : n ≤ (TrackStack.contents { s with fCurIndx := s.fCurIndx - 1 }).length := by
      rw [hcont, List.length_append] at hn
      simpa using hn
    obtain ⟨i1, i2, i3⟩ := ih _ hw (TrackStack.Copy (s.slot s.fCurIndx) track) hn2
    simp only [TrackStack.popN, hp]
    refine ⟨?_, ?_, ?_⟩
    · rw [i1, hcont, List.reverse_append]
      simp [TrackStack.Copy_eq (s.slot s.fCurIndx) track]
    · rw [i2]
      push_cast
      ring
    · intro r hr
      rcases List.mem_cons.mp hr with rfl | hr
      · exact hc
      · exact i3 r hr

theorem TrackStack.new_wf : TrackStack.new.wf := by
  refine ⟨?_, ?_, ?_, ?_⟩ <;> simp [TrackStack.new, vectorResize]

theorem TrackStack.setSlot_wf (s : TrackStack) (h : s.wf) (i : Int) (t : G4HepEmTrack) :
    (s.setSlot i t).wf := by
  obtain ⟨h1, h2, h3, h4⟩ := h
  unfold TrackStack.setSlot
  split_ifs
  · exact ⟨h1, h2, by simpa using h3, h4⟩
  · exact ⟨h1, h2, h3, h4⟩

theorem TrackStack.PopInto_wf (s : TrackStack) (h : s.wf) (track : G4HepEmTrack) :
    (s.PopInto track).2.1.wf := by
  by_cases hc : 0 ≤ s.fCurIndx
  · obtain ⟨hp, hw, -⟩ := TrackStack.PopInto_nonempty s h hc track
    rw [hp]
    exact hw
  · unfold TrackStack.PopInto
    rw [if_pos (by omega)]
    exact h

theorem TrackStack.call_wf (s : TrackStack) (c : TrackStackCall) (h : s.wf) :
    (s.call c).wf := by
  cases c with
  | Insert => exact TrackStack.Insert_wf s h
  | write t => exact TrackStack.setSlot_wf s h _ t
  | PopInto track => exact TrackStack.PopInto_wf s h track
  | GetTypeOfNextTrack =>
    show (s.GetTypeOfNextTrack).2.wf
    unfold TrackStack.GetTypeOfNextTrack
    split_ifs <;> exact h
  | GetNextTrackID => exact h
  | ReSetTrackID => exact h

theorem TrackStack.call_capacityOK (s : TrackStack) (c : TrackStackCall) (h : s.wf)
    (hk : s.capacityOK) : (s.call c).capacityOK := by
  cases c with
  | Insert =>
    obtain ⟨ex, he, -, -, -⟩ := TrackStack.Insert_eq s h
    obtain ⟨k, hk⟩ := hk
    show (s.Insert.1).capacityOK
    rw [he]
    by_cases hc : s.fCurIndx + 1 = s.fSize
    · refine ⟨k + 1, ?_⟩
      simp only [hc, if_true]
      rw [hk, pow_succ]
      ring
    · exact ⟨k, by simp only [hc, if_false]; exact hk⟩
  | write t =>
    show (s.setSlot s.fCurIndx t).capacityOK
    unfold TrackStack.setSlot
    split_ifs <;> exact hk
  | PopInto track =>
    show (s.PopInto track).2.1.capacityOK
    unfold TrackStack.PopInto
    split_ifs <;> exact hk
  | GetTypeOfNextTrack =>
    show (s.GetTypeOfNextTrack).2.capacityOK
    unfold TrackStack.GetTypeOfNextTrack
    split_ifs <;> exact hk
  | GetNextTrackID => exact hk
  | ReSetTrackID => exact hk

theorem TrackStack.foldl_call_inv (calls : List TrackStackCall) (s : TrackStack) (h : s.wf)
    (hk : s.capacityOK) :
    (calls.foldl TrackStack.call s).wf ∧ (calls.foldl TrackStack.call s).capacityOK := by
  induction calls generalizing s with
  | nil => exact ⟨h, hk⟩
  | cons c cs ih => exact ih _ (TrackStack.call_wf s c h) (TrackStack.call_capacityOK s c h hk)

theorem TrackStack.run_inv (calls : List TrackStackCall) :
    (TrackStack.run calls).wf ∧ (TrackStack.run calls).capacityOK :=
  TrackStack.foldl_call_inv calls TrackStack.new TrackStack.new_wf ⟨0, by simp [TrackStack.new]⟩

/-- C13: for every sequence of tracks pushed onto an empty `TrackStack`
(`Insert` followed by `Copy` into the returned slot), as many `PopInto` calls
all succeed and deliver the tracks in reverse order of pushing, each with the
position, direction, kinetic energy and its logarithm, charge, safety, id,
parent id, material-cuts index and on-boundary flag of the pushed track, and
the stack is empty afterwards. -/
theorem TrackStack.popN_pushAll (ts : List G4HepEmTrack) (track : G4HepEmTrack) :
    List.Forall₂ sameState
        (TrackStack.popN ts.length (TrackStack.new.pushAll ts) track).1 ts.reverse ∧
      (∀ r ∈ (TrackStack.popN ts.length (TrackStack.new.pushAll ts) track).2.1, 0 ≤ r) ∧
      (TrackStack.popN ts.length (TrackStack.new.pushAll ts) track).2.2.fCurIndx = -1 ∧
      (TrackStack.popN ts.length (TrackStack.new.pushAll ts)
        track).2.2.GetTypeOfNextTrack.1 = -999 := by
  obtain ⟨hw, hc⟩ := TrackStack.pushAll_facts ts TrackStack.new TrackStack.new_wf
  have h0 : TrackStack.new.contents = [] := by simp [TrackStack.contents, TrackStack.new]
  rw [h0, List.nil_append] at hc
  have hlen : ts.length ≤ (TrackStack.new.pushAll ts).contents.length := by
    rw [hc, List.length_map]
  obtain ⟨p1, p2, p3⟩ := TrackStack.popN_facts ts.length _ hw track hlen
  have hcur : (TrackStack.new.pushAll ts).fCurIndx = (ts.length : Int) - 1 := by
    have := TrackStack.contents_length _ hw
    rw [hc, List.length_map] at this
    omega
  have hfin : (TrackStack.popN ts.length (TrackStack.new.pushAll ts) track).2.2.fCurIndx
      = -1 := by
    rw [p2, hcur]
    ring
  refine ⟨?_, p3, hfin, ?_⟩
  · rw [p1, hc, ← List.map_reverse, List.take_of_length_le (by simp), List.map_map,
      List.forall₂_map_left_iff]
    exact List.forall₂_same.mpr (fun t _ => by
      have h1 := TrackStack.Copy_sameState (TrackStack.Copy t G4HepEmTrack.new)
        G4HepEmTrack.new
      have h2 := TrackStack.Copy_sameState t G4HepEmTrack.new
      unfold sameState at h1 h2 ⊢
      simp only [Function.comp]
      exact ⟨h1.1.trans h2.1, h1.2.1.trans h2.2.1, h1.2.2.1.trans h2.2.2.1,
        h1.2.2.2.1.trans h2.2.2.2.1, h1.2.2.2.2.1.trans h2.2.2.2.2.1,
        h1.2.2.2.2.2.1.trans h2.2.2.2.2.2.1, h1.2.2.2.2.2.2.1.trans h2.2.2.2.2.2.2.1,
        h1.2.2.2.2.2.2.2.1.trans h2.2.2.2.2.2.2.2.1,
        h1.2.2.2.2.2.2.2.2.1.trans h2.2.2.2.2.2.2.2.2.1,
        h1.2.2.2.2.2.2.2.2.2.trans h2.2.2.2.2.2.2.2.2.2⟩)
  · unfold TrackStack.GetTypeOfNextTrack
    rw [hfin]
    rfl

/-- C14: in every reachable state `TrackStack::PopInto` returns -1 if and only
if the stack pointer is -1, and then changes neither the stack nor the
destination; otherwise it copies the top slot into the destination, returns
the index of that slot, which is at least 0, and decrements the stack pointer
by one. -/
theorem TrackStack.PopInto_spec (calls : List TrackStackCall) (track : G4HepEmTrack) :
    (((TrackStack.run calls).PopInto track).1 = -1 ↔ (TrackStack.run calls).fCurIndx = -1) ∧
    (TrackStack.run calls).PopInto track =
      (if (TrackStack.run calls).fCurIndx = -1 then (-1, TrackStack.run calls, track)
       else ((TrackStack.run calls).fCurIndx,
         { TrackStack.run calls with fCurIndx := (TrackStack.run calls).fCurIndx - 1 },
         TrackStack.Copy ((TrackStack.run calls).slot (TrackStack.run calls).fCurIndx)
           track)) ∧
    ((TrackStack.run calls).fCurIndx = -1 ∨ 0 ≤ ((TrackStack.run calls).PopInto track).1) := by
  obtain ⟨⟨h1, h2, h3, h4⟩, -⟩ := TrackStack.run_inv calls
  generalize TrackStack.run calls = s at h1 h2 h3 h4 ⊢
  unfold TrackStack.PopInto
  by_cases hc : s.fCurIndx = -1
  · simp [hc]
  · have hn : ¬ s.fCurIndx < 0 := by omega
    simp only [hn, hc, if_false, false_or, true_and]
    omega

/-- C15: in every reachable state `TrackStack::GetTypeOfNextTrack` leaves the
stack as it is and returns -999 when the stack pointer is -1 and otherwise the
charge of the top slot converted to an integer, which is -1, 0 or +1 for the
charges -1, 0 and +1. -/
theorem TrackStack.GetTypeOfNextTrack_spec (calls : List TrackStackCall) :
    (TrackStack.run calls).GetTypeOfNextTrack =
      (if (TrackStack.run calls).fCurIndx = -1 then -999
       else truncToInt ((TrackStack.run calls).slot (TrackStack.run calls).fCurIndx).GetCharge,
       TrackStack.run calls) ∧
    truncToInt (-1) = -1 ∧ truncToInt 0 = 0 ∧ truncToInt 1 = 1 := by
  obtain ⟨⟨h1, h2, h3, h4⟩, -⟩ := TrackStack.run_inv calls
  generalize TrackStack.run calls = s at h1 h2 h3 h4 ⊢
  refine ⟨?_, by norm_num [truncToInt, Int.ceil_eq_iff], by norm_num [truncToInt],
    by norm_num [truncToInt]⟩
  unfold TrackStack.GetTypeOfNextTrack
  by_cases hc : s.fCurIndx = -1
  · simp [hc]
  · have hn : ¬ s.fCurIndx < 0 := by omega
    simp only [hn, hc, if_false]

/-- C16: in every state reached from the constructor, `-1 ≤ stack pointer <
capacity`, the capacity is the length of the backing vector and is
`16 * 2^k` for some `k`; `Insert` doubles the capacity exactly when the
incremented stack pointer equals it, keeps all stored tracks and returns a
slot of the vector; `PopInto` does not change the capacity. -/
theorem TrackStack.run_invariant (calls : List TrackStackCall) (track : G4HepEmTrack) :
    (-1 ≤ (TrackStack.run calls).fCurIndx ∧
      (TrackStack.run calls).fCurIndx < (TrackStack.run calls).fSize ∧
      ((TrackStack.run calls).fTrackVect.length : Int) = (TrackStack.run calls).fSize ∧
      ∃ k : ℕ, (TrackStack.run calls).fSize = 16 * 2 ^ k) ∧
    ((TrackStack.run calls).Insert.1.fSize =
        (if (TrackStack.run calls).fCurIndx + 1 = (TrackStack.run calls).fSize
         then (TrackStack.run calls).fSize * 2 else (TrackStack.run calls).fSize) ∧
      (TrackStack.run calls).Insert.1.contents =
        (TrackStack.run calls).contents ++ [G4HepEmTrack.new] ∧
      0 ≤ (TrackStack.run calls).Insert.2 ∧
      (TrackStack.run calls).Insert.2 <
        ((TrackStack.run calls).Insert.1.fTrackVect.length : Int)) ∧
    ((TrackStack.run calls).PopInto track).2.1.fSize = (TrackStack.run calls).fSize := by
  obtain ⟨hw, hk⟩ := TrackStack.run_inv calls
  generalize TrackStack.run calls = s at hw hk ⊢
  obtain ⟨ex, he, hi, hl, hlt⟩ := TrackStack.Insert_eq s hw
  have hc := TrackStack.Insert_contents s hw
  have hiw := TrackStack.Insert_wf s hw
  obtain ⟨h1, h2, h3, h4⟩ := hw
  refine ⟨⟨h1, h2, h3, hk⟩, ⟨?_, hc, ?_, ?_⟩, ?_⟩
  · rw [he]
  · rw [hi]
    omega
  · obtain ⟨w1, w2, w3, w4⟩ := hiw
    have hcur : s.Insert.1.fCurIndx = s.fCurIndx + 1 := by rw [he]
    rw [w3, hi, ← hcur]
    exact w2
  · unfold TrackStack.PopInto
    split_ifs <;> rfl

/-- C17: in every reachable state `TrackStack::Insert` increments the stack
pointer by one, returns the slot at the new stack pointer, which is in the
default state, and leaves every slot below the new top unchanged. -/
theorem TrackStack.Insert_spec (calls : List TrackStackCall) :
    (TrackStack.run calls).Insert.1.fCurIndx = (TrackStack.run calls).fCurIndx + 1 ∧
    (TrackStack.run calls).Insert.2 = (TrackStack.run calls).Insert.1.fCurIndx ∧
    (TrackStack.run calls).Insert.1.slot (TrackStack.run calls).Insert.2 =
      (G4HepEmTrack.ReSet G4HepEmTrack.new) ∧
    ∀ i : Int, 0 ≤ i → i < (TrackStack.run calls).Insert.2 →
      (TrackStack.run calls).Insert.1.slot i = (TrackStack.run calls).slot i := by
  obtain ⟨hw, -⟩ := TrackStack.run_inv calls
  generalize TrackStack.run calls = s at hw ⊢
  obtain ⟨ex, he, hi, -, -⟩ := TrackStack.Insert_eq s hw
  refine ⟨by rw [he], by rw [hi, he], TrackStack.Insert_slot_top s hw, ?_⟩
  intro i h0 hlt
  rw [hi] at hlt
  exact TrackStack.Insert_slot_below s hw i h0 (by omega)

/-! ## SteppingLoop: theorems -/

theorem select_stepLength (dB dP : ℚ) : (if dP < dB then dP else dB) = min dB dP := by
  rw [min_def]
  by_cases h : dP < dB
  · rw [if_pos h, if_neg (not_le.mpr h)]
  · rw [if_neg h, if_pos (not_lt.mp h)]

theorem select_onBoundary (dB dP : ℚ) :
    (if dP < dB then false else true) = decide (dB ≤ dP) := by
  by_cases h : dP < dB
  · rw [if_pos h]
    exact (decide_eq_false (not_le.mpr h)).symm
  · rw [if_neg h]
    exact (decide_eq_true (not_lt.mp h)).symm

/-- The push path of the gamma stepper. -/
theorem SteppingLoop.GammaStepperBody_push (theState : G4HepEmState) (theGeometry : Geometry)
    (eventID : Int) (s : StepperState)
    (hB : ¬ (SteppingLoop.gammaLocate theGeometry s).dist > 10000000000)
    (h0 : min (SteppingLoop.gammaLocate theGeometry s).dist
      (SteppingLoop.gammaDistToPhysics theState theGeometry s) = 0) :
    SteppingLoop.GammaStepperBody theState theGeometry eventID s =
      (.continued,
        { s with
          theTLData := SteppingLoop.gammaMoved (SteppingLoop.gammaLimit theState theGeometry s)
            (1 / 1000000)
          trace := s.trace ++
            [.HowFar (SteppingLoop.gammaPreStep theState theGeometry s),
             .StepSelected 0 (decide ((SteppingLoop.gammaLocate theGeometry s).dist ≤
               SteppingLoop.gammaDistToPhysics theState theGeometry s)),
             .Push] }) := by
  unfold SteppingLoop.GammaStepperBody
  simp only [select_stepLength, select_onBoundary]
  unfold SteppingLoop.gammaLocate at hB h0
  unfold SteppingLoop.gammaDistToPhysics SteppingLoop.gammaLimit SteppingLoop.gammaPreStep
    SteppingLoop.gammaLocate at h0
  rw [if_neg hB, if_pos h0, h0]
  simp [SteppingLoop.gammaMoved, SteppingLoop.gammaLimit, SteppingLoop.gammaPreStep,
    SteppingLoop.gammaLocate, SteppingLoop.gammaDistToPhysics]

/-- The path of the gamma stepper into the second part of the body. -/
theorem SteppingLoop.GammaStepperBody_finish (theState : G4HepEmState) (theGeometry : Geometry)
    (eventID : Int) (s : StepperState)
    (hB : ¬ (SteppingLoop.gammaLocate theGeometry s).dist > 10000000000)
    (h0 : min (SteppingLoop.gammaLocate theGeometry s).dist
      (SteppingLoop.gammaDistToPhysics theState theGeometry s) ≠ 0) :
    SteppingLoop.GammaStepperBody theState theGeometry eventID s =
      SteppingLoop.GammaStepperFinish theState eventID s (SteppingLoop.gammaLocate theGeometry s)
        (SteppingLoop.gammaLimit theState theGeometry s)
        (min (SteppingLoop.gammaLocate theGeometry s).dist
          (SteppingLoop.gammaDistToPhysics theState theGeometry s))
        (decide ((SteppingLoop.gammaLocate theGeometry s).dist ≤
          SteppingLoop.gammaDistToPhysics theState theGeometry s))
        (s.trace ++
          [.HowFar (SteppingLoop.gammaPreStep theState theGeometry s),
           .StepSelected
             (min (SteppingLoop.gammaLocate theGeometry s).dist
               (SteppingLoop.gammaDistToPhysics theState theGeometry s))
             (decide ((SteppingLoop.gammaLocate theGeometry s).dist ≤
               SteppingLoop.gammaDistToPhysics theState theGeometry s))]) := by
  unfold SteppingLoop.GammaStepperBody
  simp only [select_stepLength, select_onBoundary]
  unfold SteppingLoop.gammaLocate at hB h0
  unfold SteppingLoop.gammaDistToPhysics SteppingLoop.gammaLimit SteppingLoop.gammaPreStep
    SteppingLoop.gammaLocate at h0
  rw [if_neg hB, if_neg h0]
  rfl

/-- What the second part of the gamma body does. -/
theorem SteppingLoop.GammaStepperFinish_facts (theState : G4HepEmState) (eventID : Int)
    (s : StepperState) (loc : Located) (tl2 : G4HepEmTLData) (d : ℚ) (f : Bool)
    (trace : List StepEvent) :
    (SteppingLoop.GammaStepperFinish theState eventID s loc tl2 d f trace).1 = .completed ∧
    (SteppingLoop.GammaStepperFinish theState eventID s loc tl2 d f trace).2.numStep =
      s.numStep + 1 ∧
    (SteppingLoop.GammaStepperFinish theState eventID s loc tl2 d f trace).2.trace =
      trace ++ [.Perform (SteppingLoop.gammaPostStep tl2 d f)] ++
        SteppingLoop.stackEvents
          (theState.GammaManagerPerform (SteppingLoop.gammaPostStep tl2 d f)) ++
        [.SteppingAction d loc.indxLayer loc.indxAbs s.numStep] := by
  refine ⟨rfl, rfl, ?_⟩
  unfold SteppingLoop.GammaStepperFinish SteppingLoop.stackEvents
  simp only [apply_ite Prod.snd]
  rfl

/-- The push path of the electron stepper. -/
theorem SteppingLoop.ElectronStepperBody_push (theState : G4HepEmState) (sqrt : ℚ → ℚ)
    (theGeometry : Geometry) (eventID : Int) (s : StepperState)
    (hB : ¬ (SteppingLoop.electronLocate theGeometry s).dist > 10000000000)
    (h0 : min (SteppingLoop.electronLocate theGeometry s).dist
      (SteppingLoop.electronDistToPhysics theState theGeometry s) = 0) :
    SteppingLoop.ElectronStepperBody theState sqrt theGeometry eventID s =
      (.continued,
        { s with
          theTLData := SteppingLoop.electronMoved
            (SteppingLoop.electronLimit theState theGeometry s) (1 / 1000000)
          trace := s.trace ++
            [.HowFar (SteppingLoop.electronPreStep theState theGeometry s),
             .StepSelected 0 (decide ((SteppingLoop.electronLocate theGeometry s).dist ≤
               SteppingLoop.electronDistToPhysics theState theGeometry s)),
             .Push] }) := by
  unfold SteppingLoop.ElectronStepperBody
  simp only [select_stepLength, select_onBoundary]
  unfold SteppingLoop.electronLocate at hB h0
  unfold SteppingLoop.electronDistToPhysics SteppingLoop.electronLimit
    SteppingLoop.electronPreStep SteppingLoop.electronPreStepFlag
    SteppingLoop.electronLocate at h0
  rw [if_neg hB, if_pos h0, h0]
  simp [SteppingLoop.electronMoved, SteppingLoop.electronLimit, SteppingLoop.electronPreStep,
    SteppingLoop.electronPreStepFlag, SteppingLoop.electronLocate,
    SteppingLoop.electronDistToPhysics]

/-- The path of the electron stepper into the second part of the body. -/
theorem SteppingLoop.ElectronStepperBody_finish (theState : G4HepEmState) (sqrt : ℚ → ℚ)
    (theGeometry : Geometry) (eventID : Int) (s : StepperState)
    (hB : ¬ (SteppingLoop.electronLocate theGeometry s).dist > 10000000000)
    (h0 : min (SteppingLoop.electronLocate theGeometry s).dist
      (SteppingLoop.electronDistToPhysics theState theGeometry s) ≠ 0) :
    SteppingLoop.ElectronStepperBody theState sqrt theGeometry eventID s =
      SteppingLoop.ElectronStepperFinish theState sqrt theGeometry eventID s
        (SteppingLoop.electronLocate theGeometry s)
        (SteppingLoop.electronLimit theState theGeometry s)
        (min (SteppingLoop.electronLocate theGeometry s).dist
          (SteppingLoop.electronDistToPhysics theState theGeometry s))
        (decide ((SteppingLoop.electronLocate theGeometry s).dist ≤
          SteppingLoop.electronDistToPhysics theState theGeometry s))
        (s.trace ++
          [.HowFar (SteppingLoop.electronPreStep theState theGeometry s),
           .StepSelected
             (min (SteppingLoop.electronLocate theGeometry s).dist
               (SteppingLoop.electronDistToPhysics theState theGeometry s))
             (decide ((SteppingLoop.electronLocate theGeometry s).dist ≤
               SteppingLoop.electronDistToPhysics theState theGeometry s))]) := by
  unfold SteppingLoop.ElectronStepperBody
  simp only [select_stepLength, select_onBoundary]
  unfold SteppingLoop.electronLocate at hB h0
  unfold SteppingLoop.electronDistToPhysics SteppingLoop.electronLimit
    SteppingLoop.electronPreStep SteppingLoop.electronPreStepFlag
    SteppingLoop.electronLocate at h0
  rw [if_neg hB, if_neg h0]
  rfl

/-- What the second part of the electron body does. -/
theorem SteppingLoop.ElectronStepperFinish_facts (theState : G4HepEmState) (sqrt : ℚ → ℚ)
    (theGeometry : Geometry) (eventID : Int) (s : StepperState) (loc : Located)
    (tl2 : G4HepEmTLData) (d : ℚ) (f : Bool) (trace : List StepEvent) :
    (SteppingLoop.ElectronStepperFinish theState sqrt theGeometry eventID s loc tl2 d f
      trace).1 = .completed ∧
    (SteppingLoop.ElectronStepperFinish theState sqrt theGeometry eventID s loc tl2 d f
      trace).2.numStep = s.numStep + 1 ∧
    (SteppingLoop.ElectronStepperFinish theState sqrt theGeometry eventID s loc tl2 d f
      trace).2.wasOnBoundary = f ∧
    (SteppingLoop.ElectronStepperFinish theState sqrt theGeometry eventID s loc tl2 d f
      trace).2.trace =
      trace ++ [.Perform (SteppingLoop.electronPostStep tl2 d f)] ++
        SteppingLoop.stackEvents
          (theState.ElectronManagerPerform (SteppingLoop.electronPostStep tl2 d f)) ++
        [.SteppingAction
          (SteppingLoop.electronRecordedLength
            (theState.ElectronManagerPerform (SteppingLoop.electronPostStep tl2 d f)) d)
          loc.indxLayer loc.indxAbs s.numStep] := by
  refine ⟨rfl, rfl, rfl, ?_⟩
  unfold SteppingLoop.ElectronStepperFinish SteppingLoop.stackEvents
  simp only [apply_ite Prod.snd]
  rfl

theorem Geometry.new_fBoxAbs : Geometry.new.fBoxAbs = Box.new "Abs" 1 (23 / 20) 200 200 := by
  norm_num [Geometry.new, Geometry.UpdateParameters, Box.SetHalfLength, Box.new, kCarTolerance]

theorem Geometry.new_layerIndex_inside : Geometry.new.layerIndex ⟨-199, 0, 0⟩ = 0 := by
  norm_num [Geometry.layerIndex, Geometry.new_thick.1, Geometry.new_thick.2, truncToInt,
    Int.floor_eq_iff]

/-- The default geometry locates the point `(-199, 0, 0)` moving along
`(1, 0, 0)` in the absorber of layer 0, at local x `-0.15`, with 1.3 to go. -/
theorem Geometry.new_locate_inside :
    Geometry.new.CalculateDistanceToOut ⟨-199, 0, 0⟩ ⟨1, 0, 0⟩ =
      { dist := 13 / 10, r := ⟨-3 / 20, 0, 0⟩, currentVolume := .abs, indxLayer := 0,
        indxAbs := 0 } := by
  have hcalo : Geometry.new.fBoxCalo.DistanceToOut ⟨-199, 0, 0⟩ ⟨1, 0, 0⟩ ≠ 0 := by
    rw [Geometry.new_fBoxCalo]
    norm_num [Box.DistanceToOut, Box.new, Box.fDelta, kCarTolerance, copysign]
  have hlayer : Geometry.new.fBoxLayer.DistanceToOut
      (Geometry.new.toLayerFrame ⟨-199, 0, 0⟩) ⟨1, 0, 0⟩ ≠ 0 := by
    rw [Geometry.new_toLayerFrame_inside, Geometry.new_fBoxLayer]
    norm_num [Box.DistanceToOut, Box.new, Box.fDelta, kCarTolerance, copysign]
  have hin : Geometry.new.inAbsorber ⟨-199, 0, 0⟩ := by
    unfold Geometry.inAbsorber
    rw [Geometry.new_toLayerFrame_inside, Geometry.new_thick.2, Geometry.new_absgap.1]
    norm_num
  have hfr : Geometry.new.toSlabFrame ⟨-199, 0, 0⟩ Geometry.new.absCentre = ⟨-3 / 20, 0, 0⟩ := by
    unfold Geometry.toSlabFrame Geometry.absCentre
    rw [Geometry.new_toLayerFrame_inside, Geometry.new_thick.2, Geometry.new_absgap.1]
    norm_num
  rw [Geometry.CalculateDistanceToOut_of_inside _ _ _ hcalo hlayer, if_pos hin, hfr,
    Geometry.new_layerIndex_inside, Geometry.new_fBoxAbs]
  have ha : |(3 : ℚ) / 20| = 3 / 20 := abs_of_pos (by norm_num)
  have hb : |(23 : ℚ) / 20| = 23 / 20 := abs_of_pos (by norm_num)
  norm_num [Box.DistanceToOut, Box.new, Box.fDelta, kCarTolerance, copysign, ha, hb]

theorem SteppingLoop.example_gammaLocate :
    SteppingLoop.gammaLocate Geometry.new exampleStepperState =
      { dist := 13 / 10, r := ⟨-3 / 20, 0, 0⟩, currentVolume := .abs, indxLayer := 0,
        indxAbs := 0 } :=
  Geometry.new_locate_inside

theorem SteppingLoop.example_electronLocate :
    SteppingLoop.electronLocate Geometry.new exampleStepperState =
      { dist := 13 / 10, r := ⟨-3 / 20, 0, 0⟩, currentVolume := .abs, indxLayer := 0,
        indxAbs := 0 } :=
  Geometry.new_locate_inside

theorem SteppingLoop.example_gammaDistToPhysics (limit : ℚ) :
    SteppingLoop.gammaDistToPhysics (stubState limit) Geometry.new exampleStepperState = limit :=
  rfl

theorem SteppingLoop.example_electronDistToPhysics (limit : ℚ) :
    SteppingLoop.electronDistToPhysics (stubState limit) Geometry.new exampleStepperState =
      limit :=
  rfl

theorem take_two_after {α : Type} (l rest : List α) (a b : α) :
    (l ++ a :: b :: rest).take (l.length + 2) = l ++ [a, b] := by
  rw [List.take_append_eq_append_take]
  simp

theorem get_third_after {α : Type} (l rest : List α) (a b c : α) :
    (l ++ a :: b :: c :: rest)[l.length + 2]? = some c := by
  rw [List.getElem?_append_right (by simp)]
  simp

theorem SteppingLoop.GammaStepperBody_returned (theState : G4HepEmState)
    (theGeometry : Geometry) (eventID : Int) (s : StepperState)
    (hB : (SteppingLoop.gammaLocate theGeometry s).dist > 10000000000) :
    SteppingLoop.GammaStepperBody theState theGeometry eventID s = (.returned, s) := by
  unfold SteppingLoop.GammaStepperBody
  unfold SteppingLoop.gammaLocate at hB
  simp only
  rw [if_pos hB]

theorem SteppingLoop.ElectronStepperBody_returned (theState : G4HepEmState) (sqrt : ℚ → ℚ)
    (theGeometry : Geometry) (eventID : Int) (s : StepperState)
    (hB : (SteppingLoop.electronLocate theGeometry s).dist > 10000000000) :
    SteppingLoop.ElectronStepperBody theState sqrt theGeometry eventID s = (.returned, s) := by
  unfold SteppingLoop.ElectronStepperBody
  unfold SteppingLoop.electronLocate at hB
  simp only
  rw [if_pos hB]

/-- C18: in an iteration of the gamma stepper that passes its leaving test,
and in an iteration of the electron stepper that passes its own, the chosen
step length is `min(dB, dP)` and the post-step boundary flag is true exactly
when `dB ≤ dP`, for the geometric distance `dB` of that stepper's track and
the physics limit `dP` written by `HowFar`; when the step is taken these are
the step length and flag set on the track handed to `Perform` (and kept as
`wasOnBoundary` by the electron stepper). Each stepper is stated under its own
leaving test only. -/
theorem SteppingLoop.step_selection (theState : G4HepEmState) (sqrt : ℚ → ℚ)
    (theGeometry : Geometry) (eventID : Int) (s : StepperState) :
    (¬ (SteppingLoop.gammaLocate theGeometry s).dist > 10000000000 →
    ((SteppingLoop.GammaStepperBody theState theGeometry eventID s).2.trace.take
        (s.trace.length + 2) =
      s.trace ++
        [.HowFar (SteppingLoop.gammaPreStep theState theGeometry s),
         .StepSelected
           (min (SteppingLoop.gammaLocate theGeometry s).dist
             (SteppingLoop.gammaDistToPhysics theState theGeometry s))
           (decide ((SteppingLoop.gammaLocate theGeometry s).dist ≤
             SteppingLoop.gammaDistToPhysics theState theGeometry s))]) ∧
    (min (SteppingLoop.gammaLocate theGeometry s).dist
        (SteppingLoop.gammaDistToPhysics theState theGeometry s) ≠ 0 →
      ∃ tl, (SteppingLoop.GammaStepperBody theState theGeometry eventID s).2.trace[
          s.trace.length + 2]? = some (.Perform tl) ∧
        tl.fPrimaryGammaTrack.GetGStepLength =
          min (SteppingLoop.gammaLocate theGeometry s).dist
            (SteppingLoop.gammaDistToPhysics theState theGeometry s) ∧
        tl.fPrimaryGammaTrack.GetOnBoundary =
          decide ((SteppingLoop.gammaLocate theGeometry s).dist ≤
            SteppingLoop.gammaDistToPhysics theState theGeometry s))) ∧
    (¬ (SteppingLoop.electronLocate theGeometry s).dist > 10000000000 →
    ((SteppingLoop.ElectronStepperBody theState sqrt theGeometry eventID s).2.trace.take
        (s.trace.length + 2) =
      s.trace ++
        [.HowFar (SteppingLoop.electronPreStep theState theGeometry s),
         .StepSelected
           (min (SteppingLoop.electronLocate theGeometry s).dist
             (SteppingLoop.electronDistToPhysics theState theGeometry s))
           (decide ((SteppingLoop.electronLocate theGeometry s).dist ≤
             SteppingLoop.electronDistToPhysics theState theGeometry s))]) ∧
    (min (SteppingLoop.electronLocate theGeometry s).dist
        (SteppingLoop.electronDistToPhysics theState theGeometry s) ≠ 0 →
      (SteppingLoop.ElectronStepperBody theState sqrt theGeometry eventID s).2.wasOnBoundary =
        decide ((SteppingLoop.electronLocate theGeometry s).dist ≤
          SteppingLoop.electronDistToPhysics theState theGeometry s) ∧
      ∃ tl, (SteppingLoop.ElectronStepperBody theState sqrt theGeometry eventID s).2.trace[
          s.trace.length + 2]? = some (.Perform tl) ∧
        tl.fPrimaryElectronTrack.GetGStepLength =
          min (SteppingLoop.electronLocate theGeometry s).dist
            (SteppingLoop.electronDistToPhysics theState theGeometry s) ∧
        tl.fPrimaryElectronTrack.GetOnBoundary =
          decide ((SteppingLoop.electronLocate theGeometry s).dist ≤
            SteppingLoop.electronDistToPhysics theState theGeometry s))) := by
  refine ⟨fun hG => ⟨?_, ?_⟩, fun hE => ⟨?_, ?_⟩⟩
  · by_cases h0 : min (SteppingLoop.gammaLocate theGeometry s).dist
        (SteppingLoop.gammaDistToPhysics theState theGeometry s) = 0
    · rw [SteppingLoop.GammaStepperBody_push theState theGeometry eventID s hG h0, h0]
      exact take_two_after s.trace [.Push] _ _
    · rw [SteppingLoop.GammaStepperBody_finish theState theGeometry eventID s hG h0,
        (SteppingLoop.GammaStepperFinish_facts theState eventID s _ _ _ _ _).2.2]
      simp only [List.append_assoc, List.cons_append, List.nil_append]
      exact take_two_after s.trace _ _ _
  · intro h0
    refine ⟨SteppingLoop.gammaPostStep (SteppingLoop.gammaLimit theState theGeometry s)
      (min (SteppingLoop.gammaLocate theGeometry s).dist
        (SteppingLoop.gammaDistToPhysics theState theGeometry s))
      (decide ((SteppingLoop.gammaLocate theGeometry s).dist ≤
        SteppingLoop.gammaDistToPhysics theState theGeometry s)), ?_, rfl, rfl⟩
    rw [SteppingLoop.GammaStepperBody_finish theState theGeometry eventID s hG h0,
      (SteppingLoop.GammaStepperFinish_facts theState eventID s _ _ _ _ _).2.2]
    simp only [List.append_assoc, List.cons_append, List.nil_append]
    exact get_third_after s.trace _ _ _ _
  · by_cases h0 : min (SteppingLoop.electronLocate theGeometry s).dist
        (SteppingLoop.electronDistToPhysics theState theGeometry s) = 0
    · rw [SteppingLoop.ElectronStepperBody_push theState sqrt theGeometry eventID s hE h0, h0]
      exact take_two_after s.trace [.Push] _ _
    · rw [SteppingLoop.ElectronStepperBody_finish theState sqrt theGeometry eventID s hE h0,
        (SteppingLoop.ElectronStepperFinish_facts theState sqrt theGeometry eventID s
          _ _ _ _ _).2.2.2]
      simp only [List.append_assoc, List.cons_append, List.nil_append]
      exact take_two_after s.trace _ _ _
  · intro h0
    rw [SteppingLoop.ElectronStepperBody_finish theState sqrt theGeometry eventID s hE h0]
    refine ⟨(SteppingLoop.ElectronStepperFinish_facts theState sqrt theGeometry eventID s
      _ _ _ _ _).2.2.1,
      SteppingLoop.electronPostStep (SteppingLoop.electronLimit theState theGeometry s)
        (min (SteppingLoop.electronLocate theGeometry s).dist
          (SteppingLoop.electronDistToPhysics theState theGeometry s))
        (decide ((SteppingLoop.electronLocate theGeometry s).dist ≤
          SteppingLoop.electronDistToPhysics theState theGeometry s)), ?_, rfl, rfl⟩
    rw [(SteppingLoop.ElectronStepperFinish_facts theState sqrt theGeometry eventID s
        _ _ _ _ _).2.2.2]
    simp only [List.append_assoc, List.cons_append, List.nil_append]
    exact get_third_after s.trace _ _ _ _

theorem SteppingLoop.example_not_leaving :
    ¬ (SteppingLoop.gammaLocate Geometry.new exampleStepperState).dist > 10000000000 ∧
    ¬ (SteppingLoop.electronLocate Geometry.new exampleStepperState).dist > 10000000000 := by
  rw [SteppingLoop.example_gammaLocate, SteppingLoop.example_electronLocate]
  norm_num

/-- Witness of C18: the example track in the default geometry with a stub
engine whose physics limit is 2: the geometric distance 1.3 is chosen and the
step is boundary limited. -/
theorem SteppingLoop.step_selection_witness :
    (SteppingLoop.GammaStepperBody (stubState 2) Geometry.new 0
        exampleStepperState).2.trace.take (exampleStepperState.trace.length + 2) =
      exampleStepperState.trace ++
        [.HowFar (SteppingLoop.gammaPreStep (stubState 2) Geometry.new exampleStepperState),
         .StepSelected
           (min (SteppingLoop.gammaLocate Geometry.new exampleStepperState).dist
             (SteppingLoop.gammaDistToPhysics (stubState 2) Geometry.new exampleStepperState))
           (decide ((SteppingLoop.gammaLocate Geometry.new exampleStepperState).dist ≤
             SteppingLoop.gammaDistToPhysics (stubState 2) Geometry.new
               exampleStepperState))] :=
  ((SteppingLoop.step_selection (stubState 2) (fun x => x) Geometry.new 0
    exampleStepperState).1 SteppingLoop.example_not_leaving.1).1

theorem SteppingLoop.not_mem_stackEvents (tl : G4HepEmTLData) (len : ℚ) (l a n : Int) :
    StepEvent.SteppingAction len l a n ∉ SteppingLoop.stackEvents tl := by
  unfold SteppingLoop.stackEvents
  split_ifs <;> simp

theorem SteppingLoop.electronRecordedLength_ne_zero (tl : G4HepEmTLData) (d : ℚ)
    (hd : d ≠ 0) : SteppingLoop.electronRecordedLength tl d ≠ 0 := by
  unfold SteppingLoop.electronRecordedLength
  split_ifs with h
  · exact ne_of_gt h
  · exact hd

/-- No iteration of the gamma stepper records a step of length zero. -/
theorem SteppingLoop.GammaStepperBody_recorded (theState : G4HepEmState)
    (theGeometry : Geometry) (eventID : Int) (s : StepperState) (len : ℚ) (l a n : Int)
    (hm : StepEvent.SteppingAction len l a n ∈
      (SteppingLoop.GammaStepperBody theState theGeometry eventID s).2.trace.drop
        s.trace.length) : len ≠ 0 := by
  by_cases hB : (SteppingLoop.gammaLocate theGeometry s).dist > 10000000000
  · rw [SteppingLoop.GammaStepperBody_returned theState theGeometry eventID s hB] at hm
    simp at hm
  · by_cases h0 : min (SteppingLoop.gammaLocate theGeometry s).dist
        (SteppingLoop.gammaDistToPhysics theState theGeometry s) = 0
    · rw [SteppingLoop.GammaStepperBody_push theState theGeometry eventID s hB h0] at hm
      simp at hm
    · rw [SteppingLoop.GammaStepperBody_finish theState theGeometry eventID s hB h0,
        (SteppingLoop.GammaStepperFinish_facts theState eventID s _ _ _ _ _).2.2] at hm
      simp only [List.append_assoc, List.drop_left, List.mem_append, List.mem_cons,
        List.mem_singleton, List.not_mem_nil, or_false, reduceCtorEq, false_or] at hm
      rcases hm with hm | hm
      · exact absurd hm (SteppingLoop.not_mem_stackEvents _ _ _ _ _)
      · injection hm with h1
        rw [h1]
        exact h0

/-- No iteration of the electron stepper records a step of length zero. -/
theorem SteppingLoop.ElectronStepperBody_recorded (theState : G4HepEmState) (sqrt : ℚ → ℚ)
    (theGeometry : Geometry) (eventID : Int) (s : StepperState) (len : ℚ) (l a n : Int)
    (hm : StepEvent.SteppingAction len l a n ∈
      (SteppingLoop.ElectronStepperBody theState sqrt theGeometry eventID s).2.trace.drop
        s.trace.length) : len ≠ 0 := by
  by_cases hB : (SteppingLoop.electronLocate theGeometry s).dist > 10000000000
  · rw [SteppingLoop.ElectronStepperBody_returned theState sqrt theGeometry eventID s hB] at hm
    simp at hm
  · by_cases h0 : min (SteppingLoop.electronLocate theGeometry s).dist
        (SteppingLoop.electronDistToPhysics theState theGeometry s) = 0
    · rw [SteppingLoop.ElectronStepperBody_push theState sqrt theGeometry eventID s hB h0] at hm
      simp at hm
    · rw [SteppingLoop.ElectronStepperBody_finish theState sqrt theGeometry eventID s hB h0,
        (SteppingLoop.ElectronStepperFinish_facts theState sqrt theGeometry eventID s
          _ _ _ _ _).2.2.2] at hm
      simp only [List.append_assoc, List.drop_left, List.mem_append, List.mem_cons,
        List.mem_singleton, List.not_mem_nil, or_false, reduceCtorEq, false_or] at hm
      rcases hm with hm | hm
      · exact absurd hm (SteppingLoop.not_mem_stackEvents _ _ _ _ _)
      · injection hm with h1
        rw [h1]
        exact SteppingLoop.electronRecordedLength_ne_zero _ _ h0

/-- C19: in both steppers, when the chosen step length `min(dB, dP)` is zero
the iteration adds 1e-6 times the current direction to the position of the
track and ends by `continue`: the stack, the results and the step counter are
unchanged and the only events are `HowFar`, the selection and the push, so
`Perform`, the stacking of secondaries and the stepping action are not called.
No iteration records a step of length zero. -/
theorem SteppingLoop.zero_step_push (theState : G4HepEmState) (sqrt : ℚ → ℚ)
    (theGeometry : Geometry) (eventID : Int) (s : StepperState) :
    (¬ (SteppingLoop.gammaLocate theGeometry s).dist > 10000000000 →
      min (SteppingLoop.gammaLocate theGeometry s).dist
        (SteppingLoop.gammaDistToPhysics theState theGeometry s) = 0 →
      SteppingLoop.GammaStepperBody theState theGeometry eventID s =
        (.continued,
          { s with
            theTLData := SteppingLoop.gammaMoved (SteppingLoop.gammaLimit theState theGeometry s)
              (1 / 1000000)
            trace := s.trace ++
              [.HowFar (SteppingLoop.gammaPreStep theState theGeometry s),
               .StepSelected 0 (decide ((SteppingLoop.gammaLocate theGeometry s).dist ≤
                 SteppingLoop.gammaDistToPhysics theState theGeometry s)),
               .Push] })) ∧
    (¬ (SteppingLoop.electronLocate theGeometry s).dist > 10000000000 →
      min (SteppingLoop.electronLocate theGeometry s).dist
        (SteppingLoop.electronDistToPhysics theState theGeometry s) = 0 →
      SteppingLoop.ElectronStepperBody theState sqrt theGeometry eventID s =
        (.continued,
          { s with
            theTLData := SteppingLoop.electronMoved
              (SteppingLoop.electronLimit theState theGeometry s) (1 / 1000000)
            trace := s.trace ++
              [.HowFar (SteppingLoop.electronPreStep theState theGeometry s),
               .StepSelected 0 (decide ((SteppingLoop.electronLocate theGeometry s).dist ≤
                 SteppingLoop.electronDistToPhysics theState theGeometry s)),
               .Push] })) ∧
    (∀ (len : ℚ) (l a n : Int), StepEvent.SteppingAction len l a n ∈
        (SteppingLoop.GammaStepperBody theState theGeometry eventID s).2.trace.drop
          s.trace.length → len ≠ 0) ∧
    (∀ (len : ℚ) (l a n : Int), StepEvent.SteppingAction len l a n ∈
        (SteppingLoop.ElectronStepperBody theState sqrt theGeometry eventID s).2.trace.drop
          s.trace.length → len ≠ 0) :=
  ⟨SteppingLoop.GammaStepperBody_push theState theGeometry eventID s,
    SteppingLoop.ElectronStepperBody_push theState sqrt theGeometry eventID s,
    SteppingLoop.GammaStepperBody_recorded theState theGeometry eventID s,
    SteppingLoop.ElectronStepperBody_recorded theState sqrt theGeometry eventID s⟩

/-- The default geometry locates the point `(-192, 0, 0)` moving along
`(-1, 0, 0)` in layer 1, on whose left face it is moving out: distance 0. -/
theorem Geometry.new_locate_boundary :
    (Geometry.new.CalculateDistanceToOut ⟨-192, 0, 0⟩ ⟨-1, 0, 0⟩).dist = 0 := by
  have hi : Geometry.new.layerIndex ⟨-192, 0, 0⟩ = 1 := by
    norm_num [Geometry.layerIndex, Geometry.new_thick.1, Geometry.new_thick.2, truncToInt]
  have hf : Geometry.new.toLayerFrame ⟨-192, 0, 0⟩ = ⟨-4, 0, 0⟩ := by
    unfold Geometry.toLayerFrame
    rw [hi, Geometry.new_thick.1, Geometry.new_thick.2]
    norm_num
  have hcalo : Geometry.new.fBoxCalo.DistanceToOut ⟨-192, 0, 0⟩ ⟨-1, 0, 0⟩ ≠ 0 := by
    rw [Geometry.new_fBoxCalo]
    norm_num [Box.DistanceToOut, Box.new, Box.fDelta, kCarTolerance, copysign]
  have hlayer : Geometry.new.fBoxLayer.DistanceToOut
      (Geometry.new.toLayerFrame ⟨-192, 0, 0⟩) ⟨-1, 0, 0⟩ = 0 := by
    rw [hf, Geometry.new_fBoxLayer]
    norm_num [Box.DistanceToOut, Box.new, Box.fDelta, kCarTolerance]
  unfold Geometry.toLayerFrame Geometry.layerIndex at hlayer
  unfold Geometry.CalculateDistanceToOut
  simp only [hcalo, hlayer, if_false, if_true]

/-- Witness of C19: the track on the boundary of layers 0 and 1 moving out of
layer 1 has the geometric distance 0; with a physics limit of 2 the chosen
step length is 0 and the gamma stepper pushes. -/
theorem SteppingLoop.zero_step_push_witness :
    SteppingLoop.GammaStepperBody (stubState 2) Geometry.new 0 boundaryStepperState =
      (.continued,
        { boundaryStepperState with
          theTLData := SteppingLoop.gammaMoved
            (SteppingLoop.gammaLimit (stubState 2) Geometry.new boundaryStepperState)
            (1 / 1000000)
          trace := boundaryStepperState.trace ++
            [.HowFar (SteppingLoop.gammaPreStep (stubState 2) Geometry.new boundaryStepperState),
             .StepSelected 0
               (decide ((SteppingLoop.gammaLocate Geometry.new boundaryStepperState).dist ≤
                 SteppingLoop.gammaDistToPhysics (stubState 2) Geometry.new
                   boundaryStepperState)),
             .Push] }) := by
  have hd : (SteppingLoop.gammaLocate Geometry.new boundaryStepperState).dist = 0 :=
    Geometry.new_locate_boundary
  have hp : SteppingLoop.gammaDistToPhysics (stubState 2) Geometry.new boundaryStepperState
      = 2 := rfl
  exact (SteppingLoop.zero_step_push (stubState 2) (fun x => x) Geometry.new 0
    boundaryStepperState).1 (by rw [hd]; norm_num) (by rw [hd, hp]; norm_num)

/-- Counterexample of C20 as stated: for the example track in the default
geometry the geometric distance is 1.3; with a stub engine whose physics limit
is 0 the gamma stepper applies the push (the position moves by 1e-6 along the
direction), ends the iteration by `continue` and does not call `Perform`. -/
theorem SteppingLoop.zero_physics_limit_pushed :
    SteppingLoop.gammaDistToPhysics (stubState 0) Geometry.new exampleStepperState = 0 ∧
    0 < (SteppingLoop.gammaLocate Geometry.new exampleStepperState).dist ∧
    (SteppingLoop.GammaStepperBody (stubState 0) Geometry.new 0 exampleStepperState).1 =
      .continued ∧
    (SteppingLoop.GammaStepperBody (stubState 0) Geometry.new 0 exampleStepperState).2.trace =
      [.HowFar (SteppingLoop.gammaPreStep (stubState 0) Geometry.new exampleStepperState),
       .StepSelected 0 false, .Push] ∧
    (SteppingLoop.GammaStepperBody (stubState 0) Geometry.new 0
      exampleStepperState).2.theTLData.fPrimaryGammaTrack.GetPosition =
        ⟨-199 + 1 / 1000000, 0, 0⟩ := by
  have hd : (SteppingLoop.gammaLocate Geometry.new exampleStepperState).dist = 13 / 10 := by
    rw [SteppingLoop.example_gammaLocate]
  have hp := SteppingLoop.example_gammaDistToPhysics 0
  have h0 : min (SteppingLoop.gammaLocate Geometry.new exampleStepperState).dist
      (SteppingLoop.gammaDistToPhysics (stubState 0) Geometry.new exampleStepperState) = 0 := by
    rw [hd, hp]
    norm_num
  have hf : decide ((SteppingLoop.gammaLocate Geometry.new exampleStepperState).dist ≤
      SteppingLoop.gammaDistToPhysics (stubState 0) Geometry.new exampleStepperState)
      = false := by
    rw [hd, hp]
    exact decide_eq_false (by norm_num)
  rw [SteppingLoop.GammaStepperBody_push (stubState 0) Geometry.new 0 exampleStepperState
    SteppingLoop.example_not_leaving.1 h0, hf]
  refine ⟨hp, by rw [hd]; norm_num, rfl, rfl, ?_⟩
  simp [SteppingLoop.gammaMoved, SteppingLoop.gammaLimit, SteppingLoop.gammaPreStep, stubState,
    SteppingLoop.AddTo3Vect, G4HepEmTrack.SetPosition, G4HepEmTrack.GetPosition,
    G4HepEmTrack.GetDirection, G4HepEmTrack.SetGStepLength, G4HepEmTrack.SetMCIndex,
    G4HepEmTrack.SetOnBoundary, exampleStepperState, exampleTrack]

/-- C20 (amended): in an iteration of the gamma stepper that passes its
leaving test, and in an iteration of the electron stepper that passes its own,
the push is applied, and the iteration ended by `continue`, exactly when the
chosen step length `min(dB, dP)` is zero, whichever limit is zero; in
particular a physics limit of 0 with a strictly positive geometric distance
leads to the push and not to `Perform`. Each stepper is stated under its own
leaving test only. -/
theorem SteppingLoop.push_iff_zero_step (theState : G4HepEmState) (sqrt : ℚ → ℚ)
    (theGeometry : Geometry) (eventID : Int) (s : StepperState) :
    (¬ (SteppingLoop.gammaLocate theGeometry s).dist > 10000000000 →
    ((SteppingLoop.GammaStepperBody theState theGeometry eventID s).1 = .continued ↔
      min (SteppingLoop.gammaLocate theGeometry s).dist
        (SteppingLoop.gammaDistToPhysics theState theGeometry s) = 0) ∧
    (SteppingLoop.gammaDistToPhysics theState theGeometry s = 0 →
      0 < (SteppingLoop.gammaLocate theGeometry s).dist →
      (SteppingLoop.GammaStepperBody theState theGeometry eventID s).1 = .continued ∧
      (SteppingLoop.GammaStepperBody theState theGeometry eventID s).2.theTLData =
        SteppingLoop.gammaMoved (SteppingLoop.gammaLimit theState theGeometry s)
          (1 / 1000000) ∧
      (SteppingLoop.GammaStepperBody theState theGeometry eventID s).2.trace =
        s.trace ++ [.HowFar (SteppingLoop.gammaPreStep theState theGeometry s),
          .StepSelected 0 false, .Push])) ∧
    (¬ (SteppingLoop.electronLocate theGeometry s).dist > 10000000000 →
    ((SteppingLoop.ElectronStepperBody theState sqrt theGeometry eventID s).1 = .continued ↔
      min (SteppingLoop.electronLocate theGeometry s).dist
        (SteppingLoop.electronDistToPhysics theState theGeometry s) = 0) ∧
    (SteppingLoop.electronDistToPhysics theState theGeometry s = 0 →
      0 < (SteppingLoop.electronLocate theGeometry s).dist →
      (SteppingLoop.ElectronStepperBody theState sqrt theGeometry eventID s).1 = .continued ∧
      (SteppingLoop.ElectronStepperBody theState sqrt theGeometry eventID s).2.theTLData =
        SteppingLoop.electronMoved (SteppingLoop.electronLimit theState theGeometry s)
          (1 / 1000000) ∧
      (SteppingLoop.ElectronStepperBody theState sqrt theGeometry eventID s).2.trace =
        s.trace ++ [.HowFar (SteppingLoop.electronPreStep theState theGeometry s),
          .StepSelected 0 false, .Push])) := by
  refine ⟨fun hG => ⟨?_, ?_⟩, fun hE => ⟨?_, ?_⟩⟩
  · constructor
    · intro hc
      by_contra h0
      rw [SteppingLoop.GammaStepperBody_finish theState theGeometry eventID s hG h0,
        (SteppingLoop.GammaStepperFinish_facts theState eventID s _ _ _ _ _).1] at hc
      exact absurd hc (by decide)
    · intro h0
      rw [SteppingLoop.GammaStepperBody_push theState theGeometry eventID s hG h0]
  · intro hp hb
    have h0 : min (SteppingLoop.gammaLocate theGeometry s).dist
        (SteppingLoop.gammaDistToPhysics theState theGeometry s) = 0 := by
      rw [hp]
      exact min_eq_right hb.le
    have hf : decide ((SteppingLoop.gammaLocate theGeometry s).dist ≤
        SteppingLoop.gammaDistToPhysics theState theGeometry s) = false := by
      rw [hp]
      exact decide_eq_false (not_le.mpr hb)
    rw [SteppingLoop.GammaStepperBody_push theState theGeometry eventID s hG h0, hf]
    exact ⟨rfl, rfl, rfl⟩
  · constructor
    · intro hc
      by_contra h0
      rw [SteppingLoop.ElectronStepperBody_finish theState sqrt theGeometry eventID s hE h0,
        (SteppingLoop.ElectronStepperFinish_facts theState sqrt theGeometry eventID s
          _ _ _ _ _).1] at hc
      exact absurd hc (by decide)
    · intro h0
      rw [SteppingLoop.ElectronStepperBody_push theState sqrt theGeometry eventID s hE h0]
  · intro hp hb
    have h0 : min (SteppingLoop.electronLocate theGeometry s).dist
        (SteppingLoop.electronDistToPhysics theState theGeometry s) = 0 := by
      rw [hp]
      exact min_eq_right hb.le
    have hf : decide ((SteppingLoop.electronLocate theGeometry s).dist ≤
        SteppingLoop.electronDistToPhysics theState theGeometry s) = false := by
      rw [hp]
      exact decide_eq_false (not_le.mpr hb)
    rw [SteppingLoop.ElectronStepperBody_push theState sqrt theGeometry eventID s hE h0, hf]
    exact ⟨rfl, rfl, rfl⟩

/-- Witness of C20 (amended): the example track as the primary electron in the
default geometry, with a stub engine whose physics limit is 0. -/
theorem SteppingLoop.push_iff_zero_step_witness :
    (SteppingLoop.ElectronStepperBody (stubState 0) (fun x => x) Geometry.new 0
      exampleStepperState).1 = .continued :=
  (((SteppingLoop.push_iff_zero_step (stubState 0) (fun x => x) Geometry.new 0
    exampleStepperState).2 SteppingLoop.example_not_leaving.2).2
      (SteppingLoop.example_electronDistToPhysics 0)
      (by rw [SteppingLoop.example_electronLocate]; norm_num)).1

/-- The default geometry reports the leaving sentinel for the point
`(200, 0, 0)` moving along `(1, 0, 0)`. -/
theorem Geometry.new_locate_leaving :
    (Geometry.new.CalculateDistanceToOut ⟨200, 0, 0⟩ ⟨1, 0, 0⟩).dist =
      100000000000000000000 := by
  have hcalo : Geometry.new.fBoxCalo.DistanceToOut ⟨200, 0, 0⟩ ⟨1, 0, 0⟩ = 0 := by
    rw [Geometry.new_fBoxCalo]
    norm_num [Box.DistanceToOut, Box.new, Box.fDelta, kCarTolerance]
  unfold Geometry.CalculateDistanceToOut
  simp only [hcalo, if_true]

/-- The loop of the gamma stepper, unfolded once. -/
theorem SteppingLoop.GammaStepper_succ (theState : G4HepEmState) (theGeometry : Geometry)
    (eventID : Int) (fuel : ℕ) (s : StepperState) :
    SteppingLoop.GammaStepper theState theGeometry eventID (fuel + 1) s =
      if s.theTLData.fPrimaryGammaTrack.GetEKin > 0 then
        match SteppingLoop.GammaStepperBody theState theGeometry eventID s with
        | (.returned, s1) => some s1
        | (_, s1) => SteppingLoop.GammaStepper theState theGeometry eventID fuel s1
      else some s := by
  rw [SteppingLoop.GammaStepper]

set_option maxHeartbeats 4000000 in
/-- The loop of the electron stepper, unfolded once. -/
theorem SteppingLoop.ElectronStepper_succ (theState : G4HepEmState) (sqrt : ℚ → ℚ)
    (theGeometry : Geometry) (eventID : Int) (fuel : ℕ) (s : StepperState) :
    SteppingLoop.ElectronStepper theState sqrt theGeometry eventID (fuel + 1) s =
      if s.theTLData.fPrimaryElectronTrack.GetEKin > 0 then
        match SteppingLoop.ElectronStepperBody theState sqrt theGeometry eventID s with
        | (.returned, s1) => some s1
        | (_, s1) => SteppingLoop.ElectronStepper theState sqrt theGeometry eventID fuel s1
      else some s := by
  rw [SteppingLoop.ElectronStepper]

/-- C21: in both steppers, when the geometry returns a distance greater than
1e10 the iteration ends by `return` with the whole state of the stepper as
it was: the data of the engine with the primary track (position, direction,
energy), the track stack, the results, the step counter and the record of
events, so that `HowFar`, `Perform`, the stacking of secondaries and the
stepping action are not called; and the stepper itself returns that state. -/
theorem SteppingLoop.leaving_returns (theState : G4HepEmState) (sqrt : ℚ → ℚ)
    (theGeometry : Geometry) (eventID : Int) (s : StepperState) (fuel : ℕ) :
    ((SteppingLoop.gammaLocate theGeometry s).dist > 10000000000 →
      SteppingLoop.GammaStepperBody theState theGeometry eventID s = (.returned, s) ∧
      SteppingLoop.GammaStepper theState theGeometry eventID (fuel + 1) s = some s) ∧
    ((SteppingLoop.electronLocate theGeometry s).dist > 10000000000 →
      SteppingLoop.ElectronStepperBody theState sqrt theGeometry eventID s = (.returned, s) ∧
      SteppingLoop.ElectronStepper theState sqrt theGeometry eventID (fuel + 1) s = some s) := by
  constructor
  · intro hB
    have hb := SteppingLoop.GammaStepperBody_returned theState theGeometry eventID s hB
    refine ⟨hb, ?_⟩
    rw [SteppingLoop.GammaStepper_succ, hb]
    split_ifs <;> rfl
  · intro hB
    have hb := SteppingLoop.ElectronStepperBody_returned theState sqrt theGeometry eventID s hB
    refine ⟨hb, ?_⟩
    rw [SteppingLoop.ElectronStepper_succ, hb]
    split_ifs <;> rfl

/-- Witness of C21: the gamma at `(200, 0, 0)` moving along `(1, 0, 0)` in the
default geometry is leaving: the stepper returns the state it was given. -/
theorem SteppingLoop.leaving_returns_witness :
    (SteppingLoop.gammaLocate Geometry.new leavingStepperState).dist > 10000000000 ∧
    SteppingLoop.GammaStepperBody (stubState 2) Geometry.new 0 leavingStepperState =
      (.returned, leavingStepperState) ∧
    SteppingLoop.GammaStepper (stubState 2) Geometry.new 0 (0 + 1) leavingStepperState =
      some leavingStepperState :=
  have h : (SteppingLoop.gammaLocate Geometry.new leavingStepperState).dist > 10000000000 := by
    have e : (SteppingLoop.gammaLocate Geometry.new leavingStepperState).dist =
        100000000000000000000 := Geometry.new_locate_leaving
    rw [e]
    norm_num
  ⟨h, (SteppingLoop.leaving_returns (stubState 2) (fun x => x) Geometry.new 0
    leavingStepperState 0).1 h⟩

/-- The results after the second part of the gamma body. -/
theorem SteppingLoop.GammaStepperFinish_result (theState : G4HepEmState) (eventID : Int)
    (s : StepperState) (loc : Located) (tl2 : G4HepEmTLData) (d : ℚ) (f : Bool)
    (trace : List StepEvent) :
    (SteppingLoop.GammaStepperFinish theState eventID s loc tl2 d f trace).2.theResult =
      SteppingLoop.SteppingAction s.theResult
        (SteppingLoop.GammaStepperFinish theState eventID s loc tl2 d f
          trace).2.theTLData.fPrimaryGammaTrack
        loc.currentVolume d loc.indxLayer loc.indxAbs eventID s.numStep := rfl

/-- The results after the second part of the electron body. -/
theorem SteppingLoop.ElectronStepperFinish_result (theState : G4HepEmState) (sqrt : ℚ → ℚ)
    (theGeometry : Geometry) (eventID : Int) (s : StepperState) (loc : Located)
    (tl2 : G4HepEmTLData) (d : ℚ) (f : Bool) (trace : List StepEvent) :
    (SteppingLoop.ElectronStepperFinish theState sqrt theGeometry eventID s loc tl2 d f
        trace).2.theResult =
      SteppingLoop.SteppingAction s.theResult
        (SteppingLoop.ElectronStepperFinish theState sqrt theGeometry eventID s loc tl2 d f
          trace).2.theTLData.fPrimaryElectronTrack
        loc.currentVolume
        (SteppingLoop.electronRecordedLength
          (theState.ElectronManagerPerform (SteppingLoop.electronPostStep tl2 d f)) d)
        loc.indxLayer loc.indxAbs eventID s.numStep := rfl

/-- C26: in an iteration that takes a step (the track is not leaving and the
chosen step length `min(dB, dP)` is not zero) the gamma stepper calls the
stepping action with the chosen step length, and the electron stepper calls it
with the true step length found in the multiple-scattering data after
`Perform` when that is positive and with the chosen step length otherwise. -/
theorem SteppingLoop.recorded_step_length (theState : G4HepEmState) (sqrt : ℚ → ℚ)
    (theGeometry : Geometry) (eventID : Int) (s : StepperState) :
    (¬ (SteppingLoop.gammaLocate theGeometry s).dist > 10000000000 →
      min (SteppingLoop.gammaLocate theGeometry s).dist
        (SteppingLoop.gammaDistToPhysics theState theGeometry s) ≠ 0 →
      (SteppingLoop.GammaStepperBody theState theGeometry eventID s).2.theResult =
        SteppingLoop.SteppingAction s.theResult
          (SteppingLoop.GammaStepperBody theState theGeometry eventID
            s).2.theTLData.fPrimaryGammaTrack
          (SteppingLoop.gammaLocate theGeometry s).currentVolume
          (min (SteppingLoop.gammaLocate theGeometry s).dist
            (SteppingLoop.gammaDistToPhysics theState theGeometry s))
          (SteppingLoop.gammaLocate theGeometry s).indxLayer
          (SteppingLoop.gammaLocate theGeometry s).indxAbs eventID s.numStep) ∧
    (¬ (SteppingLoop.electronLocate theGeometry s).dist > 10000000000 →
      min (SteppingLoop.electronLocate theGeometry s).dist
        (SteppingLoop.electronDistToPhysics theState theGeometry s) ≠ 0 →
      (SteppingLoop.ElectronStepperBody theState sqrt theGeometry eventID s).2.theResult =
        SteppingLoop.SteppingAction s.theResult
          (SteppingLoop.ElectronStepperBody theState sqrt theGeometry eventID
            s).2.theTLData.fPrimaryElectronTrack
          (SteppingLoop.electronLocate theGeometry s).currentVolume
          (if (theState.ElectronManagerPerform (SteppingLoop.electronPostStep
                (SteppingLoop.electronLimit theState theGeometry s)
                (min (SteppingLoop.electronLocate theGeometry s).dist
                  (SteppingLoop.electronDistToPhysics theState theGeometry s))
                (decide ((SteppingLoop.electronLocate theGeometry s).dist ≤
                  SteppingLoop.electronDistToPhysics theState theGeometry
                    s)))).fMSCTrackData.fTrueStepLength > 0
           then (theState.ElectronManagerPerform (SteppingLoop.electronPostStep
                (SteppingLoop.electronLimit theState theGeometry s)
                (min (SteppingLoop.electronLocate theGeometry s).dist
                  (SteppingLoop.electronDistToPhysics theState theGeometry s))
                (decide ((SteppingLoop.electronLocate theGeometry s).dist ≤
                  SteppingLoop.electronDistToPhysics theState theGeometry
                    s)))).fMSCTrackData.fTrueStepLength
           else min (SteppingLoop.electronLocate theGeometry s).dist
              (SteppingLoop.electronDistToPhysics theState theGeometry s))
          (SteppingLoop.electronLocate theGeometry s).indxLayer
          (SteppingLoop.electronLocate theGeometry s).indxAbs eventID s.numStep) := by
  constructor
  · intro hB h0
    rw [SteppingLoop.GammaStepperBody_finish theState theGeometry eventID s hB h0]
    exact SteppingLoop.GammaStepperFinish_result _ _ _ _ _ _ _ _
  · intro hB h0
    rw [SteppingLoop.ElectronStepperBody_finish theState sqrt theGeometry eventID s hB h0]
    exact SteppingLoop.ElectronStepperFinish_result _ _ _ _ _ _ _ _ _ _

/-- Witness of C26: the example gamma in the default geometry with the stub
engine of limit 2 takes the step of length `min(1.3, 2)`, and that length is
handed to the stepping action. -/
theorem SteppingLoop.recorded_step_length_witness :
    (SteppingLoop.GammaStepperBody (stubState 2) Geometry.new 0
        exampleStepperState).2.theResult =
      SteppingLoop.SteppingAction exampleStepperState.theResult
        (SteppingLoop.GammaStepperBody (stubState 2) Geometry.new 0
          exampleStepperState).2.theTLData.fPrimaryGammaTrack
        (SteppingLoop.gammaLocate Geometry.new exampleStepperState).currentVolume
        (min (SteppingLoop.gammaLocate Geometry.new exampleStepperState).dist
          (SteppingLoop.gammaDistToPhysics (stubState 2) Geometry.new exampleStepperState))
        (SteppingLoop.gammaLocate Geometry.new exampleStepperState).indxLayer
        (SteppingLoop.gammaLocate Geometry.new exampleStepperState).indxAbs 0
        exampleStepperState.numStep :=
  (SteppingLoop.recorded_step_length (stubState 2) sqrtStub Geometry.new 0
    exampleStepperState).1 SteppingLoop.example_not_leaving.1 (by
      rw [SteppingLoop.example_gammaLocate, SteppingLoop.example_gammaDistToPhysics]
      norm_num)

/-- C30: the stepping action tallies a step only for a layer index `≥ 0` and
a positive length: then it adds 1 to exactly one per-event step counter (that
of the gammas when the charge is 0, that of the electrons and positrons
otherwise) and fills the matching track-length histogram at the layer index
with the length, leaving the other counter and histogram as they were; for a
layer index `< 0` or a length `≤ 0` both step counters and both track-length
histograms are unchanged. -/
theorem SteppingLoop.SteppingAction_steps (theResult : Results) (theTrack : G4HepEmTrack)
    (currentVolume : VolumeId) (len : ℚ) (indxLayer indxAbsorber eventID stepID : Int) :
    (0 ≤ indxLayer → 0 < len → theTrack.GetCharge = 0 →
      (SteppingLoop.SteppingAction theResult theTrack currentVolume len indxLayer indxAbsorber
          eventID stepID).fGammaTrackLenghtPerLayer =
        theResult.fGammaTrackLenghtPerLayer.Fill (indxLayer : ℚ) len ∧
      (SteppingLoop.SteppingAction theResult theTrack currentVolume len indxLayer indxAbsorber
          eventID stepID).fPerEventRes.fNumStepsGamma =
        theResult.fPerEventRes.fNumStepsGamma + 1 ∧
      (SteppingLoop.SteppingAction theResult theTrack currentVolume len indxLayer indxAbsorber
          eventID stepID).fElPosTrackLenghtPerLayer = theResult.fElPosTrackLenghtPerLayer ∧
      (SteppingLoop.SteppingAction theResult theTrack currentVolume len indxLayer indxAbsorber
          eventID stepID).fPerEventRes.fNumStepsElPos = theResult.fPerEventRes.fNumStepsElPos) ∧
    (0 ≤ indxLayer → 0 < len → theTrack.GetCharge ≠ 0 →
      (SteppingLoop.SteppingAction theResult theTrack currentVolume len indxLayer indxAbsorber
          eventID stepID).fElPosTrackLenghtPerLayer =
        theResult.fElPosTrackLenghtPerLayer.Fill (indxLayer : ℚ) len ∧
      (SteppingLoop.SteppingAction theResult theTrack currentVolume len indxLayer indxAbsorber
          eventID stepID).fPerEventRes.fNumStepsElPos =
        theResult.fPerEventRes.fNumStepsElPos + 1 ∧
      (SteppingLoop.SteppingAction theResult theTrack currentVolume len indxLayer indxAbsorber
          eventID stepID).fGammaTrackLenghtPerLayer = theResult.fGammaTrackLenghtPerLayer ∧
      (SteppingLoop.SteppingAction theResult theTrack currentVolume len indxLayer indxAbsorber
          eventID stepID).fPerEventRes.fNumStepsGamma = theResult.fPerEventRes.fNumStepsGamma) ∧
    (indxLayer < 0 ∨ len ≤ 0 →
      (SteppingLoop.SteppingAction theResult theTrack currentVolume len indxLayer indxAbsorber
          eventID stepID).fGammaTrackLenghtPerLayer = theResult.fGammaTrackLenghtPerLayer ∧
      (SteppingLoop.SteppingAction theResult theTrack currentVolume len indxLayer indxAbsorber
          eventID stepID).fPerEventRes.fNumStepsGamma = theResult.fPerEventRes.fNumStepsGamma ∧
      (SteppingLoop.SteppingAction theResult theTrack currentVolume len indxLayer indxAbsorber
          eventID stepID).fElPosTrackLenghtPerLayer = theResult.fElPosTrackLenghtPerLayer ∧
      (SteppingLoop.SteppingAction theResult theTrack currentVolume len indxLayer indxAbsorber
          eventID stepID).fPerEventRes.fNumStepsElPos = theResult.fPerEventRes.fNumStepsElPos) := by
  unfold SteppingLoop.SteppingAction
  refine ⟨?_, ?_, ?_⟩
  · intro hl hp hc
    simp only [if_neg (not_lt.mpr hl), if_neg (not_le.mpr hp), if_pos hc]
    refine ⟨?_, ?_, ?_, ?_⟩ <;> split_ifs <;> rfl
  · intro hl hp hc
    simp only [if_neg (not_lt.mpr hl), if_neg (not_le.mpr hp), if_neg hc]
    refine ⟨?_, ?_, ?_, ?_⟩ <;> split_ifs <;> rfl
  · intro h
    by_cases hl : indxLayer < 0
    · refine ⟨?_, ?_, ?_, ?_⟩ <;> rw [if_pos hl]
    · have hp : len ≤ 0 := h.resolve_left hl
      simp only [if_neg hl, if_pos hp]
      refine ⟨?_, ?_, ?_, ?_⟩ <;> split_ifs <;> rfl

/-- Witness of C30: a gamma step of length 2 in layer 3 adds 1 to the gamma
step counter of the event and fills the gamma track-length histogram. -/
theorem SteppingLoop.SteppingAction_steps_witness :
    (SteppingLoop.SteppingAction exampleResults exampleTrack .abs 2 3 0 0
        0).fGammaTrackLenghtPerLayer =
      exampleResults.fGammaTrackLenghtPerLayer.Fill ((3 : Int) : ℚ) 2 ∧
    (SteppingLoop.SteppingAction exampleResults exampleTrack .abs 2 3 0 0
        0).fPerEventRes.fNumStepsGamma = exampleResults.fPerEventRes.fNumStepsGamma + 1 ∧
    (SteppingLoop.SteppingAction exampleResults exampleTrack .abs 2 3 0 0
        0).fElPosTrackLenghtPerLayer = exampleResults.fElPosTrackLenghtPerLayer ∧
    (SteppingLoop.SteppingAction exampleResults exampleTrack .abs 2 3 0 0
        0).fPerEventRes.fNumStepsElPos = exampleResults.fPerEventRes.fNumStepsElPos :=
  (SteppingLoop.SteppingAction_steps exampleResults exampleTrack .abs 2 3 0 0 0).1
    (by decide) (by norm_num) rfl

/-! ## EventLoop: theorems -/

/-- The track delivered by `PopInto` from a stack that is not empty, moved to
the calorimeter when it has no parent, is what `popNext` leaves in the primary
track of the popped type. -/
theorem EventLoop.nextTrack_popNext (DiscardGauss : ℕ → ℕ) (theGeometry : Geometry)
    (trackType : Int) (theTLData : G4HepEmTLData) (theTrackStack : TrackStack)
    (h : 0 ≤ theTrackStack.fCurIndx) :
    EventLoop.nextTrack trackType
        (EventLoop.popNext DiscardGauss theGeometry trackType theTLData theTrackStack).1 =
      EventLoop.relocate theGeometry
        (TrackStack.Copy (theTrackStack.slot theTrackStack.fCurIndx) G4HepEmTrack.new) ∧
    (EventLoop.popNext DiscardGauss theGeometry trackType theTLData theTrackStack).2 =
      { theTrackStack with fCurIndx := theTrackStack.fCurIndx - 1 } := by
  unfold EventLoop.nextTrack EventLoop.popNext TrackStack.PopInto
  by_cases ht : trackType = 0
  · constructor <;> simp only [if_pos ht, if_neg (not_lt.mpr h)]
    rfl
  · constructor <;> simp only [if_neg ht, if_neg (not_lt.mpr h)]
    rfl

/-- C28: for the track popped in the track loop of `EventLoop::ProcessEvents`
from a stack that is not empty: if the track on top of the stack has no parent
(parent id `< 0`), the track handed on has the x coordinate
`GetCaloStartXposition()` and the y and z coordinates, direction, kinetic
energy and charge of the stacked track; if it is a secondary (parent id `≥ 0`)
its position is that of the stacked track. -/
theorem EventLoop.popNext_position (DiscardGauss : ℕ → ℕ) (theGeometry : Geometry)
    (trackType : Int) (theTLData : G4HepEmTLData) (theTrackStack : TrackStack)
    (h : 0 ≤ theTrackStack.fCurIndx) :
    ((theTrackStack.slot theTrackStack.fCurIndx).GetParentID < 0 →
      (EventLoop.nextTrack trackType
        (EventLoop.popNext DiscardGauss theGeometry trackType theTLData
          theTrackStack).1).GetPosition =
        ⟨theGeometry.GetCaloStartXposition,
          (theTrackStack.slot theTrackStack.fCurIndx).GetPosition.y,
          (theTrackStack.slot theTrackStack.fCurIndx).GetPosition.z⟩ ∧
      (EventLoop.nextTrack trackType
        (EventLoop.popNext DiscardGauss theGeometry trackType theTLData
          theTrackStack).1).GetDirection =
        (theTrackStack.slot theTrackStack.fCurIndx).GetDirection ∧
      (EventLoop.nextTrack trackType
        (EventLoop.popNext DiscardGauss theGeometry trackType theTLData
          theTrackStack).1).GetEKin =
        (theTrackStack.slot theTrackStack.fCurIndx).GetEKin ∧
      (EventLoop.nextTrack trackType
        (EventLoop.popNext DiscardGauss theGeometry trackType theTLData
          theTrackStack).1).GetCharge =
        (theTrackStack.slot theTrackStack.fCurIndx).GetCharge) ∧
    (0 ≤ (theTrackStack.slot theTrackStack.fCurIndx).GetParentID →
      (EventLoop.nextTrack trackType
        (EventLoop.popNext DiscardGauss theGeometry trackType theTLData
          theTrackStack).1).GetPosition =
        (theTrackStack.slot theTrackStack.fCurIndx).GetPosition) := by
  rw [(EventLoop.nextTrack_popNext DiscardGauss theGeometry trackType theTLData theTrackStack
    h).1]
  obtain ⟨c1, c2, c3, -, c5, -, -, c8, -, -⟩ :=
    TrackStack.Copy_sameState (theTrackStack.slot theTrackStack.fCurIndx) G4HepEmTrack.new
  unfold EventLoop.relocate
  rw [c8]
  constructor
  · intro hneg
    rw [if_pos hneg, ← c1, ← c2, ← c3, ← c5]
    exact ⟨rfl, rfl, rfl, rfl⟩
  · intro hpos
    rw [if_neg (not_lt.mpr hpos), c1]

/-- Witness of C28: the primary of the default generator, put on the stack
and popped as an electron in the default geometry, starts at `x = -200`. -/
theorem EventLoop.popNext_position_witness :
    (EventLoop.nextTrack (-1)
      (EventLoop.popNext (fun n => n) Geometry.new (-1) exampleStepperState.theTLData
        (TrackStack.new.push (PrimaryGenerator.new.GenerateOne
          G4HepEmTrack.new))).1).GetPosition =
      ⟨Geometry.new.GetCaloStartXposition,
        ((TrackStack.new.push (PrimaryGenerator.new.GenerateOne G4HepEmTrack.new)).slot
          (TrackStack.new.push (PrimaryGenerator.new.GenerateOne
            G4HepEmTrack.new)).fCurIndx).GetPosition.y,
        ((TrackStack.new.push (PrimaryGenerator.new.GenerateOne G4HepEmTrack.new)).slot
          (TrackStack.new.push (PrimaryGenerator.new.GenerateOne
            G4HepEmTrack.new)).fCurIndx).GetPosition.z⟩ :=
  ((EventLoop.popNext_position (fun n => n) Geometry.new (-1) exampleStepperState.theTLData
    (TrackStack.new.push (PrimaryGenerator.new.GenerateOne G4HepEmTrack.new))
    (by decide)).1 (by decide)).1

/-- The run-level fields after a sequence of events. -/
theorem EventLoop.afterEvents_sums (es : List ResultsPerEvent) : ∀ r : Results,
    (EventLoop.afterEvents r es).fEdepAbs = r.fEdepAbs + (es.map (·.fEdepAbs)).sum ∧
    (EventLoop.afterEvents r es).fEdepAbs2 =
      r.fEdepAbs2 + (es.map fun e => e.fEdepAbs * e.fEdepAbs).sum ∧
    (EventLoop.afterEvents r es).fEdepGap = r.fEdepGap + (es.map (·.fEdepGap)).sum ∧
    (EventLoop.afterEvents r es).fEdepGap2 =
      r.fEdepGap2 + (es.map fun e => e.fEdepGap * e.fEdepGap).sum ∧
    (EventLoop.afterEvents r es).fNumSecGamma =
      r.fNumSecGamma + (es.map (·.fNumSecGamma)).sum ∧
    (EventLoop.afterEvents r es).fNumSecGamma2 =
      r.fNumSecGamma2 + (es.map fun e => e.fNumSecGamma * e.fNumSecGamma).sum ∧
    (EventLoop.afterEvents r es).fNumSecElectron =
      r.fNumSecElectron + (es.map (·.fNumSecElectron)).sum ∧
    (EventLoop.afterEvents r es).fNumSecElectron2 =
      r.fNumSecElectron2 + (es.map fun e => e.fNumSecElectron * e.fNumSecElectron).sum ∧
    (EventLoop.afterEvents r es).fNumSecPositron =
      r.fNumSecPositron + (es.map (·.fNumSecPositron)).sum ∧
    (EventLoop.afterEvents r es).fNumSecPositron2 =
      r.fNumSecPositron2 + (es.map fun e => e.fNumSecPositron * e.fNumSecPositron).sum ∧
    (EventLoop.afterEvents r es).fNumStepsGamma =
      r.fNumStepsGamma + (es.map (·.fNumStepsGamma)).sum ∧
    (EventLoop.afterEvents r es).fNumStepsGamma2 =
      r.fNumStepsGamma2 + (es.map fun e => e.fNumStepsGamma * e.fNumStepsGamma).sum ∧
    (EventLoop.afterEvents r es).fNumStepsElPos =
      r.fNumStepsElPos + (es.map (·.fNumStepsElPos)).sum ∧
    (EventLoop.afterEvents r es).fNumStepsElPos2 =
      r.fNumStepsElPos2 + (es.map fun e => e.fNumStepsElPos * e.fNumStepsElPos).sum := by
  induction es with
  | nil =>
    intro r
    simp [EventLoop.afterEvents]
  | cons e es ih =>
    intro r
    have h := ih (EventLoop.EndOfEventAction { r with fPerEventRes := e } 0)
    unfold EventLoop.afterEvents at h ⊢
    simp only [List.foldl_cons, List.map_cons, List.sum_cons]
    obtain ⟨h1, h2, h3, h4, h5, h6, h7, h8, h9, h10, h11, h12, h13, h14⟩ := h
    rw [h1, h2, h3, h4, h5, h6, h7, h8, h9, h10, h11, h12, h13, h14]
    simp only [EventLoop.EndOfEventAction, add_assoc, and_self]

/-! ## StackSecondaries: theorems -/

theorem TrackStack.push_trackID (s : TrackStack) (h : s.wf) (t : G4HepEmTrack) :
    (s.push t).fCurrentTrackID = s.fCurrentTrackID := by
  obtain ⟨ex, he, hi, -, -⟩ := TrackStack.Insert_eq s h
  unfold TrackStack.push TrackStack.setSlot
  rw [he]
  split_ifs <;> rfl

theorem SteppingLoop.stackOne_facts (thePrimary secTrack : G4HepEmTrack) (st : TrackStack)
    (h : st.wf) :
    (SteppingLoop.stackOne thePrimary secTrack st).1 =
      SteppingLoop.stamped thePrimary secTrack st.fCurrentTrackID ∧
    (SteppingLoop.stackOne thePrimary secTrack st).2.wf ∧
    (SteppingLoop.stackOne thePrimary secTrack st).2.contents =
      st.contents ++ [TrackStack.Copy
        (SteppingLoop.stamped thePrimary secTrack st.fCurrentTrackID) G4HepEmTrack.new] ∧
    (SteppingLoop.stackOne thePrimary secTrack st).2.fCurrentTrackID =
      st.fCurrentTrackID + 1 := by
  have hw : (st.GetNextTrackID.2).wf := h
  have e : (SteppingLoop.stackOne thePrimary secTrack st).2 =
      (st.GetNextTrackID.2).push
        (SteppingLoop.stamped thePrimary secTrack st.fCurrentTrackID) := rfl
  obtain ⟨p1, p2, -⟩ := TrackStack.push_facts _ hw
    (SteppingLoop.stamped thePrimary secTrack st.fCurrentTrackID)
  refine ⟨rfl, ?_, ?_, ?_⟩
  · rw [e]
    exact p1
  · rw [e, p2]
    rfl
  · rw [e, TrackStack.push_trackID _ hw]
    rfl

/-- The first loop of `StackSecondaries` over the slots `0 .. n - 1`. -/
theorem SteppingLoop.electronRound_fold (thePrimary : G4HepEmTrack) (tl : G4HepEmTLData)
    (st : TrackStack) (h : st.wf) (n : ℕ) :
    ((List.range n).foldl (SteppingLoop.electronRound thePrimary) (tl, st)).2.wf ∧
    ((List.range n).foldl (SteppingLoop.electronRound thePrimary) (tl, st)).2.contents =
      st.contents ++ (List.range n).map (fun k : ℕ =>
        TrackStack.Copy (SteppingLoop.stamped thePrimary (tl.GetSecondaryElectronTrack k)
          (st.fCurrentTrackID + k)) G4HepEmTrack.new) ∧
    ((List.range n).foldl (SteppingLoop.electronRound thePrimary)
      (tl, st)).2.fCurrentTrackID = st.fCurrentTrackID + n ∧
    { ((List.range n).foldl (SteppingLoop.electronRound thePrimary) (tl, st)).1 with
        fSecondaryElectronTracks := tl.fSecondaryElectronTracks } = tl ∧
    ∀ j : ℕ, n ≤ j →
      ((List.range n).foldl (SteppingLoop.electronRound thePrimary)
        (tl, st)).1.fSecondaryElectronTracks.getD j G4HepEmTrack.new =
      tl.fSecondaryElectronTracks.getD j G4HepEmTrack.new := by
  induction n with
  | zero => simp [h]
  | succ n ih =>
    obtain ⟨i1, i2, i3, i4, i5⟩ := ih
    rw [List.range_succ, List.foldl_append, List.foldl_cons, List.foldl_nil]
    generalize (List.range n).foldl (SteppingLoop.electronRound thePrimary) (tl, st) = res
      at i1 i2 i3 i4 i5
    have hg : res.1.GetSecondaryElectronTrack (n : Int) = tl.GetSecondaryElectronTrack n := by
      unfold G4HepEmTLData.GetSecondaryElectronTrack
      rw [Int.toNat_ofNat]
      exact i5 n le_rfl
    obtain ⟨s1, s2, s3, s4⟩ := SteppingLoop.stackOne_facts thePrimary
      (res.1.GetSecondaryElectronTrack n) res.2 i1
    unfold SteppingLoop.electronRound
    refine ⟨s2, ?_, ?_, ?_, ?_⟩
    · show (SteppingLoop.stackOne thePrimary (res.1.GetSecondaryElectronTrack n)
        res.2).2.contents = _
      rw [s3, i2, hg, i3, List.map_append, List.append_assoc]
      rfl
    · show (SteppingLoop.stackOne thePrimary (res.1.GetSecondaryElectronTrack n)
        res.2).2.fCurrentTrackID = _
      rw [s4, i3]
      push_cast
      ring
    · exact i4
    · intro j hj
      show (res.1.fSecondaryElectronTracks.set n _).getD j G4HepEmTrack.new = _
      rw [getD_set_ne _ _ _ _ _ (by omega)]
      exact i5 j (by omega)

/-- The second loop of `StackSecondaries` over the slots `0 .. n - 1`. -/
theorem SteppingLoop.gammaRound_fold (thePrimary : G4HepEmTrack) (tl : G4HepEmTLData)
    (st : TrackStack) (h : st.wf) (n : ℕ) :
    ((List.range n).foldl (SteppingLoop.gammaRound thePrimary) (tl, st)).2.wf ∧
    ((List.range n).foldl (SteppingLoop.gammaRound thePrimary) (tl, st)).2.contents =
      st.contents ++ (List.range n).map (fun k : ℕ =>
        TrackStack.Copy (SteppingLoop.stamped thePrimary (tl.GetSecondaryGammaTrack k)
          (st.fCurrentTrackID + k)) G4HepEmTrack.new) ∧
    ((List.range n).foldl (SteppingLoop.gammaRound thePrimary)
      (tl, st)).2.fCurrentTrackID = st.fCurrentTrackID + n ∧
    { ((List.range n).foldl (SteppingLoop.gammaRound thePrimary) (tl, st)).1 with
        fSecondaryGammaTracks := tl.fSecondaryGammaTracks } = tl ∧
    ∀ j : ℕ, n ≤ j →
      ((List.range n).foldl (SteppingLoop.gammaRound thePrimary)
        (tl, st)).1.fSecondaryGammaTracks.getD j G4HepEmTrack.new =
      tl.fSecondaryGammaTracks.getD j G4HepEmTrack.new := by
  induction n with
  | zero => simp [h]
  | succ n ih =>
    obtain ⟨i1, i2, i3, i4, i5⟩ := ih
    rw [List.range_succ, List.foldl_append, List.foldl_cons, List.foldl_nil]
    generalize (List.range n).foldl (SteppingLoop.gammaRound thePrimary) (tl, st) = res
      at i1 i2 i3 i4 i5
    have hg : res.1.GetSecondaryGammaTrack (n : Int) = tl.GetSecondaryGammaTrack n := by
      unfold G4HepEmTLData.GetSecondaryGammaTrack
      rw [Int.toNat_ofNat]
      exact i5 n le_rfl
    obtain ⟨s1, s2, s3, s4⟩ := SteppingLoop.stackOne_facts thePrimary
      (res.1.GetSecondaryGammaTrack n) res.2 i1
    unfold SteppingLoop.gammaRound
    refine ⟨s2, ?_, ?_, ?_, ?_⟩
    · show (SteppingLoop.stackOne thePrimary (res.1.GetSecondaryGammaTrack n)
        res.2).2.contents = _
      rw [s3, i2, hg, i3, List.map_append, List.append_assoc]
      rfl
    · show (SteppingLoop.stackOne thePrimary (res.1.GetSecondaryGammaTrack n)
        res.2).2.fCurrentTrackID = _
      rw [s4, i3]
      push_cast
      ring
    · exact i4
    · intro j hj
      show (res.1.fSecondaryGammaTracks.set n _).getD j G4HepEmTrack.new = _
      rw [getD_set_ne _ _ _ _ _ (by omega)]
      exact i5 j (by omega)

theorem SteppingLoop.StackSecondaries_eq (theTLData : G4HepEmTLData)
    (theTrackStack : TrackStack) (thePrimary : G4HepEmTrack) :
    SteppingLoop.StackSecondaries theTLData theTrackStack thePrimary =
      if theTLData.GetNumSecondaryElectronTrack + theTLData.GetNumSecondaryGammaTrack > 0 then
        (((List.range theTLData.GetNumSecondaryGammaTrack.toNat).foldl
            (SteppingLoop.gammaRound thePrimary)
            (((List.range theTLData.GetNumSecondaryElectronTrack.toNat).foldl
                (SteppingLoop.electronRound thePrimary)
                (theTLData, theTrackStack)).1.ResetNumSecondaryElectronTrack,
              ((List.range theTLData.GetNumSecondaryElectronTrack.toNat).foldl
                (SteppingLoop.electronRound thePrimary)
                (theTLData, theTrackStack)).2)).1.ResetNumSecondaryGammaTrack,
          ((List.range theTLData.GetNumSecondaryGammaTrack.toNat).foldl
            (SteppingLoop.gammaRound thePrimary)
            (((List.range theTLData.GetNumSecondaryElectronTrack.toNat).foldl
                (SteppingLoop.electronRound thePrimary)
                (theTLData, theTrackStack)).1.ResetNumSecondaryElectronTrack,
              ((List.range theTLData.GetNumSecondaryElectronTrack.toNat).foldl
                (SteppingLoop.electronRound thePrimary)
                (theTLData, theTrackStack)).2)).2)
      else (theTLData, theTrackStack) := rfl

/-- What `StackSecondaries` does to the stack and to the data of the engine
when the two counters are not negative. -/
theorem SteppingLoop.StackSecondaries_facts (tl : G4HepEmTLData) (st : TrackStack)
    (thePrimary : G4HepEmTrack) (h : st.wf) (hE : 0 ≤ tl.GetNumSecondaryElectronTrack)
    (hG : 0 ≤ tl.GetNumSecondaryGammaTrack) :
    (SteppingLoop.StackSecondaries tl st thePrimary).2.wf ∧
    (SteppingLoop.StackSecondaries tl st thePrimary).2.contents =
      st.contents ++ SteppingLoop.stackedSecondaries tl thePrimary st.fCurrentTrackID ∧
    (SteppingLoop.StackSecondaries tl st thePrimary).2.fCurrentTrackID =
      st.fCurrentTrackID + tl.GetNumSecondaryElectronTrack + tl.GetNumSecondaryGammaTrack ∧
    (SteppingLoop.StackSecondaries tl st thePrimary).1.GetNumSecondaryElectronTrack = 0 ∧
    (SteppingLoop.StackSecondaries tl st thePrimary).1.GetNumSecondaryGammaTrack = 0 ∧
    (SteppingLoop.StackSecondaries tl st thePrimary).1.fPrimaryGammaTrack =
      tl.fPrimaryGammaTrack ∧
    (SteppingLoop.StackSecondaries tl st thePrimary).1.fPrimaryElectronTrack =
      tl.fPrimaryElectronTrack ∧
    (SteppingLoop.StackSecondaries tl st thePrimary).1.fMSCTrackData = tl.fMSCTrackData := by
  rw [SteppingLoop.StackSecondaries_eq]
  by_cases hs : tl.GetNumSecondaryElectronTrack + tl.GetNumSecondaryGammaTrack > 0
  · rw [if_pos hs]
    obtain ⟨e1, e2, e3, e4, -⟩ := SteppingLoop.electronRound_fold thePrimary tl st h
      tl.GetNumSecondaryElectronTrack.toNat
    generalize (List.range tl.GetNumSecondaryElectronTrack.toNat).foldl
      (SteppingLoop.electronRound thePrimary) (tl, st) = el at e1 e2 e3 e4
    obtain ⟨g1, g2, g3, g4, -⟩ := SteppingLoop.gammaRound_fold thePrimary
      el.1.ResetNumSecondaryElectronTrack el.2 e1 tl.GetNumSecondaryGammaTrack.toNat
    generalize (List.range tl.GetNumSecondaryGammaTrack.toNat).foldl
      (SteppingLoop.gammaRound thePrimary) (el.1.ResetNumSecondaryElectronTrack, el.2) = ga
      at g1 g2 g3 g4
    have a1 : el.1.fSecondaryGammaTracks = tl.fSecondaryGammaTracks := by
      have w := congrArg G4HepEmTLData.fSecondaryGammaTracks e4
      exact w
    have a2 : el.1.fPrimaryGammaTrack = tl.fPrimaryGammaTrack := by
      have w := congrArg G4HepEmTLData.fPrimaryGammaTrack e4
      exact w
    have a3 : el.1.fPrimaryElectronTrack = tl.fPrimaryElectronTrack := by
      have w := congrArg G4HepEmTLData.fPrimaryElectronTrack e4
      exact w
    have a4 : el.1.fMSCTrackData = tl.fMSCTrackData := by
      have w := congrArg G4HepEmTLData.fMSCTrackData e4
      exact w
    have b1 : ga.1.fNumSecondaryElectronTracks = 0 := by
      have w := congrArg G4HepEmTLData.fNumSecondaryElectronTracks g4
      exact w
    have b2 : ga.1.fPrimaryGammaTrack = el.1.fPrimaryGammaTrack := by
      have w := congrArg G4HepEmTLData.fPrimaryGammaTrack g4
      exact w
    have b3 : ga.1.fPrimaryElectronTrack = el.1.fPrimaryElectronTrack := by
      have w := congrArg G4HepEmTLData.fPrimaryElectronTrack g4
      exact w
    have b4 : ga.1.fMSCTrackData = el.1.fMSCTrackData := by
      have w := congrArg G4HepEmTLData.fMSCTrackData g4
      exact w
    have hget : ∀ k : ℕ, el.1.ResetNumSecondaryElectronTrack.GetSecondaryGammaTrack k =
        tl.GetSecondaryGammaTrack k := by
      intro k
      show el.1.fSecondaryGammaTracks.getD _ _ = tl.fSecondaryGammaTracks.getD _ _
      rw [a1]
    refine ⟨g1, ?_, ?_, b1, rfl, b2.trans a2, b3.trans a3, b4.trans a4⟩
    · show ga.2.contents = _
      rw [g2, e2, e3, List.append_assoc]
      unfold SteppingLoop.stackedSecondaries
      simp only [hget, Int.toNat_of_nonneg hE]
    · show ga.2.fCurrentTrackID = _
      rw [g3, e3, Int.toNat_of_nonneg hE, Int.toNat_of_nonneg hG]
  · rw [if_neg hs]
    have zE : tl.GetNumSecondaryElectronTrack = 0 := by omega
    have zG : tl.GetNumSecondaryGammaTrack = 0 := by omega
    refine ⟨h, ?_, ?_, zE, zG, rfl, rfl, rfl⟩
    · unfold SteppingLoop.stackedSecondaries
      rw [zE, zG]
      simp
    · rw [zE, zG]
      simp

theorem SteppingLoop.isStacked_copy (thePrimary secTrack : G4HepEmTrack) (id : Int) :
    SteppingLoop.isStacked thePrimary secTrack id
      (TrackStack.Copy (SteppingLoop.stamped thePrimary secTrack id) G4HepEmTrack.new) := by
  obtain ⟨c1, c2, c3, -, c5, -, c7, c8, c9, -⟩ :=
    TrackStack.Copy_sameState (SteppingLoop.stamped thePrimary secTrack id) G4HepEmTrack.new
  unfold SteppingLoop.isStacked
  rw [c1, c2, c3, c5, c7, c8, c9]
  exact ⟨rfl, rfl, rfl, rfl, rfl, rfl, rfl⟩

theorem SteppingLoop.stackedSecondaries_length (tl : G4HepEmTLData)
    (thePrimary : G4HepEmTrack) (id : Int) :
    (SteppingLoop.stackedSecondaries tl thePrimary id).length =
      tl.GetNumSecondaryElectronTrack.toNat + tl.GetNumSecondaryGammaTrack.toNat := by
  simp [SteppingLoop.stackedSecondaries]

theorem SteppingLoop.stackedSecondaries_ids (tl : G4HepEmTLData)
    (thePrimary : G4HepEmTrack) (id : Int) :
    (SteppingLoop.stackedSecondaries tl thePrimary id).map G4HepEmTrack.GetID =
      (List.range (tl.GetNumSecondaryElectronTrack.toNat +
        tl.GetNumSecondaryGammaTrack.toNat)).map (fun k : ℕ => id + (k : Int)) := by
  have hid : ∀ (sec : G4HepEmTrack) (i : Int),
      (TrackStack.Copy (SteppingLoop.stamped thePrimary sec i) G4HepEmTrack.new).GetID = i :=
    fun sec i => (SteppingLoop.isStacked_copy thePrimary sec i).1
  unfold SteppingLoop.stackedSecondaries
  rw [List.range_add, List.map_append, List.map_append, List.map_map, List.map_map,
    List.map_map]
  congr 1
  apply List.map_congr_left
  intro k _
  simp only [Function.comp_apply, hid]
  push_cast
  ring

theorem SteppingLoop.stackedSecondaries_electron (tl : G4HepEmTLData)
    (thePrimary : G4HepEmTrack) (id : Int) (k : ℕ)
    (hk : (k : Int) < tl.GetNumSecondaryElectronTrack) :
    (SteppingLoop.stackedSecondaries tl thePrimary id).getD k G4HepEmTrack.new =
      TrackStack.Copy (SteppingLoop.stamped thePrimary (tl.GetSecondaryElectronTrack k)
        (id + k)) G4HepEmTrack.new := by
  have hk2 : k < tl.GetNumSecondaryElectronTrack.toNat := by omega
  unfold SteppingLoop.stackedSecondaries
  rw [List.getD_eq_getElem?_getD, List.getElem?_append_left (by simpa using hk2),
    List.getElem?_map, List.getElem?_range hk2]
  rfl

theorem SteppingLoop.stackedSecondaries_gamma (tl : G4HepEmTLData)
    (thePrimary : G4HepEmTrack) (id : Int) (k : ℕ)
    (hk : (k : Int) < tl.GetNumSecondaryGammaTrack) :
    (SteppingLoop.stackedSecondaries tl thePrimary id).getD
        (tl.GetNumSecondaryElectronTrack.toNat + k) G4HepEmTrack.new =
      TrackStack.Copy (SteppingLoop.stamped thePrimary (tl.GetSecondaryGammaTrack k)
        (id + tl.GetNumSecondaryElectronTrack.toNat + k)) G4HepEmTrack.new := by
  have hk2 : k < tl.GetNumSecondaryGammaTrack.toNat := by omega
  unfold SteppingLoop.stackedSecondaries
  rw [List.getD_eq_getElem?_getD, List.getElem?_append_right (by simp)]
  simp only [List.length_map, List.length_range, Nat.add_sub_cancel_left]
  rw [List.getElem?_map, List.getElem?_range hk2]
  rfl

theorem SteppingLoop.stackAfterSteps_facts (steps : List (G4HepEmTLData × G4HepEmTrack)) :
    ∀ st : TrackStack, st.wf →
    (∀ x ∈ steps, 0 ≤ x.1.GetNumSecondaryElectronTrack ∧ 0 ≤ x.1.GetNumSecondaryGammaTrack ∧
      x.1.GetNumSecondaryElectronTrack + x.1.GetNumSecondaryGammaTrack = 1) →
    (SteppingLoop.stackAfterSteps st steps).wf ∧
    (SteppingLoop.stackAfterSteps st steps).contents.length =
      st.contents.length + steps.length := by
  induction steps with
  | nil =>
    intro st h _
    exact ⟨h, rfl⟩
  | cons x steps ih =>
    intro st h hx
    obtain ⟨x1, x2, x3⟩ := hx x (List.mem_cons_self _ _)
    obtain ⟨f1, f2, -⟩ := SteppingLoop.StackSecondaries_facts x.1 st x.2 h x1 x2
    obtain ⟨w, l⟩ := ih (SteppingLoop.StackSecondaries x.1 st x.2).2 f1
      (fun y hy => hx y (List.mem_cons_of_mem _ hy))
    refine ⟨w, ?_⟩
    show (SteppingLoop.stackAfterSteps (SteppingLoop.StackSecondaries x.1 st x.2).2
      steps).contents.length = _
    rw [l, f2, List.length_append, SteppingLoop.stackedSecondaries_length, List.length_cons]
    omega

/-- C22: when `Perform` left `nE` secondary electrons or positrons and `nG`
secondary gammas (`nE, nG ≥ 0`) and the stack is well formed,
`StackSecondaries` appends exactly `nE + nG` tracks to the stored tracks: for
the electron slots `k = 0 .. nE - 1` and then the gamma slots
`k = 0 .. nG - 1`, in slot order, a track whose id is the value of the id
counter before the call plus its rank (so the ids are pairwise distinct and
the counter ends `nE + nG` higher), whose parent id is the id of the primary,
whose position and material-cuts index are those of the primary, and whose
direction, kinetic energy and charge are those of the slot of the engine; the
two counters of the engine are 0 afterwards. Hence over a sequence of steps
that each leave exactly one secondary the number of stored tracks grows by
the number of steps. -/
theorem SteppingLoop.StackSecondaries_pushes (tl : G4HepEmTLData) (st : TrackStack)
    (thePrimary : G4HepEmTrack) (steps : List (G4HepEmTLData × G4HepEmTrack)) (h : st.wf)
    (hE : 0 ≤ tl.GetNumSecondaryElectronTrack) (hG : 0 ≤ tl.GetNumSecondaryGammaTrack) :
    (SteppingLoop.StackSecondaries tl st thePrimary).2.contents =
      st.contents ++ SteppingLoop.stackedSecondaries tl thePrimary st.fCurrentTrackID ∧
    ((SteppingLoop.stackedSecondaries tl thePrimary st.fCurrentTrackID).length : Int) =
      tl.GetNumSecondaryElectronTrack + tl.GetNumSecondaryGammaTrack ∧
    (∀ k : ℕ, (k : Int) < tl.GetNumSecondaryElectronTrack →
      SteppingLoop.isStacked thePrimary (tl.GetSecondaryElectronTrack k)
        (st.fCurrentTrackID + k)
        ((SteppingLoop.stackedSecondaries tl thePrimary st.fCurrentTrackID).getD k
          G4HepEmTrack.new)) ∧
    (∀ k : ℕ, (k : Int) < tl.GetNumSecondaryGammaTrack →
      SteppingLoop.isStacked thePrimary (tl.GetSecondaryGammaTrack k)
        (st.fCurrentTrackID + tl.GetNumSecondaryElectronTrack + k)
        ((SteppingLoop.stackedSecondaries tl thePrimary st.fCurrentTrackID).getD
          (tl.GetNumSecondaryElectronTrack.toNat + k) G4HepEmTrack.new)) ∧
    ((SteppingLoop.stackedSecondaries tl thePrimary st.fCurrentTrackID).map
      G4HepEmTrack.GetID).Nodup ∧
    (SteppingLoop.StackSecondaries tl st thePrimary).2.fCurrentTrackID =
      st.fCurrentTrackID + tl.GetNumSecondaryElectronTrack + tl.GetNumSecondaryGammaTrack ∧
    (SteppingLoop.StackSecondaries tl st thePrimary).1.GetNumSecondaryElectronTrack = 0 ∧
    (SteppingLoop.StackSecondaries tl st thePrimary).1.GetNumSecondaryGammaTrack = 0 ∧
    ((∀ x ∈ steps, 0 ≤ x.1.GetNumSecondaryElectronTrack ∧
        0 ≤ x.1.GetNumSecondaryGammaTrack ∧
        x.1.GetNumSecondaryElectronTrack + x.1.GetNumSecondaryGammaTrack = 1) →
      (SteppingLoop.stackAfterSteps st steps).contents.length =
        st.contents.length + steps.length) := by
  obtain ⟨-, f2, f3, f4, f5, -⟩ := SteppingLoop.StackSecondaries_facts tl st thePrimary h hE hG
  refine ⟨f2, ?_, ?_, ?_, ?_, f3, f4, f5, ?_⟩
  · rw [SteppingLoop.stackedSecondaries_length]
    omega
  · intro k hk
    rw [SteppingLoop.stackedSecondaries_electron tl thePrimary _ k hk]
    exact SteppingLoop.isStacked_copy _ _ _
  · intro k hk
    rw [SteppingLoop.stackedSecondaries_gamma tl thePrimary _ k hk,
      Int.toNat_of_nonneg hE]
    exact SteppingLoop.isStacked_copy _ _ _
  · rw [SteppingLoop.stackedSecondaries_ids]
    apply List.Nodup.map _ (List.nodup_range _)
    intro a b hab
    simpa using hab
  · intro hsteps
    exact (SteppingLoop.stackAfterSteps_facts steps st h hsteps).2

/-- Witness of C22: one secondary electron stacked on the empty stack for the
primary `exampleTrack`: the stack then stores one track, with the id 0. -/
theorem SteppingLoop.StackSecondaries_pushes_witness :
    (SteppingLoop.StackSecondaries exampleSecondaryData TrackStack.new exampleTrack).2.contents =
      TrackStack.new.contents ++
        SteppingLoop.stackedSecondaries exampleSecondaryData exampleTrack
          TrackStack.new.fCurrentTrackID ∧
    ((SteppingLoop.stackedSecondaries exampleSecondaryData exampleTrack
        TrackStack.new.fCurrentTrackID).length : Int) =
      exampleSecondaryData.GetNumSecondaryElectronTrack +
        exampleSecondaryData.GetNumSecondaryGammaTrack ∧
    SteppingLoop.isStacked exampleTrack (exampleSecondaryData.GetSecondaryElectronTrack 0)
      (TrackStack.new.fCurrentTrackID + 0)
      ((SteppingLoop.stackedSecondaries exampleSecondaryData exampleTrack
        TrackStack.new.fCurrentTrackID).getD 0 G4HepEmTrack.new) ∧
    (SteppingLoop.stackAfterSteps TrackStack.new
        [(exampleSecondaryData, exampleTrack), (exampleSecondaryData, exampleTrack)]
      ).contents.length = TrackStack.new.contents.length + 2 :=
  have w := SteppingLoop.StackSecondaries_pushes exampleSecondaryData TrackStack.new
    exampleTrack [(exampleSecondaryData, exampleTrack), (exampleSecondaryData, exampleTrack)]
    TrackStack.new_wf (by decide) (by decide)
  ⟨w.1, w.2.1, w.2.2.1 0 (by decide), w.2.2.2.2.2.2.2.2 (by
    intro x hx
    simp only [List.mem_cons, List.mem_singleton, List.not_mem_nil, or_false, or_self] at hx
    rw [hx]
    exact ⟨by decide, by decide, by decide⟩)⟩

/-! ## The second part of the stepper bodies: theorems -/

theorem ite_and_chain {α : Type} (P Q : Prop) [Decidable P] [Decidable Q] (a b : α) :
    (if P ∧ Q then a else if Q then a else b) = if Q then a else b := by
  by_cases hq : Q
  · by_cases hp : P
    · rw [if_pos ⟨hp, hq⟩, if_pos hq]
    · rw [if_neg (fun h => hp h.1), if_pos hq]
  · rw [if_neg (fun h => hq h.2), if_neg hq]

/-- The data and the stack after the second part of the gamma body. -/
theorem SteppingLoop.GammaStepperFinish_data (theState : G4HepEmState) (eventID : Int)
    (s : StepperState) (loc : Located) (tl2 : G4HepEmTLData) (d : ℚ) (f : Bool)
    (trace : List StepEvent) :
    (SteppingLoop.GammaStepperFinish theState eventID s loc tl2 d f trace).2.theTLData =
      (if (SteppingLoop.gammaAfterPerform theState tl2 d f).GetNumSecondaryElectronTrack +
          (SteppingLoop.gammaAfterPerform theState tl2 d f).GetNumSecondaryGammaTrack > 0 then
        (SteppingLoop.StackSecondaries (SteppingLoop.gammaAfterPerform theState tl2 d f)
          s.theTrackStack
          (SteppingLoop.gammaAfterPerform theState tl2 d f).fPrimaryGammaTrack).1
      else SteppingLoop.gammaAfterPerform theState tl2 d f) ∧
    (SteppingLoop.GammaStepperFinish theState eventID s loc tl2 d f trace).2.theTrackStack =
      (if (SteppingLoop.gammaAfterPerform theState tl2 d f).GetNumSecondaryElectronTrack +
          (SteppingLoop.gammaAfterPerform theState tl2 d f).GetNumSecondaryGammaTrack > 0 then
        (SteppingLoop.StackSecondaries (SteppingLoop.gammaAfterPerform theState tl2 d f)
          s.theTrackStack
          (SteppingLoop.gammaAfterPerform theState tl2 d f).fPrimaryGammaTrack).2
      else s.theTrackStack) := by
  unfold SteppingLoop.GammaStepperFinish
  constructor
  · simp only [apply_ite Prod.fst]
    rfl
  · simp only [apply_ite Prod.fst, apply_ite Prod.snd]
    rfl

/-- The data and the stack after the second part of the electron body. -/
theorem SteppingLoop.ElectronStepperFinish_data (theState : G4HepEmState) (sqrt : ℚ → ℚ)
    (theGeometry : Geometry) (eventID : Int) (s : StepperState) (loc : Located)
    (tl2 : G4HepEmTLData) (d : ℚ) (f : Bool) (trace : List StepEvent) :
    (SteppingLoop.ElectronStepperFinish theState sqrt theGeometry eventID s loc tl2 d f
        trace).2.theTLData =
      (if (SteppingLoop.electronDisplaced theState sqrt theGeometry loc tl2 d
            f).GetNumSecondaryElectronTrack +
          (SteppingLoop.electronDisplaced theState sqrt theGeometry loc tl2 d
            f).GetNumSecondaryGammaTrack > 0 then
        (SteppingLoop.StackSecondaries
          (SteppingLoop.electronDisplaced theState sqrt theGeometry loc tl2 d f)
          s.theTrackStack
          (SteppingLoop.electronDisplaced theState sqrt theGeometry loc tl2 d
            f).fPrimaryElectronTrack).1
      else SteppingLoop.electronDisplaced theState sqrt theGeometry loc tl2 d f) ∧
    (SteppingLoop.ElectronStepperFinish theState sqrt theGeometry eventID s loc tl2 d f
        trace).2.theTrackStack =
      (if (SteppingLoop.electronDisplaced theState sqrt theGeometry loc tl2 d
            f).GetNumSecondaryElectronTrack +
          (SteppingLoop.electronDisplaced theState sqrt theGeometry loc tl2 d
            f).GetNumSecondaryGammaTrack > 0 then
        (SteppingLoop.StackSecondaries
          (SteppingLoop.electronDisplaced theState sqrt theGeometry loc tl2 d f)
          s.theTrackStack
          (SteppingLoop.electronDisplaced theState sqrt theGeometry loc tl2 d
            f).fPrimaryElectronTrack).2
      else s.theTrackStack) := by
  unfold SteppingLoop.ElectronStepperFinish
  constructor
  · simp only [apply_ite Prod.fst, ite_and_chain]
    rfl
  · simp only [apply_ite Prod.fst, apply_ite Prod.snd, ite_and_chain]
    rfl

theorem SteppingLoop.electronRound_frame (thePrimary : G4HepEmTrack) (tl : G4HepEmTLData)
    (st : TrackStack) (n : ℕ) :
    { ((List.range n).foldl (SteppingLoop.electronRound thePrimary) (tl, st)).1 with
        fSecondaryElectronTracks := tl.fSecondaryElectronTracks } = tl := by
  induction n with
  | zero => rfl
  | succ n ih =>
    rw [List.range_succ, List.foldl_append, List.foldl_cons, List.foldl_nil]
    exact ih

theorem SteppingLoop.gammaRound_frame (thePrimary : G4HepEmTrack) (tl : G4HepEmTLData)
    (st : TrackStack) (n : ℕ) :
    { ((List.range n).foldl (SteppingLoop.gammaRound thePrimary) (tl, st)).1 with
        fSecondaryGammaTracks := tl.fSecondaryGammaTracks } = tl := by
  induction n with
  | zero => rfl
  | succ n ih =>
    rw [List.range_succ, List.foldl_append, List.foldl_cons, List.foldl_nil]
    exact ih

/-- The method `StackSecondaries` leaves the primary tracks and the
multiple-scattering data as they were. -/
theorem SteppingLoop.StackSecondaries_primary (tl : G4HepEmTLData) (st : TrackStack)
    (thePrimary : G4HepEmTrack) :
    (SteppingLoop.StackSecondaries tl st thePrimary).1.fPrimaryGammaTrack =
      tl.fPrimaryGammaTrack ∧
    (SteppingLoop.StackSecondaries tl st thePrimary).1.fPrimaryElectronTrack =
      tl.fPrimaryElectronTrack ∧
    (SteppingLoop.StackSecondaries tl st thePrimary).1.fMSCTrackData = tl.fMSCTrackData := by
  rw [SteppingLoop.StackSecondaries_eq]
  by_cases hs : tl.GetNumSecondaryElectronTrack + tl.GetNumSecondaryGammaTrack > 0
  · rw [if_pos hs]
    have e4 := SteppingLoop.electronRound_frame thePrimary tl st
      tl.GetNumSecondaryElectronTrack.toNat
    generalize (List.range tl.GetNumSecondaryElectronTrack.toNat).foldl
      (SteppingLoop.electronRound thePrimary) (tl, st) = el at e4
    have g4 := SteppingLoop.gammaRound_frame thePrimary
      el.1.ResetNumSecondaryElectronTrack el.2 tl.GetNumSecondaryGammaTrack.toNat
    generalize (List.range tl.GetNumSecondaryGammaTrack.toNat).foldl
      (SteppingLoop.gammaRound thePrimary) (el.1.ResetNumSecondaryElectronTrack, el.2) = ga
      at g4
    have a2 : el.1.fPrimaryGammaTrack = tl.fPrimaryGammaTrack := by
      have w := congrArg G4HepEmTLData.fPrimaryGammaTrack e4
      exact w
    have a3 : el.1.fPrimaryElectronTrack = tl.fPrimaryElectronTrack := by
      have w := congrArg G4HepEmTLData.fPrimaryElectronTrack e4
      exact w
    have a4 : el.1.fMSCTrackData = tl.fMSCTrackData := by
      have w := congrArg G4HepEmTLData.fMSCTrackData e4
      exact w
    have b2 : ga.1.fPrimaryGammaTrack = el.1.fPrimaryGammaTrack := by
      have w := congrArg G4HepEmTLData.fPrimaryGammaTrack g4
      exact w
    have b3 : ga.1.fPrimaryElectronTrack = el.1.fPrimaryElectronTrack := by
      have w := congrArg G4HepEmTLData.fPrimaryElectronTrack g4
      exact w
    have b4 : ga.1.fMSCTrackData = el.1.fMSCTrackData := by
      have w := congrArg G4HepEmTLData.fMSCTrackData g4
      exact w
    exact ⟨b2.trans a2, b3.trans a3, b4.trans a4⟩
  · rw [if_neg hs]
    exact ⟨rfl, rfl, rfl⟩

/-- The primary electron track after the second part of the electron body:
the track left by `Perform` at the position given by the displacement rule. -/
theorem SteppingLoop.ElectronStepperFinish_track (theState : G4HepEmState) (sqrt : ℚ → ℚ)
    (theGeometry : Geometry) (eventID : Int) (s : StepperState) (loc : Located)
    (tl2 : G4HepEmTLData) (d : ℚ) (f : Bool) (trace : List StepEvent) :
    (SteppingLoop.ElectronStepperFinish theState sqrt theGeometry eventID s loc tl2 d f
        trace).2.theTLData.fPrimaryElectronTrack =
      (SteppingLoop.electronAfterPerform theState tl2 d f).fPrimaryElectronTrack.SetPosition
        (SteppingLoop.displace sqrt
          (SteppingLoop.electronAfterPerform theState tl2 d f).fPrimaryElectronTrack.GetPosition
          (SteppingLoop.electronAfterPerform theState tl2 d f).fMSCTrackData.GetDisplacement
          (SteppingLoop.electronPostSafety theGeometry loc tl2 d) f) := by
  rw [(SteppingLoop.ElectronStepperFinish_data theState sqrt theGeometry eventID s loc tl2 d f
    trace).1]
  split_ifs
  · rw [(SteppingLoop.StackSecondaries_primary _ _ _).2.1]
    rfl
  · rfl

/-- The primary gamma track after the second part of the gamma body is the
track left by `Perform`. -/
theorem SteppingLoop.GammaStepperFinish_track (theState : G4HepEmState) (eventID : Int)
    (s : StepperState) (loc : Located) (tl2 : G4HepEmTLData) (d : ℚ) (f : Bool)
    (trace : List StepEvent) :
    (SteppingLoop.GammaStepperFinish theState eventID s loc tl2 d f
        trace).2.theTLData.fPrimaryGammaTrack =
      (SteppingLoop.gammaAfterPerform theState tl2 d f).fPrimaryGammaTrack := by
  rw [(SteppingLoop.GammaStepperFinish_data theState eventID s loc tl2 d f trace).1]
  split_ifs
  · rw [(SteppingLoop.StackSecondaries_primary _ _ _).1]
  · rfl

/-- The position of the primary electron after an iteration that takes a
step follows the displacement rule. -/
theorem SteppingLoop.ElectronStepperBody_position (theState : G4HepEmState) (sqrt : ℚ → ℚ)
    (theGeometry : Geometry) (eventID : Int) (s : StepperState)
    (hB : ¬ (SteppingLoop.electronLocate theGeometry s).dist > 10000000000)
    (h0 : min (SteppingLoop.electronLocate theGeometry s).dist
      (SteppingLoop.electronDistToPhysics theState theGeometry s) ≠ 0) :
    (SteppingLoop.ElectronStepperBody theState sqrt theGeometry eventID
        s).2.theTLData.fPrimaryElectronTrack.GetPosition =
      SteppingLoop.displace sqrt
        (SteppingLoop.electronPerformed theState theGeometry s).fPrimaryElectronTrack.GetPosition
        (SteppingLoop.electronPerformed theState theGeometry s).fMSCTrackData.GetDisplacement
        (SteppingLoop.electronSafetyAfter theState theGeometry s)
        (SteppingLoop.electronEndsOnBoundary theState theGeometry s) := by
  rw [SteppingLoop.ElectronStepperBody_finish theState sqrt theGeometry eventID s hB h0,
    SteppingLoop.ElectronStepperFinish_track]
  rfl

/-- The example electron with a stub engine of step limit 1: located in the
absorber with 1.3 to go, the step of length 1 does not end on a boundary,
`Perform` finds the track at `(-198, 0, 0)` and the reduced post-step safety
is 0.297. -/
theorem SteppingLoop.example_msc (trueLength : ℚ) (d : Vec3) :
    ¬ (SteppingLoop.electronLocate Geometry.new exampleStepperState).dist > 10000000000 ∧
    min (SteppingLoop.electronLocate Geometry.new exampleStepperState).dist
      (SteppingLoop.electronDistToPhysics (mscState 1 trueLength d) Geometry.new
        exampleStepperState) ≠ 0 ∧
    SteppingLoop.electronEndsOnBoundary (mscState 1 trueLength d) Geometry.new
      exampleStepperState = false ∧
    (SteppingLoop.electronPerformed (mscState 1 trueLength d) Geometry.new
      exampleStepperState).fPrimaryElectronTrack.GetPosition = ⟨-198, 0, 0⟩ ∧
    (SteppingLoop.electronPerformed (mscState 1 trueLength d) Geometry.new
      exampleStepperState).fMSCTrackData.GetDisplacement = d ∧
    SteppingLoop.electronSafetyAfter (mscState 1 trueLength d) Geometry.new
      exampleStepperState = 297 / 1000 := by
  have hP : SteppingLoop.electronDistToPhysics (mscState 1 trueLength d) Geometry.new
      exampleStepperState = 1 := rfl
  have hS : SteppingLoop.electronStepLength (mscState 1 trueLength d) Geometry.new
      exampleStepperState = 1 := by
    unfold SteppingLoop.electronStepLength
    rw [hP, SteppingLoop.example_electronLocate]
    norm_num
  have hF : SteppingLoop.electronEndsOnBoundary (mscState 1 trueLength d) Geometry.new
      exampleStepperState = false := by
    unfold SteppingLoop.electronEndsOnBoundary
    rw [hP, SteppingLoop.example_electronLocate]
    norm_num
  refine ⟨SteppingLoop.example_not_leaving.2, ?_, hF, ?_, rfl, ?_⟩
  · rw [hP, SteppingLoop.example_electronLocate]
    norm_num
  · unfold SteppingLoop.electronPerformed
    rw [hS, hF]
    show SteppingLoop.AddTo3Vect ⟨-199, 0, 0⟩ ⟨1, 0, 0⟩ 1 = _
    norm_num [SteppingLoop.AddTo3Vect]
  · unfold SteppingLoop.electronSafetyAfter SteppingLoop.electronPostSafety
    rw [hS, SteppingLoop.example_electronLocate]
    show 99 / 100 * Geometry.new.fBoxAbs.safety
      (SteppingLoop.AddTo3Vect ⟨-3 / 20, 0, 0⟩ ⟨1, 0, 0⟩ 1) = _
    rw [Geometry.new_fBoxAbs]
    have ha : |(17 : ℚ) / 20| = 17 / 20 := abs_of_pos (by norm_num)
    norm_num [SteppingLoop.AddTo3Vect, Box.safety, Box.new, ha]

/-- Counterexample to C25 as stated: the example electron takes a step of
length 1 that does not end on a boundary, and the engine reports the lateral
displacement `d = (0, 1e-8, 0)`, whose length 1e-8 does not exceed the reduced
post-step safety 0.297; the position after the iteration is the position
`(-198, 0, 0)` left by `Perform`, not that position plus `d`. -/
theorem SteppingLoop.small_displacement_dropped :
    SteppingLoop.electronEndsOnBoundary (mscState 1 0 ⟨0, 1 / 100000000, 0⟩) Geometry.new
      exampleStepperState = false ∧
    (SteppingLoop.electronPerformed (mscState 1 0 ⟨0, 1 / 100000000, 0⟩) Geometry.new
      exampleStepperState).fMSCTrackData.GetDisplacement = ⟨0, 1 / 100000000, 0⟩ ∧
    sqrtStub (normSq ⟨0, 1 / 100000000, 0⟩) = 1 / 100000000 ∧
    sqrtStub (normSq ⟨0, 1 / 100000000, 0⟩) ≤
      SteppingLoop.electronSafetyAfter (mscState 1 0 ⟨0, 1 / 100000000, 0⟩) Geometry.new
        exampleStepperState ∧
    (SteppingLoop.ElectronStepperBody (mscState 1 0 ⟨0, 1 / 100000000, 0⟩) sqrtStub
        Geometry.new 0 exampleStepperState).2.theTLData.fPrimaryElectronTrack.GetPosition =
      (SteppingLoop.electronPerformed (mscState 1 0 ⟨0, 1 / 100000000, 0⟩) Geometry.new
        exampleStepperState).fPrimaryElectronTrack.GetPosition ∧
    (SteppingLoop.ElectronStepperBody (mscState 1 0 ⟨0, 1 / 100000000, 0⟩) sqrtStub
        Geometry.new 0 exampleStepperState).2.theTLData.fPrimaryElectronTrack.GetPosition ≠
      SteppingLoop.AddTo3Vect
        (SteppingLoop.electronPerformed (mscState 1 0 ⟨0, 1 / 100000000, 0⟩) Geometry.new
          exampleStepperState).fPrimaryElectronTrack.GetPosition
        (SteppingLoop.electronPerformed (mscState 1 0 ⟨0, 1 / 100000000, 0⟩) Geometry.new
          exampleStepperState).fMSCTrackData.GetDisplacement 1 := by
  obtain ⟨hB, h0, hF, hpos, hd, hs⟩ := SteppingLoop.example_msc 0 ⟨0, 1 / 100000000, 0⟩
  have hn : sqrtStub (normSq ⟨0, 1 / 100000000, 0⟩) = 1 / 100000000 := by
    norm_num [sqrtStub, normSq]
  have hp := SteppingLoop.ElectronStepperBody_position (mscState 1 0 ⟨0, 1 / 100000000, 0⟩)
    sqrtStub Geometry.new 0 exampleStepperState hB h0
  rw [hF, hd, hs, hpos] at hp
  have hdis : SteppingLoop.displace sqrtStub ⟨-198, 0, 0⟩ ⟨0, 1 / 100000000, 0⟩ (297 / 1000)
      false = ⟨-198, 0, 0⟩ := by
    norm_num [SteppingLoop.displace, normSq]
  rw [hdis] at hp
  refine ⟨hF, hd, hn, ?_, ?_, ?_⟩
  · rw [hn, hs]
    norm_num
  · rw [hp, hpos]
  · rw [hp, hpos, hd]
    norm_num [SteppingLoop.AddTo3Vect]

/-- C25 (amended): in an iteration of the electron stepper that takes a step,
with `pos` and `d` the position and the lateral displacement found after
`Perform`, `|d|` computed as `sqrt(d·d)` and `s` 99% of the safety of the
located volume at the longitudinal post-step point: when the step ended on a
boundary, or `d·d ≤ (5e-8)²`, the position stays `pos`; otherwise it becomes
`pos + d` when `|d| < s`, `pos + (s / |d|) * d` when `|d| ≥ s` and `s > 5e-8`,
and stays `pos` when `|d| ≥ s` and `s ≤ 5e-8`. -/
theorem SteppingLoop.displacement_applied (theState : G4HepEmState) (sqrt : ℚ → ℚ)
    (theGeometry : Geometry) (eventID : Int) (s : StepperState)
    (hB : ¬ (SteppingLoop.electronLocate theGeometry s).dist > 10000000000)
    (h0 : min (SteppingLoop.electronLocate theGeometry s).dist
      (SteppingLoop.electronDistToPhysics theState theGeometry s) ≠ 0) :
    (SteppingLoop.electronEndsOnBoundary theState theGeometry s = true →
      (SteppingLoop.ElectronStepperBody theState sqrt theGeometry eventID
          s).2.theTLData.fPrimaryElectronTrack.GetPosition =
        (SteppingLoop.electronPerformed theState theGeometry
          s).fPrimaryElectronTrack.GetPosition) ∧
    (SteppingLoop.electronEndsOnBoundary theState theGeometry s = false →
      normSq (SteppingLoop.electronPerformed theState theGeometry
        s).fMSCTrackData.GetDisplacement ≤ 5 / 100000000 * (5 / 100000000) →
      (SteppingLoop.ElectronStepperBody theState sqrt theGeometry eventID
          s).2.theTLData.fPrimaryElectronTrack.GetPosition =
        (SteppingLoop.electronPerformed theState theGeometry
          s).fPrimaryElectronTrack.GetPosition) ∧
    (SteppingLoop.electronEndsOnBoundary theState theGeometry s = false →
      normSq (SteppingLoop.electronPerformed theState theGeometry
        s).fMSCTrackData.GetDisplacement > 5 / 100000000 * (5 / 100000000) →
      sqrt (normSq (SteppingLoop.electronPerformed theState theGeometry
        s).fMSCTrackData.GetDisplacement) <
          SteppingLoop.electronSafetyAfter theState theGeometry s →
      (SteppingLoop.ElectronStepperBody theState sqrt theGeometry eventID
          s).2.theTLData.fPrimaryElectronTrack.GetPosition =
        SteppingLoop.AddTo3Vect
          (SteppingLoop.electronPerformed theState theGeometry
            s).fPrimaryElectronTrack.GetPosition
          (SteppingLoop.electronPerformed theState theGeometry
            s).fMSCTrackData.GetDisplacement 1) ∧
    (SteppingLoop.electronEndsOnBoundary theState theGeometry s = false →
      normSq (SteppingLoop.electronPerformed theState theGeometry
        s).fMSCTrackData.GetDisplacement > 5 / 100000000 * (5 / 100000000) →
      SteppingLoop.electronSafetyAfter theState theGeometry s ≤
        sqrt (normSq (SteppingLoop.electronPerformed theState theGeometry
          s).fMSCTrackData.GetDisplacement) →
      SteppingLoop.electronSafetyAfter theState theGeometry s > 5 / 100000000 →
      (SteppingLoop.ElectronStepperBody theState sqrt theGeometry eventID
          s).2.theTLData.fPrimaryElectronTrack.GetPosition =
        SteppingLoop.AddTo3Vect
          (SteppingLoop.electronPerformed theState theGeometry
            s).fPrimaryElectronTrack.GetPosition
          (SteppingLoop.electronPerformed theState theGeometry
            s).fMSCTrackData.GetDisplacement
          (SteppingLoop.electronSafetyAfter theState theGeometry s /
            sqrt (normSq (SteppingLoop.electronPerformed theState theGeometry
              s).fMSCTrackData.GetDisplacement))) ∧
    (SteppingLoop.electronEndsOnBoundary theState theGeometry s = false →
      normSq (SteppingLoop.electronPerformed theState theGeometry
        s).fMSCTrackData.GetDisplacement > 5 / 100000000 * (5 / 100000000) →
      SteppingLoop.electronSafetyAfter theState theGeometry s ≤
        sqrt (normSq (SteppingLoop.electronPerformed theState theGeometry
          s).fMSCTrackData.GetDisplacement) →
      SteppingLoop.electronSafetyAfter theState theGeometry s ≤ 5 / 100000000 →
      (SteppingLoop.ElectronStepperBody theState sqrt theGeometry eventID
          s).2.theTLData.fPrimaryElectronTrack.GetPosition =
        (SteppingLoop.electronPerformed theState theGeometry
          s).fPrimaryElectronTrack.GetPosition) := by
  rw [SteppingLoop.ElectronStepperBody_position theState sqrt theGeometry eventID s hB h0]
  unfold SteppingLoop.displace
  refine ⟨?_, ?_, ?_, ?_, ?_⟩
  · intro hf
    rw [hf]
    rfl
  · intro hf hn
    rw [hf, if_pos rfl, if_neg (not_lt.mpr hn)]
  · intro hf hn hlt
    rw [hf, if_pos rfl, if_pos hn, if_pos hlt]
  · intro hf hn hge hs
    rw [hf, if_pos rfl, if_pos hn, if_neg (not_lt.mpr hge), if_pos hs]
  · intro hf hn hge hs
    rw [hf, if_pos rfl, if_pos hn, if_neg (not_lt.mpr hge), if_neg (not_lt.mpr hs)]

/-- Witness of C25 (amended): the example electron with the displacement
`(0, 0.1, 0)`, of length 0.1 below the reduced post-step safety 0.297: the
displacement is added in full. -/
theorem SteppingLoop.displacement_applied_witness :
    (SteppingLoop.ElectronStepperBody (mscState 1 0 ⟨0, 1 / 10, 0⟩) sqrtStub Geometry.new 0
        exampleStepperState).2.theTLData.fPrimaryElectronTrack.GetPosition =
      SteppingLoop.AddTo3Vect
        (SteppingLoop.electronPerformed (mscState 1 0 ⟨0, 1 / 10, 0⟩) Geometry.new
          exampleStepperState).fPrimaryElectronTrack.GetPosition
        (SteppingLoop.electronPerformed (mscState 1 0 ⟨0, 1 / 10, 0⟩) Geometry.new
          exampleStepperState).fMSCTrackData.GetDisplacement 1 :=
  (SteppingLoop.displacement_applied (mscState 1 0 ⟨0, 1 / 10, 0⟩) sqrtStub Geometry.new 0
    exampleStepperState (SteppingLoop.example_msc 0 ⟨0, 1 / 10, 0⟩).1
    (SteppingLoop.example_msc 0 ⟨0, 1 / 10, 0⟩).2.1).2.2.1
    (SteppingLoop.example_msc 0 ⟨0, 1 / 10, 0⟩).2.2.1
    (by
      rw [(SteppingLoop.example_msc 0 ⟨0, 1 / 10, 0⟩).2.2.2.2.1]
      norm_num [normSq])
    (by
      rw [(SteppingLoop.example_msc 0 ⟨0, 1 / 10, 0⟩).2.2.2.2.1,
        (SteppingLoop.example_msc 0 ⟨0, 1 / 10, 0⟩).2.2.2.2.2]
      norm_num [normSq, sqrtStub])

/-! ## End to end: theorems -/

theorem oneLayerGeometry_facts :
    oneLayerGeometry.fBoxCalo = Box.new "Calo" 0 5 200 200 ∧
    oneLayerGeometry.fBoxLayer = Box.new "Layer" 0 5 200 200 ∧
    oneLayerGeometry.fBoxAbs = Box.new "Abs" 1 5 200 200 ∧
    oneLayerGeometry.fCaloThick = 10 ∧ oneLayerGeometry.fLayerThick = 10 ∧
    oneLayerGeometry.fAbsThick = 10 ∧ oneLayerGeometry.fGapThick = 0 := by
  norm_num [oneLayerGeometry, Geometry.run, Geometry.call, Geometry.SetNumLayers,
    Geometry.SetAbsThick, Geometry.SetGapThick, Geometry.new, Geometry.UpdateParameters,
    Box.SetHalfLength, Box.SetMaterialIndx, Box.new, kCarTolerance]

/-- The one-layer geometry locates the point `(-5, 0, 0)` on its entry face,
moving along `(1, 0, 0)`, in the absorber of layer 0 with 10 to go. -/
theorem oneLayerGeometry_locate_entry :
    oneLayerGeometry.CalculateDistanceToOut ⟨-5, 0, 0⟩ ⟨1, 0, 0⟩ =
      { dist := 10, r := ⟨-5, 0, 0⟩, currentVolume := .abs, indxLayer := 0, indxAbs := 0 } := by
  obtain ⟨h1, h2, h3, h4, h5, h6, h7⟩ := oneLayerGeometry_facts
  unfold Geometry.CalculateDistanceToOut
  rw [h1, h2, h3, h4, h5, h6, h7]
  norm_num [Box.DistanceToOut, Box.new, Box.fDelta, kCarTolerance, copysign, truncToInt]

/-- The one-layer geometry reports the leaving sentinel at the point
`(5, 0, 0)` on its exit face for the direction `(1, 0, 0)`. -/
theorem oneLayerGeometry_locate_exit :
    (oneLayerGeometry.CalculateDistanceToOut ⟨5, 0, 0⟩ ⟨1, 0, 0⟩).dist =
      100000000000000000000 := by
  have hcalo : oneLayerGeometry.fBoxCalo.DistanceToOut ⟨5, 0, 0⟩ ⟨1, 0, 0⟩ = 0 := by
    rw [oneLayerGeometry_facts.1]
    norm_num [Box.DistanceToOut, Box.new, Box.fDelta, kCarTolerance]
  unfold Geometry.CalculateDistanceToOut
  simp only [hcalo, if_true]

/-- An iteration of the gamma stepper that does not return hands its state to
the next iteration. -/
theorem SteppingLoop.GammaStepper_step (theState : G4HepEmState) (theGeometry : Geometry)
    (eventID : Int) (fuel : ℕ) (s s1 : StepperState) (c : Control)
    (hE : s.theTLData.fPrimaryGammaTrack.GetEKin > 0)
    (hb : SteppingLoop.GammaStepperBody theState theGeometry eventID s = (c, s1))
    (hc : c ≠ .returned) :
    SteppingLoop.GammaStepper theState theGeometry eventID (fuel + 1) s =
      SteppingLoop.GammaStepper theState theGeometry eventID fuel s1 := by
  rw [SteppingLoop.GammaStepper_succ, if_pos hE, hb]
  cases c
  · exact absurd rfl hc
  · rfl
  · rfl

/-- An iteration of the gamma stepper that returns ends the stepper. -/
theorem SteppingLoop.GammaStepper_return (theState : G4HepEmState) (theGeometry : Geometry)
    (eventID : Int) (fuel : ℕ) (s : StepperState)
    (hB : (SteppingLoop.gammaLocate theGeometry s).dist > 10000000000) :
    SteppingLoop.GammaStepper theState theGeometry eventID (fuel + 1) s = some s := by
  rw [SteppingLoop.GammaStepper_succ,
    SteppingLoop.GammaStepperBody_returned theState theGeometry eventID s hB]
  split_ifs <;> rfl

/-- A gamma step of positive length in a layer is counted and its length is
filled into the gamma histogram. -/
theorem SteppingLoop.SteppingAction_gamma (theResult : Results) (theTrack : G4HepEmTrack)
    (currentVolume : VolumeId) (len : ℚ) (indxLayer indxAbsorber eventID stepID : Int)
    (hl : 0 ≤ indxLayer) (hp : 0 < len) (hc : theTrack.GetCharge = 0) :
    (SteppingLoop.SteppingAction theResult theTrack currentVolume len indxLayer indxAbsorber
        eventID stepID).fGammaTrackLenghtPerLayer =
      theResult.fGammaTrackLenghtPerLayer.Fill (indxLayer : ℚ) len ∧
    (SteppingLoop.SteppingAction theResult theTrack currentVolume len indxLayer indxAbsorber
        eventID stepID).fPerEventRes.fNumStepsGamma =
      theResult.fPerEventRes.fNumStepsGamma + 1 := by
  unfold SteppingLoop.SteppingAction
  simp only [if_neg (not_lt.mpr hl), if_neg (not_le.mpr hp), if_pos hc]
  refine ⟨?_, ?_⟩ <;> split_ifs <;> rfl

/-- C23: in the geometry of one layer with absorber thickness 10 and gap
thickness 0, a gamma (charge 0) of positive kinetic energy on the entry
boundary `(-5, 0, 0)` moving along `(1, 0, 0)`, tracked with the stub engine
whose `HowFar` writes a limit above 10 and whose `Perform` changes nothing
(no secondaries pending), is through after two iterations and not after one:
the first takes a step of length 10 to the boundary, recorded once for layer
0 and the absorber (index 0), which adds 1 to the gamma step counter and
fills the gamma histogram at layer 0 with 10; the second finds the track at
`(5, 0, 0)` leaving the detector and returns. The stack is unchanged. -/
theorem SteppingLoop.one_step_then_leaves (limit : ℚ) (eventID : Int) (s : StepperState)
    (fuel : ℕ) (hL : 10 < limit)
    (hpos : s.theTLData.fPrimaryGammaTrack.GetPosition = ⟨-5, 0, 0⟩)
    (hdir : s.theTLData.fPrimaryGammaTrack.GetDirection = ⟨1, 0, 0⟩)
    (hE : 0 < s.theTLData.fPrimaryGammaTrack.GetEKin)
    (hq : s.theTLData.fPrimaryGammaTrack.GetCharge = 0)
    (hnE : s.theTLData.GetNumSecondaryElectronTrack = 0)
    (hnG : s.theTLData.GetNumSecondaryGammaTrack = 0) :
    ∃ s1 : StepperState,
      SteppingLoop.GammaStepper (stubState limit) oneLayerGeometry eventID (fuel + 2) s =
        some s1 ∧
      SteppingLoop.GammaStepper (stubState limit) oneLayerGeometry eventID 1 s = none ∧
      s1.trace = s.trace ++
        [.HowFar (SteppingLoop.gammaPreStep (stubState limit) oneLayerGeometry s),
         .StepSelected 10 true,
         .Perform (SteppingLoop.gammaPostStep
           (SteppingLoop.gammaLimit (stubState limit) oneLayerGeometry s) 10 true),
         .SteppingAction 10 0 0 s.numStep] ∧
      s1.numStep = s.numStep + 1 ∧
      s1.theTLData.fPrimaryGammaTrack.GetPosition = ⟨5, 0, 0⟩ ∧
      (SteppingLoop.gammaLocate oneLayerGeometry s1).dist > 10000000000 ∧
      s1.theResult.fPerEventRes.fNumStepsGamma =
        s.theResult.fPerEventRes.fNumStepsGamma + 1 ∧
      s1.theResult.fGammaTrackLenghtPerLayer =
        s.theResult.fGammaTrackLenghtPerLayer.Fill 0 10 ∧
      s1.theTrackStack = s.theTrackStack := by
  have hloc : SteppingLoop.gammaLocate oneLayerGeometry s =
      { dist := 10, r := ⟨-5, 0, 0⟩, currentVolume := .abs, indxLayer := 0, indxAbs := 0 } := by
    unfold SteppingLoop.gammaLocate
    rw [hpos, hdir]
    exact oneLayerGeometry_locate_entry
  have hP : SteppingLoop.gammaDistToPhysics (stubState limit) oneLayerGeometry s = limit := rfl
  have hB : ¬ (SteppingLoop.gammaLocate oneLayerGeometry s).dist > 10000000000 := by
    rw [hloc]
    norm_num
  have hmin : min (SteppingLoop.gammaLocate oneLayerGeometry s).dist
      (SteppingLoop.gammaDistToPhysics (stubState limit) oneLayerGeometry s) = 10 := by
    rw [hloc, hP]
    exact min_eq_left hL.le
  have h0 : min (SteppingLoop.gammaLocate oneLayerGeometry s).dist
      (SteppingLoop.gammaDistToPhysics (stubState limit) oneLayerGeometry s) ≠ 0 := by
    rw [hmin]
    norm_num
  have hdec : decide ((SteppingLoop.gammaLocate oneLayerGeometry s).dist ≤
      SteppingLoop.gammaDistToPhysics (stubState limit) oneLayerGeometry s) = true := by
    rw [hloc, hP]
    exact decide_eq_true hL.le
  have hbody := SteppingLoop.GammaStepperBody_finish (stubState limit) oneLayerGeometry eventID
    s hB h0
  rw [hmin, hdec] at hbody
  obtain ⟨f1, f2, f3⟩ := SteppingLoop.GammaStepperFinish_facts (stubState limit) eventID s
    (SteppingLoop.gammaLocate oneLayerGeometry s)
    (SteppingLoop.gammaLimit (stubState limit) oneLayerGeometry s) 10 true
    (s.trace ++ [.HowFar (SteppingLoop.gammaPreStep (stubState limit) oneLayerGeometry s),
      .StepSelected 10 true])
  obtain ⟨d1, d2⟩ := SteppingLoop.GammaStepperFinish_data (stubState limit) eventID s
    (SteppingLoop.gammaLocate oneLayerGeometry s)
    (SteppingLoop.gammaLimit (stubState limit) oneLayerGeometry s) 10 true
    (s.trace ++ [.HowFar (SteppingLoop.gammaPreStep (stubState limit) oneLayerGeometry s),
      .StepSelected 10 true])
  have r1 := SteppingLoop.GammaStepperFinish_result (stubState limit) eventID s
    (SteppingLoop.gammaLocate oneLayerGeometry s)
    (SteppingLoop.gammaLimit (stubState limit) oneLayerGeometry s) 10 true
    (s.trace ++ [.HowFar (SteppingLoop.gammaPreStep (stubState limit) oneLayerGeometry s),
      .StepSelected 10 true])
  have hcnt : ¬ (SteppingLoop.gammaAfterPerform (stubState limit)
        (SteppingLoop.gammaLimit (stubState limit) oneLayerGeometry s) 10
        true).GetNumSecondaryElectronTrack +
      (SteppingLoop.gammaAfterPerform (stubState limit)
        (SteppingLoop.gammaLimit (stubState limit) oneLayerGeometry s) 10
        true).GetNumSecondaryGammaTrack > 0 := by
    show ¬ s.theTLData.GetNumSecondaryElectronTrack + s.theTLData.GetNumSecondaryGammaTrack > 0
    rw [hnE, hnG]
    norm_num
  have hev : SteppingLoop.stackEvents ((stubState limit).GammaManagerPerform
      (SteppingLoop.gammaPostStep (SteppingLoop.gammaLimit (stubState limit) oneLayerGeometry s)
        10 true)) = [] := by
    unfold SteppingLoop.stackEvents
    exact if_neg hcnt
  rw [if_neg hcnt] at d1 d2
  rw [hev] at f3
  rw [d1] at r1
  generalize SteppingLoop.GammaStepperFinish (stubState limit) eventID s
    (SteppingLoop.gammaLocate oneLayerGeometry s)
    (SteppingLoop.gammaLimit (stubState limit) oneLayerGeometry s) 10 true
    (s.trace ++ [.HowFar (SteppingLoop.gammaPreStep (stubState limit) oneLayerGeometry s),
      .StepSelected 10 true]) = F at hbody f1 f2 f3 d1 d2 r1
  obtain ⟨c, s1⟩ := F
  simp only at f1 f2 f3 d1 d2 r1
  subst f1
  rw [hloc] at f3 r1
  have hE1 : s1.theTLData.fPrimaryGammaTrack.GetEKin > 0 := by
    rw [d1]
    exact hE
  have hq1 : (SteppingLoop.gammaAfterPerform (stubState limit)
      (SteppingLoop.gammaLimit (stubState limit) oneLayerGeometry s) 10
      true).fPrimaryGammaTrack.GetCharge = 0 := hq
  have hp1 : s1.theTLData.fPrimaryGammaTrack.GetPosition = ⟨5, 0, 0⟩ := by
    rw [d1]
    show SteppingLoop.AddTo3Vect s.theTLData.fPrimaryGammaTrack.GetPosition
      s.theTLData.fPrimaryGammaTrack.GetDirection 10 = _
    rw [hpos, hdir]
    norm_num [SteppingLoop.AddTo3Vect]
  have hd1 : s1.theTLData.fPrimaryGammaTrack.GetDirection = ⟨1, 0, 0⟩ := by
    rw [d1]
    exact hdir
  have hB1 : (SteppingLoop.gammaLocate oneLayerGeometry s1).dist > 10000000000 := by
    unfold SteppingLoop.gammaLocate
    rw [hp1, hd1, oneLayerGeometry_locate_exit]
    norm_num
  obtain ⟨a1, a2⟩ := SteppingLoop.SteppingAction_gamma s.theResult
    (SteppingLoop.gammaAfterPerform (stubState limit)
      (SteppingLoop.gammaLimit (stubState limit) oneLayerGeometry s) 10
      true).fPrimaryGammaTrack .abs 10 0 0 eventID s.numStep le_rfl (by norm_num) hq1
  refine ⟨s1, ?_, ?_, ?_, f2, hp1, hB1, ?_, ?_, d2⟩
  · show SteppingLoop.GammaStepper (stubState limit) oneLayerGeometry eventID (fuel + 1 + 1) s =
      some s1
    rw [SteppingLoop.GammaStepper_step (stubState limit) oneLayerGeometry eventID (fuel + 1) s
      s1 .completed hE hbody (by decide)]
    exact SteppingLoop.GammaStepper_return (stubState limit) oneLayerGeometry eventID fuel s1
      hB1
  · show SteppingLoop.GammaStepper (stubState limit) oneLayerGeometry eventID (0 + 1) s = none
    rw [SteppingLoop.GammaStepper_step (stubState limit) oneLayerGeometry eventID 0 s
      s1 .completed hE hbody (by decide)]
    rfl
  · rw [f3]
    simp
  · rw [r1]
    exact a2
  · rw [r1, a1]
    norm_num

/-- Witness of C23: the gamma of kinetic energy 1 on the entry face, with
the stub engine of limit 20: the stepper is through with two iterations and
has counted one step. -/
theorem SteppingLoop.one_step_then_leaves_witness :
    ∃ s1 : StepperState,
      SteppingLoop.GammaStepper (stubState 20) oneLayerGeometry 0 (0 + 2) entryStepperState =
        some s1 ∧
      s1.numStep = entryStepperState.numStep + 1 ∧
      s1.theTLData.fPrimaryGammaTrack.GetPosition = ⟨5, 0, 0⟩ :=
  have w := SteppingLoop.one_step_then_leaves 20 0 entryStepperState 0 (by norm_num) rfl rfl
    (show (0 : ℚ) < 1 by norm_num) rfl rfl rfl
  w.elim fun s1 h => ⟨s1, h.1, h.2.2.2.1, h.2.2.2.2.1⟩

/-! ## Termination of the push loop: theorems -/

theorem Box.SetHalfLength_sized (b : Box) (val : ℚ) (idx : Int) (h : b.sized) :
    (b.SetHalfLength val idx).sized := by
  obtain ⟨h1, h2, h3⟩ := h
  unfold Box.SetHalfLength
  split_ifs with hv
  · exact ⟨hv, h2, h3⟩
  · exact ⟨h1, hv, h3⟩
  · exact ⟨h1, h2, hv⟩
  · exact ⟨h1, h2, h3⟩
  · exact ⟨h1, h2, h3⟩

theorem Geometry.UpdateParameters_sized (g : Geometry) (h : g.sized) :
    (Geometry.UpdateParameters g).sized := by
  obtain ⟨h1, h2, h3, h4, h5⟩ := h
  refine ⟨?_, ?_, ?_, ?_, ?_⟩
  · exact Box.SetHalfLength_sized _ _ _ (Box.SetHalfLength_sized _ _ _
      (Box.SetHalfLength_sized _ _ _ h1))
  · exact Box.SetHalfLength_sized _ _ _ (Box.SetHalfLength_sized _ _ _
      (Box.SetHalfLength_sized _ _ _ h2))
  · exact Box.SetHalfLength_sized _ _ _ (Box.SetHalfLength_sized _ _ _
      (Box.SetHalfLength_sized _ _ _ h3))
  · exact Box.SetHalfLength_sized _ _ _ (Box.SetHalfLength_sized _ _ _
      (Box.SetHalfLength_sized _ _ _ h4))
  · exact Box.SetHalfLength_sized _ _ _ (Box.SetHalfLength_sized _ _ _
      (Box.SetHalfLength_sized _ _ _ h5))

theorem Geometry.call_sized (g : Geometry) (c : GeometryCall) (h : g.sized) :
    (g.call c).sized := by
  cases c with
  | SetNumLayers n =>
    simp only [Geometry.call, Geometry.SetNumLayers]
    split_ifs
    · exact Geometry.UpdateParameters_sized _ h
    · exact h
  | SetAbsThick t => exact Geometry.UpdateParameters_sized _ h
  | SetGapThick t => exact Geometry.UpdateParameters_sized _ h
  | SetCaloSizeYZ val => exact Geometry.UpdateParameters_sized _ h

theorem Geometry.foldl_call_sized (calls : List GeometryCall) (g : Geometry) (h : g.sized) :
    (calls.foldl Geometry.call g).sized := by
  induction calls generalizing g with
  | nil => exact h
  | cons c cs ih => exact ih _ (Geometry.call_sized g c h)

/-- In every state reached from the constructor by the mutators all
half-lengths of the five boxes exceed twice the tolerance. -/
theorem Geometry.run_sized (calls : List GeometryCall) : (Geometry.run calls).sized := by
  refine Geometry.foldl_call_sized calls Geometry.new (Geometry.UpdateParameters_sized _ ?_)
  norm_num [Geometry.sized, Box.sized, Box.new, kCarTolerance]

theorem Box.sized_pos (b : Box) (h : b.sized) : 0 < b.fDx ∧ 0 < b.fDy ∧ 0 < b.fDz := by
  obtain ⟨h1, h2, h3⟩ := h
  have e : (0 : ℚ) < 2 * kCarTolerance := by norm_num [kCarTolerance]
  exact ⟨lt_trans e h1, lt_trans e h2, lt_trans e h3⟩

/-- The distance to a face along an axis on which the exit condition fails
is positive. -/
theorem copysign_sub_div_pos_of_no_exit {h p v : ℚ} (hh : 0 < h) (hv : v ≠ 0)
    (hn : ¬ exitsOn h p v) : 0 < (copysign h v - p) / v := by
  unfold exitsOn at hn
  unfold copysign
  rcases lt_or_gt_of_ne hv with hneg | hpos
  · rw [if_pos hneg, abs_of_pos hh]
    apply div_pos_of_neg_of_neg _ hneg
    by_contra hc
    push_neg at hc
    apply hn
    have hp : p < 0 := by linarith
    refine ⟨?_, mul_pos_of_neg_of_neg hp hneg⟩
    rw [abs_of_neg hp]
    linarith
  · rw [if_neg (not_lt.mpr hpos.le), abs_of_pos hh]
    apply div_pos _ hpos
    by_contra hc
    push_neg at hc
    apply hn
    have hp : 0 < p := by linarith
    refine ⟨?_, mul_pos hp hpos⟩
    rw [abs_of_pos hp]
    linarith

/-- For positive half-lengths `Box::DistanceToOut(p, v)` is not negative. -/
theorem Box.DistanceToOut_nonneg (b : Box) (p v : Vec3) (hx : 0 < b.fDx) (hy : 0 < b.fDy)
    (hz : 0 < b.fDz) : 0 ≤ b.DistanceToOut p v := by
  by_cases hnx : exitsOn b.fDx p.x v.x
  · rw [Box.DistanceToOut_of_exit b p v (Or.inl hnx)]
  by_cases hny : exitsOn b.fDy p.y v.y
  · rw [Box.DistanceToOut_of_exit b p v (Or.inr (Or.inl hny))]
  by_cases hnz : exitsOn b.fDz p.z v.z
  · rw [Box.DistanceToOut_of_exit b p v (Or.inr (Or.inr hnz))]
  rw [Box.DistanceToOut_of_no_exit b p v hnx hny hnz]
  have px := fun hv => copysign_sub_div_pos_of_no_exit (v := v.x) hx hv hnx
  have py := fun hv => copysign_sub_div_pos_of_no_exit (v := v.y) hy hv hny
  have pz := fun hv => copysign_sub_div_pos_of_no_exit (v := v.z) hz hv hnz
  generalize (copysign b.fDx v.x - p.x) / v.x = tx at px ⊢
  generalize (copysign b.fDy v.y - p.y) / v.y = ty at py ⊢
  generalize (copysign b.fDz v.z - p.z) / v.z = tz at pz ⊢
  have big : (0 : ℚ) ≤ 100000000000000000000 := by norm_num
  have qx : 0 ≤ (if v.x = 0 then (100000000000000000000 : ℚ) else tx) := by
    split_ifs with h
    · exact big
    · exact (px h).le
  have qy : 0 ≤ (if v.y = 0 then (if v.x = 0 then (100000000000000000000 : ℚ) else tx)
      else ty) := by
    split_ifs with h1 h2
    · exact big
    · exact (px h2).le
    · exact (py h1).le
  refine le_min (le_min qx qy) ?_
  by_cases h : v.z = 0
  · rw [if_pos h]
    exact le_min qx qy
  · rw [if_neg h]
    exact (pz h).le

/-- In a geometry whose boxes have positive half-lengths the distance
reported by `CalculateDistanceToOut` is not negative. -/
theorem Geometry.CalculateDistanceToOut_nonneg (g : Geometry) (h : g.sized) (r v : Vec3) :
    0 ≤ (g.CalculateDistanceToOut r v).dist := by
  obtain ⟨-, -, -, h4, h5⟩ := h
  obtain ⟨a1, a2, a3⟩ := Box.sized_pos _ h4
  obtain ⟨b1, b2, b3⟩ := Box.sized_pos _ h5
  unfold Geometry.CalculateDistanceToOut
  simp only
  split_ifs
  · norm_num
  · exact le_rfl
  · exact Box.DistanceToOut_nonneg _ _ _ a1 a2 a3
  · exact Box.DistanceToOut_nonneg _ _ _ b1 b2 b3

/-- When the exit condition of the calorimeter box holds the leaving
sentinel is reported. -/
theorem Geometry.CalculateDistanceToOut_of_caloExit (g : Geometry) (r v : Vec3)
    (h : g.caloExit r v) : (g.CalculateDistanceToOut r v).dist = 100000000000000000000 := by
  have hcalo := Box.DistanceToOut_of_exit g.fBoxCalo r v h
  unfold Geometry.CalculateDistanceToOut
  simp only [hcalo, if_true]

/-- Along an axis with a non-zero direction component the exit condition
holds after enough pushes of 1e-6. -/
theorem exists_exitsOn (h p v : ℚ) (hh : 0 < h) (hv : v ≠ 0) :
    ∃ n : ℕ, exitsOn h (p + (n : ℚ) * (1 / 1000000) * v) v := by
  have hav : 0 < |v| := abs_pos.mpr hv
  obtain ⟨n, hn⟩ := exists_nat_ge ((h + |p|) / (1 / 1000000 * |v|))
  have hn2 : h + |p| ≤ (n : ℚ) * (1 / 1000000) * |v| := by
    rw [div_le_iff₀ (by positivity)] at hn
    linarith
  refine ⟨n, ?_⟩
  unfold exitsOn
  have hp1 := neg_abs_le p
  have hp2 := le_abs_self p
  rcases lt_or_gt_of_ne hv with hneg | hpos
  · rw [abs_of_neg hneg] at hn2
    have hq : p + (n : ℚ) * (1 / 1000000) * v ≤ -h := by linarith
    have hq0 : p + (n : ℚ) * (1 / 1000000) * v < 0 := by linarith
    refine ⟨?_, mul_pos_of_neg_of_neg hq0 hneg⟩
    rw [abs_of_neg hq0]
    linarith
  · rw [abs_of_pos hpos] at hn2
    have hq : h ≤ p + (n : ℚ) * (1 / 1000000) * v := by linarith
    have hq0 : 0 < p + (n : ℚ) * (1 / 1000000) * v := by linarith
    refine ⟨?_, mul_pos hq0 hpos⟩
    rw [abs_of_pos hq0]
    linarith

theorem SteppingLoop.AddTo3Vect_add (p v : Vec3) (a b : ℚ) :
    SteppingLoop.AddTo3Vect (SteppingLoop.AddTo3Vect p v a) v b =
      SteppingLoop.AddTo3Vect p v (a + b) := by
  unfold SteppingLoop.AddTo3Vect
  simp only [Vec3.mk.injEq]
  refine ⟨?_, ?_, ?_⟩ <;> ring

/-- With an engine whose `HowFar` only writes the step limit 0, an iteration
of the gamma stepper that is not leaving pushes the track by 1e-6 along its
direction and changes nothing else. -/
theorem SteppingLoop.GammaStepperBody_zero_limit (theState : G4HepEmState)
    (theGeometry : Geometry) (eventID : Int) (s : StepperState) (hg : theGeometry.sized)
    (hHF : ∀ tl, (theState.GammaManagerHowFar tl).fPrimaryGammaTrack =
      tl.fPrimaryGammaTrack.SetGStepLength 0)
    (hB : ¬ (SteppingLoop.gammaLocate theGeometry s).dist > 10000000000) :
    SteppingLoop.GammaStepperBody theState theGeometry eventID s =
      (.continued, SteppingLoop.gammaPushed theState theGeometry s) ∧
    (SteppingLoop.gammaPushed theState theGeometry s).theTLData.fPrimaryGammaTrack.GetPosition =
      SteppingLoop.AddTo3Vect s.theTLData.fPrimaryGammaTrack.GetPosition
        s.theTLData.fPrimaryGammaTrack.GetDirection (1 / 1000000) ∧
    (SteppingLoop.gammaPushed theState theGeometry s).theTLData.fPrimaryGammaTrack.GetDirection =
      s.theTLData.fPrimaryGammaTrack.GetDirection ∧
    (SteppingLoop.gammaPushed theState theGeometry s).theTLData.fPrimaryGammaTrack.GetEKin =
      s.theTLData.fPrimaryGammaTrack.GetEKin := by
  have hP : SteppingLoop.gammaDistToPhysics theState theGeometry s = 0 := by
    unfold SteppingLoop.gammaDistToPhysics SteppingLoop.gammaLimit
    rw [hHF]
    rfl
  have hn : 0 ≤ (SteppingLoop.gammaLocate theGeometry s).dist :=
    Geometry.CalculateDistanceToOut_nonneg theGeometry hg _ _
  have h0 : min (SteppingLoop.gammaLocate theGeometry s).dist
      (SteppingLoop.gammaDistToPhysics theState theGeometry s) = 0 := by
    rw [hP]
    exact min_eq_right hn
  have ht : (SteppingLoop.gammaPushed theState theGeometry s).theTLData.fPrimaryGammaTrack =
      ((SteppingLoop.gammaPreStep theState theGeometry s).fPrimaryGammaTrack.SetGStepLength
        0).SetPosition (SteppingLoop.AddTo3Vect
          ((SteppingLoop.gammaPreStep theState theGeometry s).fPrimaryGammaTrack.SetGStepLength
            0).GetPosition
          ((SteppingLoop.gammaPreStep theState theGeometry s).fPrimaryGammaTrack.SetGStepLength
            0).GetDirection (1 / 1000000)) := by
    rw [← hHF]
    rfl
  refine ⟨SteppingLoop.GammaStepperBody_push theState theGeometry eventID s hB h0, ?_, ?_, ?_⟩
  · rw [ht]
    rfl
  · rw [ht]
    rfl
  · rw [ht]
    rfl

/-- The loop of pushes: if the exit condition of the calorimeter holds after
`n` pushes, the gamma stepper returns after at most `n` pushes. -/
theorem SteppingLoop.push_loop (theState : G4HepEmState) (theGeometry : Geometry)
    (eventID : Int) (hg : theGeometry.sized)
    (hHF : ∀ tl, (theState.GammaManagerHowFar tl).fPrimaryGammaTrack =
      tl.fPrimaryGammaTrack.SetGStepLength 0) (n : ℕ) :
    ∀ s : StepperState, 0 < s.theTLData.fPrimaryGammaTrack.GetEKin →
    theGeometry.caloExit
      (SteppingLoop.AddTo3Vect s.theTLData.fPrimaryGammaTrack.GetPosition
        s.theTLData.fPrimaryGammaTrack.GetDirection ((n : ℚ) * (1 / 1000000)))
      s.theTLData.fPrimaryGammaTrack.GetDirection →
    ∃ k : ℕ, k ≤ n ∧ ∃ s1 : StepperState,
      (∀ fuel : ℕ, k < fuel →
        SteppingLoop.GammaStepper theState theGeometry eventID fuel s = some s1) ∧
      (SteppingLoop.gammaLocate theGeometry s1).dist > 10000000000 ∧
      s1.theTLData.fPrimaryGammaTrack.GetPosition =
        SteppingLoop.AddTo3Vect s.theTLData.fPrimaryGammaTrack.GetPosition
          s.theTLData.fPrimaryGammaTrack.GetDirection ((k : ℚ) * (1 / 1000000)) ∧
      s1.theTLData.fPrimaryGammaTrack.GetDirection =
        s.theTLData.fPrimaryGammaTrack.GetDirection ∧
      s1.theTLData.fPrimaryGammaTrack.GetEKin = s.theTLData.fPrimaryGammaTrack.GetEKin ∧
      s1.theResult = s.theResult ∧ s1.theTrackStack = s.theTrackStack ∧
      s1.numStep = s.numStep ∧
      ∃ t : List StepEvent, s1.trace = s.trace ++ t ∧ t.length = 3 * k ∧
        ∀ e ∈ t, e.isPushEvent := by
  induction n with
  | zero =>
    intro s hE hex
    have hp : SteppingLoop.AddTo3Vect s.theTLData.fPrimaryGammaTrack.GetPosition
        s.theTLData.fPrimaryGammaTrack.GetDirection (((0 : ℕ) : ℚ) * (1 / 1000000)) =
        s.theTLData.fPrimaryGammaTrack.GetPosition := by
      unfold SteppingLoop.AddTo3Vect
      simp
    rw [hp] at hex
    have hB : (SteppingLoop.gammaLocate theGeometry s).dist > 10000000000 := by
      unfold SteppingLoop.gammaLocate
      rw [Geometry.CalculateDistanceToOut_of_caloExit theGeometry _ _ hex]
      norm_num
    refine ⟨0, le_rfl, s, ?_, hB, hp.symm, rfl, rfl, rfl, rfl, rfl, [], by simp, rfl, by simp⟩
    intro fuel hf
    obtain ⟨f, rfl⟩ : ∃ f, fuel = f + 1 := ⟨fuel - 1, by omega⟩
    exact SteppingLoop.GammaStepper_return theState theGeometry eventID f s hB
  | succ n ih =>
    intro s hE hex
    by_cases hB : (SteppingLoop.gammaLocate theGeometry s).dist > 10000000000
    · have hp : SteppingLoop.AddTo3Vect s.theTLData.fPrimaryGammaTrack.GetPosition
          s.theTLData.fPrimaryGammaTrack.GetDirection (((0 : ℕ) : ℚ) * (1 / 1000000)) =
          s.theTLData.fPrimaryGammaTrack.GetPosition := by
        unfold SteppingLoop.AddTo3Vect
        simp
      refine ⟨0, Nat.zero_le _, s, ?_, hB, hp.symm, rfl, rfl, rfl, rfl, rfl, [], by simp, rfl,
        by simp⟩
      intro fuel hf
      obtain ⟨f, rfl⟩ : ∃ f, fuel = f + 1 := ⟨fuel - 1, by omega⟩
      exact SteppingLoop.GammaStepper_return theState theGeometry eventID f s hB
    · obtain ⟨hb, p1, p2, p3⟩ := SteppingLoop.GammaStepperBody_zero_limit theState theGeometry
        eventID s hg hHF hB
      have hE1 : 0 < (SteppingLoop.gammaPushed theState theGeometry
          s).theTLData.fPrimaryGammaTrack.GetEKin := by
        rw [p3]
        exact hE
      have hex1 : theGeometry.caloExit
          (SteppingLoop.AddTo3Vect
            (SteppingLoop.gammaPushed theState theGeometry
              s).theTLData.fPrimaryGammaTrack.GetPosition
            (SteppingLoop.gammaPushed theState theGeometry
              s).theTLData.fPrimaryGammaTrack.GetDirection ((n : ℚ) * (1 / 1000000)))
          (SteppingLoop.gammaPushed theState theGeometry
            s).theTLData.fPrimaryGammaTrack.GetDirection := by
        rw [p1, p2, SteppingLoop.AddTo3Vect_add]
        have e : (1 : ℚ) / 1000000 + (n : ℚ) * (1 / 1000000) =
            ((n + 1 : ℕ) : ℚ) * (1 / 1000000) := by
          push_cast
          ring
        rw [e]
        exact hex
      obtain ⟨k, hk, s1, r1, r2, r3, r4, r5, r6, r7, r8, t, t1, t2, t3⟩ :=
        ih (SteppingLoop.gammaPushed theState theGeometry s) hE1 hex1
      refine ⟨k + 1, by omega, s1, ?_, r2, ?_, ?_, ?_, r6, r7, r8, ?_⟩
      · intro fuel hf
        obtain ⟨f, rfl⟩ : ∃ f, fuel = f + 1 := ⟨fuel - 1, by omega⟩
        rw [SteppingLoop.GammaStepper_step theState theGeometry eventID f s _ .continued hE hb
          (by decide)]
        exact r1 f (by omega)
      · rw [r3, p1, p2, SteppingLoop.AddTo3Vect_add]
        congr 1
        push_cast
        ring
      · rw [r4, p2]
      · rw [r5, p3]
      · refine ⟨[.HowFar (SteppingLoop.gammaPreStep theState theGeometry s),
          .StepSelected 0 (decide ((SteppingLoop.gammaLocate theGeometry s).dist ≤
            SteppingLoop.gammaDistToPhysics theState theGeometry s)), .Push] ++ t, ?_, ?_, ?_⟩
        · rw [t1]
          show (s.trace ++ _) ++ t = _
          rw [List.append_assoc]
        · rw [List.length_append, t2]
          simp only [List.length_cons, List.length_nil]
          omega
        · intro e he
          rw [List.mem_append] at he
          rcases he with he | he
          · simp only [List.mem_cons, List.mem_singleton, List.not_mem_nil, or_false] at he
            rcases he with rfl | rfl | rfl
            · exact True.intro
            · exact rfl
            · exact True.intro
          · exact t3 e he

/-- C24: in every geometry reached from the constructor by the mutators, for
every start point, every unit direction and positive kinetic energy, with an
engine whose `HowFar` only writes the step limit 0, the gamma stepper returns
for every fuel above some number `k` of iterations: each of the `k`
iterations applies the push of 1e-6 (the track ends `k` times 1e-6 further
along its direction, with its direction and energy unchanged), the events
are only calls of `HowFar`, selections of the step length 0 and pushes, three
per iteration, so `Perform` and the stepping action are never invoked, the
results, the stack and the step counter are unchanged, and the loop ends at a
point where the geometry reports the leaving sentinel. -/
theorem SteppingLoop.zero_limit_terminates (theState : G4HepEmState)
    (calls : List GeometryCall) (eventID : Int) (s : StepperState)
    (hHF : ∀ tl, (theState.GammaManagerHowFar tl).fPrimaryGammaTrack =
      tl.fPrimaryGammaTrack.SetGStepLength 0)
    (hE : 0 < s.theTLData.fPrimaryGammaTrack.GetEKin)
    (hu : isUnit s.theTLData.fPrimaryGammaTrack.GetDirection) :
    ∃ (k : ℕ) (s1 : StepperState),
      (∀ fuel : ℕ, k < fuel →
        SteppingLoop.GammaStepper theState (Geometry.run calls) eventID fuel s = some s1) ∧
      (SteppingLoop.gammaLocate (Geometry.run calls) s1).dist > 10000000000 ∧
      s1.theTLData.fPrimaryGammaTrack.GetPosition =
        SteppingLoop.AddTo3Vect s.theTLData.fPrimaryGammaTrack.GetPosition
          s.theTLData.fPrimaryGammaTrack.GetDirection ((k : ℚ) * (1 / 1000000)) ∧
      s1.theTLData.fPrimaryGammaTrack.GetDirection =
        s.theTLData.fPrimaryGammaTrack.GetDirection ∧
      s1.theTLData.fPrimaryGammaTrack.GetEKin = s.theTLData.fPrimaryGammaTrack.GetEKin ∧
      s1.theResult = s.theResult ∧ s1.theTrackStack = s.theTrackStack ∧
      s1.numStep = s.numStep ∧
      ∃ t : List StepEvent, s1.trace = s.trace ++ t ∧ t.length = 3 * k ∧
        ∀ e ∈ t, e.isPushEvent := by
  have hg := Geometry.run_sized calls
  obtain ⟨cx, cy, cz⟩ := Box.sized_pos _ hg.2.1
  have hex : ∃ n : ℕ, (Geometry.run calls).caloExit
      (SteppingLoop.AddTo3Vect s.theTLData.fPrimaryGammaTrack.GetPosition
        s.theTLData.fPrimaryGammaTrack.GetDirection ((n : ℚ) * (1 / 1000000)))
      s.theTLData.fPrimaryGammaTrack.GetDirection := by
    by_cases hx : s.theTLData.fPrimaryGammaTrack.GetDirection.x = 0
    · by_cases hy : s.theTLData.fPrimaryGammaTrack.GetDirection.y = 0
      · have hz : s.theTLData.fPrimaryGammaTrack.GetDirection.z ≠ 0 := by
          intro hz
          unfold isUnit at hu
          rw [hx, hy, hz] at hu
          norm_num at hu
        obtain ⟨n, hn⟩ := exists_exitsOn _ s.theTLData.fPrimaryGammaTrack.GetPosition.z _ cz hz
        exact ⟨n, Or.inr (Or.inr hn)⟩
      · obtain ⟨n, hn⟩ := exists_exitsOn _ s.theTLData.fPrimaryGammaTrack.GetPosition.y _ cy hy
        exact ⟨n, Or.inr (Or.inl hn)⟩
    · obtain ⟨n, hn⟩ := exists_exitsOn _ s.theTLData.fPrimaryGammaTrack.GetPosition.x _ cx hx
      exact ⟨n, Or.inl hn⟩
  obtain ⟨n, hn⟩ := hex
  obtain ⟨k, -, s1, h⟩ := SteppingLoop.push_loop theState (Geometry.run calls) eventID hg hHF n
    s hE hn
  exact ⟨k, s1, h⟩

/-- Witness of C24: the example gamma in the default geometry with the stub
engine of limit 0. -/
theorem SteppingLoop.zero_limit_terminates_witness :
    ∃ (k : ℕ) (s1 : StepperState),
      (∀ fuel : ℕ, k < fuel →
        SteppingLoop.GammaStepper (stubState 0) (Geometry.run []) 0 fuel exampleStepperState =
          some s1) ∧
      (SteppingLoop.gammaLocate (Geometry.run []) s1).dist > 10000000000 ∧
      s1.theResult = exampleStepperState.theResult :=
  have w := SteppingLoop.zero_limit_terminates (stubState 0) [] 0 exampleStepperState
    (fun _ => rfl) (show (0 : ℚ) < 1 by norm_num)
    (show (1 : ℚ) * 1 + 0 * 0 + 0 * 0 = 1 by norm_num)
  w.elim fun k h => h.elim fun s1 h1 => ⟨k, s1, h1.1, h1.2.1, h1.2.2.2.2.2.1⟩

/-! ## The track loop: theorems -/

theorem truncToInt_validCharge (t : G4HepEmTrack) (h : validCharge t) :
    truncToInt t.GetCharge > -2 := by
  rcases h with h | h | h <;> rw [h]
  · have e : truncToInt (-1) = -1 := by
      unfold truncToInt
      rw [if_neg (by norm_num), Int.ceil_eq_iff]
      norm_num
    rw [e]
    decide
  · have e : truncToInt 0 = 0 := by
      unfold truncToInt
      norm_num
    rw [e]
    decide
  · have e : truncToInt 1 = 1 := by
      unfold truncToInt
      norm_num
    rw [e]
    decide

theorem SteppingLoop.stackedSecondaries_valid (tl : G4HepEmTLData)
    (thePrimary : G4HepEmTrack) (id : Int) (hv : validSecondaries tl) :
    ∀ t ∈ SteppingLoop.stackedSecondaries tl thePrimary id, validCharge t := by
  obtain ⟨v1, v2, v3, v4⟩ := hv
  intro t ht
  unfold SteppingLoop.stackedSecondaries at ht
  rw [List.mem_append, List.mem_map, List.mem_map] at ht
  rcases ht with ⟨k, hk, rfl⟩ | ⟨k, hk, rfl⟩
  · rw [List.mem_range] at hk
    have hc := (SteppingLoop.isStacked_copy thePrimary (tl.GetSecondaryElectronTrack k)
      (id + k)).2.2.2.2.2.2
    unfold validCharge
    rw [hc]
    exact v3 k (by omega)
  · rw [List.mem_range] at hk
    have hc := (SteppingLoop.isStacked_copy thePrimary (tl.GetSecondaryGammaTrack k)
      (id + tl.GetNumSecondaryElectronTrack.toNat + k)).2.2.2.2.2.2
    unfold validCharge
    rw [hc]
    exact v4 k (by omega)

theorem SteppingLoop.StackSecondaries_chargesOK (tl : G4HepEmTLData) (st : TrackStack)
    (thePrimary : G4HepEmTrack) (h : st.chargesOK) (hv : validSecondaries tl) :
    (SteppingLoop.StackSecondaries tl st thePrimary).2.chargesOK := by
  obtain ⟨f1, f2, -⟩ := SteppingLoop.StackSecondaries_facts tl st thePrimary h.1 hv.1 hv.2.1
  refine ⟨f1, ?_⟩
  intro t ht
  rw [f2, List.mem_append] at ht
  rcases ht with ht | ht
  · exact h.2 t ht
  · exact SteppingLoop.stackedSecondaries_valid tl thePrimary _ hv t ht

/-- An iteration of the gamma stepper keeps the stack well formed with valid
charges when the secondaries of the engine are valid. -/
theorem SteppingLoop.GammaStepperBody_chargesOK (theState : G4HepEmState)
    (theGeometry : Geometry) (eventID : Int) (s : StepperState)
    (hP : ∀ tl, validSecondaries (theState.GammaManagerPerform tl))
    (h : s.theTrackStack.chargesOK) :
    (SteppingLoop.GammaStepperBody theState theGeometry eventID s).2.theTrackStack.chargesOK := by
  by_cases hB : (SteppingLoop.gammaLocate theGeometry s).dist > 10000000000
  · rw [SteppingLoop.GammaStepperBody_returned theState theGeometry eventID s hB]
    exact h
  · by_cases h0 : min (SteppingLoop.gammaLocate theGeometry s).dist
        (SteppingLoop.gammaDistToPhysics theState theGeometry s) = 0
    · rw [SteppingLoop.GammaStepperBody_push theState theGeometry eventID s hB h0]
      exact h
    · rw [SteppingLoop.GammaStepperBody_finish theState theGeometry eventID s hB h0,
        (SteppingLoop.GammaStepperFinish_data theState eventID s _ _ _ _ _).2]
      split_ifs
      · exact SteppingLoop.StackSecondaries_chargesOK _ _ _ h (hP _)
      · exact h

/-- An iteration of the electron stepper keeps the stack well formed with
valid charges when the secondaries of the engine are valid. -/
theorem SteppingLoop.ElectronStepperBody_chargesOK (theState : G4HepEmState) (sqrt : ℚ → ℚ)
    (theGeometry : Geometry) (eventID : Int) (s : StepperState)
    (hP : ∀ tl, validSecondaries (theState.ElectronManagerPerform tl))
    (h : s.theTrackStack.chargesOK) :
    (SteppingLoop.ElectronStepperBody theState sqrt theGeometry eventID
      s).2.theTrackStack.chargesOK := by
  by_cases hB : (SteppingLoop.electronLocate theGeometry s).dist > 10000000000
  · rw [SteppingLoop.ElectronStepperBody_returned theState sqrt theGeometry eventID s hB]
    exact h
  · by_cases h0 : min (SteppingLoop.electronLocate theGeometry s).dist
        (SteppingLoop.electronDistToPhysics theState theGeometry s) = 0
    · rw [SteppingLoop.ElectronStepperBody_push theState sqrt theGeometry eventID s hB h0]
      exact h
    · rw [SteppingLoop.ElectronStepperBody_finish theState sqrt theGeometry eventID s hB h0,
        (SteppingLoop.ElectronStepperFinish_data theState sqrt theGeometry eventID s
          _ _ _ _ _).2]
      split_ifs
      · refine SteppingLoop.StackSecondaries_chargesOK _ _ _ h ?_
        exact hP _
      · exact h

theorem SteppingLoop.GammaStepper_zero (theState : G4HepEmState) (theGeometry : Geometry)
    (eventID : Int) (s : StepperState) :
    SteppingLoop.GammaStepper theState theGeometry eventID 0 s = none := by
  rw [SteppingLoop.GammaStepper]

theorem SteppingLoop.ElectronStepper_zero (theState : G4HepEmState) (sqrt : ℚ → ℚ)
    (theGeometry : Geometry) (eventID : Int) (s : StepperState) :
    SteppingLoop.ElectronStepper theState sqrt theGeometry eventID 0 s = none := by
  rw [SteppingLoop.ElectronStepper]

/-- The gamma stepper keeps the stack well formed with valid charges. -/
theorem SteppingLoop.GammaStepper_chargesOK (theState : G4HepEmState)
    (theGeometry : Geometry) (eventID : Int)
    (hP : ∀ tl, validSecondaries (theState.GammaManagerPerform tl)) (fuel : ℕ) :
    ∀ s s1 : StepperState,
      SteppingLoop.GammaStepper theState theGeometry eventID fuel s = some s1 →
      s.theTrackStack.chargesOK → s1.theTrackStack.chargesOK := by
  induction fuel with
  | zero =>
    intro s s1 h
    rw [SteppingLoop.GammaStepper_zero] at h
    exact absurd h (by simp)
  | succ fuel ih =>
    intro s s1 h hs
    rw [SteppingLoop.GammaStepper_succ] at h
    have hb := SteppingLoop.GammaStepperBody_chargesOK theState theGeometry eventID s hP hs
    by_cases hE : s.theTLData.fPrimaryGammaTrack.GetEKin > 0
    · rw [if_pos hE] at h
      generalize SteppingLoop.GammaStepperBody theState theGeometry eventID s = b at h hb
      obtain ⟨c, s2⟩ := b
      cases c
      · simp only [Option.some.injEq] at h
        rw [← h]
        exact hb
      · exact ih s2 s1 h hb
      · exact ih s2 s1 h hb
    · rw [if_neg hE] at h
      simp only [Option.some.injEq] at h
      rw [← h]
      exact hs

/-- The electron stepper keeps the stack well formed with valid charges. -/
theorem SteppingLoop.ElectronStepper_chargesOK (theState : G4HepEmState) (sqrt : ℚ → ℚ)
    (theGeometry : Geometry) (eventID : Int)
    (hP : ∀ tl, validSecondaries (theState.ElectronManagerPerform tl)) (fuel : ℕ) :
    ∀ s s1 : StepperState,
      SteppingLoop.ElectronStepper theState sqrt theGeometry eventID fuel s = some s1 →
      s.theTrackStack.chargesOK → s1.theTrackStack.chargesOK := by
  induction fuel with
  | zero =>
    intro s s1 h
    rw [SteppingLoop.ElectronStepper_zero] at h
    exact absurd h (by simp)
  | succ fuel ih =>
    intro s s1 h hs
    rw [SteppingLoop.ElectronStepper_succ] at h
    have hb := SteppingLoop.ElectronStepperBody_chargesOK theState sqrt theGeometry eventID s
      hP hs
    by_cases hE : s.theTLData.fPrimaryElectronTrack.GetEKin > 0
    · rw [if_pos hE] at h
      generalize SteppingLoop.ElectronStepperBody theState sqrt theGeometry eventID s = b
        at h hb
      obtain ⟨c, s2⟩ := b
      cases c
      · simp only [Option.some.injEq] at h
        rw [← h]
        exact hb
      · exact ih s2 s1 h hb
      · exact ih s2 s1 h hb
    · rw [if_neg hE] at h
      simp only [Option.some.injEq] at h
      rw [← h]
      exact hs

theorem EventLoop.TrackLoop_zero (theState : G4HepEmState) (sqrt : ℚ → ℚ)
    (DiscardGauss : ℕ → ℕ) (theGeometry : Geometry) (eventID : Int) (fuel : ℕ)
    (st : EventState) :
    EventLoop.TrackLoop theState sqrt DiscardGauss theGeometry eventID fuel 0 st = none := by
  rw [EventLoop.TrackLoop]

theorem EventLoop.TrackLoop_succ (theState : G4HepEmState) (sqrt : ℚ → ℚ)
    (DiscardGauss : ℕ → ℕ) (theGeometry : Geometry) (eventID : Int) (fuel n : ℕ)
    (st : EventState) :
    EventLoop.TrackLoop theState sqrt DiscardGauss theGeometry eventID fuel (n + 1) st =
      if st.theTrackStack.GetTypeOfNextTrack.1 > -2 then
        (EventLoop.TrackLoopBody theState sqrt DiscardGauss theGeometry eventID fuel
          st.theTrackStack.GetTypeOfNextTrack.1
          { st with theTrackStack := st.theTrackStack.GetTypeOfNextTrack.2 }).bind
          (EventLoop.TrackLoop theState sqrt DiscardGauss theGeometry eventID fuel n)
      else some { st with theTrackStack := st.theTrackStack.GetTypeOfNextTrack.2 } := by
  rw [EventLoop.TrackLoop]

theorem TrackStack.GetTypeOfNextTrack_empty (s : TrackStack) (h : s.fCurIndx < 0) :
    s.GetTypeOfNextTrack = (-999, s) := by
  unfold TrackStack.GetTypeOfNextTrack
  rw [if_pos h]

theorem TrackStack.GetTypeOfNextTrack_nonempty (s : TrackStack) (h : 0 ≤ s.fCurIndx) :
    s.GetTypeOfNextTrack = (truncToInt (s.slot s.fCurIndx).GetCharge, s) := by
  unfold TrackStack.GetTypeOfNextTrack
  rw [if_neg (not_lt.mpr h)]

/-- The top of a stack that is not empty is one of its stored tracks, and
the stack without it is well formed with the other stored tracks. -/
theorem TrackStack.chargesOK_pop (s : TrackStack) (h : s.chargesOK) (hc : 0 ≤ s.fCurIndx) :
    validCharge (s.slot s.fCurIndx) ∧
    TrackStack.chargesOK { s with fCurIndx := s.fCurIndx - 1 } := by
  obtain ⟨-, w, c⟩ := TrackStack.PopInto_nonempty s h.1 hc G4HepEmTrack.new
  refine ⟨h.2 _ ?_, w, ?_⟩
  · rw [c]
    simp
  · intro t ht
    apply h.2
    rw [c]
    exact List.mem_append_left _ ht

/-- The loop condition of the track loop for a well-formed stack with valid
charges: true exactly when the stack is not empty. -/
theorem EventLoop.loop_condition (s : TrackStack) (h : s.chargesOK) :
    s.GetTypeOfNextTrack.1 > -2 ↔ 0 ≤ s.fCurIndx := by
  constructor
  · intro hgt
    by_contra hc
    rw [TrackStack.GetTypeOfNextTrack_empty s (by omega)] at hgt
    have hgt2 : (-999 : Int) > -2 := hgt
    omega
  · intro hc
    rw [TrackStack.GetTypeOfNextTrack_nonempty s hc]
    exact truncToInt_validCharge _ (TrackStack.chargesOK_pop s h hc).1

/-- The body of the track loop is the stepper of the track type run on the
state after the pop. -/
theorem EventLoop.TrackLoopBody_eq (theState : G4HepEmState) (sqrt : ℚ → ℚ)
    (DiscardGauss : ℕ → ℕ) (theGeometry : Geometry) (eventID : Int) (fuel : ℕ)
    (trackType : Int) (st : EventState) :
    EventLoop.TrackLoopBody theState sqrt DiscardGauss theGeometry eventID fuel trackType st =
      (if trackType = 0 then
        SteppingLoop.GammaStepper theState theGeometry eventID fuel
          (EventLoop.trackingStart DiscardGauss theGeometry trackType st)
      else
        SteppingLoop.ElectronStepper theState sqrt theGeometry eventID fuel
          (EventLoop.trackingStart DiscardGauss theGeometry trackType st)).map
        (EventLoop.trackingEnd trackType) := rfl

/-- An iteration of the track loop on a stack that is not empty keeps the
stack well formed with valid charges. -/
theorem EventLoop.TrackLoopBody_chargesOK (theState : G4HepEmState) (sqrt : ℚ → ℚ)
    (DiscardGauss : ℕ → ℕ) (theGeometry : Geometry) (eventID : Int) (fuel : ℕ)
    (trackType : Int) (st st1 : EventState)
    (hG : ∀ tl, validSecondaries (theState.GammaManagerPerform tl))
    (hEl : ∀ tl, validSecondaries (theState.ElectronManagerPerform tl))
    (hst : st.theTrackStack.chargesOK) (hc : 0 ≤ st.theTrackStack.fCurIndx)
    (h : EventLoop.TrackLoopBody theState sqrt DiscardGauss theGeometry eventID fuel trackType
      st = some st1) :
    st1.theTrackStack.chargesOK := by
  rw [EventLoop.TrackLoopBody_eq, Option.map_eq_some'] at h
  obtain ⟨s1, hs, rfl⟩ := h
  have h0 : (EventLoop.trackingStart DiscardGauss theGeometry trackType
      st).theTrackStack.chargesOK := by
    show (EventLoop.popNext DiscardGauss theGeometry trackType st.theTLData
      st.theTrackStack).2.chargesOK
    rw [(EventLoop.nextTrack_popNext DiscardGauss theGeometry trackType st.theTLData
      st.theTrackStack hc).2]
    exact (TrackStack.chargesOK_pop _ hst hc).2
  show s1.theTrackStack.chargesOK
  by_cases ht : trackType = 0
  · rw [if_pos ht] at hs
    exact SteppingLoop.GammaStepper_chargesOK theState theGeometry eventID hG fuel _ _ hs h0
  · rw [if_neg ht] at hs
    exact SteppingLoop.ElectronStepper_chargesOK theState sqrt theGeometry eventID hEl fuel
      _ _ hs h0

/-- When the track loop ends the stack is empty. -/
theorem EventLoop.TrackLoop_empty (theState : G4HepEmState) (sqrt : ℚ → ℚ)
    (DiscardGauss : ℕ → ℕ) (theGeometry : Geometry) (eventID : Int) (fuel : ℕ)
    (hG : ∀ tl, validSecondaries (theState.GammaManagerPerform tl))
    (hEl : ∀ tl, validSecondaries (theState.ElectronManagerPerform tl)) (n : ℕ) :
    ∀ st st1 : EventState,
      EventLoop.TrackLoop theState sqrt DiscardGauss theGeometry eventID fuel n st = some st1 →
      st.theTrackStack.chargesOK →
      st1.theTrackStack.fCurIndx = -1 ∧ st1.theTrackStack.chargesOK := by
  induction n with
  | zero =>
    intro st st1 h
    rw [EventLoop.TrackLoop_zero] at h
    exact absurd h (by simp)
  | succ n ih =>
    intro st st1 h hst
    rw [EventLoop.TrackLoop_succ] at h
    by_cases hc : 0 ≤ st.theTrackStack.fCurIndx
    · rw [if_pos ((EventLoop.loop_condition _ hst).mpr hc),
        TrackStack.GetTypeOfNextTrack_nonempty _ hc, Option.bind_eq_some] at h
      obtain ⟨st2, h2, h3⟩ := h
      exact ih st2 st1 h3 (EventLoop.TrackLoopBody_chargesOK theState sqrt DiscardGauss
        theGeometry eventID fuel _ _ st2 hG hEl hst hc h2)
    · rw [if_neg (fun hgt => hc ((EventLoop.loop_condition _ hst).mp hgt)),
        TrackStack.GetTypeOfNextTrack_empty _ (by omega)] at h
      simp only [Option.some.injEq] at h
      rw [← h]
      have hw := hst.1.1
      exact ⟨by show st.theTrackStack.fCurIndx = -1; omega, hst⟩

/-- A write through the reference returned by `Insert`, whatever the id
counter: the written track is appended to the stored tracks. -/
theorem TrackStack.Insert_write (s : TrackStack) (h : s.wf) (t : G4HepEmTrack) (c : Int) :
    (TrackStack.setSlot { s.Insert.1 with fCurrentTrackID := c } s.Insert.2 t).wf ∧
    (TrackStack.setSlot { s.Insert.1 with fCurrentTrackID := c } s.Insert.2 t).contents =
      s.contents ++ [t] ∧
    (TrackStack.setSlot { s.Insert.1 with fCurrentTrackID := c } s.Insert.2 t).fCurIndx =
      s.fCurIndx + 1 := by
  obtain ⟨ex, he, hi, hl, hlt⟩ := TrackStack.Insert_eq s h
  have hw := TrackStack.Insert_wf s h
  obtain ⟨h1, h2, h3, h4⟩ := h
  have hp : (0 : Int) ≤ s.fCurIndx + 1 := by omega
  rw [hi]
  unfold TrackStack.setSlot
  rw [if_pos hp]
  refine ⟨?_, ?_, ?_⟩
  · obtain ⟨w1, w2, w3, w4⟩ := hw
    refine ⟨w1, w2, ?_, w4⟩
    simp only [List.length_set]
    exact w3
  · rw [he]
    unfold TrackStack.contents
    simp only
    have e : (s.fCurIndx + 1 + 1).toNat = (s.fCurIndx + 1).toNat + 1 := by omega
    rw [e, List.set_set, take_succ_set _ _ _ hlt, List.take_append_of_le_length (by omega)]
  · rw [he]

/-- The start of an event pushes the primary on the stack. -/
theorem EventLoop.BeginEvent_chargesOK (thePrimaryGenerator : PrimaryGenerator)
    (eventID : Int) (st : EventState)
    (hpg : thePrimaryGenerator.fCharge = -1 ∨ thePrimaryGenerator.fCharge = 0 ∨
      thePrimaryGenerator.fCharge = 1)
    (hst : st.theTrackStack.chargesOK) :
    (EventLoop.BeginEvent thePrimaryGenerator eventID st).theTrackStack.chargesOK ∧
    (EventLoop.BeginEvent thePrimaryGenerator eventID st).theTrackStack.fCurIndx =
      st.theTrackStack.fCurIndx + 1 := by
  have hw : (st.theTrackStack.ReSetTrackID).wf := hst.1
  obtain ⟨w1, w2, w3⟩ := TrackStack.Insert_write st.theTrackStack.ReSetTrackID hw
    ((thePrimaryGenerator.GenerateOne
      (st.theTrackStack.ReSetTrackID.Insert.1.slot
        st.theTrackStack.ReSetTrackID.Insert.2)).SetID
      st.theTrackStack.ReSetTrackID.Insert.1.fCurrentTrackID)
    (st.theTrackStack.ReSetTrackID.Insert.1.fCurrentTrackID + 1)
  refine ⟨⟨w1, ?_⟩, w3⟩
  intro t ht
  have hc : (EventLoop.BeginEvent thePrimaryGenerator eventID st).theTrackStack.contents =
      st.theTrackStack.contents ++ [(thePrimaryGenerator.GenerateOne
        (st.theTrackStack.ReSetTrackID.Insert.1.slot
          st.theTrackStack.ReSetTrackID.Insert.2)).SetID
        st.theTrackStack.ReSetTrackID.Insert.1.fCurrentTrackID] := w2
  rw [hc, List.mem_append, List.mem_singleton] at ht
  rcases ht with ht | rfl
  · exact hst.2 t ht
  · exact hpg

/-- After an event the stack is empty. -/
theorem EventLoop.ProcessEvent_empty (theState : G4HepEmState) (sqrt : ℚ → ℚ)
    (DiscardGauss : ℕ → ℕ) (thePrimaryGenerator : PrimaryGenerator) (theGeometry : Geometry)
    (fuel : ℕ) (eventID : Int) (st st1 : EventState)
    (hG : ∀ tl, validSecondaries (theState.GammaManagerPerform tl))
    (hEl : ∀ tl, validSecondaries (theState.ElectronManagerPerform tl))
    (hpg : thePrimaryGenerator.fCharge = -1 ∨ thePrimaryGenerator.fCharge = 0 ∨
      thePrimaryGenerator.fCharge = 1)
    (hst : st.theTrackStack.chargesOK)
    (h : EventLoop.ProcessEvent theState sqrt DiscardGauss thePrimaryGenerator theGeometry fuel
      eventID st = some st1) :
    st1.theTrackStack.fCurIndx = -1 ∧ st1.theTrackStack.chargesOK := by
  unfold EventLoop.ProcessEvent at h
  rw [Option.map_eq_some'] at h
  obtain ⟨st2, h2, rfl⟩ := h
  exact EventLoop.TrackLoop_empty theState sqrt DiscardGauss theGeometry eventID fuel hG hEl
    fuel _ st2 h2 (EventLoop.BeginEvent_chargesOK thePrimaryGenerator eventID st hpg hst).1

/-- After any number of events the stack is empty. -/
theorem EventLoop.EventsFrom_empty (theState : G4HepEmState) (sqrt : ℚ → ℚ)
    (DiscardGauss : ℕ → ℕ) (thePrimaryGenerator : PrimaryGenerator) (theGeometry : Geometry)
    (fuel : ℕ)
    (hG : ∀ tl, validSecondaries (theState.GammaManagerPerform tl))
    (hEl : ∀ tl, validSecondaries (theState.ElectronManagerPerform tl))
    (hpg : thePrimaryGenerator.fCharge = -1 ∨ thePrimaryGenerator.fCharge = 0 ∨
      thePrimaryGenerator.fCharge = 1) (n : ℕ) :
    ∀ (eventID : Int) (st st1 : EventState),
      EventLoop.EventsFrom theState sqrt DiscardGauss thePrimaryGenerator theGeometry fuel n
        eventID st = some st1 →
      st.theTrackStack.fCurIndx = -1 ∧ st.theTrackStack.chargesOK →
      st1.theTrackStack.fCurIndx = -1 ∧ st1.theTrackStack.chargesOK := by
  induction n with
  | zero =>
    intro eventID st st1 h hst
    rw [EventLoop.EventsFrom] at h
    simp only [Option.some.injEq] at h
    rw [← h]
    exact hst
  | succ n ih =>
    intro eventID st st1 h hst
    rw [EventLoop.EventsFrom, Option.bind_eq_some] at h
    obtain ⟨st2, h2, h3⟩ := h
    exact ih (eventID + 1) st2 st1 h3
      (EventLoop.ProcessEvent_empty theState sqrt DiscardGauss thePrimaryGenerator theGeometry
        fuel eventID st st2 hG hEl hpg hst.2 h2)

theorem TrackStack.new_chargesOK : TrackStack.new.chargesOK := by
  refine ⟨TrackStack.new_wf, ?_⟩
  intro t ht
  have e : TrackStack.new.contents = [] := by
    unfold TrackStack.contents
    rfl
  rw [e] at ht
  exact absurd ht (List.not_mem_nil t)

theorem quietState_valid (limit : ℚ) :
    (∀ tl, validSecondaries ((quietState limit).GammaManagerPerform tl)) ∧
    (∀ tl, validSecondaries ((quietState limit).ElectronManagerPerform tl)) := by
  constructor
  · intro tl
    refine ⟨le_rfl, le_rfl, ?_, ?_⟩
    · intro k hk
      have hk2 : (k : Int) < 0 := hk
      omega
    · intro k hk
      have hk2 : (k : Int) < 0 := hk
      omega
  · intro tl
    refine ⟨le_rfl, le_rfl, ?_, ?_⟩
    · intro k hk
      have hk2 : (k : Int) < 0 := hk
      omega
    · intro k hk
      have hk2 : (k : Int) < 0 := hk
      omega

/-- C27: with an engine whose secondaries have the charge -1, 0 or +1 (and
counters that are not negative), a primary generator with such a charge, and
a well-formed stack whose stored tracks have such charges: the loop condition
`GetTypeOfNextTrack() > -2` of the track loop of `EventLoop::ProcessEvents`
holds exactly when the stack is not empty; on an empty stack the loop is left
at once; on a stack that is not empty one iteration runs, which hands the
stepper the stack with the pointer one lower and the popped track (moved to
the calorimeter when it has no parent) and runs `GammaStepper` when the type
of the popped track is 0 and `ElectronStepper` otherwise, and the loop goes
on with the state the stepper returned; whenever the track loop ends (every
stepper call having returned) the stack pointer is -1, so it is -1 after
every event and after `ProcessEvents`, which starts with an empty stack. -/
theorem EventLoop.track_loop_drains (theState : G4HepEmState) (sqrt : ℚ → ℚ)
    (DiscardGauss : ℕ → ℕ) (thePrimaryGenerator : PrimaryGenerator) (theGeometry : Geometry)
    (eventID : Int) (fuel n : ℕ) (st : EventState)
    (hG : ∀ tl, validSecondaries (theState.GammaManagerPerform tl))
    (hEl : ∀ tl, validSecondaries (theState.ElectronManagerPerform tl))
    (hpg : thePrimaryGenerator.fCharge = -1 ∨ thePrimaryGenerator.fCharge = 0 ∨
      thePrimaryGenerator.fCharge = 1)
    (hst : st.theTrackStack.chargesOK) :
    (st.theTrackStack.GetTypeOfNextTrack.1 > -2 ↔ 0 ≤ st.theTrackStack.fCurIndx) ∧
    (st.theTrackStack.fCurIndx = -1 →
      EventLoop.TrackLoop theState sqrt DiscardGauss theGeometry eventID fuel (n + 1) st =
        some st) ∧
    (0 ≤ st.theTrackStack.fCurIndx →
      EventLoop.TrackLoop theState sqrt DiscardGauss theGeometry eventID fuel (n + 1) st =
        (EventLoop.TrackLoopBody theState sqrt DiscardGauss theGeometry eventID fuel
          (EventLoop.topType st) st).bind
          (EventLoop.TrackLoop theState sqrt DiscardGauss theGeometry eventID fuel n) ∧
      (EventLoop.trackingStart DiscardGauss theGeometry (EventLoop.topType st)
          st).theTrackStack =
        { st.theTrackStack with fCurIndx := st.theTrackStack.fCurIndx - 1 } ∧
      EventLoop.nextTrack (EventLoop.topType st)
          (EventLoop.trackingStart DiscardGauss theGeometry (EventLoop.topType st)
            st).theTLData =
        EventLoop.relocate theGeometry
          (TrackStack.Copy (st.theTrackStack.slot st.theTrackStack.fCurIndx)
            G4HepEmTrack.new) ∧
      (EventLoop.topType st = 0 →
        EventLoop.TrackLoopBody theState sqrt DiscardGauss theGeometry eventID fuel
            (EventLoop.topType st) st =
          (SteppingLoop.GammaStepper theState theGeometry eventID fuel
            (EventLoop.trackingStart DiscardGauss theGeometry (EventLoop.topType st) st)).map
            (EventLoop.trackingEnd (EventLoop.topType st))) ∧
      (EventLoop.topType st ≠ 0 →
        EventLoop.TrackLoopBody theState sqrt DiscardGauss theGeometry eventID fuel
            (EventLoop.topType st) st =
          (SteppingLoop.ElectronStepper theState sqrt theGeometry eventID fuel
            (EventLoop.trackingStart DiscardGauss theGeometry (EventLoop.topType st) st)).map
            (EventLoop.trackingEnd (EventLoop.topType st)))) ∧
    (∀ st1 : EventState,
      EventLoop.TrackLoop theState sqrt DiscardGauss theGeometry eventID fuel n st = some st1 →
      st1.theTrackStack.fCurIndx = -1) ∧
    (∀ st1 : EventState,
      EventLoop.ProcessEvent theState sqrt DiscardGauss thePrimaryGenerator theGeometry fuel
        eventID st = some st1 →
      st1.theTrackStack.fCurIndx = -1) ∧
    (∀ (theTLData : G4HepEmTLData) (theResult : Results) (numEventToSimulate : Int)
      (st1 : EventState),
      EventLoop.ProcessEvents theState sqrt DiscardGauss thePrimaryGenerator theGeometry fuel
        theTLData theResult numEventToSimulate = some st1 →
      st1.theTrackStack.fCurIndx = -1) := by
  refine ⟨EventLoop.loop_condition _ hst, ?_, ?_, ?_, ?_, ?_⟩
  · intro he
    have hc : ¬ 0 ≤ st.theTrackStack.fCurIndx := by omega
    rw [EventLoop.TrackLoop_succ,
      if_neg (fun hgt => hc ((EventLoop.loop_condition _ hst).mp hgt)),
      TrackStack.GetTypeOfNextTrack_empty _ (by omega)]
  · intro hc
    refine ⟨?_, ?_, ?_, ?_, ?_⟩
    · rw [EventLoop.TrackLoop_succ, if_pos ((EventLoop.loop_condition _ hst).mpr hc),
        TrackStack.GetTypeOfNextTrack_nonempty _ hc]
      rfl
    · exact (EventLoop.nextTrack_popNext DiscardGauss theGeometry _ st.theTLData
        st.theTrackStack hc).2
    · exact (EventLoop.nextTrack_popNext DiscardGauss theGeometry _ st.theTLData
        st.theTrackStack hc).1
    · intro ht
      rw [EventLoop.TrackLoopBody_eq, if_pos ht]
    · intro ht
      rw [EventLoop.TrackLoopBody_eq, if_neg ht]
  · intro st1 h
    exact (EventLoop.TrackLoop_empty theState sqrt DiscardGauss theGeometry eventID fuel hG hEl
      n st st1 h hst).1
  · intro st1 h
    exact (EventLoop.ProcessEvent_empty theState sqrt DiscardGauss thePrimaryGenerator
      theGeometry fuel eventID st st1 hG hEl hpg hst h).1
  · intro theTLData theResult numEventToSimulate st1 h
    exact (EventLoop.EventsFrom_empty theState sqrt DiscardGauss thePrimaryGenerator
      theGeometry fuel hG hEl hpg _ 0 _ st1 h ⟨rfl, TrackStack.new_chargesOK⟩).1

/-! ## SteppingAction, energy deposit: theorems -/

/-- The absorber-or-gap index reported by `CalculateDistanceToOut` is 0 or 1
unless the distance is 0 (no step is taken in the located volume) or the
layer index is -1 (the track is leaving). -/
theorem Geometry.CalculateDistanceToOut_indxAbs (g : Geometry) (r v : Vec3) :
    (g.CalculateDistanceToOut r v).indxAbs = 0 ∨ (g.CalculateDistanceToOut r v).indxAbs = 1 ∨
    (g.CalculateDistanceToOut r v).dist = 0 ∨ (g.CalculateDistanceToOut r v).indxLayer = -1 := by
  unfold Geometry.CalculateDistanceToOut
  simp only
  split_ifs
  · exact Or.inr (Or.inr (Or.inr rfl))
  · exact Or.inr (Or.inr (Or.inl rfl))
  · exact Or.inl rfl
  · exact Or.inr (Or.inl rfl)

/-- C31: the stepping action records the energy deposit only for a layer
index `≥ 0` and a deposit `> 0`: then the energy-per-layer histogram is
filled at the layer index with the deposit, and the deposit is added to the
per-event absorber tally when the absorber-or-gap index is 0 and to the
per-event gap tally when it is 1, the other tally staying as it was; for a
layer index `< 0` or a deposit `≤ 0` the energy histogram and both energy
tallies are unchanged. The index reported by the geometry is 0 or 1 whenever
a step is located in a layer with a non-zero distance. -/
theorem SteppingLoop.SteppingAction_edep (theResult : Results) (theTrack : G4HepEmTrack)
    (currentVolume : VolumeId) (len : ℚ) (indxLayer indxAbsorber eventID stepID : Int)
    (g : Geometry) (r v : Vec3) :
    (0 ≤ indxLayer → 0 < theTrack.GetEnergyDeposit →
      (SteppingLoop.SteppingAction theResult theTrack currentVolume len indxLayer indxAbsorber
          eventID stepID).fEdepPerLayer =
        theResult.fEdepPerLayer.Fill (indxLayer : ℚ) theTrack.GetEnergyDeposit ∧
      (indxAbsorber = 0 →
        (SteppingLoop.SteppingAction theResult theTrack currentVolume len indxLayer indxAbsorber
            eventID stepID).fPerEventRes.fEdepAbs =
          theResult.fPerEventRes.fEdepAbs + theTrack.GetEnergyDeposit ∧
        (SteppingLoop.SteppingAction theResult theTrack currentVolume len indxLayer indxAbsorber
            eventID stepID).fPerEventRes.fEdepGap = theResult.fPerEventRes.fEdepGap) ∧
      (indxAbsorber = 1 →
        (SteppingLoop.SteppingAction theResult theTrack currentVolume len indxLayer indxAbsorber
            eventID stepID).fPerEventRes.fEdepGap =
          theResult.fPerEventRes.fEdepGap + theTrack.GetEnergyDeposit ∧
        (SteppingLoop.SteppingAction theResult theTrack currentVolume len indxLayer indxAbsorber
            eventID stepID).fPerEventRes.fEdepAbs = theResult.fPerEventRes.fEdepAbs)) ∧
    (indxLayer < 0 ∨ theTrack.GetEnergyDeposit ≤ 0 →
      (SteppingLoop.SteppingAction theResult theTrack currentVolume len indxLayer indxAbsorber
          eventID stepID).fEdepPerLayer = theResult.fEdepPerLayer ∧
      (SteppingLoop.SteppingAction theResult theTrack currentVolume len indxLayer indxAbsorber
          eventID stepID).fPerEventRes.fEdepAbs = theResult.fPerEventRes.fEdepAbs ∧
      (SteppingLoop.SteppingAction theResult theTrack currentVolume len indxLayer indxAbsorber
          eventID stepID).fPerEventRes.fEdepGap = theResult.fPerEventRes.fEdepGap) ∧
    ((g.CalculateDistanceToOut r v).indxAbs = 0 ∨ (g.CalculateDistanceToOut r v).indxAbs = 1 ∨
      (g.CalculateDistanceToOut r v).dist = 0 ∨
      (g.CalculateDistanceToOut r v).indxLayer = -1) := by
  refine ⟨?_, ?_, Geometry.CalculateDistanceToOut_indxAbs g r v⟩
  · intro hl hd
    unfold SteppingLoop.SteppingAction
    simp only [if_neg (not_lt.mpr hl), if_pos (show theTrack.GetEnergyDeposit > 0 from hd)]
    refine ⟨?_, ?_, ?_⟩
    · split_ifs <;> rfl
    · intro h0
      simp only [if_pos h0]
      constructor <;> split_ifs <;> rfl
    · intro h1
      have h0 : ¬ indxAbsorber = 0 := by omega
      simp only [if_neg h0, if_pos h1]
      constructor <;> split_ifs <;> rfl
  · intro h
    unfold SteppingLoop.SteppingAction
    by_cases hl : indxLayer < 0
    · refine ⟨?_, ?_, ?_⟩ <;> rw [if_pos hl]
    · have hd : ¬ theTrack.GetEnergyDeposit > 0 := not_lt.mpr (h.resolve_left hl)
      simp only [if_neg hl, if_neg hd]
      refine ⟨?_, ?_, ?_⟩ <;> split_ifs <;> rfl

/-- Witness of C31: a deposit of 1 in the absorber of layer 3. -/
theorem SteppingLoop.SteppingAction_edep_witness :
    (SteppingLoop.SteppingAction exampleResults { exampleTrack with fEDeposit := 1 } .abs 2 3 0
        0 0).fEdepPerLayer =
      exampleResults.fEdepPerLayer.Fill ((3 : Int) : ℚ)
        (G4HepEmTrack.GetEnergyDeposit { exampleTrack with fEDeposit := 1 }) ∧
    (SteppingLoop.SteppingAction exampleResults { exampleTrack with fEDeposit := 1 } .abs 2 3 0
        0 0).fPerEventRes.fEdepAbs =
      exampleResults.fPerEventRes.fEdepAbs +
        G4HepEmTrack.GetEnergyDeposit { exampleTrack with fEDeposit := 1 } :=
  have w := (SteppingLoop.SteppingAction_edep exampleResults { exampleTrack with fEDeposit := 1 }
    .abs 2 3 0 0 0 Geometry.new ⟨0, 0, 0⟩ ⟨1, 0, 0⟩).1 (by decide)
    (show (0 : ℚ) < 1 by norm_num)
  ⟨w.1, (w.2.1 rfl).1⟩

/-! ## Geometry, reachable states: theorems -/

theorem Geometry.UpdateParameters_fNumLayers (g : Geometry) :
    (Geometry.UpdateParameters g).fNumLayers = g.fNumLayers := rfl

theorem Geometry.call_fNumLayers (g : Geometry) (c : GeometryCall) (h : 1 ≤ g.fNumLayers) :
    1 ≤ (g.call c).fNumLayers := by
  cases c with
  | SetNumLayers n =>
    simp only [Geometry.call, Geometry.SetNumLayers]
    split_ifs with hn
    · rw [Geometry.UpdateParameters_fNumLayers]
      show 1 ≤ n
      omega
    · exact h
  | SetAbsThick t => exact h
  | SetGapThick t => exact h
  | SetCaloSizeYZ val => exact h

theorem Geometry.foldl_call_fNumLayers (calls : List GeometryCall) (g : Geometry)
    (h : 1 ≤ g.fNumLayers) : 1 ≤ (calls.foldl Geometry.call g).fNumLayers := by
  induction calls generalizing g with
  | nil => exact h
  | cons c cs ih => exact ih _ (Geometry.call_fNumLayers g c h)

/-- C32: `Geometry::SetNumLayers(n)` with `n ≤ 0` leaves the whole geometry
as it was; with `n > 0` the result is `UpdateParameters` applied to the
geometry with the number of layers `n`: the number of layers is `n` and the
derived scalars are those of the new configuration. Hence the number of
layers is at least 1 in every state reached from the constructor by the
mutators. -/
theorem Geometry.SetNumLayers_spec (g : Geometry) (n : Int) (calls : List GeometryCall) :
    (n ≤ 0 → g.SetNumLayers n = g) ∧
    (0 < n →
      g.SetNumLayers n = Geometry.UpdateParameters { g with fNumLayers := n } ∧
      (g.SetNumLayers n).fNumLayers = n ∧ (g.SetNumLayers n).consistent ∧
      (g.SetNumLayers n).fAbsThick = g.fAbsThick ∧
      (g.SetNumLayers n).fGapThick = g.fGapThick ∧
      (g.SetNumLayers n).fCaloSizeYZ = g.fCaloSizeYZ) ∧
    1 ≤ (Geometry.run calls).fNumLayers := by
  refine ⟨?_, ?_, ?_⟩
  · intro hn
    unfold Geometry.SetNumLayers
    rw [if_neg (by omega)]
  · intro hn
    have e : g.SetNumLayers n = Geometry.UpdateParameters { g with fNumLayers := n } := by
      unfold Geometry.SetNumLayers
      rw [if_pos hn]
    rw [e]
    exact ⟨rfl, rfl, Geometry.UpdateParameters_consistent _, rfl, rfl, rfl⟩
  · refine Geometry.foldl_call_fNumLayers calls Geometry.new ?_
    show (1 : Int) ≤ 50
    decide

/-- Witness of C32: `SetNumLayers(0)` on the default geometry. -/
theorem Geometry.SetNumLayers_spec_witness :
    Geometry.new.SetNumLayers 0 = Geometry.new :=
  (Geometry.SetNumLayers_spec Geometry.new 0 []).1 (by decide)

/-- C36: in every state reached from the constructor by the mutators, with
arbitrary arguments, each of the five boxes has its three half-lengths above
twice the tolerance (2e-9): `SetHalfLength` leaves the box as it was for a
value at or below that limit, and the boxes start with the half-lengths 1. -/
theorem Geometry.run_boxes_sized (calls : List GeometryCall) (b : Box) (val : ℚ) (idx : Int) :
    ((2 / 1000000000 < (Geometry.run calls).fBoxWorld.fDx ∧
      2 / 1000000000 < (Geometry.run calls).fBoxWorld.fDy ∧
      2 / 1000000000 < (Geometry.run calls).fBoxWorld.fDz) ∧
     (2 / 1000000000 < (Geometry.run calls).fBoxCalo.fDx ∧
      2 / 1000000000 < (Geometry.run calls).fBoxCalo.fDy ∧
      2 / 1000000000 < (Geometry.run calls).fBoxCalo.fDz) ∧
     (2 / 1000000000 < (Geometry.run calls).fBoxLayer.fDx ∧
      2 / 1000000000 < (Geometry.run calls).fBoxLayer.fDy ∧
      2 / 1000000000 < (Geometry.run calls).fBoxLayer.fDz) ∧
     (2 / 1000000000 < (Geometry.run calls).fBoxAbs.fDx ∧
      2 / 1000000000 < (Geometry.run calls).fBoxAbs.fDy ∧
      2 / 1000000000 < (Geometry.run calls).fBoxAbs.fDz) ∧
     (2 / 1000000000 < (Geometry.run calls).fBoxGap.fDx ∧
      2 / 1000000000 < (Geometry.run calls).fBoxGap.fDy ∧
      2 / 1000000000 < (Geometry.run calls).fBoxGap.fDz)) ∧
    (val ≤ 2 / 1000000000 → b.SetHalfLength val idx = b) := by
  have e : (2 : ℚ) * kCarTolerance = 2 / 1000000000 := by norm_num [kCarTolerance]
  constructor
  · have h := Geometry.run_sized calls
    unfold Geometry.sized Box.sized at h
    rw [e] at h
    exact h
  · intro hv
    unfold Box.SetHalfLength
    rw [e, if_neg (not_lt.mpr hv)]

/-! ## Distances are not negative: theorems -/

/-- For positive half-lengths `Box::DistanceToOut(p, v)` is positive when the
exit condition holds on no axis. -/
theorem Box.DistanceToOut_pos_of_no_exit (b : Box) (p v : Vec3) (hx : 0 < b.fDx)
    (hy : 0 < b.fDy) (hz : 0 < b.fDz) (hnx : ¬ exitsOn b.fDx p.x v.x)
    (hny : ¬ exitsOn b.fDy p.y v.y) (hnz : ¬ exitsOn b.fDz p.z v.z) :
    0 < b.DistanceToOut p v := by
  rw [Box.DistanceToOut_of_no_exit b p v hnx hny hnz]
  have px := fun hv => copysign_sub_div_pos_of_no_exit (v := v.x) hx hv hnx
  have py := fun hv => copysign_sub_div_pos_of_no_exit (v := v.y) hy hv hny
  have pz := fun hv => copysign_sub_div_pos_of_no_exit (v := v.z) hz hv hnz
  generalize (copysign b.fDx v.x - p.x) / v.x = tx at px ⊢
  generalize (copysign b.fDy v.y - p.y) / v.y = ty at py ⊢
  generalize (copysign b.fDz v.z - p.z) / v.z = tz at pz ⊢
  have big : (0 : ℚ) < 100000000000000000000 := by norm_num
  have qx : 0 < (if v.x = 0 then (100000000000000000000 : ℚ) else tx) := by
    split_ifs with h
    · exact big
    · exact px h
  have qy : 0 < (if v.y = 0 then (if v.x = 0 then (100000000000000000000 : ℚ) else tx)
      else ty) := by
    split_ifs with h1 h2
    · exact big
    · exact px h2
    · exact py h1
  refine lt_min (lt_min qx qy) ?_
  by_cases h : v.z = 0
  · rw [if_pos h]
    exact lt_min qx qy
  · rw [if_neg h]
    exact pz h

/-- C37: for a box with positive half-lengths, every point and every
direction, `Box::DistanceToOut(p, v)` is 0 only if the outward-exit condition
(`|p_i| - h_i ≥ -0.5e-9` and `p_i * v_i > 0`) holds on some axis; when it
holds on no axis the distance is strictly positive. -/
theorem Box.DistanceToOut_zero_only_on_exit (b : Box) (p v : Vec3) (hx : 0 < b.fDx)
    (hy : 0 < b.fDy) (hz : 0 < b.fDz) :
    (b.DistanceToOut p v = 0 →
      exitsOn b.fDx p.x v.x ∨ exitsOn b.fDy p.y v.y ∨ exitsOn b.fDz p.z v.z) ∧
    (¬ exitsOn b.fDx p.x v.x → ¬ exitsOn b.fDy p.y v.y → ¬ exitsOn b.fDz p.z v.z →
      0 < b.DistanceToOut p v) := by
  refine ⟨?_, Box.DistanceToOut_pos_of_no_exit b p v hx hy hz⟩
  intro h0
  by_contra hc
  push_neg at hc
  have hp := Box.DistanceToOut_pos_of_no_exit b p v hx hy hz hc.1 hc.2.1 hc.2.2
  rw [h0] at hp
  exact lt_irrefl 0 hp

/-- Witness of C37: from the centre of the unit box along `(1, 0, 0)` the
exit condition holds on no axis and the distance is positive. -/
theorem Box.DistanceToOut_zero_only_on_exit_witness :
    0 < unitBox.DistanceToOut ⟨0, 0, 0⟩ ⟨1, 0, 0⟩ :=
  (Box.DistanceToOut_zero_only_on_exit unitBox ⟨0, 0, 0⟩ ⟨1, 0, 0⟩
    (show (0 : ℚ) < 1 by norm_num) (show (0 : ℚ) < 1 by norm_num)
    (show (0 : ℚ) < 1 by norm_num)).2
    (by norm_num [exitsOn, unitBox, Box.new]) (by norm_num [exitsOn, unitBox, Box.new])
    (by norm_num [exitsOn, unitBox, Box.new])

/-- The step recorded by an iteration of the gamma stepper is positive when
the geometric distance and the physics limit are not negative. -/
theorem SteppingLoop.GammaStepperBody_recorded_pos (theState : G4HepEmState)
    (theGeometry : Geometry) (eventID : Int) (s : StepperState) (len : ℚ) (l a n : Int)
    (hd : 0 ≤ (SteppingLoop.gammaLocate theGeometry s).dist)
    (hP : 0 ≤ SteppingLoop.gammaDistToPhysics theState theGeometry s)
    (hm : StepEvent.SteppingAction len l a n ∈
      (SteppingLoop.GammaStepperBody theState theGeometry eventID s).2.trace.drop
        s.trace.length) : 0 < len := by
  by_cases hB : (SteppingLoop.gammaLocate theGeometry s).dist > 10000000000
  · rw [SteppingLoop.GammaStepperBody_returned theState theGeometry eventID s hB] at hm
    simp at hm
  · by_cases h0 : min (SteppingLoop.gammaLocate theGeometry s).dist
        (SteppingLoop.gammaDistToPhysics theState theGeometry s) = 0
    · rw [SteppingLoop.GammaStepperBody_push theState theGeometry eventID s hB h0] at hm
      simp at hm
    · rw [SteppingLoop.GammaStepperBody_finish theState theGeometry eventID s hB h0,
        (SteppingLoop.GammaStepperFinish_facts theState eventID s _ _ _ _ _).2.2] at hm
      simp only [List.append_assoc, List.drop_left, List.mem_append, List.mem_cons,
        List.mem_singleton, List.not_mem_nil, or_false, reduceCtorEq, false_or] at hm
      rcases hm with hm | hm
      · exact absurd hm (SteppingLoop.not_mem_stackEvents _ _ _ _ _)
      · injection hm with h1
        rw [h1]
        exact lt_of_le_of_ne (le_min hd hP) (Ne.symm h0)

/-- C34: in every state of the geometry reached from the constructor by the
mutators, for every point and direction, `CalculateDistanceToOut` returns a
distance `≥ 0`; hence in both steppers the chosen step length `min(dB, dP)`
is `≥ 0` whenever the physics limit `dP` is `≥ 0`, and then every step that
an iteration of the gamma stepper hands to the stepping action has a strictly
positive length. -/
theorem SteppingLoop.step_lengths_nonneg (calls : List GeometryCall) (r v : Vec3)
    (theState : G4HepEmState) (eventID : Int) (s : StepperState) (len : ℚ) (l a n : Int) :
    0 ≤ ((Geometry.run calls).CalculateDistanceToOut r v).dist ∧
    (0 ≤ SteppingLoop.gammaDistToPhysics theState (Geometry.run calls) s →
      0 ≤ min (SteppingLoop.gammaLocate (Geometry.run calls) s).dist
        (SteppingLoop.gammaDistToPhysics theState (Geometry.run calls) s)) ∧
    (0 ≤ SteppingLoop.electronDistToPhysics theState (Geometry.run calls) s →
      0 ≤ min (SteppingLoop.electronLocate (Geometry.run calls) s).dist
        (SteppingLoop.electronDistToPhysics theState (Geometry.run calls) s)) ∧
    (0 ≤ SteppingLoop.gammaDistToPhysics theState (Geometry.run calls) s →
      StepEvent.SteppingAction len l a n ∈
        (SteppingLoop.GammaStepperBody theState (Geometry.run calls) eventID s).2.trace.drop
          s.trace.length →
      0 < len) := by
  have hg := Geometry.run_sized calls
  refine ⟨Geometry.CalculateDistanceToOut_nonneg _ hg r v, ?_, ?_, ?_⟩
  · intro hP
    exact le_min (Geometry.CalculateDistanceToOut_nonneg _ hg _ _) hP
  · intro hP
    exact le_min (Geometry.CalculateDistanceToOut_nonneg _ hg _ _) hP
  · intro hP hm
    exact SteppingLoop.GammaStepperBody_recorded_pos theState _ eventID s len l a n
      (Geometry.CalculateDistanceToOut_nonneg _ hg _ _) hP hm

/-- Witness of C34: the example gamma in the default geometry with the stub
engine of limit 2: the chosen step length is not negative. -/
theorem SteppingLoop.step_lengths_nonneg_witness :
    0 ≤ min (SteppingLoop.gammaLocate (Geometry.run []) exampleStepperState).dist
      (SteppingLoop.gammaDistToPhysics (stubState 2) (Geometry.run []) exampleStepperState) :=
  (SteppingLoop.step_lengths_nonneg [] ⟨0, 0, 0⟩ ⟨1, 0, 0⟩ (stubState 2) 0
    exampleStepperState 1 0 0 0).2.1 (show (0 : ℚ) ≤ 2 by norm_num)

/-! ## The lateral displacement is bounded: theorems -/

theorem Box.safety_nonneg (b : Box) (q : Vec3) : 0 ≤ b.safety q := by
  unfold Box.safety
  simp only
  split_ifs with h
  · exact h.le
  · exact le_rfl

/-- The safety of a point of the closed box is at most its margin on every
axis. -/
theorem Box.safety_le_margin (b : Box) (q : Vec3) (h : insideClosed b q) :
    b.safety q ≤ b.fDx - |q.x| ∧ b.safety q ≤ b.fDy - |q.y| ∧ b.safety q ≤ b.fDz - |q.z| := by
  obtain ⟨h1, h2, h3⟩ := h
  unfold Box.safety
  simp only
  split_ifs with hd
  · exact ⟨le_trans (min_le_left _ _) (min_le_left _ _),
      le_trans (min_le_left _ _) (min_le_right _ _), min_le_right _ _⟩
  · exact ⟨by linarith, by linarith, by linarith⟩

theorem Vec3.sub_AddTo3Vect (pos d : Vec3) (c : ℚ) :
    Vec3.sub (SteppingLoop.AddTo3Vect pos d c) pos = ⟨c * d.x, c * d.y, c * d.z⟩ := by
  unfold Vec3.sub SteppingLoop.AddTo3Vect
  simp only [Vec3.mk.injEq]
  refine ⟨?_, ?_, ?_⟩ <;> ring

theorem Vec3.sub_self (pos : Vec3) : Vec3.sub pos pos = ⟨0, 0, 0⟩ := by
  unfold Vec3.sub
  simp only [Vec3.mk.injEq]
  refine ⟨?_, ?_, ?_⟩ <;> ring

theorem normSq_scaled (d : Vec3) (c : ℚ) :
    normSq ⟨c * d.x, c * d.y, c * d.z⟩ = c * c * normSq d := by
  unfold normSq
  ring

/-- The displacement rule adds a vector whose squared length is at most the
square of the reduced safety, when the computed length of the displacement is
not below its true length. -/
theorem SteppingLoop.displace_bound (sqrt : ℚ → ℚ) (pos d : Vec3) (S : ℚ) (f : Bool)
    (hS : 0 ≤ S) (hR : 0 ≤ sqrt (normSq d))
    (hR2 : normSq d ≤ sqrt (normSq d) * sqrt (normSq d)) :
    normSq (Vec3.sub (SteppingLoop.displace sqrt pos d S f) pos) ≤ S * S := by
  have hz : normSq (Vec3.sub pos pos) ≤ S * S := by
    rw [Vec3.sub_self]
    show (0 : ℚ) * 0 + 0 * 0 + 0 * 0 ≤ S * S
    nlinarith [mul_self_nonneg S]
  unfold SteppingLoop.displace
  split_ifs with h1 h2 h3 h4
  · rw [Vec3.sub_AddTo3Vect, normSq_scaled]
    nlinarith
  · rw [Vec3.sub_AddTo3Vect, normSq_scaled]
    have hRpos : 0 < sqrt (normSq d) := by
      have : (0 : ℚ) < 5 / 100000000 := by norm_num
      linarith [not_lt.mp h3]
    have e : S / sqrt (normSq d) * (S / sqrt (normSq d)) * (sqrt (normSq d) * sqrt (normSq d)) =
        S * S := by
      field_simp
    have hc : 0 ≤ S / sqrt (normSq d) * (S / sqrt (normSq d)) := mul_self_nonneg _
    calc S / sqrt (normSq d) * (S / sqrt (normSq d)) * normSq d
        ≤ S / sqrt (normSq d) * (S / sqrt (normSq d)) *
            (sqrt (normSq d) * sqrt (normSq d)) := mul_le_mul_of_nonneg_left hR2 hc
      _ = S * S := e
  · exact hz
  · exact hz
  · exact hz

/-- The displacement rule adds nothing when the reduced safety is 0, when the
step ended on a boundary, or when the squared length of the displacement is
at most `(5e-8)²`. -/
theorem SteppingLoop.displace_nothing (sqrt : ℚ → ℚ) (pos d : Vec3) (S : ℚ) (f : Bool)
    (hR : 0 ≤ sqrt (normSq d)) :
    (S = 0 → SteppingLoop.displace sqrt pos d S f = pos) ∧
    (f = true → SteppingLoop.displace sqrt pos d S f = pos) ∧
    (normSq d ≤ 5 / 100000000 * (5 / 100000000) →
      SteppingLoop.displace sqrt pos d S f = pos) := by
  unfold SteppingLoop.displace
  refine ⟨?_, ?_, ?_⟩
  · intro hS
    split_ifs with h1 h2 h3 h4
    · linarith
    · rw [hS] at h4
      norm_num at h4
    · rfl
    · rfl
    · rfl
  · intro hf
    rw [hf]
    rfl
  · intro hn
    rw [if_neg (not_lt.mpr hn)]
    split_ifs <;> rfl

theorem abs_le_of_mul_self_le {a S : ℚ} (hS : 0 ≤ S) (h : a * a ≤ S * S) : |a| ≤ S := by
  apply abs_le.mpr
  constructor
  · by_contra hc
    push_neg at hc
    nlinarith
  · by_contra hc
    push_neg at hc
    nlinarith

/-- C40: in an iteration of the electron stepper that takes a step, with `d`
the displacement reported after `Perform`, `s` the safety of the located box
at the longitudinal post-step point and the computed length `sqrt(d·d)` not
negative and not below the true length of `d`: the vector added to the global
position has a squared length of at most `(0.99 * s)²`; nothing is added when
`s = 0`, when the step ended on a boundary, or when `d·d ≤ (5e-8)²`; and the
longitudinal post-step point moved by the added vector stays in the closed
located box if it was in it. -/
theorem SteppingLoop.displacement_bounded (theState : G4HepEmState) (sqrt : ℚ → ℚ)
    (theGeometry : Geometry) (eventID : Int) (s : StepperState)
    (hB : ¬ (SteppingLoop.electronLocate theGeometry s).dist > 10000000000)
    (h0 : min (SteppingLoop.electronLocate theGeometry s).dist
      (SteppingLoop.electronDistToPhysics theState theGeometry s) ≠ 0)
    (hR : 0 ≤ sqrt (normSq (SteppingLoop.electronPerformed theState theGeometry
      s).fMSCTrackData.GetDisplacement))
    (hR2 : normSq (SteppingLoop.electronPerformed theState theGeometry
        s).fMSCTrackData.GetDisplacement ≤
      sqrt (normSq (SteppingLoop.electronPerformed theState theGeometry
        s).fMSCTrackData.GetDisplacement) *
      sqrt (normSq (SteppingLoop.electronPerformed theState theGeometry
        s).fMSCTrackData.GetDisplacement)) :
    normSq (SteppingLoop.electronAdded theState sqrt theGeometry eventID s) ≤
      (99 / 100 * (theGeometry.box (SteppingLoop.electronLocate theGeometry s).currentVolume).safety
        (SteppingLoop.electronPostPoint theState theGeometry s)) *
      (99 / 100 * (theGeometry.box (SteppingLoop.electronLocate theGeometry s).currentVolume).safety
        (SteppingLoop.electronPostPoint theState theGeometry s)) ∧
    ((theGeometry.box (SteppingLoop.electronLocate theGeometry s).currentVolume).safety
        (SteppingLoop.electronPostPoint theState theGeometry s) = 0 →
      SteppingLoop.electronAdded theState sqrt theGeometry eventID s = ⟨0, 0, 0⟩) ∧
    (SteppingLoop.electronEndsOnBoundary theState theGeometry s = true →
      SteppingLoop.electronAdded theState sqrt theGeometry eventID s = ⟨0, 0, 0⟩) ∧
    (normSq (SteppingLoop.electronPerformed theState theGeometry
        s).fMSCTrackData.GetDisplacement ≤ 5 / 100000000 * (5 / 100000000) →
      SteppingLoop.electronAdded theState sqrt theGeometry eventID s = ⟨0, 0, 0⟩) ∧
    (insideClosed (theGeometry.box (SteppingLoop.electronLocate theGeometry s).currentVolume)
        (SteppingLoop.electronPostPoint theState theGeometry s) →
      insideClosed (theGeometry.box (SteppingLoop.electronLocate theGeometry s).currentVolume)
        (SteppingLoop.AddTo3Vect (SteppingLoop.electronPostPoint theState theGeometry s)
          (SteppingLoop.electronAdded theState sqrt theGeometry eventID s) 1)) := by
  have hp := SteppingLoop.ElectronStepperBody_position theState sqrt theGeometry eventID s hB h0
  have hS : SteppingLoop.electronSafetyAfter theState theGeometry s =
      99 / 100 * (theGeometry.box (SteppingLoop.electronLocate theGeometry s).currentVolume).safety
        (SteppingLoop.electronPostPoint theState theGeometry s) := rfl
  have hsn := Box.safety_nonneg
    (theGeometry.box (SteppingLoop.electronLocate theGeometry s).currentVolume)
    (SteppingLoop.electronPostPoint theState theGeometry s)
  have hadd : SteppingLoop.electronAdded theState sqrt theGeometry eventID s =
      Vec3.sub (SteppingLoop.displace sqrt
        (SteppingLoop.electronPerformed theState theGeometry s).fPrimaryElectronTrack.GetPosition
        (SteppingLoop.electronPerformed theState theGeometry s).fMSCTrackData.GetDisplacement
        (SteppingLoop.electronSafetyAfter theState theGeometry s)
        (SteppingLoop.electronEndsOnBoundary theState theGeometry s))
        (SteppingLoop.electronPerformed theState theGeometry
          s).fPrimaryElectronTrack.GetPosition := by
    unfold SteppingLoop.electronAdded
    rw [hp]
  rw [hS] at hadd
  generalize hsf :
    (theGeometry.box (SteppingLoop.electronLocate theGeometry s).currentVolume).safety
      (SteppingLoop.electronPostPoint theState theGeometry s) = sf at hsn hadd ⊢
  have hSn : (0 : ℚ) ≤ 99 / 100 * sf := by linarith
  have hbound : normSq (SteppingLoop.electronAdded theState sqrt theGeometry eventID s) ≤
      99 / 100 * sf * (99 / 100 * sf) := by
    rw [hadd]
    exact SteppingLoop.displace_bound sqrt _ _ _ _ hSn hR hR2
  obtain ⟨n1, n2, n3⟩ := SteppingLoop.displace_nothing sqrt
    (SteppingLoop.electronPerformed theState theGeometry s).fPrimaryElectronTrack.GetPosition
    (SteppingLoop.electronPerformed theState theGeometry s).fMSCTrackData.GetDisplacement
    (99 / 100 * sf) (SteppingLoop.electronEndsOnBoundary theState theGeometry s) hR
  refine ⟨hbound, ?_, ?_, ?_, ?_⟩
  · intro hz
    rw [hadd, n1 (by rw [hz]; norm_num), Vec3.sub_self]
  · intro hf
    rw [hadd, n2 hf, Vec3.sub_self]
  · intro hn
    rw [hadd, n3 hn, Vec3.sub_self]
  · intro hin
    obtain ⟨m1, m2, m3⟩ := Box.safety_le_margin _ _ hin
    rw [hsf] at m1 m2 m3
    generalize SteppingLoop.electronAdded theState sqrt theGeometry eventID s = a at hbound ⊢
    unfold normSq at hbound
    have ax : |a.x| ≤ 99 / 100 * sf :=
      abs_le_of_mul_self_le hSn (by nlinarith [mul_self_nonneg a.y, mul_self_nonneg a.z])
    have ay : |a.y| ≤ 99 / 100 * sf :=
      abs_le_of_mul_self_le hSn (by nlinarith [mul_self_nonneg a.x, mul_self_nonneg a.z])
    have az : |a.z| ≤ 99 / 100 * sf :=
      abs_le_of_mul_self_le hSn (by nlinarith [mul_self_nonneg a.x, mul_self_nonneg a.y])
    unfold insideClosed SteppingLoop.AddTo3Vect
    simp only [one_mul]
    refine ⟨?_, ?_, ?_⟩
    · exact le_trans (abs_add _ _) (by linarith)
    · exact le_trans (abs_add _ _) (by linarith)
    · exact le_trans (abs_add _ _) (by linarith)

/-- Witness of C40: the example electron with the displacement `(0, 0.1, 0)`
of computed length 0.1: the added vector is bounded by the reduced
safety. -/
theorem SteppingLoop.displacement_bounded_witness :
    normSq (SteppingLoop.electronAdded (mscState 1 0 ⟨0, 1 / 10, 0⟩) sqrtStub Geometry.new 0
        exampleStepperState) ≤
      (99 / 100 * (Geometry.new.box
        (SteppingLoop.electronLocate Geometry.new exampleStepperState).currentVolume).safety
          (SteppingLoop.electronPostPoint (mscState 1 0 ⟨0, 1 / 10, 0⟩) Geometry.new
            exampleStepperState)) *
      (99 / 100 * (Geometry.new.box
        (SteppingLoop.electronLocate Geometry.new exampleStepperState).currentVolume).safety
          (SteppingLoop.electronPostPoint (mscState 1 0 ⟨0, 1 / 10, 0⟩) Geometry.new
            exampleStepperState)) :=
  (SteppingLoop.displacement_bounded (mscState 1 0 ⟨0, 1 / 10, 0⟩) sqrtStub Geometry.new 0
    exampleStepperState (SteppingLoop.example_msc 0 ⟨0, 1 / 10, 0⟩).1
    (SteppingLoop.example_msc 0 ⟨0, 1 / 10, 0⟩).2.1
    (by
      rw [(SteppingLoop.example_msc 0 ⟨0, 1 / 10, 0⟩).2.2.2.2.1]
      norm_num [normSq, sqrtStub])
    (by
      rw [(SteppingLoop.example_msc 0 ⟨0, 1 / 10, 0⟩).2.2.2.2.1]
      norm_num [normSq, sqrtStub])).1

/-! ## Hist: theorems -/

theorem Hist.new_builtWith (fname : String) (min max : ℚ) (numbin : Int) :
    (Hist.new fname min max numbin).builtWith min max numbin := by
  refine ⟨rfl, rfl, rfl, rfl, rfl, ?_⟩
  show (vectorResizeWith [] numbin 0).length = numbin.toNat
  simp [vectorResizeWith]

theorem Hist.Fill_builtWith (h : Hist) (min max : ℚ) (numbin : Int) (x w : ℚ)
    (hb : h.builtWith min max numbin) : (h.Fill x w).builtWith min max numbin := by
  obtain ⟨h1, h2, h3, h4, h5, h6⟩ := hb
  unfold Hist.Fill
  simp only
  split_ifs
  · exact ⟨h1, h2, h3, h4, h5, h6⟩
  · refine ⟨h1, h2, h3, h4, h5, ?_⟩
    simp only [List.length_set]
    exact h6
  · exact ⟨h1, h2, h3, h4, h5, h6⟩
  · refine ⟨h1, h2, h3, h4, h5, ?_⟩
    simp only [List.length_set]
    exact h6
  · exact ⟨h1, h2, h3, h4, h5, h6⟩

theorem Hist.run_builtWith (fname : String) (min max : ℚ) (numbin : Int)
    (fills : List (ℚ × ℚ)) : (Hist.run fname min max numbin fills).builtWith min max numbin := by
  unfold Hist.run
  have key : ∀ (fs : List (ℚ × ℚ)) (h : Hist), h.builtWith min max numbin →
      (fs.foldl (fun h f => h.Fill f.1 f.2) h).builtWith min max numbin := by
    intro fs
    induction fs with
    | nil => exact fun h hb => hb
    | cons f fs ih => exact fun h hb => ih _ (Hist.Fill_builtWith h min max numbin f.1 f.2 hb)
  exact key fills _ (Hist.new_builtWith fname min max numbin)

/-- The method `Fill` with the index it computes, when that index is a
bin. -/
theorem Hist.Fill_of_bin (h : Hist) (x w : ℚ) (i : Int) (hx : ¬ x < h.fMin)
    (hi : (if x = h.fMax then h.fNumBins - 1
      else truncToInt ((x - h.fMin) * h.fInvDelta)) = i)
    (h0 : 0 ≤ i) (h1 : i < h.fNumBins) :
    h.Fill x w = { h with fy := h.fy.set i.toNat (h.fy.getD i.toNat 0 + w),
                          fSum := h.fSum + w } := by
  unfold Hist.Fill
  simp only
  rw [if_neg hx, hi, if_pos ⟨by omega, h1⟩]

/-- The method `Fill` when the index it computes is not a bin. -/
theorem Hist.Fill_of_no_bin (h : Hist) (x w : ℚ) (i : Int)
    (hi : (if x = h.fMax then h.fNumBins - 1
      else truncToInt ((x - h.fMin) * h.fInvDelta)) = i)
    (h1 : h.fNumBins ≤ i) : h.Fill x w = h := by
  unfold Hist.Fill
  simp only
  by_cases hx : x < h.fMin
  · rw [if_pos hx]
  · rw [if_neg hx, hi, if_neg (by omega)]

/-- C33: for the histogram constructed with `(min, max, numbin)`, `min < max`
and `numbin ≥ 1`, after any sequence of fills, with the bin width
`D = (max - min) / numbin`: for `min ≤ x ≤ max` the call `Fill(x, w)` adds `w`
to the content of exactly one bin `i`, `0 ≤ i < numbin`, and to the sum, and
changes nothing else; `i` is the last bin `numbin - 1` when `x = max` and
otherwise the bin with `min + i * D ≤ x < min + (i + 1) * D`; for `x < min` or
`x > max` the histogram is unchanged. -/
theorem Hist.Fill_spec (fname : String) (min max : ℚ) (numbin : Int) (fills : List (ℚ × ℚ))
    (x w : ℚ) (hmm : min < max) (hn : 1 ≤ numbin) :
    (min ≤ x → x ≤ max →
      ∃ i : Int, 0 ≤ i ∧ i < numbin ∧ (x = max → i = numbin - 1) ∧
        (x < max → min + (i : ℚ) * ((max - min) / (numbin : ℚ)) ≤ x ∧
          x < min + ((i : ℚ) + 1) * ((max - min) / (numbin : ℚ))) ∧
        i.toNat < (Hist.run fname min max numbin fills).fy.length ∧
        (Hist.run fname min max numbin fills).Fill x w =
          { Hist.run fname min max numbin fills with
            fy := (Hist.run fname min max numbin fills).fy.set i.toNat
              ((Hist.run fname min max numbin fills).fy.getD i.toNat 0 + w)
            fSum := (Hist.run fname min max numbin fills).fSum + w } ∧
        ((Hist.run fname min max numbin fills).Fill x w).fy.getD i.toNat 0 =
          (Hist.run fname min max numbin fills).fy.getD i.toNat 0 + w ∧
        (∀ j : ℕ, j ≠ i.toNat →
          ((Hist.run fname min max numbin fills).Fill x w).fy.getD j 0 =
            (Hist.run fname min max numbin fills).fy.getD j 0) ∧
        ((Hist.run fname min max numbin fills).Fill x w).fSum =
          (Hist.run fname min max numbin fills).fSum + w) ∧
    (x < min ∨ max < x →
      (Hist.run fname min max numbin fills).Fill x w = Hist.run fname min max numbin fills) := by
  obtain ⟨b1, b2, b3, b4, b5, b6⟩ := Hist.run_builtWith fname min max numbin fills
  generalize Hist.run fname min max numbin fills = h at b1 b2 b3 b4 b5 b6 ⊢
  have hnq : (0 : ℚ) < (numbin : ℚ) := by exact_mod_cast (by omega : (0 : Int) < numbin)
  have hD : 0 < (max - min) / (numbin : ℚ) := div_pos (sub_pos.mpr hmm) hnq
  have hND : (numbin : ℚ) * ((max - min) / (numbin : ℚ)) = max - min := by
    field_simp
  have hu : ∀ y : ℚ, (y - h.fMin) * h.fInvDelta * ((max - min) / (numbin : ℚ)) = y - min := by
    intro y
    rw [b5, b4, b1, mul_assoc, one_div, inv_mul_cancel₀ hD.ne', mul_one]
  have key : ∀ i : Int, 0 ≤ i → i < numbin →
      (if x = h.fMax then h.fNumBins - 1 else truncToInt ((x - h.fMin) * h.fInvDelta)) = i →
      ¬ x < h.fMin →
      i.toNat < h.fy.length ∧
      h.Fill x w = { h with fy := h.fy.set i.toNat (h.fy.getD i.toNat 0 + w),
                            fSum := h.fSum + w } ∧
      (h.Fill x w).fy.getD i.toNat 0 = h.fy.getD i.toNat 0 + w ∧
      (∀ j : ℕ, j ≠ i.toNat → (h.Fill x w).fy.getD j 0 = h.fy.getD j 0) ∧
      (h.Fill x w).fSum = h.fSum + w := by
    intro i i0 i1 hi hx
    have hlen : i.toNat < h.fy.length := by
      rw [b6]
      omega
    have hf := Hist.Fill_of_bin h x w i hx hi i0 (by rw [b3]; exact i1)
    rw [hf]
    refine ⟨hlen, rfl, ?_, ?_, rfl⟩
    · exact getD_set_self _ _ _ _ hlen
    · intro j hj
      exact getD_set_ne _ _ _ _ _ hj
  constructor
  · intro hlo hhi
    have hx : ¬ x < h.fMin := by
      rw [b1]
      exact not_lt.mpr hlo
    by_cases hmax : x = max
    · have hi : (if x = h.fMax then h.fNumBins - 1
          else truncToInt ((x - h.fMin) * h.fInvDelta)) = numbin - 1 := by
        rw [if_pos (by rw [b2]; exact hmax), b3]
      refine ⟨numbin - 1, by omega, by omega, fun _ => rfl, ?_,
        key (numbin - 1) (by omega) (by omega) hi hx⟩
      intro hlt
      exact absurd hmax (ne_of_lt hlt)
    · have hlt : x < max := lt_of_le_of_ne hhi hmax
      have hu0 : 0 ≤ (x - h.fMin) * h.fInvDelta := by
        have := hu x
        by_contra hc
        push_neg at hc
        have : (x - h.fMin) * h.fInvDelta * ((max - min) / (numbin : ℚ)) < 0 :=
          mul_neg_of_neg_of_pos hc hD
        linarith [hu x]
      have hun : (x - h.fMin) * h.fInvDelta < (numbin : ℚ) := by
        by_contra hc
        push_neg at hc
        have := mul_le_mul_of_nonneg_right hc hD.le
        linarith [hu x]
      have hi : (if x = h.fMax then h.fNumBins - 1
          else truncToInt ((x - h.fMin) * h.fInvDelta)) = ⌊(x - h.fMin) * h.fInvDelta⌋ := by
        rw [if_neg (by rw [b2]; exact hmax)]
        unfold truncToInt
        rw [if_pos hu0]
      have i0 : 0 ≤ ⌊(x - h.fMin) * h.fInvDelta⌋ := Int.floor_nonneg.mpr hu0
      have i1 : ⌊(x - h.fMin) * h.fInvDelta⌋ < numbin := Int.floor_lt.mpr hun
      refine ⟨⌊(x - h.fMin) * h.fInvDelta⌋, i0, i1, fun he => absurd he hmax, ?_,
        key _ i0 i1 hi hx⟩
      intro _
      have f1 := Int.floor_le ((x - h.fMin) * h.fInvDelta)
      have f2 := Int.lt_floor_add_one ((x - h.fMin) * h.fInvDelta)
      have g1 := mul_le_mul_of_nonneg_right f1 hD.le
      have g2 := mul_lt_mul_of_pos_right f2 hD
      rw [hu x] at g1 g2
      constructor <;> linarith
  · intro hout
    rcases hout with hlo | hhi
    · unfold Hist.Fill
      simp only
      rw [if_pos (by rw [b1]; exact hlo)]
    · have hmax : ¬ x = h.fMax := by
        rw [b2]
        exact ne_of_gt hhi
      have hun : (numbin : ℚ) ≤ (x - h.fMin) * h.fInvDelta := by
        by_contra hc
        push_neg at hc
        have := mul_lt_mul_of_pos_right hc hD
        linarith [hu x]
      have hu0 : 0 ≤ (x - h.fMin) * h.fInvDelta := le_trans hnq.le hun
      refine Hist.Fill_of_no_bin h x w ⌊(x - h.fMin) * h.fInvDelta⌋ ?_ ?_
      · rw [if_neg hmax]
        unfold truncToInt
        rw [if_pos hu0]
      · rw [b3]
        exact Int.le_floor.mpr hun

/-- Witness of C33: a histogram of 50 bins over `[0, 50]`: the value 5/2 has a
bin. -/
theorem Hist.Fill_spec_witness :
    ∃ i : Int, 0 ≤ i ∧ i < 50 ∧
      (0 : ℚ) + (i : ℚ) * ((50 - 0) / ((50 : Int) : ℚ)) ≤ 5 / 2 ∧
      (5 / 2 : ℚ) < 0 + ((i : ℚ) + 1) * ((50 - 0) / ((50 : Int) : ℚ)) :=
  have w := (Hist.Fill_spec "edep" 0 50 50 [] (5 / 2) 1 (by norm_num) (by decide)).1
    (by norm_num) (by norm_num)
  w.elim fun i h => ⟨i, h.1, h.2.1, (h.2.2.2.1 (by norm_num)).1, (h.2.2.2.1 (by norm_num)).2⟩

/-! ## Located points and layer indices: theorems -/

theorem Box.GetHalfLength_xyz (b : Box) :
    b.GetHalfLength 0 = b.fDx ∧ b.GetHalfLength 1 = b.fDy ∧ b.GetHalfLength 2 = b.fDz := by
  unfold Box.GetHalfLength
  refine ⟨?_, ?_, ?_⟩ <;> simp

/-- The layer index and the layer-local x of a point not left of the
calorimeter, for a positive layer thickness `L` and the calorimeter thickness
`N * L`: the index is not negative and the local x lies in `[-L/2, L/2)`; the
index is at most `N - 1` left of the exit face `x = N * L / 2`, and on that
face it is `N` with the local x `-L/2`. -/
theorem Geometry.layerIndex_bounds (g : Geometry) (r : Vec3) (hL : 0 < g.fLayerThick)
    (hT : g.fCaloThick = (g.fNumLayers : ℚ) * g.fLayerThick)
    (hlo : -(1 / 2) * g.fCaloThick ≤ r.x) :
    0 ≤ g.layerIndex r ∧
    0 ≤ (g.toLayerFrame r).x + (1 / 2) * g.fLayerThick ∧
    (g.toLayerFrame r).x + (1 / 2) * g.fLayerThick < g.fLayerThick ∧
    (r.x < (1 / 2) * g.fCaloThick → g.layerIndex r ≤ g.fNumLayers - 1) ∧
    (r.x = (1 / 2) * g.fCaloThick →
      g.layerIndex r = g.fNumLayers ∧ (g.toLayerFrame r).x = -(1 / 2) * g.fLayerThick) := by
  have hu0 : 0 ≤ (r.x + (1 / 2) * g.fCaloThick) / g.fLayerThick :=
    div_nonneg (by linarith) hL.le
  have hi : g.layerIndex r = ⌊(r.x + (1 / 2) * g.fCaloThick) / g.fLayerThick⌋ := by
    unfold Geometry.layerIndex truncToInt
    rw [if_pos hu0]
  have huL : (r.x + (1 / 2) * g.fCaloThick) / g.fLayerThick * g.fLayerThick =
      r.x + (1 / 2) * g.fCaloThick := div_mul_cancel₀ _ hL.ne'
  have f1 := Int.floor_le ((r.x + (1 / 2) * g.fCaloThick) / g.fLayerThick)
  have f2 := Int.lt_floor_add_one ((r.x + (1 / 2) * g.fCaloThick) / g.fLayerThick)
  have g1 := mul_le_mul_of_nonneg_right f1 hL.le
  have g2 := mul_lt_mul_of_pos_right f2 hL
  rw [huL] at g1 g2
  have hx : (g.toLayerFrame r).x = r.x - (-(1 / 2) * g.fCaloThick +
      (((⌊(r.x + (1 / 2) * g.fCaloThick) / g.fLayerThick⌋ : Int) : ℚ) + 1 / 2) *
        g.fLayerThick) := by
    unfold Geometry.toLayerFrame
    rw [hi]
  refine ⟨?_, ?_, ?_, ?_, ?_⟩
  · rw [hi]
    exact Int.floor_nonneg.mpr hu0
  · rw [hx]
    linarith
  · rw [hx]
    linarith
  · intro hhi
    rw [hi]
    have hlt : (r.x + (1 / 2) * g.fCaloThick) / g.fLayerThick < (g.fNumLayers : ℚ) := by
      rw [div_lt_iff₀ hL]
      rw [hT] at hhi ⊢
      linarith
    have := Int.floor_lt.mpr hlt
    omega
  · intro he
    have hu : (r.x + (1 / 2) * g.fCaloThick) / g.fLayerThick = ((g.fNumLayers : Int) : ℚ) := by
      rw [div_eq_iff hL.ne', he, hT]
      ring
    have hfl : ⌊(r.x + (1 / 2) * g.fCaloThick) / g.fLayerThick⌋ = g.fNumLayers := by
      rw [hu]
      exact Int.floor_intCast _
    refine ⟨by rw [hi, hfl], ?_⟩
    rw [hx, hfl, he, hT]
    ring

/-- The value of `CalculateDistanceToOut` in its four cases. -/
theorem Geometry.CalculateDistanceToOut_cases (g : Geometry) (r v : Vec3) :
    (g.fBoxCalo.DistanceToOut r v = 0 ∧
      g.CalculateDistanceToOut r v =
        { dist := 100000000000000000000, r := r, currentVolume := .world,
          indxLayer := -1, indxAbs := -1 }) ∨
    (g.fBoxCalo.DistanceToOut r v ≠ 0 ∧ g.fBoxLayer.DistanceToOut (g.toLayerFrame r) v = 0 ∧
      g.CalculateDistanceToOut r v =
        { dist := 0, r := g.toLayerFrame r, currentVolume := .world,
          indxLayer := g.layerIndex r, indxAbs := -1 }) ∨
    (g.fBoxCalo.DistanceToOut r v ≠ 0 ∧ g.fBoxLayer.DistanceToOut (g.toLayerFrame r) v ≠ 0 ∧
      g.inAbsorber r ∧
      g.CalculateDistanceToOut r v =
        { dist := g.fBoxAbs.DistanceToOut (g.toSlabFrame r g.absCentre) v,
          r := g.toSlabFrame r g.absCentre, currentVolume := .abs,
          indxLayer := g.layerIndex r, indxAbs := 0 }) ∨
    (g.fBoxCalo.DistanceToOut r v ≠ 0 ∧ g.fBoxLayer.DistanceToOut (g.toLayerFrame r) v ≠ 0 ∧
      ¬ g.inAbsorber r ∧
      g.CalculateDistanceToOut r v =
        { dist := g.fBoxGap.DistanceToOut (g.toSlabFrame r g.gapCentre) v,
          r := g.toSlabFrame r g.gapCentre, currentVolume := .gap,
          indxLayer := g.layerIndex r, indxAbs := 1 }) := by
  by_cases hcalo : g.fBoxCalo.DistanceToOut r v = 0
  · refine Or.inl ⟨hcalo, ?_⟩
    unfold Geometry.CalculateDistanceToOut
    simp only [hcalo, if_true]
  · by_cases hlayer : g.fBoxLayer.DistanceToOut (g.toLayerFrame r) v = 0
    · refine Or.inr (Or.inl ⟨hcalo, hlayer, ?_⟩)
      unfold Geometry.toLayerFrame Geometry.layerIndex at hlayer ⊢
      unfold Geometry.CalculateDistanceToOut
      simp only [hcalo, hlayer, if_false, if_true]
    · have h := Geometry.CalculateDistanceToOut_of_inside g r v hcalo hlayer
      by_cases hin : g.inAbsorber r
      · rw [if_pos hin] at h
        exact Or.inr (Or.inr (Or.inl ⟨hcalo, hlayer, hin, h⟩))
      · rw [if_neg hin] at h
        exact Or.inr (Or.inr (Or.inr ⟨hcalo, hlayer, hin, h⟩))

/-- The point located in the absorber or the gap lies in the closed box of
that slab. -/
theorem Geometry.located_insideClosed (g : Geometry) (r v : Vec3) (hc : g.consistent)
    (hp : g.propagated) (hL : 0 < g.fLayerThick) (hin : insideClosed g.fBoxCalo r)
    (hab : (g.CalculateDistanceToOut r v).indxAbs = 0 ∨
      (g.CalculateDistanceToOut r v).indxAbs = 1) :
    insideClosed (g.box (g.CalculateDistanceToOut r v).currentVolume)
      (g.CalculateDistanceToOut r v).r := by
  obtain ⟨c1, c2, -⟩ := hc
  obtain ⟨-, ⟨pc1, pc2, pc3⟩, -, ⟨pa1, pa2, pa3⟩, ⟨pg1, pg2, pg3⟩⟩ := hp
  rw [(Box.GetHalfLength_xyz _).1] at pc1 pa1 pg1
  rw [(Box.GetHalfLength_xyz _).2.1] at pc2 pa2 pg2
  rw [(Box.GetHalfLength_xyz _).2.2] at pc3 pa3 pg3
  obtain ⟨i1, i2, i3⟩ := hin
  rw [pc1] at i1
  rw [pc2] at i2
  rw [pc3] at i3
  have hlo : -(1 / 2) * g.fCaloThick ≤ r.x := by
    have := (abs_le.mp i1).1
    linarith
  obtain ⟨-, b1, b2, -, -⟩ := Geometry.layerIndex_bounds g r hL c2 hlo
  rcases Geometry.CalculateDistanceToOut_cases g r v with ⟨-, h⟩ | ⟨-, -, h⟩ | ⟨-, -, ha, h⟩ |
    ⟨-, -, ha, h⟩
  · rw [h] at hab
    simp at hab
  · rw [h] at hab
    simp at hab
  · rw [h]
    show insideClosed g.fBoxAbs (g.toSlabFrame r g.absCentre)
    unfold insideClosed Geometry.toSlabFrame Geometry.absCentre
    rw [pa1, pa2, pa3]
    refine ⟨?_, i2, i3⟩
    simp only
    unfold Geometry.inAbsorber at ha
    rw [abs_le]
    rcases ha with ha | ha
    · constructor <;> linarith
    · rw [ha] at c1
      constructor <;> linarith
  · rw [h]
    show insideClosed g.fBoxGap (g.toSlabFrame r g.gapCentre)
    unfold insideClosed Geometry.toSlabFrame Geometry.gapCentre
    rw [pg1, pg2, pg3]
    refine ⟨?_, i2, i3⟩
    simp only
    unfold Geometry.inAbsorber at ha
    push_neg at ha
    rw [abs_le]
    constructor <;> linarith [ha.1]

theorem Geometry.new_facts :
    Geometry.new.consistent ∧ Geometry.new.propagated ∧ 0 < Geometry.new.fLayerThick ∧
    Geometry.new.fNumLayers = 50 := by
  refine ⟨Geometry.UpdateParameters_consistent _, ?_, ?_, rfl⟩
  · norm_num [Geometry.propagated, Box.hasHalfLengths, Box.GetHalfLength, Geometry.new,
      Geometry.UpdateParameters, Box.SetHalfLength, Box.SetMaterialIndx, Box.new, kCarTolerance]
  · rw [Geometry.new_thick.2]
    norm_num

/-- C38: for a configuration with consistent derived scalars, a positive
layer thickness and boxes that carry half the configured thicknesses, and a
point of the closed calorimeter box: whenever `CalculateDistanceToOut`
reports the absorber (index 0) or the gap (index 1), the local coordinates it
returns lie in the closed box of the reported volume: `|x|` is at most its x
half-length and `|y|`, `|z|` at most its transverse half-lengths. -/
theorem Geometry.CalculateDistanceToOut_local_inside (g : Geometry) (r v : Vec3)
    (hc : g.consistent) (hp : g.propagated) (hL : 0 < g.fLayerThick)
    (hin : insideClosed g.fBoxCalo r) :
    ((g.CalculateDistanceToOut r v).indxAbs = 0 →
      (g.CalculateDistanceToOut r v).currentVolume = .abs) ∧
    ((g.CalculateDistanceToOut r v).indxAbs = 1 →
      (g.CalculateDistanceToOut r v).currentVolume = .gap) ∧
    ((g.CalculateDistanceToOut r v).indxAbs = 0 ∨ (g.CalculateDistanceToOut r v).indxAbs = 1 →
      |(g.CalculateDistanceToOut r v).r.x| ≤
        (g.box (g.CalculateDistanceToOut r v).currentVolume).fDx ∧
      |(g.CalculateDistanceToOut r v).r.y| ≤
        (g.box (g.CalculateDistanceToOut r v).currentVolume).fDy ∧
      |(g.CalculateDistanceToOut r v).r.z| ≤
        (g.box (g.CalculateDistanceToOut r v).currentVolume).fDz) := by
  refine ⟨?_, ?_, fun hab => Geometry.located_insideClosed g r v hc hp hL hin hab⟩
  · intro h0
    rcases Geometry.CalculateDistanceToOut_cases g r v with ⟨-, h⟩ | ⟨-, -, h⟩ | ⟨-, -, -, h⟩ |
      ⟨-, -, -, h⟩ <;> rw [h] at h0 ⊢ <;> simp at h0 ⊢
  · intro h1
    rcases Geometry.CalculateDistanceToOut_cases g r v with ⟨-, h⟩ | ⟨-, -, h⟩ | ⟨-, -, -, h⟩ |
      ⟨-, -, -, h⟩ <;> rw [h] at h1 ⊢ <;> simp at h1 ⊢

/-- Witness of C38: the default geometry and the point `(-199, 0, 0)`,
located in the absorber of layer 0 at the local x `-0.15`. -/
theorem Geometry.CalculateDistanceToOut_local_inside_witness :
    |(Geometry.new.CalculateDistanceToOut ⟨-199, 0, 0⟩ ⟨1, 0, 0⟩).r.x| ≤
      (Geometry.new.box
        (Geometry.new.CalculateDistanceToOut ⟨-199, 0, 0⟩ ⟨1, 0, 0⟩).currentVolume).fDx :=
  ((Geometry.CalculateDistanceToOut_local_inside Geometry.new ⟨-199, 0, 0⟩ ⟨1, 0, 0⟩
    Geometry.new_facts.1 Geometry.new_facts.2.1 Geometry.new_facts.2.2.1
    (by
      rw [Geometry.new_fBoxCalo]
      have ha : |(-199 : ℚ)| = 199 := by rw [abs_neg]; exact abs_of_pos (by norm_num)
      norm_num [insideClosed, Box.new, ha])).2.2
    (Or.inl (by rw [Geometry.new_locate_inside]))).1

theorem oneLayerGeometry_numLayers : oneLayerGeometry.fNumLayers = 1 := by
  norm_num [oneLayerGeometry, Geometry.run, Geometry.call, Geometry.SetNumLayers,
    Geometry.SetAbsThick, Geometry.SetGapThick, Geometry.new, Geometry.UpdateParameters]

/-- Counterexample to C39 as stated: in the default geometry of 50 layers the
point `(200, 0, 0)` of the closed calorimeter box, on its exit face, with the
unit direction `(0, 1, 0)` along that face, is located in the absorber with
the distance 200, neither 0 nor 1e20, and the reported layer index is 50,
which is not at most 49. -/
theorem Geometry.layer_index_on_exit_face :
    Geometry.new.fNumLayers = 50 ∧ 0 < Geometry.new.fLayerThick ∧
    insideClosed Geometry.new.fBoxCalo ⟨200, 0, 0⟩ ∧ isUnit ⟨0, 1, 0⟩ ∧
    Geometry.new.CalculateDistanceToOut ⟨200, 0, 0⟩ ⟨0, 1, 0⟩ =
      { dist := 200, r := ⟨-23 / 20, 0, 0⟩, currentVolume := .abs, indxLayer := 50,
        indxAbs := 0 } ∧
    ¬ (Geometry.new.CalculateDistanceToOut ⟨200, 0, 0⟩ ⟨0, 1, 0⟩).indxLayer ≤
      Geometry.new.fNumLayers - 1 := by
  have hi : Geometry.new.layerIndex ⟨200, 0, 0⟩ = 50 := by
    norm_num [Geometry.layerIndex, Geometry.new_thick.1, Geometry.new_thick.2, truncToInt]
  have hf : Geometry.new.toLayerFrame ⟨200, 0, 0⟩ = ⟨-4, 0, 0⟩ := by
    unfold Geometry.toLayerFrame
    rw [hi, Geometry.new_thick.1, Geometry.new_thick.2]
    norm_num
  have hcalo : Geometry.new.fBoxCalo.DistanceToOut ⟨200, 0, 0⟩ ⟨0, 1, 0⟩ ≠ 0 := by
    rw [Geometry.new_fBoxCalo]
    norm_num [Box.DistanceToOut, Box.new, Box.fDelta, kCarTolerance, copysign]
  have hlayer : Geometry.new.fBoxLayer.DistanceToOut
      (Geometry.new.toLayerFrame ⟨200, 0, 0⟩) ⟨0, 1, 0⟩ ≠ 0 := by
    rw [hf, Geometry.new_fBoxLayer]
    norm_num [Box.DistanceToOut, Box.new, Box.fDelta, kCarTolerance, copysign]
  have hin : Geometry.new.inAbsorber ⟨200, 0, 0⟩ := by
    unfold Geometry.inAbsorber
    rw [hf, Geometry.new_thick.2, Geometry.new_absgap.1]
    norm_num
  have hfr : Geometry.new.toSlabFrame ⟨200, 0, 0⟩ Geometry.new.absCentre =
      ⟨-23 / 20, 0, 0⟩ := by
    unfold Geometry.toSlabFrame Geometry.absCentre
    rw [hf, Geometry.new_thick.2, Geometry.new_absgap.1]
    norm_num
  have hout : Geometry.new.CalculateDistanceToOut ⟨200, 0, 0⟩ ⟨0, 1, 0⟩ =
      { dist := 200, r := ⟨-23 / 20, 0, 0⟩, currentVolume := .abs, indxLayer := 50,
        indxAbs := 0 } := by
    rw [Geometry.CalculateDistanceToOut_of_inside _ _ _ hcalo hlayer, if_pos hin, hfr, hi,
      Geometry.new_fBoxAbs]
    have hb : |(23 : ℚ) / 20| = 23 / 20 := abs_of_pos (by norm_num)
    norm_num [Box.DistanceToOut, Box.new, Box.fDelta, kCarTolerance, copysign, hb]
  refine ⟨rfl, Geometry.new_facts.2.2.1, ?_, ?_, hout, ?_⟩
  · rw [Geometry.new_fBoxCalo]
    have ha : |(200 : ℚ)| = 200 := abs_of_pos (by norm_num)
    norm_num [insideClosed, Box.new, ha]
  · norm_num [isUnit]
  · rw [hout]
    show ¬ (50 : Int) ≤ 50 - 1
    decide

/-- C39 (amended): for a configuration with at least one layer, a positive
layer thickness, the calorimeter thickness `N * layer thickness`, and a
calorimeter box and a layer box whose x half-lengths are half the calorimeter
and half the layer thickness, and for a point of the closed calorimeter box:
whenever `CalculateDistanceToOut` returns a distance that is neither 0 nor
1e20, the reported layer index `i` satisfies `0 ≤ i`; it satisfies
`i ≤ N - 1` when the point is left of the exit face
`x = +0.5 * calorimeter thickness` or the direction has a non-zero x
component; and it is `N` when the point is on the exit face and the x
component of the direction is zero. -/
theorem Geometry.layer_index_valid (g : Geometry) (r v : Vec3)
    (hT : g.fCaloThick = (g.fNumLayers : ℚ) * g.fLayerThick)
    (hcx : g.fBoxCalo.fDx = (1 / 2) * g.fCaloThick)
    (hlx : g.fBoxLayer.fDx = (1 / 2) * g.fLayerThick)
    (hL : 0 < g.fLayerThick) (hN : 1 ≤ g.fNumLayers)
    (hin : insideClosed g.fBoxCalo r)
    (hd0 : (g.CalculateDistanceToOut r v).dist ≠ 0)
    (hd1 : (g.CalculateDistanceToOut r v).dist ≠ 100000000000000000000) :
    0 ≤ (g.CalculateDistanceToOut r v).indxLayer ∧
    (r.x < (1 / 2) * g.fCaloThick ∨ v.x ≠ 0 →
      (g.CalculateDistanceToOut r v).indxLayer ≤ g.fNumLayers - 1) ∧
    (r.x = (1 / 2) * g.fCaloThick → v.x = 0 →
      (g.CalculateDistanceToOut r v).indxLayer = g.fNumLayers) := by
  obtain ⟨i1, -, -⟩ := hin
  rw [hcx] at i1
  obtain ⟨k1, k2⟩ := abs_le.mp i1
  have hlo : -(1 / 2) * g.fCaloThick ≤ r.x := by linarith
  obtain ⟨b0, -, -, b3, b4⟩ := Geometry.layerIndex_bounds g r hL hT hlo
  have hTpos : 0 < g.fCaloThick := by
    rw [hT]
    have : (0 : ℚ) < (g.fNumLayers : ℚ) := by exact_mod_cast (by omega : (0 : Int) < g.fNumLayers)
    exact mul_pos this hL
  have key : g.fBoxCalo.DistanceToOut r v ≠ 0 →
      g.fBoxLayer.DistanceToOut (g.toLayerFrame r) v ≠ 0 →
      (r.x < (1 / 2) * g.fCaloThick ∨ v.x ≠ 0) →
      g.layerIndex r ≤ g.fNumLayers - 1 := by
    intro hcalo hlayer hface
    by_cases hx : r.x < (1 / 2) * g.fCaloThick
    · exact b3 hx
    · have he : r.x = (1 / 2) * g.fCaloThick := le_antisymm k2 (not_lt.mp hx)
      have hv : v.x ≠ 0 := hface.resolve_left hx
      exfalso
      rcases lt_or_gt_of_ne hv with hneg | hpos
      · apply hlayer
        apply Box.DistanceToOut_of_exit
        left
        unfold exitsOn
        rw [hlx, (b4 he).2]
        constructor
        · rw [show -(1 / 2) * g.fLayerThick = -((1 / 2) * g.fLayerThick) by ring, abs_neg,
            abs_of_pos (by linarith)]
          norm_num
        · nlinarith
      · apply hcalo
        apply Box.DistanceToOut_of_exit
        left
        unfold exitsOn
        rw [hcx, he]
        constructor
        · rw [abs_of_pos (by linarith)]
          norm_num
        · nlinarith
  rcases Geometry.CalculateDistanceToOut_cases g r v with ⟨-, h⟩ | ⟨-, -, h⟩ |
    ⟨hcalo, hlayer, -, h⟩ | ⟨hcalo, hlayer, -, h⟩
  · rw [h] at hd1
    exact absurd rfl hd1
  · rw [h] at hd0
    exact absurd rfl hd0
  · rw [h]
    exact ⟨b0, key hcalo hlayer, fun he _ => (b4 he).1⟩
  · rw [h]
    exact ⟨b0, key hcalo hlayer, fun he _ => (b4 he).1⟩

/-- Witness of C39 (amended): the one-layer geometry with an absorber of
thickness 10 and no gap, and the point `(-5, 0, 0)` on its entry face moving
along `(1, 0, 0)`: the distance is 10 and the reported layer index 0 is
valid. -/
theorem Geometry.layer_index_valid_witness :
    0 ≤ (oneLayerGeometry.CalculateDistanceToOut ⟨-5, 0, 0⟩ ⟨1, 0, 0⟩).indxLayer ∧
    (oneLayerGeometry.CalculateDistanceToOut ⟨-5, 0, 0⟩ ⟨1, 0, 0⟩).indxLayer ≤
      oneLayerGeometry.fNumLayers - 1 :=
  ⟨(Geometry.layer_index_valid oneLayerGeometry ⟨-5, 0, 0⟩ ⟨1, 0, 0⟩
    (by rw [oneLayerGeometry_facts.2.2.2.1, oneLayerGeometry_facts.2.2.2.2.1,
      oneLayerGeometry_numLayers]; norm_num)
    (by rw [oneLayerGeometry_facts.1, oneLayerGeometry_facts.2.2.2.1]; norm_num [Box.new])
    (by rw [oneLayerGeometry_facts.2.1, oneLayerGeometry_facts.2.2.2.2.1]; norm_num [Box.new])
    (by rw [oneLayerGeometry_facts.2.2.2.2.1]; norm_num)
    (by rw [oneLayerGeometry_numLayers])
    (by
      rw [oneLayerGeometry_facts.1]
      have ha : |(-5 : ℚ)| = 5 := by rw [abs_neg]; exact abs_of_pos (by norm_num)
      norm_num [insideClosed, Box.new, ha])
    (by rw [oneLayerGeometry_locate_entry]; norm_num)
    (by rw [oneLayerGeometry_locate_entry]; norm_num)).1,
   (Geometry.layer_index_valid oneLayerGeometry ⟨-5, 0, 0⟩ ⟨1, 0, 0⟩
    (by rw [oneLayerGeometry_facts.2.2.2.1, oneLayerGeometry_facts.2.2.2.2.1,
      oneLayerGeometry_numLayers]; norm_num)
    (by rw [oneLayerGeometry_facts.1, oneLayerGeometry_facts.2.2.2.1]; norm_num [Box.new])
    (by rw [oneLayerGeometry_facts.2.1, oneLayerGeometry_facts.2.2.2.2.1]; norm_num [Box.new])
    (by rw [oneLayerGeometry_facts.2.2.2.2.1]; norm_num)
    (by rw [oneLayerGeometry_numLayers])
    (by
      rw [oneLayerGeometry_facts.1]
      have ha : |(-5 : ℚ)| = 5 := by rw [abs_neg]; exact abs_of_pos (by norm_num)
      norm_num [insideClosed, Box.new, ha])
    (by rw [oneLayerGeometry_locate_entry]; norm_num)
    (by rw [oneLayerGeometry_locate_entry]; norm_num)).2.1 (Or.inr (by norm_num))⟩

theorem Geometry.new_fBoxGap : Geometry.new.fBoxGap = Box.new "Gap" 2 (57 / 20) 200 200 := by
  norm_num [Geometry.new, Geometry.UpdateParameters, Box.SetHalfLength, Box.new, kCarTolerance]

/-- The default geometry locates the point `(-191, 0, 0)` moving along
`(-1, 0, 0)` in the absorber of layer 1, at local x `-0.15`, with 1 to go. -/
theorem Geometry.new_locate_inner :
    Geometry.new.CalculateDistanceToOut ⟨-191, 0, 0⟩ ⟨-1, 0, 0⟩ =
      { dist := 1, r := ⟨-3 / 20, 0, 0⟩, currentVolume := .abs, indxLayer := 1,
        indxAbs := 0 } := by
  have hi : Geometry.new.layerIndex ⟨-191, 0, 0⟩ = 1 := by
    norm_num [Geometry.layerIndex, Geometry.new_thick.1, Geometry.new_thick.2, truncToInt,
      Int.floor_eq_iff]
  have hf : Geometry.new.toLayerFrame ⟨-191, 0, 0⟩ = ⟨-3, 0, 0⟩ := by
    unfold Geometry.toLayerFrame
    rw [hi, Geometry.new_thick.1, Geometry.new_thick.2]
    norm_num
  have hcalo : Geometry.new.fBoxCalo.DistanceToOut ⟨-191, 0, 0⟩ ⟨-1, 0, 0⟩ ≠ 0 := by
    rw [Geometry.new_fBoxCalo]
    have ha : |(191 : ℚ)| = 191 := abs_of_pos (by norm_num)
    norm_num [Box.DistanceToOut, Box.new, Box.fDelta, kCarTolerance, copysign, ha]
  have hlayer : Geometry.new.fBoxLayer.DistanceToOut
      (Geometry.new.toLayerFrame ⟨-191, 0, 0⟩) ⟨-1, 0, 0⟩ ≠ 0 := by
    rw [hf, Geometry.new_fBoxLayer]
    have ha : |(3 : ℚ)| = 3 := abs_of_pos (by norm_num)
    norm_num [Box.DistanceToOut, Box.new, Box.fDelta, kCarTolerance, copysign, ha]
  have hin : Geometry.new.inAbsorber ⟨-191, 0, 0⟩ := by
    unfold Geometry.inAbsorber
    rw [hf, Geometry.new_thick.2, Geometry.new_absgap.1]
    norm_num
  have hfr : Geometry.new.toSlabFrame ⟨-191, 0, 0⟩ Geometry.new.absCentre =
      ⟨-3 / 20, 0, 0⟩ := by
    unfold Geometry.toSlabFrame Geometry.absCentre
    rw [hf, Geometry.new_thick.2, Geometry.new_absgap.1]
    norm_num
  rw [Geometry.CalculateDistanceToOut_of_inside _ _ _ hcalo hlayer, if_pos hin, hfr, hi,
    Geometry.new_fBoxAbs]
  have ha : |(3 : ℚ) / 20| = 3 / 20 := abs_of_pos (by norm_num)
  have hb : |(23 : ℚ) / 20| = 23 / 20 := abs_of_pos (by norm_num)
  norm_num [Box.DistanceToOut, Box.new, Box.fDelta, kCarTolerance, copysign, ha, hb]

/-- The default geometry locates the point `(-192 - 1e-6, 0, 0)` moving along
`(-1, 0, 0)` in the gap of layer 0, at local x `2.85 - 1e-6`, with
`5.7 - 1e-6` to go; the safety of the gap box there is 1e-6. -/
theorem Geometry.new_locate_pushed :
    Geometry.new.CalculateDistanceToOut ⟨-192 - 1 / 1000000, 0, 0⟩ ⟨-1, 0, 0⟩ =
      { dist := 57 / 10 - 1 / 1000000, r := ⟨57 / 20 - 1 / 1000000, 0, 0⟩,
        currentVolume := .gap, indxLayer := 0, indxAbs := 1 } ∧
    Geometry.new.fBoxGap.safety ⟨57 / 20 - 1 / 1000000, 0, 0⟩ = 1 / 1000000 := by
  have hi : Geometry.new.layerIndex ⟨-192 - 1 / 1000000, 0, 0⟩ = 0 := by
    norm_num [Geometry.layerIndex, Geometry.new_thick.1, Geometry.new_thick.2, truncToInt,
      Int.floor_eq_iff]
  have hf : Geometry.new.toLayerFrame ⟨-192 - 1 / 1000000, 0, 0⟩ =
      ⟨4 - 1 / 1000000, 0, 0⟩ := by
    unfold Geometry.toLayerFrame
    rw [hi, Geometry.new_thick.1, Geometry.new_thick.2]
    norm_num
  have hcalo : Geometry.new.fBoxCalo.DistanceToOut ⟨-192 - 1 / 1000000, 0, 0⟩ ⟨-1, 0, 0⟩
      ≠ 0 := by
    rw [Geometry.new_fBoxCalo]
    have ha : |(192000001 : ℚ) / 1000000| = 192000001 / 1000000 := abs_of_pos (by norm_num)
    norm_num [Box.DistanceToOut, Box.new, Box.fDelta, kCarTolerance, copysign, ha]
  have hlayer : Geometry.new.fBoxLayer.DistanceToOut
      (Geometry.new.toLayerFrame ⟨-192 - 1 / 1000000, 0, 0⟩) ⟨-1, 0, 0⟩ ≠ 0 := by
    rw [hf, Geometry.new_fBoxLayer]
    have ha : |(4 - 1 / 1000000 : ℚ)| = 4 - 1 / 1000000 := abs_of_pos (by norm_num)
    norm_num [Box.DistanceToOut, Box.new, Box.fDelta, kCarTolerance, copysign, ha]
  have hin : ¬ Geometry.new.inAbsorber ⟨-192 - 1 / 1000000, 0, 0⟩ := by
    unfold Geometry.inAbsorber
    rw [hf, Geometry.new_thick.2, Geometry.new_absgap.1, Geometry.new_absgap.2]
    norm_num
  have hfr : Geometry.new.toSlabFrame ⟨-192 - 1 / 1000000, 0, 0⟩ Geometry.new.gapCentre =
      ⟨57 / 20 - 1 / 1000000, 0, 0⟩ := by
    unfold Geometry.toSlabFrame Geometry.gapCentre
    rw [hf, Geometry.new_thick.2, Geometry.new_absgap.1, Geometry.new_absgap.2]
    norm_num
  have ha : |(2849999 : ℚ) / 1000000| = 2849999 / 1000000 := abs_of_pos (by norm_num)
  have hb : |(57 : ℚ) / 20| = 57 / 20 := abs_of_pos (by norm_num)
  constructor
  · rw [Geometry.CalculateDistanceToOut_of_inside _ _ _ hcalo hlayer, if_neg hin, hfr, hi,
      Geometry.new_fBoxGap]
    norm_num [Box.DistanceToOut, Box.new, Box.fDelta, kCarTolerance, copysign, ha, hb]
  · rw [Geometry.new_fBoxGap]
    norm_num [Box.safety, Box.new, ha, hb]

/-- With the stub engine the physics limit is the constant of the stub,
`HowFar` leaves the position and the direction of the electron, and the
boundary flag it is handed is the pre-step flag. -/
theorem SteppingLoop.stub_electron (limit : ℚ) (g : Geometry) (s : StepperState) :
    SteppingLoop.electronDistToPhysics (stubState limit) g s = limit ∧
    (SteppingLoop.electronLimit (stubState limit) g s).fPrimaryElectronTrack.GetPosition =
      s.theTLData.fPrimaryElectronTrack.GetPosition ∧
    (SteppingLoop.electronLimit (stubState limit) g s).fPrimaryElectronTrack.GetDirection =
      s.theTLData.fPrimaryElectronTrack.GetDirection ∧
    (SteppingLoop.electronPreStep (stubState limit) g s).fPrimaryElectronTrack.GetOnBoundary =
      SteppingLoop.electronPreStepFlag g s :=
  ⟨rfl, rfl, rfl, rfl⟩

/-- The first pass from `innerStepperState`: a step of length 1 that ends on
the boundary of layers 0 and 1. -/
theorem SteppingLoop.afterFirstStep_facts :
    (SteppingLoop.ElectronStepperBody (stubState 2) sqrtStub Geometry.new 0
      innerStepperState).1 = .completed ∧
    afterFirstStep.numStep = 1 ∧ afterFirstStep.wasOnBoundary = true ∧
    afterFirstStep.theTLData.fPrimaryElectronTrack.GetPosition = ⟨-192, 0, 0⟩ ∧
    afterFirstStep.theTLData.fPrimaryElectronTrack.GetDirection = ⟨-1, 0, 0⟩ := by
  have hloc : SteppingLoop.electronLocate Geometry.new innerStepperState =
      { dist := 1, r := ⟨-3 / 20, 0, 0⟩, currentVolume := .abs, indxLayer := 1,
        indxAbs := 0 } := Geometry.new_locate_inner
  have hp := (SteppingLoop.stub_electron 2 Geometry.new innerStepperState).1
  have hB : ¬ (SteppingLoop.electronLocate Geometry.new innerStepperState).dist >
      10000000000 := by
    rw [hloc]
    norm_num
  have h0 : min (SteppingLoop.electronLocate Geometry.new innerStepperState).dist
      (SteppingLoop.electronDistToPhysics (stubState 2) Geometry.new innerStepperState)
      ≠ 0 := by
    rw [hloc, hp]
    norm_num
  have hm : min (SteppingLoop.electronLocate Geometry.new innerStepperState).dist
      (SteppingLoop.electronDistToPhysics (stubState 2) Geometry.new innerStepperState)
      = 1 := by
    rw [hloc, hp]
    norm_num
  have hf : decide ((SteppingLoop.electronLocate Geometry.new innerStepperState).dist ≤
      SteppingLoop.electronDistToPhysics (stubState 2) Geometry.new innerStepperState)
      = true := by
    rw [hloc, hp]
    exact decide_eq_true (by norm_num)
  have hbody := SteppingLoop.ElectronStepperBody_finish (stubState 2) sqrtStub Geometry.new 0
    innerStepperState hB h0
  rw [hm, hf] at hbody
  unfold afterFirstStep
  rw [hbody]
  have F := SteppingLoop.ElectronStepperFinish_facts (stubState 2) sqrtStub Geometry.new 0
    innerStepperState (SteppingLoop.electronLocate Geometry.new innerStepperState)
    (SteppingLoop.electronLimit (stubState 2) Geometry.new innerStepperState) 1 true
    (innerStepperState.trace ++
      [.HowFar (SteppingLoop.electronPreStep (stubState 2) Geometry.new innerStepperState),
       .StepSelected 1 true])
  have T := SteppingLoop.ElectronStepperFinish_track (stubState 2) sqrtStub Geometry.new 0
    innerStepperState (SteppingLoop.electronLocate Geometry.new innerStepperState)
    (SteppingLoop.electronLimit (stubState 2) Geometry.new innerStepperState) 1 true
    (innerStepperState.trace ++
      [.HowFar (SteppingLoop.electronPreStep (stubState 2) Geometry.new innerStepperState),
       .StepSelected 1 true])
  refine ⟨F.1, ?_, F.2.2.1, ?_, ?_⟩
  · rw [F.2.1]
    rfl
  · have key : ∀ (P D : Vec3) (S : ℚ), SteppingLoop.displace sqrtStub P D S true = P := by
      intro P D S
      unfold SteppingLoop.displace
      rw [if_neg (by decide)]
    rw [T, key]
    show SteppingLoop.AddTo3Vect ⟨-191, 0, 0⟩ ⟨-1, 0, 0⟩ 1 = _
    norm_num [SteppingLoop.AddTo3Vect]
  · rw [T]
    rfl

/-- The second pass, from `afterFirstStep`: the geometric distance is 0 and
the track is pushed by 1e-6; the step counter and the stored boundary flag are
those of `afterFirstStep`. -/
theorem SteppingLoop.afterPush_facts :
    (SteppingLoop.ElectronStepperBody (stubState 2) sqrtStub Geometry.new 0
      afterFirstStep).1 = .continued ∧
    afterPush.trace.getLast? = some .Push ∧
    afterPush.numStep = 1 ∧ afterPush.wasOnBoundary = true ∧
    afterPush.theTLData.fPrimaryElectronTrack.GetPosition = ⟨-192 - 1 / 1000000, 0, 0⟩ ∧
    afterPush.theTLData.fPrimaryElectronTrack.GetDirection = ⟨-1, 0, 0⟩ := by
  obtain ⟨-, a2, a3, a4, a5⟩ := SteppingLoop.afterFirstStep_facts
  have hd : (SteppingLoop.electronLocate Geometry.new afterFirstStep).dist = 0 := by
    unfold SteppingLoop.electronLocate
    rw [a4, a5]
    exact Geometry.new_locate_boundary
  have hp := (SteppingLoop.stub_electron 2 Geometry.new afterFirstStep).1
  have hB : ¬ (SteppingLoop.electronLocate Geometry.new afterFirstStep).dist >
      10000000000 := by
    rw [hd]
    norm_num
  have h0 : min (SteppingLoop.electronLocate Geometry.new afterFirstStep).dist
      (SteppingLoop.electronDistToPhysics (stubState 2) Geometry.new afterFirstStep)
      = 0 := by
    rw [hd, hp]
    norm_num
  have hbody := SteppingLoop.ElectronStepperBody_push (stubState 2) sqrtStub Geometry.new 0
    afterFirstStep hB h0
  have e2 : afterPush = (SteppingLoop.ElectronStepperBody (stubState 2) sqrtStub Geometry.new 0
    afterFirstStep).2 := rfl
  rw [hbody] at e2
  rw [hbody, e2]
  refine ⟨rfl, ?_, a2, a3, ?_, ?_⟩
  · show (afterFirstStep.trace ++ _).getLast? = _
    simp
  · show SteppingLoop.AddTo3Vect
      (SteppingLoop.electronLimit (stubState 2) Geometry.new
        afterFirstStep).fPrimaryElectronTrack.GetPosition
      (SteppingLoop.electronLimit (stubState 2) Geometry.new
        afterFirstStep).fPrimaryElectronTrack.GetDirection (1 / 1000000) = _
    rw [(SteppingLoop.stub_electron 2 Geometry.new afterFirstStep).2.1,
      (SteppingLoop.stub_electron 2 Geometry.new afterFirstStep).2.2.1, a4, a5]
    norm_num [SteppingLoop.AddTo3Vect]
  · show (SteppingLoop.electronLimit (stubState 2) Geometry.new
        afterFirstStep).fPrimaryElectronTrack.GetDirection = _
    rw [(SteppingLoop.stub_electron 2 Geometry.new afterFirstStep).2.2.1, a5]

/-- C35, the code at the failing input: in the default geometry with an engine
of constant step limit 2 an electron starts at `(-191, 0, 0)` along
`(-1, 0, 0)`. The first pass through the loop body takes a step of length 1
that ends on the boundary of layers 0 and 1 (step counter 1, stored post-step
flag true). The second pass finds the geometric distance 0 and pushes the
track by 1e-6, leaving the step counter and the stored flag. In the third
pass, the one that directly follows the push, the track is located in the gap
of layer 0 with the safety 1e-6, which is not below 5e-10; yet the boundary
flag handed to `HowFar` is true, the stored post-step flag of the first pass,
and the pre-step safety handed to it is 0. -/
theorem SteppingLoop.flag_after_push :
    (SteppingLoop.ElectronStepperBody (stubState 2) sqrtStub Geometry.new 0
      innerStepperState).1 = .completed ∧
    afterFirstStep.numStep = 1 ∧ afterFirstStep.wasOnBoundary = true ∧
    (SteppingLoop.ElectronStepperBody (stubState 2) sqrtStub Geometry.new 0
      afterFirstStep).1 = .continued ∧
    afterPush.trace.getLast? = some .Push ∧
    afterPush.numStep = 1 ∧ afterPush.wasOnBoundary = true ∧
    SteppingLoop.electronLocate Geometry.new afterPush =
      { dist := 57 / 10 - 1 / 1000000, r := ⟨57 / 20 - 1 / 1000000, 0, 0⟩,
        currentVolume := .gap, indxLayer := 0, indxAbs := 1 } ∧
    (Geometry.new.box (SteppingLoop.electronLocate Geometry.new afterPush).currentVolume).safety
      (SteppingLoop.electronLocate Geometry.new afterPush).r = 1 / 1000000 ∧
    decide ((Geometry.new.box
      (SteppingLoop.electronLocate Geometry.new afterPush).currentVolume).safety
        (SteppingLoop.electronLocate Geometry.new afterPush).r < 5 / 10000000000) = false ∧
    (SteppingLoop.ElectronStepperBody (stubState 2) sqrtStub Geometry.new 0
      afterPush).2.trace.take (afterPush.trace.length + 2) =
        afterPush.trace ++
          [.HowFar (SteppingLoop.electronPreStep (stubState 2) Geometry.new afterPush),
           .StepSelected 2 false] ∧
    (SteppingLoop.electronPreStep (stubState 2) Geometry.new
      afterPush).fPrimaryElectronTrack.GetOnBoundary = true ∧
    (SteppingLoop.electronPreStep (stubState 2) Geometry.new
      afterPush).fPrimaryElectronTrack.fSafety = 0 := by
  obtain ⟨a1, a2, a3, -, -⟩ := SteppingLoop.afterFirstStep_facts
  obtain ⟨b1, b2, b3, b4, b5, b6⟩ := SteppingLoop.afterPush_facts
  have hloc : SteppingLoop.electronLocate Geometry.new afterPush =
      { dist := 57 / 10 - 1 / 1000000, r := ⟨57 / 20 - 1 / 1000000, 0, 0⟩,
        currentVolume := .gap, indxLayer := 0, indxAbs := 1 } := by
    unfold SteppingLoop.electronLocate
    rw [b5, b6]
    exact Geometry.new_locate_pushed.1
  have hs : (Geometry.new.box
      (SteppingLoop.electronLocate Geometry.new afterPush).currentVolume).safety
        (SteppingLoop.electronLocate Geometry.new afterPush).r = 1 / 1000000 := by
    rw [hloc]
    exact Geometry.new_locate_pushed.2
  have hflag : SteppingLoop.electronPreStepFlag Geometry.new afterPush = true := by
    unfold SteppingLoop.electronPreStepFlag
    rw [if_neg (by rw [b3]; decide), b4]
  have hp := (SteppingLoop.stub_electron 2 Geometry.new afterPush).1
  have hB : ¬ (SteppingLoop.electronLocate Geometry.new afterPush).dist > 10000000000 := by
    rw [hloc]
    norm_num
  have hm : min (SteppingLoop.electronLocate Geometry.new afterPush).dist
      (SteppingLoop.electronDistToPhysics (stubState 2) Geometry.new afterPush) = 2 := by
    rw [hloc, hp]
    norm_num
  have h0 : min (SteppingLoop.electronLocate Geometry.new afterPush).dist
      (SteppingLoop.electronDistToPhysics (stubState 2) Geometry.new afterPush) ≠ 0 := by
    rw [hm]
    norm_num
  have hf : decide ((SteppingLoop.electronLocate Geometry.new afterPush).dist ≤
      SteppingLoop.electronDistToPhysics (stubState 2) Geometry.new afterPush) = false := by
    rw [hloc, hp]
    exact decide_eq_false (by norm_num)
  refine ⟨a1, a2, a3, b1, b2, b3, b4, hloc, hs, ?_, ?_, ?_, ?_⟩
  · rw [hs]
    exact decide_eq_false (by norm_num)
  · rw [SteppingLoop.ElectronStepperBody_finish (stubState 2) sqrtStub Geometry.new 0 afterPush
        hB h0,
      (SteppingLoop.ElectronStepperFinish_facts (stubState 2) sqrtStub Geometry.new 0 afterPush
        _ _ _ _ _).2.2.2, hm, hf]
    simp only [List.append_assoc, List.cons_append, List.nil_append]
    exact take_two_after afterPush.trace _ _ _
  · rw [(SteppingLoop.stub_electron 2 Geometry.new afterPush).2.2.2, hflag]
  · show (if SteppingLoop.electronPreStepFlag Geometry.new afterPush then (0 : ℚ) else _) = 0
    rw [hflag]
    rfl

/-- Witness of C36: after `SetAbsThick(0)` on the default geometry the x
half-length of the absorber box is still above 2e-9, and `SetHalfLength(0, 0)`
leaves a box with half-lengths 1 as it was. -/
theorem Geometry.run_boxes_sized_witness :
    2 / 1000000000 < (Geometry.run [.SetAbsThick 0]).fBoxAbs.fDx ∧
    (Box.new "Abs" 1 1 1 1).SetHalfLength 0 0 = Box.new "Abs" 1 1 1 1 :=
  ⟨(Geometry.run_boxes_sized [.SetAbsThick 0] (Box.new "Abs" 1 1 1 1) 0 0).1.2.2.2.1.1,
    (Geometry.run_boxes_sized [.SetAbsThick 0] (Box.new "Abs" 1 1 1 1) 0 0).2 (by norm_num)⟩

/-! ## Run-level sums over the events of a run: theorems -/

/-- The stepping action leaves the run-level sums. -/
theorem SteppingLoop.SteppingAction_runSums (theResult : Results) (theTrack : G4HepEmTrack)
    (currentVolume : VolumeId) (len : ℚ) (indxLayer indxAbsorber eventID stepID : Int) :
    (SteppingLoop.SteppingAction theResult theTrack currentVolume len indxLayer indxAbsorber
      eventID stepID).runSums = theResult.runSums := by
  unfold SteppingLoop.SteppingAction
  simp only
  split_ifs <;> rfl

/-- The begin-of-tracking action leaves the run-level sums. -/
theorem EventLoop.BeginOfTrackingAction_runSums (theResult : Results)
    (theTrack : G4HepEmTrack) :
    (EventLoop.BeginOfTrackingAction theResult theTrack).runSums = theResult.runSums := by
  unfold EventLoop.BeginOfTrackingAction
  simp only
  split_ifs <;> rfl

/-- An iteration of the gamma stepper leaves the run-level sums. -/
theorem SteppingLoop.GammaStepperBody_runSums (theState : G4HepEmState)
    (theGeometry : Geometry) (eventID : Int) (s : StepperState) :
    (SteppingLoop.GammaStepperBody theState theGeometry eventID s).2.theResult.runSums =
      s.theResult.runSums := by
  by_cases hB : (SteppingLoop.gammaLocate theGeometry s).dist > 10000000000
  · rw [SteppingLoop.GammaStepperBody_returned theState theGeometry eventID s hB]
  · by_cases h0 : min (SteppingLoop.gammaLocate theGeometry s).dist
        (SteppingLoop.gammaDistToPhysics theState theGeometry s) = 0
    · rw [SteppingLoop.GammaStepperBody_push theState theGeometry eventID s hB h0]
    · rw [SteppingLoop.GammaStepperBody_finish theState theGeometry eventID s hB h0,
        SteppingLoop.GammaStepperFinish_result]
      exact SteppingLoop.SteppingAction_runSums _ _ _ _ _ _ _ _

/-- An iteration of the electron stepper leaves the run-level sums. -/
theorem SteppingLoop.ElectronStepperBody_runSums (theState : G4HepEmState) (sqrt : ℚ → ℚ)
    (theGeometry : Geometry) (eventID : Int) (s : StepperState) :
    (SteppingLoop.ElectronStepperBody theState sqrt theGeometry eventID
      s).2.theResult.runSums = s.theResult.runSums := by
  by_cases hB : (SteppingLoop.electronLocate theGeometry s).dist > 10000000000
  · rw [SteppingLoop.ElectronStepperBody_returned theState sqrt theGeometry eventID s hB]
  · by_cases h0 : min (SteppingLoop.electronLocate theGeometry s).dist
        (SteppingLoop.electronDistToPhysics theState theGeometry s) = 0
    · rw [SteppingLoop.ElectronStepperBody_push theState sqrt theGeometry eventID s hB h0]
    · rw [SteppingLoop.ElectronStepperBody_finish theState sqrt theGeometry eventID s hB h0,
        SteppingLoop.ElectronStepperFinish_result]
      exact SteppingLoop.SteppingAction_runSums _ _ _ _ _ _ _ _

/-- The gamma stepper leaves the run-level sums. -/
theorem SteppingLoop.GammaStepper_runSums (theState : G4HepEmState)
    (theGeometry : Geometry) (eventID : Int) (fuel : ℕ) :
    ∀ s s1 : StepperState,
      SteppingLoop.GammaStepper theState theGeometry eventID fuel s = some s1 →
      s1.theResult.runSums = s.theResult.runSums := by
  induction fuel with
  | zero =>
    intro s s1 h
    rw [SteppingLoop.GammaStepper_zero] at h
    exact absurd h (by simp)
  | succ fuel ih =>
    intro s s1 h
    rw [SteppingLoop.GammaStepper_succ] at h
    have hb := SteppingLoop.GammaStepperBody_runSums theState theGeometry eventID s
    by_cases hE : s.theTLData.fPrimaryGammaTrack.GetEKin > 0
    · rw [if_pos hE] at h
      generalize SteppingLoop.GammaStepperBody theState theGeometry eventID s = b at h hb
      obtain ⟨c, s2⟩ := b
      cases c
      · simp only [Option.some.injEq] at h
        rw [← h]
        exact hb
      · exact (ih s2 s1 h).trans hb
      · exact (ih s2 s1 h).trans hb
    · rw [if_neg hE] at h
      simp only [Option.some.injEq] at h
      rw [← h]

/-- The electron stepper leaves the run-level sums. -/
theorem SteppingLoop.ElectronStepper_runSums (theState : G4HepEmState) (sqrt : ℚ → ℚ)
    (theGeometry : Geometry) (eventID : Int) (fuel : ℕ) :
    ∀ s s1 : StepperState,
      SteppingLoop.ElectronStepper theState sqrt theGeometry eventID fuel s = some s1 →
      s1.theResult.runSums = s.theResult.runSums := by
  induction fuel with
  | zero =>
    intro s s1 h
    rw [SteppingLoop.ElectronStepper_zero] at h
    exact absurd h (by simp)
  | succ fuel ih =>
    intro s s1 h
    rw [SteppingLoop.ElectronStepper_succ] at h
    have hb := SteppingLoop.ElectronStepperBody_runSums theState sqrt theGeometry eventID s
    by_cases hE : s.theTLData.fPrimaryElectronTrack.GetEKin > 0
    · rw [if_pos hE] at h
      generalize SteppingLoop.ElectronStepperBody theState sqrt theGeometry eventID s = b
        at h hb
      obtain ⟨c, s2⟩ := b
      cases c
      · simp only [Option.some.injEq] at h
        rw [← h]
        exact hb
      · exact (ih s2 s1 h).trans hb
      · exact (ih s2 s1 h).trans hb
    · rw [if_neg hE] at h
      simp only [Option.some.injEq] at h
      rw [← h]

/-- An iteration of the track loop leaves the run-level sums. -/
theorem EventLoop.TrackLoopBody_runSums (theState : G4HepEmState) (sqrt : ℚ → ℚ)
    (DiscardGauss : ℕ → ℕ) (theGeometry : Geometry) (eventID : Int) (fuel : ℕ)
    (trackType : Int) (st st1 : EventState)
    (h : EventLoop.TrackLoopBody theState sqrt DiscardGauss theGeometry eventID fuel trackType
      st = some st1) :
    st1.theResult.runSums = st.theResult.runSums := by
  rw [EventLoop.TrackLoopBody_eq, Option.map_eq_some'] at h
  obtain ⟨s1, hs, rfl⟩ := h
  have h0 : (EventLoop.trackingStart DiscardGauss theGeometry trackType
      st).theResult.runSums = st.theResult.runSums :=
    EventLoop.BeginOfTrackingAction_runSums _ _
  show s1.theResult.runSums = _
  by_cases ht : trackType = 0
  · rw [if_pos ht] at hs
    exact (SteppingLoop.GammaStepper_runSums theState theGeometry eventID fuel _ _ hs).trans h0
  · rw [if_neg ht] at hs
    exact (SteppingLoop.ElectronStepper_runSums theState sqrt theGeometry eventID fuel _ _
      hs).trans h0

/-- The track loop leaves the run-level sums. -/
theorem EventLoop.TrackLoop_runSums (theState : G4HepEmState) (sqrt : ℚ → ℚ)
    (DiscardGauss : ℕ → ℕ) (theGeometry : Geometry) (eventID : Int) (fuel : ℕ) (n : ℕ) :
    ∀ st st1 : EventState,
      EventLoop.TrackLoop theState sqrt DiscardGauss theGeometry eventID fuel n st = some st1 →
      st1.theResult.runSums = st.theResult.runSums := by
  induction n with
  | zero =>
    intro st st1 h
    rw [EventLoop.TrackLoop_zero] at h
    exact absurd h (by simp)
  | succ n ih =>
    intro st st1 h
    rw [EventLoop.TrackLoop_succ] at h
    by_cases hc : st.theTrackStack.GetTypeOfNextTrack.1 > -2
    · rw [if_pos hc, Option.bind_eq_some] at h
      obtain ⟨st2, h2, h3⟩ := h
      have e := EventLoop.TrackLoopBody_runSums theState sqrt DiscardGauss theGeometry eventID
        fuel _ _ st2 h2
      exact (ih st2 st1 h3).trans e
    · rw [if_neg hc] at h
      simp only [Option.some.injEq] at h
      rw [← h]

/-- The run-level sums after `EndOfEventAction` depend only on the run-level
sums and the per-event tallies before it. -/
theorem EventLoop.EndOfEventAction_runSums_congr (a b : Results) (i j : Int)
    (h : a.runSums = b.runSums) (hp : a.fPerEventRes = b.fPerEventRes) :
    (EventLoop.EndOfEventAction a i).runSums = (EventLoop.EndOfEventAction b j).runSums := by
  simp only [Results.runSums, List.cons.injEq, and_true] at h
  obtain ⟨h1, h2, h3, h4, h5, h6, h7, h8, h9, h10, h11, h12, h13, h14⟩ := h
  unfold EventLoop.EndOfEventAction Results.runSums
  simp only
  rw [h1, h2, h3, h4, h5, h6, h7, h8, h9, h10, h11, h12, h13, h14, hp]

/-- The run-level sums after a sequence of events depend only on the
run-level sums before it. -/
theorem EventLoop.afterEvents_congr (es : List ResultsPerEvent) : ∀ a b : Results,
    a.runSums = b.runSums →
    (EventLoop.afterEvents a es).runSums = (EventLoop.afterEvents b es).runSums := by
  induction es with
  | nil =>
    intro a b h
    exact h
  | cons e es ih =>
    intro a b h
    unfold EventLoop.afterEvents
    simp only [List.foldl_cons]
    exact ih _ _ (EventLoop.EndOfEventAction_runSums_congr _ _ 0 0 h rfl)

/-- The run-level sums after the events of a run are those of the fold of
`EndOfEventAction` over the per-event values of the run, and there is one
per-event value for each event. -/
theorem EventLoop.EventsFrom_tallies (theState : G4HepEmState) (sqrt : ℚ → ℚ)
    (DiscardGauss : ℕ → ℕ) (thePrimaryGenerator : PrimaryGenerator) (theGeometry : Geometry)
    (fuel : ℕ) (n : ℕ) :
    ∀ (eventID : Int) (st st1 : EventState),
      EventLoop.EventsFrom theState sqrt DiscardGauss thePrimaryGenerator theGeometry fuel n
        eventID st = some st1 →
      (EventLoop.eventTallies theState sqrt DiscardGauss thePrimaryGenerator theGeometry fuel n
        eventID st).length = n ∧
      st1.theResult.runSums =
        (EventLoop.afterEvents st.theResult
          (EventLoop.eventTallies theState sqrt DiscardGauss thePrimaryGenerator theGeometry
            fuel n eventID st)).runSums := by
  induction n with
  | zero =>
    intro eventID st st1 h
    rw [EventLoop.EventsFrom] at h
    simp only [Option.some.injEq] at h
    rw [← h, EventLoop.eventTallies]
    exact ⟨rfl, rfl⟩
  | succ n ih =>
    intro eventID st st1 h
    rw [EventLoop.EventsFrom, Option.bind_eq_some] at h
    obtain ⟨st2, h2, h3⟩ := h
    unfold EventLoop.ProcessEvent at h2
    rw [Option.map_eq_some'] at h2
    obtain ⟨st3, h4, rfl⟩ := h2
    obtain ⟨i1, i2⟩ := ih (eventID + 1) _ st1 h3
    have hT := EventLoop.TrackLoop_runSums theState sqrt DiscardGauss theGeometry eventID fuel
      fuel _ st3 h4
    have hB : (EventLoop.BeginEvent thePrimaryGenerator eventID st).theResult.runSums =
      st.theResult.runSums := rfl
    rw [EventLoop.eventTallies, h4]
    simp only [List.length_cons]
    refine ⟨by rw [i1], ?_⟩
    rw [i2]
    show _ = (EventLoop.afterEvents
      (EventLoop.EndOfEventAction { st.theResult with
        fPerEventRes := st3.theResult.fPerEventRes } 0) _).runSums
    exact EventLoop.afterEvents_congr _ _ _
      (EventLoop.EndOfEventAction_runSums_congr _ _ eventID 0 (hT.trans hB) rfl)

/-- The equations for the run-level sums of results that have the run-level
sums of a fold of `EndOfEventAction`. -/
theorem Results.accumulated_of_runSums (r0 r : Results) (es : List ResultsPerEvent)
    (h : r.runSums = (EventLoop.afterEvents r0 es).runSums) : Results.accumulated r0 r es := by
  simp only [Results.runSums, List.cons.injEq, and_true] at h
  obtain ⟨h1, h2, h3, h4, h5, h6, h7, h8, h9, h10, h11, h12, h13, h14⟩ := h
  obtain ⟨a1, a2, a3, a4, a5, a6, a7, a8, a9, a10, a11, a12, a13, a14⟩ :=
    EventLoop.afterEvents_sums es r0
  exact ⟨h1.trans a1, h2.trans a2, h3.trans a3, h4.trans a4, h5.trans a5, h6.trans a6,
    h7.trans a7, h8.trans a8, h9.trans a9, h10.trans a10, h11.trans a11, h12.trans a12,
    h13.trans a13, h14.trans a14⟩

/-! ## A run with an engine that stops every track in its first step -/

theorem absorbState_valid (limit : ℚ) :
    (∀ tl, validSecondaries ((absorbState limit).GammaManagerPerform tl)) ∧
    (∀ tl, validSecondaries ((absorbState limit).ElectronManagerPerform tl)) := by
  constructor
  · intro tl
    refine ⟨le_rfl, le_rfl, ?_, ?_⟩
    · intro k hk
      have hk2 : (k : Int) < 0 := hk
      omega
    · intro k hk
      have hk2 : (k : Int) < 0 := hk
      omega
  · intro tl
    refine ⟨le_rfl, le_rfl, ?_, ?_⟩
    · intro k hk
      have hk2 : (k : Int) < 0 := hk
      omega
    · intro k hk
      have hk2 : (k : Int) < 0 := hk
      omega

/-- The default geometry locates the point `(-200, 0, 0)` on the entry face of
the calorimeter, moving along `(1, 0, 0)`, in the absorber of layer 0, at local
x `-1.15`, with 2.3 to go. -/
theorem Geometry.new_locate_entry :
    Geometry.new.CalculateDistanceToOut ⟨-200, 0, 0⟩ ⟨1, 0, 0⟩ =
      { dist := 23 / 10, r := ⟨-23 / 20, 0, 0⟩, currentVolume := .abs, indxLayer := 0,
        indxAbs := 0 } := by
  have hi : Geometry.new.layerIndex ⟨-200, 0, 0⟩ = 0 := by
    norm_num [Geometry.layerIndex, Geometry.new_thick.1, Geometry.new_thick.2, truncToInt]
  have hf : Geometry.new.toLayerFrame ⟨-200, 0, 0⟩ = ⟨-4, 0, 0⟩ := by
    unfold Geometry.toLayerFrame
    rw [hi, Geometry.new_thick.1, Geometry.new_thick.2]
    norm_num
  have hcalo : Geometry.new.fBoxCalo.DistanceToOut ⟨-200, 0, 0⟩ ⟨1, 0, 0⟩ ≠ 0 := by
    rw [Geometry.new_fBoxCalo]
    have ha : |(200 : ℚ)| = 200 := abs_of_pos (by norm_num)
    norm_num [Box.DistanceToOut, Box.new, Box.fDelta, kCarTolerance, copysign, ha]
  have hlayer : Geometry.new.fBoxLayer.DistanceToOut
      (Geometry.new.toLayerFrame ⟨-200, 0, 0⟩) ⟨1, 0, 0⟩ ≠ 0 := by
    rw [hf, Geometry.new_fBoxLayer]
    have ha : |(4 : ℚ)| = 4 := abs_of_pos (by norm_num)
    norm_num [Box.DistanceToOut, Box.new, Box.fDelta, kCarTolerance, copysign, ha]
  have hin : Geometry.new.inAbsorber ⟨-200, 0, 0⟩ := by
    unfold Geometry.inAbsorber
    rw [hf, Geometry.new_thick.2, Geometry.new_absgap.1]
    norm_num
  have hfr : Geometry.new.toSlabFrame ⟨-200, 0, 0⟩ Geometry.new.absCentre =
      ⟨-23 / 20, 0, 0⟩ := by
    unfold Geometry.toSlabFrame Geometry.absCentre
    rw [hf, Geometry.new_thick.2, Geometry.new_absgap.1]
    norm_num
  rw [Geometry.CalculateDistanceToOut_of_inside _ _ _ hcalo hlayer, if_pos hin, hfr, hi,
    Geometry.new_fBoxAbs]
  have hb : |(23 : ℚ) / 20| = 23 / 20 := abs_of_pos (by norm_num)
  norm_num [Box.DistanceToOut, Box.new, Box.fDelta, kCarTolerance, copysign, hb]

/-- With the engine that stops every track, an electron that is not leaving
and whose chosen step length is not zero takes one step and its history ends:
the stepper returns the state after that iteration, whose stack is the one it
started with and whose results are those of the stepping action for that
step. -/
theorem SteppingLoop.absorb_electron (limit : ℚ) (sqrt : ℚ → ℚ) (g : Geometry)
    (eventID : Int) (k : ℕ) (s : StepperState)
    (hE : s.theTLData.fPrimaryElectronTrack.GetEKin > 0)
    (hB : ¬ (SteppingLoop.electronLocate g s).dist > 10000000000)
    (h0 : min (SteppingLoop.electronLocate g s).dist
      (SteppingLoop.electronDistToPhysics (absorbState limit) g s) ≠ 0) :
    SteppingLoop.ElectronStepper (absorbState limit) sqrt g eventID (k + 2) s =
      some (SteppingLoop.ElectronStepperBody (absorbState limit) sqrt g eventID s).2 ∧
    (SteppingLoop.ElectronStepperBody (absorbState limit) sqrt g eventID s).2.theTrackStack =
      s.theTrackStack ∧
    (SteppingLoop.ElectronStepperBody (absorbState limit) sqrt g eventID s).2.theResult =
      SteppingLoop.SteppingAction s.theResult
        (SteppingLoop.ElectronStepperBody (absorbState limit) sqrt g eventID
          s).2.theTLData.fPrimaryElectronTrack
        (SteppingLoop.electronLocate g s).currentVolume
        (SteppingLoop.electronRecordedLength s.theTLData
          (min (SteppingLoop.electronLocate g s).dist limit))
        (SteppingLoop.electronLocate g s).indxLayer
        (SteppingLoop.electronLocate g s).indxAbs eventID s.numStep ∧
    (SteppingLoop.ElectronStepperBody (absorbState limit) sqrt g eventID
      s).2.theTLData.fPrimaryElectronTrack.GetCharge =
        s.theTLData.fPrimaryElectronTrack.GetCharge ∧
    (SteppingLoop.ElectronStepperBody (absorbState limit) sqrt g eventID
      s).2.theTLData.fPrimaryElectronTrack.GetEnergyDeposit =
        s.theTLData.fPrimaryElectronTrack.GetEnergyDeposit := by
  have hbody := SteppingLoop.ElectronStepperBody_finish (absorbState limit) sqrt g eventID s
    hB h0
  have hc : (SteppingLoop.ElectronStepperBody (absorbState limit) sqrt g eventID s).1 =
      .completed := by
    rw [hbody]
    exact (SteppingLoop.ElectronStepperFinish_facts (absorbState limit) sqrt g eventID s
      _ _ _ _ _).1
  have hT : (SteppingLoop.ElectronStepperBody (absorbState limit) sqrt g eventID
      s).2.theTLData.fPrimaryElectronTrack =
      (SteppingLoop.electronAfterPerform (absorbState limit)
        (SteppingLoop.electronLimit (absorbState limit) g s)
        (min (SteppingLoop.electronLocate g s).dist
          (SteppingLoop.electronDistToPhysics (absorbState limit) g s))
        (decide ((SteppingLoop.electronLocate g s).dist ≤
          SteppingLoop.electronDistToPhysics (absorbState limit) g
            s))).fPrimaryElectronTrack.SetPosition
        (SteppingLoop.ElectronStepperBody (absorbState limit) sqrt g eventID
          s).2.theTLData.fPrimaryElectronTrack.GetPosition := by
    rw [hbody, SteppingLoop.ElectronStepperFinish_track]
    rfl
  have hK : (SteppingLoop.ElectronStepperBody (absorbState limit) sqrt g eventID
      s).2.theTLData.fPrimaryElectronTrack.GetEKin = 0 := by
    rw [hT]
    rfl
  have hS : (SteppingLoop.ElectronStepperBody (absorbState limit) sqrt g eventID
      s).2.theTrackStack = s.theTrackStack := by
    rw [hbody, (SteppingLoop.ElectronStepperFinish_data (absorbState limit) sqrt g eventID s
      _ _ _ _ _).2]
    exact if_neg (by show ¬ ((0 : Int) + 0 > 0); decide)
  have hR : (SteppingLoop.ElectronStepperBody (absorbState limit) sqrt g eventID
      s).2.theResult =
      SteppingLoop.SteppingAction s.theResult
        (SteppingLoop.ElectronStepperBody (absorbState limit) sqrt g eventID
          s).2.theTLData.fPrimaryElectronTrack
        (SteppingLoop.electronLocate g s).currentVolume
        (SteppingLoop.electronRecordedLength s.theTLData
          (min (SteppingLoop.electronLocate g s).dist limit))
        (SteppingLoop.electronLocate g s).indxLayer
        (SteppingLoop.electronLocate g s).indxAbs eventID s.numStep := by
    rw [hbody]
    exact SteppingLoop.ElectronStepperFinish_result (absorbState limit) sqrt g eventID s
      _ _ _ _ _
  refine ⟨?_, hS, hR, by rw [hT]; rfl, by rw [hT]; rfl⟩
  rw [SteppingLoop.ElectronStepper_succ, if_pos hE]
  generalize SteppingLoop.ElectronStepperBody (absorbState limit) sqrt g eventID s = b
    at hc hK
  obtain ⟨c, s2⟩ := b
  have hc2 : c = .completed := hc
  subst hc2
  show SteppingLoop.ElectronStepper (absorbState limit) sqrt g eventID (k + 1) s2 = some s2
  rw [SteppingLoop.ElectronStepper_succ, if_neg]
  have hK2 : s2.theTLData.fPrimaryElectronTrack.GetEKin = 0 := hK
  rw [hK2]
  norm_num

theorem truncToInt_neg_one : truncToInt (-1) = -1 := by
  unfold truncToInt
  rw [if_neg (by norm_num), Int.ceil_eq_iff]
  norm_num

theorem getD_zero_of_take_one {α : Type} (l : List α) (a d : α) (h : l.take 1 = [a]) :
    l.getD 0 d = a := by
  cases l with
  | nil => simp at h
  | cons b t =>
    simp only [List.take_succ_cons, List.take_zero, List.cons.injEq, and_true] at h
    rw [← h]
    rfl

theorem Geometry.new_caloStart : Geometry.new.GetCaloStartXposition = -200 := by
  norm_num [Geometry.new, Geometry.UpdateParameters, Geometry.GetCaloStartXposition]

/-- The start of an event on an empty stack: the primary of the generator,
with the id 0, is the one track on the stack, and the per-event tallies are
zero. -/
theorem EventLoop.BeginEvent_primary (thePrimaryGenerator : PrimaryGenerator) (eventID : Int)
    (st : EventState) (hst : st.theTrackStack.chargesOK)
    (he : st.theTrackStack.fCurIndx = -1) :
    (EventLoop.BeginEvent thePrimaryGenerator eventID st).theTrackStack.fCurIndx = 0 ∧
    (EventLoop.BeginEvent thePrimaryGenerator eventID st).theTrackStack.slot 0 =
      (thePrimaryGenerator.GenerateOne G4HepEmTrack.new).SetID 0 ∧
    (EventLoop.BeginEvent thePrimaryGenerator eventID st).theResult.fPerEventRes =
      { fEdepAbs := 0, fEdepGap := 0, fNumSecGamma := 0, fNumSecElectron := 0,
        fNumSecPositron := 0, fNumStepsGamma := 0, fNumStepsElPos := 0 } := by
  have hw : (st.theTrackStack.ReSetTrackID).wf := hst.1
  have hT1 : st.theTrackStack.ReSetTrackID.Insert.1.slot
      st.theTrackStack.ReSetTrackID.Insert.2 = G4HepEmTrack.new :=
    TrackStack.Insert_slot_top _ hw
  have hT2 : st.theTrackStack.ReSetTrackID.Insert.1.fCurrentTrackID = 0 := by
    obtain ⟨ex, he1, -⟩ := TrackStack.Insert_eq st.theTrackStack.ReSetTrackID hw
    rw [he1]
    rfl
  obtain ⟨-, w2, w3⟩ := TrackStack.Insert_write st.theTrackStack.ReSetTrackID hw
    ((thePrimaryGenerator.GenerateOne
      (st.theTrackStack.ReSetTrackID.Insert.1.slot
        st.theTrackStack.ReSetTrackID.Insert.2)).SetID
      st.theTrackStack.ReSetTrackID.Insert.1.fCurrentTrackID)
    (st.theTrackStack.ReSetTrackID.Insert.1.fCurrentTrackID + 1)
  have hcur : (EventLoop.BeginEvent thePrimaryGenerator eventID st).theTrackStack.fCurIndx =
      0 := by
    have e : (EventLoop.BeginEvent thePrimaryGenerator eventID st).theTrackStack.fCurIndx =
      st.theTrackStack.fCurIndx + 1 := w3
    rw [e, he]
    rfl
  have hc : (EventLoop.BeginEvent thePrimaryGenerator eventID st).theTrackStack.contents =
      st.theTrackStack.contents ++ [(thePrimaryGenerator.GenerateOne
        (st.theTrackStack.ReSetTrackID.Insert.1.slot
          st.theTrackStack.ReSetTrackID.Insert.2)).SetID
        st.theTrackStack.ReSetTrackID.Insert.1.fCurrentTrackID] := w2
  have h0 : st.theTrackStack.contents = [] := by
    unfold TrackStack.contents
    rw [he]
    rfl
  rw [hT1, hT2, h0, List.nil_append] at hc
  refine ⟨hcur, ?_, rfl⟩
  unfold TrackStack.contents at hc
  rw [hcur] at hc
  unfold TrackStack.slot
  exact getD_zero_of_take_one _ _ _ hc

/-- The stepping action for a step of positive length in a layer, by a
charged track without energy deposit: the per-event number of electron or
positron steps grows by 1. -/
theorem SteppingLoop.SteppingAction_count (theResult : Results) (theTrack : G4HepEmTrack)
    (currentVolume : VolumeId) (len : ℚ) (indxLayer indxAbsorber eventID stepID : Int)
    (hil : ¬ indxLayer < 0) (hed : ¬ theTrack.GetEnergyDeposit > 0) (hlen : ¬ len ≤ 0)
    (hch : ¬ theTrack.GetCharge = 0) :
    (SteppingLoop.SteppingAction theResult theTrack currentVolume len indxLayer indxAbsorber
      eventID stepID).fPerEventRes.fNumStepsElPos =
        theResult.fPerEventRes.fNumStepsElPos + 1 := by
  unfold SteppingLoop.SteppingAction
  simp only
  rw [if_neg hil, if_neg hed, if_neg hlen, if_neg hch]

/-- The relocated primary of the default generator: an electron of 10 GeV at
`(-200, 0, 0)` moving along `(1, 0, 0)`, without parent. -/
theorem relocatedPrimary_facts :
    relocatedPrimary.GetPosition = ⟨-200, 0, 0⟩ ∧
    relocatedPrimary.GetDirection = ⟨1, 0, 0⟩ ∧
    relocatedPrimary.GetEKin = 10000 ∧ relocatedPrimary.GetCharge = -1 ∧
    relocatedPrimary.GetEnergyDeposit = 0 ∧ relocatedPrimary.GetParentID = -1 := by
  have hR : relocatedPrimary =
      (TrackStack.Copy ((PrimaryGenerator.new.GenerateOne G4HepEmTrack.new).SetID 0)
        G4HepEmTrack.new).SetPosition
        { (TrackStack.Copy ((PrimaryGenerator.new.GenerateOne G4HepEmTrack.new).SetID 0)
            G4HepEmTrack.new).GetPosition with x := Geometry.new.GetCaloStartXposition } := by
    unfold relocatedPrimary EventLoop.relocate
    rw [if_pos (by show (-1 : Int) < 0; decide)]
  refine ⟨?_, ?_, ?_, ?_, ?_, ?_⟩
  · rw [hR, Geometry.new_caloStart]
    rfl
  · rw [hR]
    rfl
  · rw [hR]
    rfl
  · rw [hR]
    rfl
  · rw [hR]
    rfl
  · rw [hR]
    rfl

/-- One event with the engine that stops every track, the default generator
and the default geometry, started on an empty stack: the track loop pops the
primary, the electron stepper takes one step of length 1, and the loop ends
with an empty stack and one electron step in the per-event tallies. -/
theorem EventLoop.absorb_event (eventID : Int) (st : EventState)
    (hst : st.theTrackStack.chargesOK) (he : st.theTrackStack.fCurIndx = -1) :
    ∃ st3, EventLoop.TrackLoop (absorbState 1) sqrtStub (fun n => n) Geometry.new eventID 2 2
        (EventLoop.BeginEvent PrimaryGenerator.new eventID st) = some st3 ∧
      st3.theTrackStack.chargesOK ∧ st3.theTrackStack.fCurIndx = -1 ∧
      st3.theResult.fPerEventRes.fNumStepsElPos = 1 := by
  obtain ⟨c1, -⟩ := EventLoop.BeginEvent_chargesOK PrimaryGenerator.new eventID st
    (Or.inl rfl) hst
  obtain ⟨p1, p2, p3⟩ := EventLoop.BeginEvent_primary PrimaryGenerator.new eventID st hst he
  generalize EventLoop.BeginEvent PrimaryGenerator.new eventID st = st0 at c1 p1 p2 p3 ⊢
  have hc0 : 0 ≤ st0.theTrackStack.fCurIndx := by rw [p1]
  have htop : truncToInt (st0.theTrackStack.slot st0.theTrackStack.fCurIndx).GetCharge =
      -1 := by
    rw [p1, p2]
    exact truncToInt_neg_one
  obtain ⟨n1, n2⟩ := EventLoop.nextTrack_popNext (fun n => n) Geometry.new (-1) st0.theTLData
    st0.theTrackStack hc0
  obtain ⟨r1, r2, r3, r4, r5, r6⟩ := relocatedPrimary_facts
  have t1 : (EventLoop.trackingStart (fun n => n) Geometry.new (-1)
      st0).theTLData.fPrimaryElectronTrack = relocatedPrimary := by
    have e : EventLoop.nextTrack (-1) (EventLoop.popNext (fun n => n) Geometry.new (-1)
        st0.theTLData st0.theTrackStack).1 =
        (EventLoop.popNext (fun n => n) Geometry.new (-1) st0.theTLData
          st0.theTrackStack).1.fPrimaryElectronTrack := by
      unfold EventLoop.nextTrack
      rw [if_neg (by decide)]
    rw [e, p1, p2] at n1
    exact n1
  have t2 : (EventLoop.trackingStart (fun n => n) Geometry.new (-1) st0).theTrackStack =
      { st0.theTrackStack with fCurIndx := st0.theTrackStack.fCurIndx - 1 } := n2
  have t3 : (EventLoop.trackingStart (fun n => n) Geometry.new (-1) st0).theResult =
      st0.theResult := by
    show EventLoop.BeginOfTrackingAction st0.theResult
      (EventLoop.nextTrack (-1) (EventLoop.popNext (fun n => n) Geometry.new (-1)
        st0.theTLData st0.theTrackStack).1) = _
    rw [n1, p1, p2]
    unfold EventLoop.BeginOfTrackingAction
    rw [if_neg]
    have e : (EventLoop.relocate Geometry.new
      (TrackStack.Copy ((PrimaryGenerator.new.GenerateOne G4HepEmTrack.new).SetID 0)
        G4HepEmTrack.new)).GetParentID = -1 := r6
    rw [e]
    decide
  have t5 : (EventLoop.trackingStart (fun n => n) Geometry.new (-1)
      st0).theTLData.fMSCTrackData.fTrueStepLength = 0 := rfl
  have t4 : (EventLoop.trackingStart (fun n => n) Geometry.new (-1) st0).numStep = 0 := rfl
  generalize hs0 : EventLoop.trackingStart (fun n => n) Geometry.new (-1) st0 = s0
    at t1 t2 t3 t4 t5
  have hloc : SteppingLoop.electronLocate Geometry.new s0 =
      { dist := 23 / 10, r := ⟨-23 / 20, 0, 0⟩, currentVolume := .abs, indxLayer := 0,
        indxAbs := 0 } := by
    unfold SteppingLoop.electronLocate
    rw [t1, r1, r2]
    exact Geometry.new_locate_entry
  have hp : SteppingLoop.electronDistToPhysics (absorbState 1) Geometry.new s0 = 1 := rfl
  have hE : s0.theTLData.fPrimaryElectronTrack.GetEKin > 0 := by
    rw [t1, r3]
    norm_num
  have hB : ¬ (SteppingLoop.electronLocate Geometry.new s0).dist > 10000000000 := by
    rw [hloc]
    norm_num
  have h0 : min (SteppingLoop.electronLocate Geometry.new s0).dist
      (SteppingLoop.electronDistToPhysics (absorbState 1) Geometry.new s0) ≠ 0 := by
    rw [hloc, hp]
    norm_num
  obtain ⟨a1, a2, a3, a4, a5⟩ := SteppingLoop.absorb_electron 1 sqrtStub Geometry.new eventID
    0 s0 hE hB h0
  have hlt : (EventLoop.trackingEnd (-1)
      (SteppingLoop.ElectronStepperBody (absorbState 1) sqrtStub Geometry.new eventID
        s0).2).theTrackStack.fCurIndx < 0 := by
    show (SteppingLoop.ElectronStepperBody (absorbState 1) sqrtStub Geometry.new eventID
      s0).2.theTrackStack.fCurIndx < 0
    rw [a2, t2]
    show st0.theTrackStack.fCurIndx - 1 < 0
    rw [p1]
    decide
  refine ⟨EventLoop.trackingEnd (-1)
    (SteppingLoop.ElectronStepperBody (absorbState 1) sqrtStub Geometry.new eventID s0).2,
    ?_, ?_, ?_, ?_⟩
  · rw [EventLoop.TrackLoop_succ, if_pos ((EventLoop.loop_condition _ c1).mpr hc0),
      TrackStack.GetTypeOfNextTrack_nonempty _ hc0]
    show (EventLoop.TrackLoopBody (absorbState 1) sqrtStub (fun n => n) Geometry.new eventID 2
      (truncToInt (st0.theTrackStack.slot st0.theTrackStack.fCurIndx).GetCharge) st0).bind
        _ = _
    rw [htop, EventLoop.TrackLoopBody_eq, if_neg (by decide), hs0, a1]
    show EventLoop.TrackLoop (absorbState 1) sqrtStub (fun n => n) Geometry.new eventID 2
      (0 + 1) (EventLoop.trackingEnd (-1)
        (SteppingLoop.ElectronStepperBody (absorbState 1) sqrtStub Geometry.new eventID
          s0).2) = _
    rw [EventLoop.TrackLoop_succ, TrackStack.GetTypeOfNextTrack_empty _ hlt,
      if_neg (by show ¬ ((-999 : Int) > -2); decide)]
  · show (SteppingLoop.ElectronStepperBody (absorbState 1) sqrtStub Geometry.new eventID
      s0).2.theTrackStack.chargesOK
    rw [a2, t2]
    exact (TrackStack.chargesOK_pop _ c1 hc0).2
  · show (SteppingLoop.ElectronStepperBody (absorbState 1) sqrtStub Geometry.new eventID
      s0).2.theTrackStack.fCurIndx = -1
    rw [a2, t2]
    show st0.theTrackStack.fCurIndx - 1 = -1
    rw [p1]
    rfl
  · show (SteppingLoop.ElectronStepperBody (absorbState 1) sqrtStub Geometry.new eventID
      s0).2.theResult.fPerEventRes.fNumStepsElPos = 1
    rw [a3, SteppingLoop.SteppingAction_count, t3, p3]
    · norm_num
    · rw [hloc]
      decide
    · rw [a5, t1, r5]
      norm_num
    · unfold SteppingLoop.electronRecordedLength
      rw [t5, if_neg (by norm_num), hloc]
      norm_num
    · rw [a4, t1, r4]
      norm_num

/-- C29: `EventLoop::EndOfEventAction` adds each of the seven per-event
tallies to its run-level sum and the square of the tally to the matching
run-level sum of squares, and leaves the three histograms and the per-event
tallies as they were. `EventLoop::BeginOfEventAction` sets the seven per-event
tallies to 0 and leaves the run-level sums, so the tallies entering the track
loop of every event are zero. Hence, whenever the event loop of
`ProcessEvents` yields a result after `n` events, there is one per-event value
for each event (the tallies held when its `EndOfEventAction` is called), and
every run-level sum is its value before the events (0 for fresh results) plus
the sum of the `n` per-event values, and every run-level sum of squares is
its value before plus the sum of their squares. -/
theorem EventLoop.EndOfEventAction_sums (theResult : Results) (eventID : Int)
    (thePrimaryTrack : G4HepEmTrack) (theState : G4HepEmState) (sqrt : ℚ → ℚ)
    (DiscardGauss : ℕ → ℕ) (thePrimaryGenerator : PrimaryGenerator) (theGeometry : Geometry)
    (fuel n : ℕ) (firstID : Int) (st st1 : EventState) (theTLData : G4HepEmTLData)
    (numEventToSimulate : Int) :
    (EventLoop.EndOfEventAction theResult eventID).fEdepAbs =
      theResult.fEdepAbs + theResult.fPerEventRes.fEdepAbs ∧
    (EventLoop.EndOfEventAction theResult eventID).fEdepAbs2 =
      theResult.fEdepAbs2 + theResult.fPerEventRes.fEdepAbs * theResult.fPerEventRes.fEdepAbs ∧
    (EventLoop.EndOfEventAction theResult eventID).fEdepGap =
      theResult.fEdepGap + theResult.fPerEventRes.fEdepGap ∧
    (EventLoop.EndOfEventAction theResult eventID).fEdepGap2 =
      theResult.fEdepGap2 + theResult.fPerEventRes.fEdepGap * theResult.fPerEventRes.fEdepGap ∧
    (EventLoop.EndOfEventAction theResult eventID).fNumSecGamma =
      theResult.fNumSecGamma + theResult.fPerEventRes.fNumSecGamma ∧
    (EventLoop.EndOfEventAction theResult eventID).fNumSecGamma2 =
      theResult.fNumSecGamma2 + theResult.fPerEventRes.fNumSecGamma * theResult.fPerEventRes.fNumSecGamma ∧
    (EventLoop.EndOfEventAction theResult eventID).fNumSecElectron =
      theResult.fNumSecElectron + theResult.fPerEventRes.fNumSecElectron ∧
    (EventLoop.EndOfEventAction theResult eventID).fNumSecElectron2 =
      theResult.fNumSecElectron2 + theResult.fPerEventRes.fNumSecElectron * theResult.fPerEventRes.fNumSecElectron ∧
    (EventLoop.EndOfEventAction theResult eventID).fNumSecPositron =
      theResult.fNumSecPositron + theResult.fPerEventRes.fNumSecPositron ∧
    (EventLoop.EndOfEventAction theResult eventID).fNumSecPositron2 =
      theResult.fNumSecPositron2 + theResult.fPerEventRes.fNumSecPositron * theResult.fPerEventRes.fNumSecPositron ∧
    (EventLoop.EndOfEventAction theResult eventID).fNumStepsGamma =
      theResult.fNumStepsGamma + theResult.fPerEventRes.fNumStepsGamma ∧
    (EventLoop.EndOfEventAction theResult eventID).fNumStepsGamma2 =
      theResult.fNumStepsGamma2 + theResult.fPerEventRes.fNumStepsGamma * theResult.fPerEventRes.fNumStepsGamma ∧
    (EventLoop.EndOfEventAction theResult eventID).fNumStepsElPos =
      theResult.fNumStepsElPos + theResult.fPerEventRes.fNumStepsElPos ∧
    (EventLoop.EndOfEventAction theResult eventID).fNumStepsElPos2 =
      theResult.fNumStepsElPos2 + theResult.fPerEventRes.fNumStepsElPos * theResult.fPerEventRes.fNumStepsElPos ∧
    (EventLoop.EndOfEventAction theResult eventID).fEdepPerLayer = theResult.fEdepPerLayer ∧
    (EventLoop.EndOfEventAction theResult eventID).fGammaTrackLenghtPerLayer = theResult.fGammaTrackLenghtPerLayer ∧
    (EventLoop.EndOfEventAction theResult eventID).fElPosTrackLenghtPerLayer = theResult.fElPosTrackLenghtPerLayer ∧
    (EventLoop.EndOfEventAction theResult eventID).fPerEventRes = theResult.fPerEventRes ∧
    (EventLoop.BeginOfEventAction theResult eventID thePrimaryTrack).fPerEventRes =
      { fEdepAbs := 0, fEdepGap := 0, fNumSecGamma := 0, fNumSecElectron := 0,
        fNumSecPositron := 0, fNumStepsGamma := 0, fNumStepsElPos := 0 } ∧
    (EventLoop.BeginOfEventAction theResult eventID thePrimaryTrack).runSums =
      theResult.runSums ∧
    (EventLoop.BeginEvent thePrimaryGenerator firstID st).theResult =
      EventLoop.BeginOfEventAction st.theResult firstID thePrimaryTrack ∧
    (EventLoop.EventsFrom theState sqrt DiscardGauss thePrimaryGenerator theGeometry fuel n firstID st = some st1 →
      (EventLoop.eventTallies theState sqrt DiscardGauss thePrimaryGenerator theGeometry fuel n firstID st).length = n ∧
      Results.accumulated st.theResult st1.theResult
        (EventLoop.eventTallies theState sqrt DiscardGauss thePrimaryGenerator theGeometry fuel n firstID st)) ∧
    (EventLoop.ProcessEvents theState sqrt DiscardGauss thePrimaryGenerator theGeometry fuel theTLData theResult numEventToSimulate = some st1 →
      (EventLoop.eventTallies theState sqrt DiscardGauss thePrimaryGenerator theGeometry fuel numEventToSimulate.toNat 0
        { theTLData := theTLData, theTrackStack := TrackStack.new,
          theResult := theResult }).length = numEventToSimulate.toNat ∧
      Results.accumulated theResult st1.theResult
        (EventLoop.eventTallies theState sqrt DiscardGauss thePrimaryGenerator theGeometry fuel numEventToSimulate.toNat 0
          { theTLData := theTLData, theTrackStack := TrackStack.new,
            theResult := theResult })) := by
  refine ⟨rfl, rfl, rfl, rfl, rfl, rfl, rfl, rfl, rfl, rfl, rfl, rfl, rfl, rfl, rfl, rfl, rfl,
    rfl, rfl, rfl, rfl, ?_, ?_⟩
  · intro h
    obtain ⟨i1, i2⟩ := EventLoop.EventsFrom_tallies theState sqrt DiscardGauss thePrimaryGenerator theGeometry fuel n firstID st st1 h
    exact ⟨i1, Results.accumulated_of_runSums _ _ _ i2⟩
  · intro h
    obtain ⟨i1, i2⟩ := EventLoop.EventsFrom_tallies theState sqrt DiscardGauss thePrimaryGenerator theGeometry fuel numEventToSimulate.toNat 0
      { theTLData := theTLData, theTrackStack := TrackStack.new, theResult := theResult }
      st1 h
    exact ⟨i1, Results.accumulated_of_runSums _ _ _ i2⟩

/-- A run of `n` events with the engine that stops every track, the default
generator and the default geometry, started on an empty stack: the event loop
yields a result and every event has one electron step in its per-event
tallies. -/
theorem EventLoop.absorb_run (n : ℕ) : ∀ (eventID : Int) (st : EventState),
    st.theTrackStack.chargesOK → st.theTrackStack.fCurIndx = -1 →
    ∃ st1, EventLoop.EventsFrom (absorbState 1) sqrtStub (fun n => n) PrimaryGenerator.new
        Geometry.new 2 n eventID st = some st1 ∧
      (EventLoop.eventTallies (absorbState 1) sqrtStub (fun n => n) PrimaryGenerator.new
        Geometry.new 2 n eventID st).map (·.fNumStepsElPos) = List.replicate n 1 := by
  induction n with
  | zero =>
    intro eventID st _ _
    refine ⟨st, ?_, ?_⟩
    · rw [EventLoop.EventsFrom]
    · rw [EventLoop.eventTallies]
      rfl
  | succ n ih =>
    intro eventID st hst he
    obtain ⟨st3, h3, c, e, t⟩ := EventLoop.absorb_event eventID st hst he
    obtain ⟨st1, h1, m⟩ := ih (eventID + 1)
      { st3 with theResult := EventLoop.EndOfEventAction st3.theResult eventID } c e
    refine ⟨st1, ?_, ?_⟩
    · rw [EventLoop.EventsFrom]
      unfold EventLoop.ProcessEvent
      rw [h3]
      exact h1
    · rw [EventLoop.eventTallies, h3]
      simp only [List.map_cons, List.replicate_succ]
      rw [m, t]

/-- Witness of C29: two events with the engine that stops every track in its
first step, the default generator and the default geometry: each event records
one electron step, and after the run the run-level number of electron steps
is `1 + 1 = 2` and its sum of squares is `1 * 1 + 1 * 1 = 2`. -/
theorem EventLoop.EndOfEventAction_sums_witness :
    ∃ st1, EventLoop.EventsFrom (absorbState 1) sqrtStub (fun n => n) PrimaryGenerator.new
        Geometry.new 2 2 0 exampleEventState = some st1 ∧
      (EventLoop.eventTallies (absorbState 1) sqrtStub (fun n => n) PrimaryGenerator.new
        Geometry.new 2 2 0 exampleEventState).map (·.fNumStepsElPos) = [1, 1] ∧
      st1.theResult.fNumStepsElPos = 2 ∧ st1.theResult.fNumStepsElPos2 = 2 := by
  obtain ⟨st1, h1, m⟩ := EventLoop.absorb_run 2 0 exampleEventState TrackStack.new_chargesOK
    rfl
  obtain ⟨-, -, -, -, -, -, -, -, -, -, -, -, a13, a14⟩ :=
    ((EventLoop.EndOfEventAction_sums exampleResults 0 exampleTrack (absorbState 1) sqrtStub
      (fun n => n) PrimaryGenerator.new Geometry.new 2 2 0 exampleEventState st1
      exampleStepperState.theTLData 2).2.2.2.2.2.2.2.2.2.2.2.2.2.2.2.2.2.2.2.2.2.1 h1).2
  have m2 : (EventLoop.eventTallies (absorbState 1) sqrtStub (fun n => n) PrimaryGenerator.new
      Geometry.new 2 2 0 exampleEventState).map
        (fun e => e.fNumStepsElPos * e.fNumStepsElPos) = [1, 1] := by
    have e : (EventLoop.eventTallies (absorbState 1) sqrtStub (fun n => n)
        PrimaryGenerator.new Geometry.new 2 2 0 exampleEventState).map
          (fun e => e.fNumStepsElPos * e.fNumStepsElPos) =
        ((EventLoop.eventTallies (absorbState 1) sqrtStub (fun n => n) PrimaryGenerator.new
          Geometry.new 2 2 0 exampleEventState).map (·.fNumStepsElPos)).map
            (fun x => x * x) := by
      rw [List.map_map]
      rfl
    rw [e, m]
    norm_num [List.replicate]
  refine ⟨st1, h1, ?_, ?_, ?_⟩
  · rw [m]
    rfl
  · rw [a13, m]
    norm_num [List.replicate, exampleEventState, exampleResults]
  · rw [a14, m2]
    norm_num [exampleEventState, exampleResults]

/-- Witness of C27: the engine that stops every track in its first step, the
default generator and geometry, and the stack at the start of an event, which
holds the primary: the loop pops it (the stepper gets the stack with the
pointer one lower), its type is not 0 so the electron stepper runs, and the
track loop ends with the stack pointer -1. -/
theorem EventLoop.track_loop_drains_witness :
    0 ≤ (EventLoop.BeginEvent PrimaryGenerator.new 0
      exampleEventState).theTrackStack.fCurIndx ∧
    EventLoop.topType (EventLoop.BeginEvent PrimaryGenerator.new 0 exampleEventState) ≠ 0 ∧
    (EventLoop.trackingStart (fun n => n) Geometry.new
        (EventLoop.topType (EventLoop.BeginEvent PrimaryGenerator.new 0 exampleEventState))
        (EventLoop.BeginEvent PrimaryGenerator.new 0 exampleEventState)).theTrackStack =
      { (EventLoop.BeginEvent PrimaryGenerator.new 0 exampleEventState).theTrackStack with
        fCurIndx := (EventLoop.BeginEvent PrimaryGenerator.new 0
          exampleEventState).theTrackStack.fCurIndx - 1 } ∧
    EventLoop.TrackLoopBody (absorbState 1) sqrtStub (fun n => n) Geometry.new 0 2
        (EventLoop.topType (EventLoop.BeginEvent PrimaryGenerator.new 0 exampleEventState))
        (EventLoop.BeginEvent PrimaryGenerator.new 0 exampleEventState) =
      (SteppingLoop.ElectronStepper (absorbState 1) sqrtStub Geometry.new 0 2
        (EventLoop.trackingStart (fun n => n) Geometry.new
          (EventLoop.topType (EventLoop.BeginEvent PrimaryGenerator.new 0 exampleEventState))
          (EventLoop.BeginEvent PrimaryGenerator.new 0 exampleEventState))).map
        (EventLoop.trackingEnd
          (EventLoop.topType
            (EventLoop.BeginEvent PrimaryGenerator.new 0 exampleEventState))) ∧
    ∃ st1, EventLoop.TrackLoop (absorbState 1) sqrtStub (fun n => n) Geometry.new 0 2 2
        (EventLoop.BeginEvent PrimaryGenerator.new 0 exampleEventState) = some st1 ∧
      st1.theTrackStack.fCurIndx = -1 := by
  have T := EventLoop.track_loop_drains (absorbState 1) sqrtStub (fun n => n)
    PrimaryGenerator.new Geometry.new 0 2 2
    (EventLoop.BeginEvent PrimaryGenerator.new 0 exampleEventState)
    (absorbState_valid 1).1 (absorbState_valid 1).2 (Or.inl rfl)
    (EventLoop.BeginEvent_chargesOK PrimaryGenerator.new 0 exampleEventState (Or.inl rfl)
      TrackStack.new_chargesOK).1
  obtain ⟨p1, p2, -⟩ := EventLoop.BeginEvent_primary PrimaryGenerator.new 0 exampleEventState
    TrackStack.new_chargesOK rfl
  obtain ⟨st3, h3, -, -, -⟩ := EventLoop.absorb_event 0 exampleEventState
    TrackStack.new_chargesOK rfl
  have hc0 : 0 ≤ (EventLoop.BeginEvent PrimaryGenerator.new 0
      exampleEventState).theTrackStack.fCurIndx := by rw [p1]
  have htop : EventLoop.topType (EventLoop.BeginEvent PrimaryGenerator.new 0
      exampleEventState) ≠ 0 := by
    unfold EventLoop.topType
    rw [p1, p2]
    have e : truncToInt ((PrimaryGenerator.new.GenerateOne G4HepEmTrack.new).SetID
      0).GetCharge = -1 := truncToInt_neg_one
    rw [e]
    decide
  exact ⟨hc0, htop, (T.2.2.1 hc0).2.1, (T.2.2.1 hc0).2.2.2.2 htop, st3, h3,
    T.2.2.2.1 st3 h3⟩

end HepEmShow
